import Mathlib

/-! # Incubed client core: request execution, node picking and nodelist maintenance

A shallow embedding of `client_init.c`, `nodelist.c` and `execute.c`
(`lib/in3-core/src/core/client`).  C arrays are lists that hold the records
the code can address (the indices below the stored length), a pointer into
such an array is an index, `NULL` is `none` (or the empty list for a linked
list), unsigned 64-bit arithmetic is taken modulo `2 ^ 64`, and the stateful
host services (`_time`, `_rand`, transport, verifier, JSON decoder) are
explicit inputs.  The `float` values of the node picker are single-precision
values with every operation rounded, and a run that dereferences `NULL` or
divides an integer by zero has no result (`none`).
-/

namespace In3

/-! ## Data model -/

/-- Return codes of the client.  The enumeration itself is declared outside the
three embedded files; these are the codes the files use.  Every code except
`IN3_OK` is negative (`IN3_WAITING` included: `in3_node_list_get` forwards it
through its `res < 0` test), and `IN3_OK` is zero. -/
inductive in3_ret_t where
  | IN3_OK
  | IN3_EUNKNOWN
  | IN3_ENOMEM
  | IN3_EINVAL
  | IN3_EFIND
  | IN3_ECONFIG
  | IN3_ELIMIT
  | IN3_EINVALDT
  | IN3_ERPC
  | IN3_WAITING
  deriving DecidableEq, Repr

open in3_ret_t

/-- The C test `res < 0`. -/
def in3_ret_t.isNeg (r : in3_ret_t) : Bool := r != IN3_OK

abbrev bytes_t := List Nat
abbrev address_t := List Nat
abbrev chain_id_t := Nat
abbrev in3_node_props_t := Nat

def ETH_CHAIN_ID_MAINNET : chain_id_t := 0x01
def ETH_CHAIN_ID_KOVAN : chain_id_t := 0x2a
def ETH_CHAIN_ID_GOERLI : chain_id_t := 0x05
def ETH_CHAIN_ID_IPFS : chain_id_t := 0x7d0
def ETH_CHAIN_ID_LOCAL : chain_id_t := 0xFFFF

def NODE_PROP_PROOF : in3_node_props_t := 0x1
def NODE_PROP_MULTICHAIN : in3_node_props_t := 0x2
def NODE_PROP_ARCHIVE : in3_node_props_t := 0x4
def NODE_PROP_HTTP : in3_node_props_t := 0x8
def NODE_PROP_BINARY : in3_node_props_t := 0x10
def NODE_PROP_ONION : in3_node_props_t := 0x20
def NODE_PROP_SIGNER : in3_node_props_t := 0x40
def NODE_PROP_DATA : in3_node_props_t := 0x80

def UINT64 : Nat := 2 ^ 64

inductive in3_chain_type_t where
  | CHAIN_ETH
  | CHAIN_IPFS
  deriving DecidableEq, Repr, Inhabited

inductive in3_proof_t where
  | PROOF_NONE
  | PROOF_STANDARD
  | PROOF_FULL
  deriving DecidableEq, Repr

inductive in3_verification_t where
  | VERIFICATION_NEVER
  | VERIFICATION_PROOF
  deriving DecidableEq, Repr

inductive ctx_type_t where
  | CT_RPC
  | CT_SIGN
  deriving DecidableEq, Repr

inductive in3_ctx_state_t where
  | CTX_SUCCESS
  | CTX_WAITING_FOR_REQUIRED_CTX
  | CTX_WAITING_FOR_RESPONSE
  | CTX_ERROR
  deriving DecidableEq, Repr

/-- One entry of a chain's nodelist (`in3_node_t`). -/
structure in3_node_t where
  index : Nat
  address : bytes_t
  deposit : Nat
  capacity : Nat
  props : in3_node_props_t
  url : String
  whitelisted : Bool
  deriving DecidableEq, Repr, Inhabited

/-- The weight record kept next to each node (`in3_node_weight_t`).  The C
field `weight` is a float that these files only ever set to 1; the record
carries its value as a natural number, which the picker reads as a `float`
(`float_of_nat`). -/
structure in3_node_weight_t where
  weight : Nat
  response_count : Nat
  total_response_time : Nat
  blacklisted_until : Nat
  deriving DecidableEq, Repr, Inhabited

/-- The whitelist of a chain (`in3_whitelist_t`); `addresses` is the flat
buffer of 20-byte addresses. -/
structure in3_whitelist_t where
  contract : address_t
  addresses : bytes_t
  last_block : Nat
  needs_update : Bool
  deriving DecidableEq, Repr, Inhabited

/-- A chain record (`in3_chain_t`).  `nodelist` and `weights` are the two
parallel arrays; `none` is the `NULL` pointer. -/
structure in3_chain_t where
  chain_id : chain_id_t
  type : in3_chain_type_t
  last_block : Nat
  needs_update : Bool
  nodelist_length : Nat
  nodelist : Option (List in3_node_t)
  weights : Option (List in3_node_weight_t)
  init_addresses : Option (List bytes_t)
  contract : Option bytes_t
  registry_id : List Nat
  version : Nat
  whitelist : Option in3_whitelist_t
  deriving DecidableEq, Repr, Inhabited

/-- The client (`in3_t`), restricted to the fields the three files read or
write.  `transport`, `signer` and `cache` record whether the callback is set. -/
structure in3_t where
  auto_update_list : Bool
  cache : Bool
  signer : Bool
  transport : Bool
  cache_timeout : Nat
  use_binary : Bool
  use_http : Bool
  include_code : Bool
  keep_in3 : Bool
  chain_id : chain_id_t
  finality : Nat
  max_attempts : Nat
  max_block_cache : Nat
  max_code_cache : Nat
  min_deposit : Nat
  node_limit : Nat
  node_props : in3_node_props_t
  proof : in3_proof_t
  replace_latest_block : Nat
  request_count : Nat
  signature_count : Nat
  chains_length : Nat
  chains : List in3_chain_t
  deriving DecidableEq, Repr

/-- A value of the C type `float` (IEEE 754 single precision) as the node
picker computes it: a float whose value is a natural number, `+infinity`, or
NaN.  The picker only multiplies and adds floats made from unsigned integers,
so no other value occurs in `s`, `w` and `total_weight`. -/
inductive c_float where
  | fin (n : Nat)
  | inf
  | nan
  deriving DecidableEq, Repr

instance (n : Nat) : OfNat c_float n := ⟨.fin n⟩

instance : Inhabited c_float := ⟨.fin 0⟩

/-- A candidate wrapper of the node picker (`node_weight_t`): `node` points at
`nodelist[node]` and `weight` at `weights[weight]` (or is `NULL`) of the chain
record `chains[chain]` the picker read; the linked list through `next` is a
Lean list.  `s` and `w` are C floats. -/
structure node_weight_t where
  chain : Nat
  node : Nat
  weight : Option Nat
  s : c_float
  w : c_float
  deriving DecidableEq, Repr

/-- One slot the transport fills (`in3_response_t`): two string builders. -/
structure in3_response_t where
  error : String
  result : String
  deriving DecidableEq, Repr

/-- What the code reads from one element of a `nodes` array: each field is the
value of the accessor named in the comment (`none`: the accessor finds no
usable token). -/
structure node_token where
  capacity : Option Nat
  index : Option Nat
  deposit : Nat
  props : Option Nat
  url : Option String
  address : Option bytes_t
  registerTime : Nat
  bytes20 : bytes_t
  deriving DecidableEq, Repr

/-- What the code reads from a `result` token: `nodes` is `d_get(result,
K_NODES)` when that token is an array, `lastBlockNumber` is `d_long` of
`d_get(result, K_LAST_BLOCK_NUMBER)`; `raw` stands for the rest. -/
structure result_token where
  raw : String
  nodes : Option (List node_token)
  lastBlockNumber : Option Nat
  deriving DecidableEq, Repr

/-- What the code reads from the `in3` section of a response. -/
structure in3_token where
  lastNodeList : Nat
  lastWhiteList : Nat
  lastValidatorChange : Nat
  currentBlock : Nat
  proof : Option String
  deriving DecidableEq, Repr

/-- One element of `ctx->responses`. -/
structure response_token where
  result : Option result_token
  in3 : Option in3_token
  deriving DecidableEq, Repr

/-- A parsed response document (`json_ctx_t`), by the type of its root. -/
inductive json_ctx_t where
  | object (r : response_token)
  | array (rs : List response_token)
  | other
  deriving DecidableEq, Repr

/-- One element of `ctx->requests`: `method` is `d_get_stringk(request,
K_METHOD)`, `in3` tells whether the request carries an `in3` section, `param0`
and `param1` are `d_to_bytes` of the first two parameters (`none`: no data). -/
structure request_token where
  method : Option String
  params : String
  in3 : Bool
  param0 : Option bytes_t
  param1 : Option bytes_t
  deriving DecidableEq, Repr

/-- Per-request configuration (`in3_request_config_t`). -/
structure in3_request_config_t where
  chain_id : chain_id_t
  include_code : Bool
  use_full_proof : Bool
  use_binary : Bool
  verification : in3_verification_t
  finality : Nat
  latest_block : Nat
  signers : Option (List bytes_t)
  signers_length : Nat
  deriving DecidableEq, Repr

/-- A zeroed request configuration (`_calloc`). -/
def zero_config : in3_request_config_t :=
  { chain_id := 0
    include_code := false
    use_full_proof := false
    use_binary := false
    verification := .VERIFICATION_NEVER
    finality := 0
    latest_block := 0
    signers := none
    signers_length := 0 }

/-- A request context (`in3_ctx_t`) without its `required` link: a context
together with its chain of required contexts is a list whose head is the
context and whose tail is `ctx->required` (the empty tail is `NULL`).
`ctx->len` is the length of `requests` (0 for `NULL`).  `retries` is a ghost counter, absent
from the C struct: it counts how often `in3_ctx_execute` logged "Retrying send
request..." for this context. -/
structure in3_ctx_t where
  type : ctx_type_t
  request_context : Bool
  requests : Option (List request_token)
  requests_configs : List in3_request_config_t
  nodes : List node_weight_t
  raw_response : Option (List in3_response_t)
  response_context : Option json_ctx_t
  responses : Option (List response_token)
  attempt : Nat
  error : Option String
  verification_state : in3_ret_t
  retries : Nat
  deriving DecidableEq, Repr

def in3_ctx_t.len (ctx : in3_ctx_t) : Nat := (ctx.requests.getD []).length

/-- Modelled from the spec: `ctx_set_error` lives in `context.c`, which is not
among the embedded files.  "`set_error(ctx, msg, code)` overwrites the message
and returns the code for tail-call convenience." -/
def ctx_set_error (ctx : in3_ctx_t) (msg : String) (code : in3_ret_t) : in3_ret_t × in3_ctx_t :=
  (code, { ctx with error := some msg })

/-! ## Memory helpers -/

/-- The array behind a pointer; `NULL` has no element. -/
def arr {α : Type} (p : Option (List α)) : List α := p.getD []

/-- `_malloc(n * sizeof x)` / `_calloc(n, sizeof x)`: `n` fresh records. -/
def _calloc {α : Type} [Inhabited α] (n : Nat) : List α := List.replicate n default

/-- `_realloc(p, n * sizeof x, _)`: the first records of `p`, exactly `n` slots. -/
def _realloc {α : Type} [Inhabited α] (p : List α) (n : Nat) : List α :=
  (p ++ List.replicate n default).take n

/-- `memmove(p + dst, p + src, n * sizeof x)`. -/
def memmove {α : Type} (p : List α) (dst src n : Nat) : List α :=
  p.take dst ++ (p.drop src).take n ++ p.drop (dst + n)

/-- `memcmp(a, b, n) == 0`. -/
def memcmp_eq (a b : List Nat) (n : Nat) : Bool := a.take n == b.take n

/-- `b_cmp(a, b)`: same length and same bytes. -/
def b_cmp (a b : bytes_t) : Bool := a == b

def hex_digit (c : Char) : Nat :=
  let n := c.toNat
  if 48 ≤ n ∧ n ≤ 57 then n - 48
  else if 97 ≤ n ∧ n ≤ 102 then n - 87
  else if 65 ≤ n ∧ n ≤ 70 then n - 55
  else 0

def hex_pairs : List Char → List Nat
  | a :: b :: rest => (hex_digit a * 16 + hex_digit b) :: hex_pairs rest
  | _ => []

/-- `hex_to_new_bytes(buf, len)`: the bytes written by `len` hex digits. -/
def hex_to_new_bytes (buf : String) (len : Nat) : bytes_t := hex_pairs (buf.toList.take len)

/-! ## client_init.c -/

/-- `initChain`. -/
def initChain (chain_id : chain_id_t) (contract : String) (registry_id : Option String) (version : Nat)
    (boot_node_count : Nat) (type : in3_chain_type_t) (wl_contract : Option String) : in3_chain_t :=
  { chain_id := chain_id
    init_addresses := none
    last_block := 0
    contract := some (hex_to_new_bytes contract 40)
    needs_update := if chain_id = ETH_CHAIN_ID_LOCAL then false else true
    nodelist := some (_calloc boot_node_count)
    nodelist_length := boot_node_count
    weights := some (_calloc boot_node_count)
    type := type
    version := version
    whitelist := match wl_contract with
      | none => none
      | some wl => some { contract := hex_to_new_bytes wl 40, addresses := [], last_block := 0, needs_update := true }
    registry_id :=
      if version > 1 then
        let b := hex_to_new_bytes (registry_id.getD "") 64
        List.replicate (32 - b.length) 0 ++ b.take 32
      else List.replicate 32 0 }

/-- `initNode`. -/
def initNode (chain : in3_chain_t) (node_index : Nat) (address : String) (url : String) : in3_chain_t :=
  { chain with
    nodelist := some ((arr chain.nodelist).set node_index
      { address := hex_to_new_bytes address 40
        index := node_index
        capacity := 1
        deposit := 0
        props := if chain.chain_id = ETH_CHAIN_ID_LOCAL then 0x0 else 0xFF
        url := url
        whitelisted := false })
    weights := some ((arr chain.weights).set node_index
      { blacklisted_until := 0, response_count := 0, total_response_time := 0, weight := 1 }) }

def init_ipfs : in3_chain_t :=
  let chain := initChain 0x7d0 "f0fb87f4757c77ea3416afe87f36acaa0496c7e9" none 1 2 .CHAIN_IPFS none
  let chain := initNode chain 0 "784bfa9eb182c3a02dbeb5285e3dba92d717e07a" "https://in3.slock.it/ipfs/nd-1"
  initNode chain 1 "243D5BB48A47bEd0F6A89B61E4660540E856A33D" "https://in3.slock.it/ipfs/nd-5"

def init_mainnet : in3_chain_t :=
  let chain := initChain 0x01 "ac1b824795e1eb1f6e609fe0da9b9af8beaab60f"
    (some "23d5345c5c13180a8080bd5ddbe7cde64683755dcce6e734d95b7b573845facb") 2 2 .CHAIN_ETH none
  let chain := initNode chain 0 "45d45e6ff99e6c34a235d263965910298985fcfe" "https://in3-v2.slock.it/mainnet/nd-1"
  initNode chain 1 "1fe2e9bf29aa1938859af64c413361227d04059a" "https://in3-v2.slock.it/mainnet/nd-2"

/-- `init_kovan`, the branch compiled without `IN3_STAGING`. -/
def init_kovan : in3_chain_t :=
  let chain := initChain 0x2a "4c396dcf50ac396e5fdea18163251699b5fcca25"
    (some "92eb6ad5ed9068a24c1c85276cd7eb11eda1e8c50b17fbaffaf3e8396df4becf") 2 2 .CHAIN_ETH none
  let chain := initNode chain 0 "45d45e6ff99e6c34a235d263965910298985fcfe" "https://in3-v2.slock.it/kovan/nd-1"
  initNode chain 1 "1fe2e9bf29aa1938859af64c413361227d04059a" "https://in3-v2.slock.it/kovan/nd-2"

/-- `init_goerli`, the branch compiled without `IN3_STAGING`. -/
def init_goerli : in3_chain_t :=
  let chain := initChain 0x05 "5f51e413581dd76759e9eed51e63d14c8d1379c8"
    (some "67c02e5e272f9d6b4a33716614061dd298283f86351079ef903bf0d4410a44ea") 2 2 .CHAIN_ETH none
  let chain := initNode chain 0 "45d45e6ff99e6c34a235d263965910298985fcfe" "https://in3-v2.slock.it/goerli/nd-1"
  initNode chain 1 "1fe2e9bf29aa1938859af64c413361227d04059a" "https://in3-v2.slock.it/goerli/nd-2"

def init_local : in3_chain_t :=
  let chain := initChain 0xFFFF "f0fb87f4757c77ea3416afe87f36acaa0496c7e9" none 1 1 .CHAIN_ETH none
  initNode chain 0 "784bfa9eb182c3a02dbeb5285e3dba92d717e07a" "http://localhost:8545"

/-- One step of `in3_client_init`: `if (cond) init_x(chain++)`. -/
def init_next (cond : Prop) [Decidable cond] (chains : List in3_chain_t) (chain : in3_chain_t) :
    List in3_chain_t :=
  if cond then chains ++ [chain] else chains

/-- `in3_client_init` on a zeroed client (`in3_for_chain` passes the result of
`_calloc(1, sizeof(in3_t))`).  The chains are written one after the other
through the moving pointer `chain++`. -/
def in3_client_init (chain_id : chain_id_t) : in3_ret_t × in3_t :=
  let chains : List in3_chain_t := []
  let chains := init_next (chain_id = 0 ∨ chain_id = ETH_CHAIN_ID_MAINNET) chains init_mainnet
  let chains := init_next (chain_id = 0 ∨ chain_id = ETH_CHAIN_ID_KOVAN) chains init_kovan
  let chains := init_next (chain_id = 0 ∨ chain_id = ETH_CHAIN_ID_GOERLI) chains init_goerli
  let chains := init_next (chain_id = 0 ∨ chain_id = ETH_CHAIN_ID_IPFS) chains init_ipfs
  let chains := init_next (chain_id = 0 ∨ chain_id = ETH_CHAIN_ID_LOCAL) chains init_local
  let c : in3_t :=
    { auto_update_list := true
      cache := false
      signer := false
      transport := false
      cache_timeout := 0
      use_binary := false
      use_http := false
      include_code := false
      keep_in3 := false
      chain_id := if chain_id ≠ 0 then chain_id else ETH_CHAIN_ID_MAINNET
      finality := 0
      max_attempts := 3
      max_block_cache := 0
      max_code_cache := 0
      min_deposit := 0
      node_limit := 0
      node_props := 0
      proof := .PROOF_STANDARD
      replace_latest_block := 0
      request_count := 1
      signature_count := 0
      chains_length := if chain_id ≠ 0 then 1 else 5
      chains := chains }
  if chain_id ≠ 0 ∧ chains = [] then (IN3_ECONFIG, { c with chains_length := 0 })
  else (IN3_OK, c)

/-- `in3_find_chain`: the index of the chain record, `none` for `NULL`. -/
def in3_find_chain (c : in3_t) (chain_id : chain_id_t) : Option Nat :=
  if c.chains_length = 1 then
    match c.chains.head? with
    | some ch => if ch.chain_id = chain_id then some 0 else none
    | none => none
  else
    (List.range c.chains_length).find? fun i =>
      match c.chains[i]? with
      | some ch => ch.chain_id == chain_id
      | none => false

/-- Writes a chain record back through its pointer. -/
def set_chain (c : in3_t) (i : Nat) (chain : in3_chain_t) : in3_t :=
  { c with chains := c.chains.set i chain }

/-- `in3_client_register_chain`. -/
def in3_client_register_chain (c : in3_t) (chain_id : chain_id_t) (type : in3_chain_type_t)
    (contract : address_t) (registry_id : List Nat) (version : Nat) (wl_contract : Option address_t) :
    in3_ret_t × in3_t :=
  let wl : Option in3_whitelist_t := match wl_contract with
    | none => none
    | some w => some { contract := w.take 20, addresses := [], needs_update := true, last_block := 0 }
  match in3_find_chain c chain_id with
  | none =>
    let chain : in3_chain_t :=
      { nodelist := none
        nodelist_length := 0
        weights := none
        init_addresses := none
        whitelist := wl
        last_block := 0
        chain_id := chain_id
        contract := some (contract.take 20)
        needs_update := false
        type := type
        version := version
        registry_id := registry_id.take 32 }
    (IN3_OK, { c with
      chains := (_realloc c.chains (c.chains_length + 1)).set c.chains_length chain
      chains_length := c.chains_length + 1 })
  | some i =>
    match c.chains[i]? with
    | none => (IN3_OK, c)
    | some chain =>
      (IN3_OK, set_chain c i
        { chain with
          chain_id := chain_id
          contract := some (contract.take 20)
          needs_update := false
          type := type
          version := version
          whitelist := wl
          registry_id := registry_id.take 32 })

/-- The first index below `nodelist_length` whose node has the given address
(the search loops of `in3_client_add_node` and `in3_client_remove_node`). -/
def find_node_index (chain : in3_chain_t) (address : address_t) : Option Nat :=
  (List.range chain.nodelist_length).find? fun i =>
    match (arr chain.nodelist)[i]? with
    | some n => memcmp_eq n.address address 20
    | none => false

/-- `in3_client_add_node`. -/
def in3_client_add_node (c : in3_t) (chain_id : chain_id_t) (url : String) (props : in3_node_props_t)
    (address : address_t) : in3_ret_t × in3_t :=
  match in3_find_chain c chain_id with
  | none => (IN3_EFIND, c)
  | some ci =>
    match c.chains[ci]? with
    | none => (IN3_EFIND, c)
    | some chain =>
      let found := find_node_index chain address
      let node_index := found.getD chain.nodelist_length
      let chain : in3_chain_t :=
        match found with
        | none =>
          let nodelist : List in3_node_t := match chain.nodelist with
            | some p => _realloc p (chain.nodelist_length + 1)
            | none => _calloc (chain.nodelist_length + 1)
          let weights : List in3_node_weight_t := match chain.weights with
            | some p => _realloc p (chain.nodelist_length + 1)
            | none => _calloc (chain.nodelist_length + 1)
          let node := nodelist.getD chain.nodelist_length default
          let node := { node with
            address := address.take 20
            index := chain.nodelist_length
            capacity := 1
            deposit := 0
            whitelisted := false }
          { chain with
            nodelist := some (nodelist.set chain.nodelist_length node)
            weights := some weights
            nodelist_length := chain.nodelist_length + 1 }
        | some _ => chain
      let node := (arr chain.nodelist).getD node_index default
      let node := { node with props := props, url := url }
      let chain := { chain with
        nodelist := chain.nodelist.map fun p => p.set node_index node
        weights := chain.weights.map fun p => p.set node_index
          { blacklisted_until := 0, response_count := 0, total_response_time := 0, weight := 1 } }
      (IN3_OK, set_chain c ci chain)

/-- `in3_client_remove_node`. -/
def in3_client_remove_node (c : in3_t) (chain_id : chain_id_t) (address : address_t) : in3_ret_t × in3_t :=
  match in3_find_chain c chain_id with
  | none => (IN3_EFIND, c)
  | some ci =>
    match c.chains[ci]? with
    | none => (IN3_EFIND, c)
    | some chain =>
      match find_node_index chain address with
      | none => (IN3_EFIND, c)
      | some node_index =>
        let moved := node_index < chain.nodelist_length - 1
        let nodelist := if moved
          then chain.nodelist.map fun p => memmove p node_index (node_index + 1) (chain.nodelist_length - 1 - node_index)
          else chain.nodelist
        let weights := if moved
          then chain.weights.map fun p => memmove p node_index (node_index + 1) (chain.nodelist_length - 1 - node_index)
          else chain.weights
        let nodelist_length := chain.nodelist_length - 1
        let chain : in3_chain_t :=
          if nodelist_length = 0 then
            { chain with nodelist := none, weights := none, nodelist_length := nodelist_length }
          else
            { chain with
              nodelist := nodelist.map fun p => p.take nodelist_length
              weights := weights.map fun p => p.take nodelist_length
              nodelist_length := nodelist_length }
        (IN3_OK, set_chain c ci chain)

/-- `in3_client_clear_nodes` (with `in3_nodelist_clear`, which only frees). -/
def in3_client_clear_nodes (c : in3_t) (chain_id : chain_id_t) : in3_ret_t × in3_t :=
  match in3_find_chain c chain_id with
  | none => (IN3_EFIND, c)
  | some ci =>
    match c.chains[ci]? with
    | none => (IN3_EFIND, c)
    | some chain =>
      (IN3_OK, set_chain c ci { chain with nodelist := none, weights := none, nodelist_length := 0 })

/-! ## nodelist.c: nodelist refresh and whitelisting -/

/-- The macro `DAY`, as the source defines it: `24 * 2600`. -/
def DAY : Nat := 24 * 2600

/-- Conversion of a signed time value to `uint64_t`. -/
def to_uint64 (x : Int) : Nat := (x % (2 ^ 64 : Int)).toNat

/-- The search of `fill_chain` for the old index of an address: the same
position first, then the first match of a linear scan; `none` is `-1`. -/
def find_old_index (chain : in3_chain_t) (i : Nat) (address : bytes_t) : Option Nat :=
  let same_position : Bool :=
    match (arr chain.nodelist)[i]? with
    | some old => decide (i < chain.nodelist_length) && b_cmp old.address address
    | none => false
  if same_position then some i
  else
    (List.range chain.nodelist_length).find? fun j =>
      match (arr chain.nodelist)[j]? with
      | some old => b_cmp old.address address
      | none => false

/-- The registration-grace test of `fill_chain`:
`now && register_time + DAY > now && now > register_time`. -/
def grace_applies (now register_time : Nat) : Bool :=
  decide (now ≠ 0) && decide ((register_time + DAY) % UINT64 > now) && decide (now > register_time)

/-- The node record the loop of `fill_chain` writes to `newList[i]`. -/
def entry_node (i : Nat) (node : node_token) (n : in3_node_t) : in3_node_t :=
  { n with
    capacity := node.capacity.getD 1
    index := node.index.getD i
    deposit := node.deposit
    props := node.props.getD 65535
    url := node.url.getD ""
    address := node.address.getD [] }

/-- The weight record the loop of `fill_chain` leaves in `weights[i]` for an
entry with an address: `weight = 1`, then the `memcpy` of the old record when
the address was known, then the registration-grace rule. -/
def entry_weight (chain : in3_chain_t) (now : Nat) (i : Nat) (register_time : Nat) (address : bytes_t)
    (w : in3_node_weight_t) : in3_node_weight_t :=
  let w := { w with weight := 1 }
  let w :=
    match find_old_index chain i address with
    | some old_index => (arr chain.weights).getD old_index default
    | none => w
  if grace_applies now register_time then { w with blacklisted_until := (register_time + DAY) % UINT64 }
  else w

/-- The loop `for (int i = 0; i < len; i++)` of `fill_chain`, from index `i`
on, over the remaining elements of the `nodes` array.  It stops at the first
entry without address or url with the error set on the context. -/
def fill_chain_loop (chain : in3_chain_t) (now : Nat) (ctx : in3_ctx_t) :
    List node_token → Nat → List in3_node_t → List in3_node_weight_t →
    in3_ret_t × in3_ctx_t × List in3_node_t × List in3_node_weight_t
  | [], _, newList, weights => (IN3_OK, ctx, newList, weights)
  | node :: rest, i, newList, weights =>
    let newList := newList.set i (entry_node i node (newList.getD i default))
    match node.address with
    | none =>
      let r := ctx_set_error ctx "missing address in nodelist" IN3_EINVALDT
      (r.1, r.2, newList, weights.set i { weights.getD i default with weight := 1 })
    | some address =>
      let weights := weights.set i (entry_weight chain now i node.registerTime address (weights.getD i default))
      match node.url with
      | none =>
        let r := ctx_set_error ctx "missing url in nodelist" IN3_EINVALDT
        (r.1, r.2, newList, weights)
      | some _ => fill_chain_loop chain now ctx rest (i + 1) newList weights

/-- `fill_chain(chain, ctx, result)`; `_now` is the value its call of `_time()`
returns.  The branch "node missing" cannot be taken: the loop runs over the
`d_len(nodes)` elements of the array. -/
def fill_chain (chain : in3_chain_t) (ctx : in3_ctx_t) (result : result_token) (_now : Int) :
    in3_ret_t × in3_chain_t × in3_ctx_t :=
  let now := to_uint64 (max 0 _now)
  match result.nodes with
  | none =>
    let r := ctx_set_error ctx "No Nodes in the result" IN3_EINVALDT
    (r.1, chain, r.2)
  | some nodes =>
    let len := nodes.length
    match result.lastBlockNumber with
    | none =>
      let r := ctx_set_error ctx "LastBlockNumer is missing" IN3_EINVALDT
      (r.1, chain, r.2)
    | some last_block =>
      if last_block > chain.last_block then
        let chain := { chain with last_block := last_block }
        let r := fill_chain_loop chain now ctx nodes 0 (_calloc len) (_calloc len)
        if r.1 = IN3_OK then
          (r.1, { chain with nodelist := some r.2.2.1, nodelist_length := len, weights := some r.2.2.2 }, r.2.1)
        else (r.1, chain, r.2.1)
      else (IN3_OK, chain, ctx)

/-- Applies `f` to the entries `p[j]`, `j < n`: the loops
`for (int j = 0; j < n; ++j) p[j] = f(p[j])`. -/
def for_each {α : Type} (n : Nat) (f : α → α) (p : List α) : List α :=
  (p.take n).map f ++ p.drop n

/-- The values the index of `for (size_t i = 0; i < bound; i += 20)` takes. -/
def stride20 (bound : Nat) : List Nat := (List.range bound).filter fun i => i % 20 = 0

/-- `in3_client_run_chain_whitelisting`.  The outer loop runs
`for (i = 0; i < addresses.len / 20; i += 20)` and compares the 20 bytes at
`addresses.data + i` with the 20 bytes at `chain->nodelist[j].address`.  The
field `address` is a `bytes_t*`, so `memcmp` reads the memory of the `bytes_t`
record itself (its `data` pointer, its `len` and what lies behind them), not
the address bytes `address->data`.  What that memory holds depends on the
allocator; `record_image a` stands for the 20 bytes read at the record whose
data are `a`. -/
def in3_client_run_chain_whitelisting (record_image : bytes_t → bytes_t) (chain : in3_chain_t) :
    in3_chain_t :=
  match chain.whitelist with
  | none => chain
  | some wl =>
    let cleared := chain.nodelist.map (for_each chain.nodelist_length fun n => { n with whitelisted := false })
    let marked := (stride20 (wl.addresses.length / 20)).foldl
      (fun nl i => nl.map (for_each chain.nodelist_length fun n =>
        if memcmp_eq (wl.addresses.drop i) (record_image n.address) 20 then { n with whitelisted := true }
        else n))
      cleared
    { chain with nodelist := marked }

/-! ## Properties of the registry -/

/-- The two parallel arrays of a chain have `nodelist_length` records each. -/
def parallel (chain : in3_chain_t) : Prop :=
  (arr chain.nodelist).length = chain.nodelist_length ∧ (arr chain.weights).length = chain.nodelist_length

instance (chain : in3_chain_t) : Decidable (parallel chain) := by
  unfold parallel; infer_instance

/-- Every chain of the client has parallel arrays. -/
def client_parallel (c : in3_t) : Prop := ∀ chain ∈ c.chains, parallel chain

/-- Node addresses below `nodelist_length` are pairwise distinct. -/
def distinct_addresses (chain : in3_chain_t) : Prop :=
  ∀ (j1 j2 : Nat) (n1 n2 : in3_node_t), j1 < chain.nodelist_length → j2 < chain.nodelist_length →
    (arr chain.nodelist)[j1]? = some n1 → (arr chain.nodelist)[j2]? = some n2 →
    n1.address = n2.address → j1 = j2

/-! ## Host services

The callbacks and helpers that live outside the three files: the clock, the
random source, the verifier registry, the JSON decoder, the transport and the
signer.  The state they and the client share is threaded explicitly. -/

/-- The verification context handed to a verifier (`in3_vctx_t`). -/
structure in3_vctx_t where
  ctx : in3_ctx_t
  chain : in3_chain_t
  request : Option request_token
  result : Option result_token
  proof : Option String
  config : Option in3_request_config_t
  last_validator_change : Nat
  currentBlock : Nat

/-- What a call of `verifier->verify` does: the code it returns, the message
it latched on the context through `ctx_set_error` (if any), and the contexts it
pushed in front of `ctx->required` before returning `IN3_WAITING`. -/
structure verify_result where
  ret : in3_ret_t
  error : Option String
  required : List in3_ctx_t

/-- A verifier (`in3_verifier_t`): `verify` and the optional `pre_handle`,
which returns a code and possibly one synthesised response. -/
structure in3_verifier_t where
  verify : in3_vctx_t → verify_result
  pre_handle : Option (in3_ctx_t → in3_ret_t × Option in3_response_t)

/-- The request handed to the transport (`in3_request_t`); `payload` lists the
data the JSON text is rendered from. -/
structure in3_request_t where
  payload : List (request_token × Option in3_request_config_t)
  multichain : Bool
  urls : List String
  urls_len : Nat

/-- The host: `time k` and `rand k` are the values of the `k`-th call of
`_time()` and `_rand()`, `FILTER_NODES` is the compile-time switch,
`transport n request k` is what the `n`-th transport call writes into slot
`k`, `sign` returns the code, the signature and the error text, and
`record_image a` is the 20 bytes of memory at the `bytes_t` record whose data
are `a` (what `in3_client_run_chain_whitelisting` compares). -/
structure host_t where
  time : Nat → Int
  rand : Nat → Nat
  FILTER_NODES : Bool
  in3_get_verifier : in3_chain_type_t → Option in3_verifier_t
  parse : String → Option json_ctx_t
  ctx_check_response_error : in3_ctx_t → Nat → in3_ret_t × in3_ctx_t
  transport : Nat → in3_request_t → Nat → in3_response_t
  sign : in3_ctx_t → bytes_t → bytes_t → in3_ret_t × bytes_t × String
  record_image : bytes_t → bytes_t

/-- The mutable state around a context: the client, the number of `_time()`
and `_rand()` calls made so far and the number of transport calls. -/
structure world_t where
  c : in3_t
  t : Nat
  r : Nat
  sent : Nat
  deriving DecidableEq, Repr

/-- The result of a step on a context and its chain of required contexts;
`none` stands for a run that yields no result. -/
abbrev step_t := Option (in3_ret_t × world_t × in3_ctx_t × List in3_ctx_t)

/-- Modelled from the spec: `ctx_new` lives in `context.c`.  "Constructed from
a JSON-RPC payload": the fresh context of an internal request with a single
method call. -/
def ctx_new (method : String) (params : String) : in3_ctx_t :=
  { type := .CT_RPC
    request_context := true
    requests := some [{ method := some method, params := params, in3 := false, param0 := none, param1 := none }]
    requests_configs := [zero_config]
    nodes := []
    raw_response := none
    response_context := none
    responses := none
    attempt := 0
    error := none
    verification_state := IN3_OK
    retries := 0 }

/-- `ctx_nodes_len` (`context.c`): the length of the linked list. -/
def ctx_nodes_len (nodes : List node_weight_t) : Nat := nodes.length

/-! ## nodelist.c: the node picker -/

def NODE_PROP_MIN_BLOCK_HEIGHT : in3_node_props_t := 0x400

/-- Modelled from the spec: the accessor `in3_node_props_get` is declared in
`client.h`.  "The height is packed into bits 32–39 of the property word";
every other property is one bit. -/
def in3_node_props_get (np : in3_node_props_t) (t : in3_node_props_t) : Nat :=
  if t = NODE_PROP_MIN_BLOCK_HEIGHT then (np >>> 32) &&& 0xFF
  else if np &&& t ≠ 0 then 1 else 0

/-- `in3_node_props_match`. -/
def in3_node_props_match (np_config np : in3_node_props_t) : Bool :=
  if ((np_config &&& np) &&& 0xFFFFFFFF) ≠ (np_config &&& 0xFFFFFFFF) then false
  else
    let min_blk_ht_conf := in3_node_props_get np_config NODE_PROP_MIN_BLOCK_HEIGHT
    let min_blk_ht := in3_node_props_get np NODE_PROP_MIN_BLOCK_HEIGHT
    decide (min_blk_ht ≥ min_blk_ht_conf)

/-! ### Single-precision arithmetic

`weight_sum`, `s`, `w`, `total_weight` and `r` are C floats.  Every operation
is rounded to the nearest float, ties to even (`FLT_EVAL_METHOD == 0`). -/

/-- Counts the binary digits of `n` by halving, at most `fuel` times. -/
def bits_loop : Nat → Nat → Nat
  | 0, _ => 0
  | fuel + 1, n => if n = 0 then 0 else bits_loop fuel (n / 2) + 1

/-- The number of binary digits of `n`. -/
def bit_length (n : Nat) : Nat := bits_loop n n

/-- The quotient `n / d` (`d > 0`) rounded to `p` significant binary digits,
ties to even, as a fraction `(numerator, denominator)`. -/
def round_ratio (p n d : Nat) : Nat × Nat :=
  if n = 0 then (0, 1)
  else
    let a := (p + bit_length d) - bit_length n
    let b := bit_length n - (p + bit_length d)
    let N := n * 2 ^ a
    let D := if N ≥ d * 2 ^ b * 2 ^ p then d * 2 ^ (b + 1) else d * 2 ^ b
    let q := N / D
    let rem := N % D
    let m := if 2 * rem > D ∨ (2 * rem = D ∧ q % 2 = 1) then q + 1 else q
    (m * (D / d), 2 ^ a)

/-- The conversion of an unsigned integer to `float`, and the rounding of an
exact natural result: 24 significant digits, `+infinity` from `2^128` on. -/
def float_of_nat (n : Nat) : c_float :=
  let v := (round_ratio 24 n 1).1 / (round_ratio 24 n 1).2
  if v < 2 ^ 128 then .fin v else .inf

/-- The product `a * b` of two floats. -/
def float_mul : c_float → c_float → c_float
  | .fin a, .fin b => float_of_nat (a * b)
  | .fin a, .inf => if a = 0 then .nan else .inf
  | .inf, .fin b => if b = 0 then .nan else .inf
  | .inf, .inf => .inf
  | _, _ => .nan

/-- The sum `a + b` of two floats. -/
def float_add : c_float → c_float → c_float
  | .fin a, .fin b => float_of_nat (a + b)
  | .nan, _ => .nan
  | _, .nan => .nan
  | _, _ => .inf

/-- The score `current->w` of a candidate,
`weightDef->weight * nodeDef->capacity * (500 / (response_count ?
(total_response_time / response_count) : 500))`: the quotient is an unsigned
integer division, the two products are float products.  Where the divisor is
zero (`total_response_time < response_count`) the division traps and there is
no result (`none`). -/
def node_score (weightDef : in3_node_weight_t) (nodeDef : in3_node_t) : Option c_float :=
  let d := if weightDef.response_count ≠ 0 then weightDef.total_response_time / weightDef.response_count
    else 500
  if d = 0 then none
  else some (float_mul (float_mul (float_of_nat weightDef.weight) (float_of_nat nodeDef.capacity))
    (float_of_nat (500 / d)))

/-- The divisor of the score in `in3_node_list_fill_weight`:
`weightDef->response_count ? (weightDef->total_response_time /
weightDef->response_count) : 500`.  The C code divides 500 by it. -/
def score_divisor (weightDef : in3_node_weight_t) : Nat :=
  if weightDef.response_count ≠ 0 then weightDef.total_response_time / weightDef.response_count
  else 500

/-- The tests of the loop of `in3_node_list_fill_weight` on `all_nodes[i]` and
`weights[i]`: `true` when no `continue` is taken. -/
def node_passes (host : host_t) (c : in3_t) (chain : in3_chain_t) (now : Int) (props : in3_node_props_t)
    (nodeDef : in3_node_t) (weightDef : in3_node_weight_t) : Bool :=
  if chain.whitelist.isSome && !nodeDef.whitelisted then false
  else if nodeDef.deposit < c.min_deposit then false
  else if host.FILTER_NODES && !in3_node_props_match props nodeDef.props then false
  else if weightDef.blacklisted_until > to_uint64 now then false
  else true

/-- One iteration of the loop of `in3_node_list_fill_weight`; the state is the
list built so far and `weight_sum`, or `none` once the score of a candidate
has divided by zero. -/
def fill_weight_step (host : host_t) (c : in3_t) (chain : in3_chain_t) (base : Nat)
    (all_nodes : List in3_node_t) (weights : List in3_node_weight_t) (now : Int) (props : in3_node_props_t)
    (st : Option (List node_weight_t × c_float)) (i : Nat) : Option (List node_weight_t × c_float) :=
  match st with
  | none => none
  | some st =>
    match all_nodes[i]?, weights[i]? with
    | some nodeDef, some weightDef =>
      if node_passes host c chain now props nodeDef weightDef then
        match node_score weightDef nodeDef with
        | none => none
        | some score =>
          let current : node_weight_t :=
            { chain := base, node := i, weight := some i, s := st.2, w := score }
          some (st.1 ++ [current], float_add st.2 current.w)
      else some st
    | _, _ => some st

/-- `in3_node_list_fill_weight`: the list of candidates, `*total_weight` and
`*total_found`; `none` when a score divides by zero.  `all_nodes` and
`weights` are the arrays of `chains[base]`.  For an unknown chain the code
returns before it writes `*total_weight`; the value given here is 0. -/
def in3_node_list_fill_weight (host : host_t) (c : in3_t) (chain_id : chain_id_t) (base : Nat)
    (all_nodes : List in3_node_t) (weights : List in3_node_weight_t) (len : Nat) (now : Int)
    (props : in3_node_props_t) : Option (List node_weight_t × c_float × Nat) :=
  match (in3_find_chain c chain_id).bind fun i => c.chains[i]? with
  | none => some ([], 0, 0)
  | some chain =>
    ((List.range len).foldl (fill_weight_step host c chain base all_nodes weights now props)
      (some ([], 0))).map fun st => (st.1, st.2, st.1.length)

/-- `ctx_find_required(parent, search_method)` on the chain `parent->required`:
the position of the first context whose first request has the method.  A
context without parsed requests makes the loop `continue` without advancing,
so the search has no result (outer `none`). -/
def ctx_find_required : List in3_ctx_t → String → Option (Option Nat)
  | [], _ => some none
  | sub_ctx :: rest, search_method =>
    match sub_ctx.requests with
    | none => none
    | some requests =>
      if (requests.head?.bind fun r => r.method) = some search_method then some (some 0)
      else (ctx_find_required rest search_method).map fun r => r.map fun k => k + 1

/-- `in3_ctx_state` of the context at the head of a chain (`NULL` for the
empty chain). -/
def in3_ctx_state : List in3_ctx_t → in3_ctx_state_t
  | [] => .CTX_SUCCESS
  | ctx :: required =>
    let required_state := in3_ctx_state required
    if required_state = .CTX_ERROR then .CTX_ERROR
    else if ctx.error.isSome then .CTX_ERROR
    else if !required.isEmpty && required_state ≠ .CTX_SUCCESS then .CTX_WAITING_FOR_REQUIRED_CTX
    else if ctx.raw_response.isNone then .CTX_WAITING_FOR_RESPONSE
    else if ctx.type = .CT_RPC && ctx.response_context.isNone then .CTX_WAITING_FOR_RESPONSE
    else .CTX_SUCCESS

/-- `ctx_remove_required(parent, ctx)` where `ctx` is the context at position
`k` of `parent->required`: the link to it is set to `NULL` and
`free_ctx_intern` frees it together with its own required contexts. -/
def ctx_remove_required (required : List in3_ctx_t) (k : Nat) : in3_ret_t × List in3_ctx_t :=
  if k < required.length then (IN3_OK, required.take k) else (IN3_EFIND, required)

/-- `ctx_add_required(parent, ctx)`: the new context goes in front of
`parent->required` and is executed at once. -/
def ctx_add_required (exec : world_t → in3_ctx_t → List in3_ctx_t → step_t) (w : world_t)
    (parent : in3_ctx_t) (required : List in3_ctx_t) (ctx : in3_ctx_t) : step_t :=
  match exec w ctx required with
  | none => none
  | some (ret, w, ctx, required) => some (ret, w, parent, ctx :: required)

/-- The chain record behind the pointer `chains + ci`. -/
def chain_at (w : world_t) (ci : Nat) : in3_chain_t := w.c.chains.getD ci default

/-- Writes the chain record behind the pointer `chains + ci`. -/
def put_chain (w : world_t) (ci : Nat) (chain : in3_chain_t) : world_t :=
  { w with c := set_chain w.c ci chain }

/-- `update_nodelist(c, chain, parent_ctx)` for the chain record `chains[ci]`. -/
def update_nodelist (host : host_t) (exec : world_t → in3_ctx_t → List in3_ctx_t → step_t) (w : world_t)
    (ci : Nat) (parent_ctx : in3_ctx_t) (required : List in3_ctx_t) : step_t :=
  match ctx_find_required required "in3_nodeList" with
  | none => none
  | some (some k) =>
    let ctx := (required.drop k).headD parent_ctx
    match in3_ctx_state (required.drop k) with
    | .CTX_ERROR =>
      let r1 := ctx_set_error parent_ctx (ctx.error.getD "") IN3_ERPC
      let r2 := ctx_set_error r1.2 "Error updating node_list" r1.1
      some (r2.1, w, r2.2, required)
    | .CTX_WAITING_FOR_REQUIRED_CTX => some (IN3_WAITING, w, parent_ctx, required)
    | .CTX_WAITING_FOR_RESPONSE => some (IN3_WAITING, w, parent_ctx, required)
    | .CTX_SUCCESS =>
      match (arr ctx.responses).head?.bind fun r => r.result with
      | some r =>
        let f := fill_chain (chain_at w ci) ctx r (host.time w.t)
        let w := put_chain { w with t := w.t + 1 } ci f.2.1
        if f.1.isNeg then
          let r1 := ctx_set_error parent_ctx (f.2.2.error.getD "") f.1
          let r2 := ctx_set_error r1.2 "Error updating node_list" r1.1
          some (r2.1, w, r2.2, required.set k f.2.2)
        else
          let required := (ctx_remove_required required k).2
          let w := put_chain w ci (in3_client_run_chain_whitelisting host.record_image f.2.1)
          some (IN3_OK, w, parent_ctx, required)
      | none =>
        let e := host.ctx_check_response_error ctx 0
        let r := ctx_set_error parent_ctx "Error updating node_list" e.1
        some (r.1, w, r.2, required.set k e.2)
  | some none =>
    let seed := (List.range 8).map fun k => host.rand (w.r + k)
    let w := { w with r := w.r + 8 }
    ctx_add_required exec w parent_ctx required
      (ctx_new "in3_nodeList" ("[" ++ toString w.c.node_limit ++ "," ++ toString seed ++ ",[]]"))

/-- `in3_client_fill_chain_whitelist`. -/
def in3_client_fill_chain_whitelist (record_image : bytes_t → bytes_t) (chain : in3_chain_t)
    (ctx : in3_ctx_t) (result : result_token) :
    in3_ret_t × in3_chain_t × in3_ctx_t :=
  match chain.whitelist with
  | none =>
    let r := ctx_set_error ctx "No whitelist set" IN3_EINVALDT
    (r.1, chain, r.2)
  | some wl =>
    match result.nodes with
    | none =>
      let r := ctx_set_error ctx "No Nodes in the result" IN3_EINVALDT
      (r.1, chain, r.2)
    | some nodes =>
      match result.lastBlockNumber with
      | none =>
        let r := ctx_set_error ctx "LastBlockNumer is missing" IN3_EINVALDT
        (r.1, chain, r.2)
      | some last_block =>
        if last_block > wl.last_block then
          let wl := { wl with
            last_block := last_block
            addresses := nodes.foldr (fun t acc => t.bytes20 ++ acc) [] }
          (IN3_OK, in3_client_run_chain_whitelisting record_image { chain with whitelist := some wl }, ctx)
        else (IN3_OK, chain, ctx)

/-- `update_whitelist(c, chain, parent_ctx)` for the chain record `chains[ci]`. -/
def update_whitelist (host : host_t) (exec : world_t → in3_ctx_t → List in3_ctx_t → step_t) (w : world_t)
    (ci : Nat) (parent_ctx : in3_ctx_t) (required : List in3_ctx_t) : step_t :=
  match ctx_find_required required "in3_whiteList" with
  | none => none
  | some (some k) =>
    let ctx := (required.drop k).headD parent_ctx
    match in3_ctx_state (required.drop k) with
    | .CTX_ERROR =>
      let r1 := ctx_set_error parent_ctx (ctx.error.getD "") IN3_ERPC
      let r2 := ctx_set_error r1.2 "Error updating white_list" r1.1
      some (r2.1, w, r2.2, required)
    | .CTX_WAITING_FOR_REQUIRED_CTX => some (IN3_WAITING, w, parent_ctx, required)
    | .CTX_WAITING_FOR_RESPONSE => some (IN3_WAITING, w, parent_ctx, required)
    | .CTX_SUCCESS =>
      match (arr ctx.responses).head?.bind fun r => r.result with
      | some result =>
        let f := in3_client_fill_chain_whitelist host.record_image (chain_at w ci) ctx result
        let w := put_chain w ci f.2.1
        if f.1.isNeg then
          let r1 := ctx_set_error parent_ctx (f.2.2.error.getD "") f.1
          let r2 := ctx_set_error r1.2 "Error updating white_list" r1.1
          some (r2.1, w, r2.2, required.set k f.2.2)
        else
          let w := put_chain w ci (in3_client_run_chain_whitelisting host.record_image f.2.1)
          let required := (ctx_remove_required required k).2
          some (IN3_OK, w, parent_ctx, required)
      | none =>
        let e := host.ctx_check_response_error ctx 0
        let r := ctx_set_error parent_ctx "Error updating white_list" e.1
        some (r.1, w, r.2, required.set k e.2)
  | some none =>
    let contract := ((chain_at w ci).whitelist.map fun wl => wl.contract).getD []
    ctx_add_required exec w parent_ctx required (ctx_new "in3_whiteList" ("[" ++ toString contract ++ "]"))

/-- `memiszero(data, l)`. -/
def memiszero (data : List Nat) (l : Nat) : Bool := (data.take l).all fun b => b == 0

/-- The test `flag || update || ctx_find_required(ctx, method)` with its
short-circuit evaluation; `none` when the search has no result. -/
def refresh_wanted (flag update : Bool) (required : List in3_ctx_t) (method : String) : Option Bool :=
  if flag || update then some true
  else (ctx_find_required required method).map fun r => r.isSome

/-- The second half of `in3_node_list_get`: the whitelist refresh and the
successful return. -/
def node_list_get_whitelist (host : host_t) (exec : world_t → in3_ctx_t → List in3_ctx_t → step_t)
    (w : world_t) (ctx : in3_ctx_t) (required : List in3_ctx_t) (ci : Nat) (update : Bool) : step_t :=
  match (chain_at w ci).whitelist with
  | none => some (IN3_OK, w, ctx, required)
  | some wl =>
    match refresh_wanted wl.needs_update update required "in3_whiteList" with
    | none => none
    | some flagged =>
      if flagged && !memiszero wl.contract 20 then
        let w := put_chain w ci { chain_at w ci with whitelist := some { wl with needs_update := false } }
        match update_whitelist host exec w ci ctx required with
        | none => none
        | some (res, w, ctx, required) =>
          if res.isNeg then some (res, w, ctx, required)
          else some (IN3_OK, w, ctx, required)
      else some (IN3_OK, w, ctx, required)

/-- `in3_node_list_get(ctx, chain_id, update, ...)`: the step result and the
position `ci` of the chain whose `nodelist`, `nodelist_length` and `weights`
are handed out when the code is `IN3_OK`. -/
def in3_node_list_get (host : host_t) (exec : world_t → in3_ctx_t → List in3_ctx_t → step_t) (w : world_t)
    (ctx : in3_ctx_t) (required : List in3_ctx_t) (chain_id : chain_id_t) (update : Bool) :
    Option ((in3_ret_t × world_t × in3_ctx_t × List in3_ctx_t) × Nat) :=
  match in3_find_chain w.c chain_id with
  | none =>
    let r := ctx_set_error ctx "invalid chain_id" IN3_EFIND
    some ((IN3_EFIND, w, r.2, required), 0)
  | some ci =>
    match refresh_wanted (chain_at w ci).needs_update update required "in3_nodeList" with
    | none => none
    | some false => (node_list_get_whitelist host exec w ctx required ci update).map fun s => (s, ci)
    | some true =>
      let w := put_chain w ci { chain_at w ci with needs_update := false }
      match update_nodelist host exec w ci ctx required with
      | none => none
      | some (res, w, ctx, required) =>
        if res.isNeg then some ((res, w, ctx, required), ci)
        else (node_list_get_whitelist host exec w ctx required ci update).map fun s => (s, ci)

/-- The draw `r = total_weight * ((float) x) / 10000.0` for a finite float
product `P = total_weight * (float) x`: the division is done in `double` (53
digits) and the quotient is rounded to `float` on assignment; the value is a
fraction `(numerator, denominator)`. -/
def draw_value (P : Nat) : Nat × Nat :=
  round_ratio 24 (round_ratio 53 P 10000).1 (round_ratio 53 P 10000).2

/-- The test of the inner `while (current)` loop of the sampling: the draw
`r = total_weight * ((float) x) / 10000.0` satisfies `current->s <= r` and
`current->s + current->w >= r`, where the sum is a float sum.  Comparisons
with NaN are false. -/
def draw_hits (total_weight : c_float) (x : Nat) (current : node_weight_t) : Bool :=
  match float_mul total_weight (float_of_nat x) with
  | .nan => false
  | .inf => (current.s != .nan) && (float_add current.s current.w == .inf)
  | .fin P =>
    let r := draw_value P
    (match current.s with
      | .fin a => decide (a * r.2 ≤ r.1)
      | _ => false) &&
    (match float_add current.s current.w with
      | .fin b => decide (b * r.2 ≥ r.1)
      | .inf => true
      | .nan => false)

/-- The sampling loop of `in3_node_list_pick_nodes`,
`for (i = 0; added < filled_len && i < filled_len * 10; i++)`, with `n`
iterations left; `r` counts the `_rand()` calls.  The state is `added`, `last`
and `first`.  The source never assigns `last`, so the branch
`if (last) last->next = next` is carried along with `last` as it was. -/
def pick_loop (host : host_t) (found : List node_weight_t) (total_weight : c_float) (filled_len : Nat) :
    Nat → Nat → Nat → Option node_weight_t → List node_weight_t → Nat × List node_weight_t
  | 0, r, _, _, first => (r, first)
  | n + 1, r, added, last, first =>
    if added < filled_len then
      let x := host.rand r % 10000
      match found.find? (draw_hits total_weight x) with
      | some current =>
        match first.find? fun next => next.chain == current.chain && next.node == current.node with
        | some _ => pick_loop host found total_weight filled_len n (r + 1) added last first
        | none =>
          let next : node_weight_t :=
            { s := current.s, w := current.w, weight := current.weight, node := current.node, chain := current.chain }
          let first := match last with
            | some _ => first ++ [next]
            | none => first
          let first := if first.isEmpty then [next] else first
          pick_loop host found total_weight filled_len n (r + 1) (added + 1) last first
      | none => pick_loop host found total_weight filled_len n (r + 1) added last first
    else (r, first)

/-- The loop `for (i = 0; i < all_nodes_len; i++) weights[i].blacklisted_until = 0`. -/
def clear_blacklist (chain : in3_chain_t) : in3_chain_t :=
  { chain with
    weights := chain.weights.map
      (for_each chain.nodelist_length fun wt => { wt with blacklisted_until := 0 }) }

/-- The filter passes of `in3_node_list_pick_nodes` on the arrays of
`chains[ci]`: the first pass and, when it finds nothing and more than half of
the nodes are blacklisted, the reset of every `blacklisted_until` followed by a
second pass; `none` when a pass divides by zero. -/
def pick_filter (host : host_t) (w : world_t) (ci : Nat) (now : Int) (props : in3_node_props_t) :
    Option (world_t × List node_weight_t × c_float × Nat) :=
  let chain := chain_at w ci
  let all_nodes_len := chain.nodelist_length
  match in3_node_list_fill_weight host w.c w.c.chain_id ci (arr chain.nodelist) (arr chain.weights)
      all_nodes_len now props with
  | none => none
  | some f =>
    if f.2.2 = 0 then
      let blacklisted := (List.range all_nodes_len).countP fun i =>
        decide (((arr chain.weights).getD i default).blacklisted_until > to_uint64 now)
      if blacklisted > all_nodes_len / 2 then
        let w := put_chain w ci (clear_blacklist chain)
        (in3_node_list_fill_weight host w.c w.c.chain_id ci (arr chain.nodelist)
          (arr (clear_blacklist chain).weights) all_nodes_len now props).map fun f => (w, f)
      else some (w, f)
    else some (w, f)

/-- `filled_len = total_found < request_count ? total_found : request_count`. -/
def filled_len (total_found request_count : Nat) : Nat :=
  if total_found < request_count then total_found else request_count

/-- `in3_node_list_pick_nodes(ctx, nodes, request_count, props)`: the step
result and what is written to `*nodes` (`none`: nothing is written). -/
def in3_node_list_pick_nodes (host : host_t) (exec : world_t → in3_ctx_t → List in3_ctx_t → step_t)
    (w : world_t) (ctx : in3_ctx_t) (required : List in3_ctx_t) (request_count : Nat)
    (props : in3_node_props_t) :
    Option ((in3_ret_t × world_t × in3_ctx_t × List in3_ctx_t) × Option (List node_weight_t)) :=
  let now := host.time w.t
  let w := { w with t := w.t + 1 }
  match in3_node_list_get host exec w ctx required w.c.chain_id false with
  | none => none
  | some ((res, w, ctx, required), ci) =>
    if res.isNeg then
      let r := ctx_set_error ctx "could not find the chain" res
      some ((r.1, w, r.2, required), none)
    else
      match pick_filter host w ci now props with
      | none => none
      | some p =>
        let w := p.1
        let found := p.2.1
        let total_weight := p.2.2.1
        let total_found := p.2.2.2
        if total_found = 0 then
          let r := ctx_set_error ctx "No nodes found that match the criteria" IN3_EFIND
          some ((r.1, w, r.2, required), none)
        else
          let filled_len := filled_len total_found request_count
          if total_found = filled_len then some ((IN3_OK, w, ctx, required), some found)
          else
            let l := pick_loop host found total_weight filled_len (filled_len * 10) w.r 0 none []
            some ((res, { w with r := l.1 }, ctx, required), some l.2)

/-! ## execute.c -/

/-- The node record behind the pointer `node_weight->node`. -/
def node_of (w : world_t) (nw : node_weight_t) : in3_node_t :=
  (arr (chain_at w nw.chain).nodelist).getD nw.node default

/-- `response_free`. -/
def response_free (ctx : in3_ctx_t) : in3_ctx_t :=
  { ctx with
    response_context := none
    responses := none
    raw_response := none
    nodes := []
    requests_configs := (for_each ctx.len
      (fun conf => if conf.signers_length ≠ 0 then { conf with signers := none } else conf)
      ctx.requests_configs) }

/-- `configure_request(ctx, conf, request)` with `conf = ctx->requests_configs + i`. -/
def configure_request (host : host_t) (exec : world_t → in3_ctx_t → List in3_ctx_t → step_t) (w : world_t)
    (ctx : in3_ctx_t) (required : List in3_ctx_t) (i : Nat) : step_t :=
  let c := w.c
  let conf := ctx.requests_configs.getD i zero_config
  let conf := { conf with
    chain_id := c.chain_id
    finality := c.finality
    latest_block := c.replace_latest_block
    use_binary := c.use_binary }
  if c.proof = .PROOF_STANDARD ∨ c.proof = .PROOF_FULL then
    let conf := { conf with
      use_full_proof := decide (c.proof = .PROOF_FULL)
      verification := .VERIFICATION_PROOF }
    let ctx := { ctx with requests_configs := ctx.requests_configs.set i conf }
    if c.signature_count ≠ 0 then
      match in3_node_list_pick_nodes host exec w ctx required c.signature_count
          (c.node_props ||| NODE_PROP_SIGNER) with
      | none => none
      | some ((res, w, ctx, required), signer_nodes) =>
        if res.isNeg then
          let r := ctx_set_error ctx "Could not find any nodes for requesting signatures" res
          some (r.1, w, r.2, required)
        else
          let signer_nodes := signer_nodes.getD []
          let node_count := ctx_nodes_len signer_nodes
          let conf := { ctx.requests_configs.getD i zero_config with
            signers_length := node_count
            signers := some (signer_nodes.map fun nw => (node_of w nw).address) }
          some (IN3_OK, w, { ctx with requests_configs := ctx.requests_configs.set i conf }, required)
    else some (IN3_OK, w, ctx, required)
  else some (IN3_OK, w, { ctx with requests_configs := ctx.requests_configs.set i conf }, required)

/-- The loop `for (int i = 0; i < ctx->len; i++)` over `configure_request` in
`in3_ctx_execute`; it stops at the first negative code with the error set. -/
def configure_requests (host : host_t) (exec : world_t → in3_ctx_t → List in3_ctx_t → step_t) :
    List Nat → world_t → in3_ctx_t → List in3_ctx_t → step_t
  | [], w, ctx, required => some (IN3_OK, w, ctx, required)
  | i :: rest, w, ctx, required =>
    match configure_request host exec w ctx required i with
    | none => none
    | some (ret, w, ctx, required) =>
      if ret.isNeg then
        let r := ctx_set_error ctx "error configuring the config for request" ret
        some (r.1, w, r.2, required)
      else configure_requests host exec rest w ctx required

/-- `ctx_create_payload`, as far as its return code goes: it fails at the
first request without a method. -/
def ctx_create_payload (c : in3_ctx_t) : in3_ret_t × in3_ctx_t :=
  if (arr c.requests).all fun r => r.method.isSome then (IN3_OK, c)
  else ctx_set_error c "missing method-property in request" IN3_EINVAL

/-- `ctx_parse_response(ctx, response_data, len)`; `host.parse` is the JSON or
binary decoder. -/
def ctx_parse_response (host : host_t) (ctx : in3_ctx_t) (response_data : String) : in3_ret_t × in3_ctx_t :=
  let ctx := { ctx with response_context := host.parse response_data }
  match ctx.response_context with
  | none => ctx_set_error ctx "Error parsing the JSON-response!" IN3_EINVALDT
  | some (.object r) =>
    let ctx := { ctx with responses := some [r] }
    if ctx.len ≠ 1 then ctx_set_error ctx "The response must be a single object!" IN3_EINVALDT
    else (IN3_OK, ctx)
  | some (.array rs) =>
    if rs.length ≠ ctx.len then
      ctx_set_error ctx "The responses must be a array with the same number as the requests!" IN3_EINVALDT
    else (IN3_OK, { ctx with responses := some rs })
  | some .other => ctx_set_error ctx "The response must be a Object or Array" IN3_EINVALDT

/-- `blacklist_node(node_weight)` for the wrapper at position `n` of
`ctx->nodes` (`NULL` when there is none).  A wrapper whose weight pointer is
already `NULL` is dereferenced by the C code; here the chain is left as it is. -/
def blacklist_node (host : host_t) (w : world_t) (ctx : in3_ctx_t) (n : Nat) : world_t × in3_ctx_t :=
  match ctx.nodes[n]? with
  | none => (w, ctx)
  | some node_weight =>
    let blocked := to_uint64 (host.time w.t + 3600000)
    let w := { w with t := w.t + 1 }
    let w :=
      match node_weight.weight with
      | some wi =>
        let chain := chain_at w node_weight.chain
        let weights := chain.weights.map fun p =>
          p.set wi { p.getD wi default with blacklisted_until := blocked }
        put_chain w node_weight.chain { chain with weights := weights }
      | none => w
    (w, { ctx with nodes := ctx.nodes.set n { node_weight with weight := none } })

/-- `check_autoupdate(ctx, chain, response_in3)` for the chain `chains[ci]`. -/
def check_autoupdate (w : world_t) (ci : Nat) (response_in3 : in3_token) : world_t :=
  if !w.c.auto_update_list then w
  else
    let chain := chain_at w ci
    let chain :=
      if response_in3.lastNodeList > chain.last_block then { chain with needs_update := true } else chain
    let chain :=
      match chain.whitelist with
      | some wl =>
        if response_in3.lastWhiteList > wl.last_block then
          { chain with whitelist := some { wl with needs_update := true } }
        else chain
      | none => chain
    put_chain w ci chain

/-- `is_blacklisted(node_weight)`. -/
def is_blacklisted (node_weight : Option node_weight_t) : Bool :=
  match node_weight with
  | some nw => nw.weight.isNone
  | none => false

/-- The fields of the stack variable `vc` that survive from one request slot to
the next. -/
structure vc_state where
  proof : Option String
  last_validator_change : Nat
  currentBlock : Nat

/-- The loop `for (int i = 0; i < ctx->len; i++)` of `find_valid_result` over
the request slots still to check.  It returns the first code that is not
`IN3_OK` (the loop returns on `IN3_WAITING` and breaks on a negative code), or
`IN3_OK` after the last slot. -/
def verify_slots (verifier : Option in3_verifier_t) (ci : Nat) :
    List Nat → vc_state → world_t → in3_ctx_t → List in3_ctx_t →
    in3_ret_t × world_t × in3_ctx_t × List in3_ctx_t
  | [], _, w, ctx, required => (IN3_OK, w, ctx, required)
  | i :: rest, vc, w, ctx, required =>
    let response := (arr ctx.responses)[i]?
    let w_vc : world_t × vc_state :=
      match response.bind fun r => r.in3 with
      | some in3 =>
        (check_autoupdate w ci in3,
          { proof := in3.proof, last_validator_change := in3.lastValidatorChange,
            currentBlock := in3.currentBlock })
      | none => (w, { vc with proof := none })
    let w := w_vc.1
    let vc := w_vc.2
    match verifier with
    | some verifier =>
      let v := verifier.verify
        { ctx := ctx
          chain := chain_at w ci
          request := (arr ctx.requests)[i]?
          result := response.bind fun r => r.result
          config := ctx.requests_configs[i]?
          proof := vc.proof
          last_validator_change := vc.last_validator_change
          currentBlock := vc.currentBlock }
      let ctx := { ctx with
        error := if v.error.isSome then v.error else ctx.error
        verification_state := v.ret }
      let required := v.required ++ required
      if v.ret = IN3_WAITING then (IN3_WAITING, w, ctx, required)
      else if v.ret.isNeg then (v.ret, w, ctx, required)
      else verify_slots (some verifier) ci rest vc w ctx required
    | none =>
      verify_slots none ci rest vc w { ctx with verification_state := IN3_OK } required

/-- The body of the loop `for (int n = 0; n < nodes_count; n++)` of
`find_valid_result` up to the test that ends it: the response of node `n` is
looked at, parsed and verified, and the node is blacklisted when that fails.
The first component tells that the verifier returned `IN3_WAITING`, which
`find_valid_result` returns at once. -/
def check_node (host : host_t) (verifier : Option in3_verifier_t) (ci : Nat) (n : Nat) (w : world_t)
    (ctx : in3_ctx_t) (required : List in3_ctx_t) : Bool × world_t × in3_ctx_t × List in3_ctx_t :=
  let response := (arr ctx.raw_response).getD n { error := "", result := "" }
  if response.error.length ≠ 0 ∨ response.result.length = 0 then
    let b := blacklist_node host w ctx n
    (false, b.1, b.2, required)
  else
    let p := ctx_parse_response host ctx response.result
    if p.1.isNeg then
      let b := blacklist_node host w p.2 n
      (false, b.1, b.2, required)
    else
      let v := verify_slots verifier ci (List.range p.2.len)
        { proof := none, last_validator_change := 0, currentBlock := 0 } w p.2 required
      if v.1 = IN3_WAITING then (true, v.2)
      else if v.1.isNeg then
        let b := blacklist_node host v.2.1 v.2.2.1 n
        (false, b.1, b.2, v.2.2.2)
      else (false, v.2)

/-- The loop `for (int n = 0; n < nodes_count; n++)` of `find_valid_result`
over the node positions still to look at; the moving pointer `node` is the
wrapper at position `n` of `ctx->nodes`. -/
def find_valid_result_loop (host : host_t) (verifier : Option in3_verifier_t) (ci : Nat) :
    List Nat → world_t → in3_ctx_t → List in3_ctx_t → in3_ret_t × world_t × in3_ctx_t × List in3_ctx_t
  | [], w, ctx, required => (IN3_EINVAL, w, ctx, required)
  | n :: rest, w, ctx, required =>
    let checked := check_node host verifier ci n w ctx required
    if checked.1 then (IN3_WAITING, checked.2)
    else if (checked.2.2.1.nodes[n]?).isNone || !is_blacklisted checked.2.2.1.nodes[n]? then
      (IN3_OK, checked.2)
    else find_valid_result_loop host verifier ci rest checked.2.1 checked.2.2.1 checked.2.2.2

/-- `find_valid_result(ctx, nodes_count, response, chain, verifier)` with
`response = ctx->raw_response` and `chain = chains + ci`. -/
def find_valid_result (host : host_t) (w : world_t) (ctx : in3_ctx_t) (required : List in3_ctx_t)
    (nodes_count : Nat) (ci : Nat) (verifier : Option in3_verifier_t) :
    in3_ret_t × world_t × in3_ctx_t × List in3_ctx_t :=
  find_valid_result_loop host verifier ci (List.range nodes_count) w ctx required

/-- `convert_to_http_url`. -/
def convert_to_http_url (src_url : String) : String :=
  if src_url.toList.take 8 = "https://".toList then
    let url := src_url.toList.drop 1
    let url := url.set 0 'h'
    let url := url.set 2 't'
    let url := url.set 3 'p'
    String.mk url
  else src_url

/-- `in3_create_request(ctx)`: the request (`none` for `NULL`) and the context,
whose `raw_response` now is the array of empty result slots. -/
def in3_create_request (w : world_t) (ctx : in3_ctx_t) : Option in3_request_t × in3_ctx_t :=
  let nodes_count := ctx_nodes_len ctx.nodes
  let urls := ctx.nodes.map fun node =>
    if w.c.use_http then convert_to_http_url (node_of w node).url else (node_of w node).url
  let multichain := ctx.nodes.any fun node =>
    in3_node_props_get (node_of w node).props NODE_PROP_MULTICHAIN ≠ 0
  let p := ctx_create_payload ctx
  if p.1.isNeg then
    (none, (ctx_set_error p.2 "could not generate the payload" p.1).2)
  else
    let request : in3_request_t :=
      { payload := (arr ctx.requests).enum.map fun ir => (ir.2, ctx.requests_configs[ir.1]?)
        multichain := multichain
        urls := urls
        urls_len := nodes_count }
    let slots := if nodes_count = 0 then 1 else nodes_count
    (some request, { ctx with raw_response := some (List.replicate slots { error := "", result := "" }) })

/-- The properties `in3_ctx_execute` asks of the nodes it picks. -/
def execute_props (c : in3_t) : in3_node_props_t :=
  (c.node_props &&& 0xFFFFFFFF) ||| NODE_PROP_DATA ||| (if c.use_http then NODE_PROP_HTTP else 0) |||
    (if c.proof ≠ .PROOF_NONE then NODE_PROP_PROOF else 0)

/-- What a call `in3_node_list_pick_nodes(ctx, &ctx->nodes, ...)` leaves in
`ctx->nodes`: the list it wrote, if it wrote one. -/
def set_nodes (ctx : in3_ctx_t) (out : Option (List node_weight_t)) : in3_ctx_t :=
  match out with
  | some l => { ctx with nodes := l }
  | none => ctx

/-- The block of `in3_ctx_execute` guarded by `if (!ctx->raw_response &&
!ctx->nodes)`: pick the nodes and configure every request.  `IN3_OK` means
that execution goes on. -/
def execute_pick (host : host_t) (exec : world_t → in3_ctx_t → List in3_ctx_t → step_t) (w : world_t)
    (ctx : in3_ctx_t) (required : List in3_ctx_t) : step_t :=
  if ctx.raw_response.isNone && ctx.nodes.isEmpty then
    match in3_node_list_pick_nodes host exec w ctx required w.c.request_count (execute_props w.c) with
    | none => none
    | some ((ret, w, ctx, required), nodes) =>
      let ctx := set_nodes ctx nodes
      if ret = IN3_OK then configure_requests host exec (List.range ctx.len) w ctx required
      else if ret = IN3_WAITING then some (ret, w, ctx, required)
      else
        let r := ctx_set_error ctx "could not find any node" ret
        some (r.1, w, r.2, required)
  else some (IN3_OK, w, ctx, required)

/-- The call of the optional `pre_handle` hook in `in3_ctx_execute`: the code
(`IN3_OK` when the hook is not called) and the context, whose `raw_response`
holds the synthesised response if the hook made one. -/
def pre_handle_step (verifier : in3_verifier_t) (ctx : in3_ctx_t) : in3_ret_t × in3_ctx_t :=
  match verifier.pre_handle with
  | some pre_handle =>
    if ctx.raw_response.isNone && ctx.response_context.isNone then
      let h := pre_handle ctx
      (h.1, match h.2 with
        | some response => { ctx with raw_response := some [response] }
        | none => ctx)
    else (IN3_OK, ctx)
  | none => (IN3_OK, ctx)

/-- The end of the RPC branch of `in3_ctx_execute`, after `find_valid_result`
returned the negative code `ret`: clean up, count the attempt, and either
re-enter `in3_ctx_execute` (`exec`) or give up.  The ghost counter `retries`
is raised where the source logs "Retrying send request...". -/
def execute_retry (exec : world_t → in3_ctx_t → List in3_ctx_t → step_t) (ret : in3_ret_t) (w : world_t)
    (ctx : in3_ctx_t) (required : List in3_ctx_t) : step_t :=
  let ctx := response_free ctx
  let ctx := { ctx with attempt := ctx.attempt + 1 }
  if (ctx.attempt : Int) < (w.c.max_attempts : Int) - 1 then
    let ctx := { ctx with error := none, retries := ctx.retries + 1 }
    exec w ctx required
  else if ctx.error.isSome then some (if ret ≠ IN3_OK then ret else IN3_ERPC, w, ctx, required)
  else
    let r := ctx_set_error ctx "reaching max_attempts and giving up" IN3_ELIMIT
    some (r.1, w, r.2, required)

/-- The RPC branch of `in3_ctx_execute` once the chain `chains[ci]` and its
verifier are found; `exec` is `in3_ctx_execute` itself. -/
def execute_rpc (host : host_t) (exec : world_t → in3_ctx_t → List in3_ctx_t → step_t) (w : world_t)
    (ctx : in3_ctx_t) (required : List in3_ctx_t) (ci : Nat) (verifier : in3_verifier_t) : step_t :=
  let handled := pre_handle_step verifier ctx
  if handled.1.isNeg then
    let r := ctx_set_error handled.2 "The request could not be handled" handled.1
    some (r.1, w, r.2, required)
  else
    match execute_pick host exec w handled.2 required with
    | none => none
    | some (ret, w, ctx, required) =>
      if ret ≠ IN3_OK then some (ret, w, ctx, required)
      else if ctx.raw_response.isNone then some (IN3_WAITING, w, ctx, required)
      else
        let f := find_valid_result host w ctx required
          (if ctx.nodes.isEmpty then 1 else ctx_nodes_len ctx.nodes) ci (some verifier)
        if f.1 = IN3_WAITING ∨ f.1 = IN3_OK then some f
        else execute_retry exec f.1 f.2.1 f.2.2.1 f.2.2.2

/-- The SIGN branch of `in3_ctx_execute`. -/
def execute_sign (ctx : in3_ctx_t) : in3_ret_t :=
  match ctx.raw_response with
  | none => IN3_WAITING
  | some raw_response =>
    let first := raw_response.headD { error := "", result := "" }
    if first.error.length ≠ 0 then IN3_ERPC
    else if first.result.length = 0 then IN3_WAITING
    else IN3_OK

/-- The step `if (ctx->required && (ret = in3_ctx_execute(ctx->required)))` of
`in3_ctx_execute`: the code (`IN3_OK` without required context) and the chain
of required contexts afterwards. -/
def execute_required (exec : world_t → in3_ctx_t → List in3_ctx_t → step_t) (w : world_t)
    (required : List in3_ctx_t) : Option (in3_ret_t × world_t × List in3_ctx_t) :=
  match required with
  | [] => some (IN3_OK, w, [])
  | r :: rr => (exec w r rr).map fun s => (s.1, s.2.1, s.2.2.1 :: s.2.2.2)

/-- The body of `in3_ctx_execute(ctx)`; `exec` stands for the nested calls of
`in3_ctx_execute`. -/
def execute_body (host : host_t) (exec : world_t → in3_ctx_t → List in3_ctx_t → step_t) (w : world_t)
    (ctx : in3_ctx_t) (required : List in3_ctx_t) : step_t :=
  if ctx.error.isSome then
    some (if ctx.verification_state ≠ IN3_OK ∧ ctx.verification_state ≠ IN3_WAITING
            then ctx.verification_state else IN3_EUNKNOWN, w, ctx, required)
  else if !ctx.request_context || ((arr ctx.requests).head?.bind fun r => r.method).isNone then
    let r := ctx_set_error ctx "No Method defined" IN3_ECONFIG
    some (r.1, w, r.2, required)
  else if ctx.response_context.isSome && ctx.verification_state = IN3_OK then
    some (IN3_OK, w, ctx, required)
  else
    match execute_required exec w required with
    | none => none
    | some (ret, w, required) =>
      if ret ≠ IN3_OK then some (ret, w, ctx, required)
      else
        match ctx.type with
        | .CT_RPC =>
          let chain_id := (ctx.requests_configs.head?.map fun conf => conf.chain_id).getD 0
          match in3_find_chain w.c (if chain_id ≠ 0 then chain_id else w.c.chain_id) with
          | none =>
            let r := ctx_set_error ctx "chain not found" IN3_EFIND
            some (r.1, w, r.2, required)
          | some ci =>
            match host.in3_get_verifier (chain_at w ci).type with
            | none =>
              let r := ctx_set_error ctx "No Verifier found" IN3_EFIND
              some (r.1, w, r.2, required)
            | some verifier => execute_rpc host exec w ctx required ci verifier
        | .CT_SIGN => some (execute_sign ctx, w, ctx, required)

/-- `in3_ctx_execute(ctx)`, with the depth of nested calls bounded by the first
numeric argument (`none` when the bound is reached). -/
def in3_ctx_execute (host : host_t) : Nat → world_t → in3_ctx_t → List in3_ctx_t → step_t
  | 0, _, _, _ => none
  | fuel + 1, w, ctx, required => execute_body host (in3_ctx_execute host fuel) w ctx required

/-- The inner loop of `in3_send_ctx`,
`while (ctx->required && in3_ctx_state(ctx->required) != CTX_SUCCESS)`, bounded
by its first numeric argument.  The first component of the result is the code
`in3_send_ctx` returns from inside the loop, or `none` when the loop ends. -/
def send_required (exec send : world_t → in3_ctx_t → List in3_ctx_t → step_t) :
    Nat → world_t → in3_ctx_t → List in3_ctx_t →
    Option (Option in3_ret_t × world_t × in3_ctx_t × List in3_ctx_t)
  | 0, _, _, _ => none
  | n + 1, w, ctx, required =>
    match required with
    | [] => some (none, w, ctx, required)
    | r :: rr =>
      if in3_ctx_state (r :: rr) ≠ .CTX_SUCCESS then
        match send w r rr with
        | none => none
        | some (res, w, r, rr) =>
          if res ≠ IN3_OK then
            let e := ctx_set_error ctx (r.error.getD "error handling subrequest") res
            some (some e.1, w, e.2, r :: rr)
          else
            match exec w ctx (r :: rr) with
            | none => none
            | some (res, w, ctx, required) =>
              if res ≠ IN3_WAITING then some (some res, w, ctx, required)
              else send_required exec send n w ctx required
      else some (none, w, ctx, required)

/-- The body of `in3_send_ctx(ctx)`; `retry_count` is its local counter and the
first argument bounds the number of nested calls. -/
def send_loop (host : host_t) : Nat → Nat → world_t → in3_ctx_t → List in3_ctx_t → step_t
  | 0, _, _, _, _ => none
  | fuel + 1, retry_count, w, ctx, required =>
    match in3_ctx_execute host fuel w ctx required with
    | none => none
    | some (res, w, ctx, required) =>
      if res = IN3_OK then some (res, w, ctx, required)
      else if res ≠ IN3_WAITING then some (res, w, ctx, required)
      else
        let retry_count := retry_count + 1
        if retry_count > 10 then
          let r := ctx_set_error ctx
            "Looks like the response is not valid or not set, since we are calling the execute over and over"
            IN3_ERPC
          some (r.1, w, r.2, required)
        else
          match send_required (in3_ctx_execute host fuel) (send_loop host fuel 0) fuel w ctx required with
          | none => none
          | some (some res, w, ctx, required) => some (res, w, ctx, required)
          | some (none, w, ctx, required) =>
            if ctx.raw_response.isNone then
              match ctx.type with
              | .CT_RPC =>
                if w.c.transport then
                  let cr := in3_create_request w ctx
                  match cr.1 with
                  | none => some (IN3_ENOMEM, w, cr.2, required)
                  | some request =>
                    let results := (List.range (arr cr.2.raw_response).length).map fun k =>
                      host.transport w.sent request k
                    send_loop host fuel retry_count { w with sent := w.sent + 1 }
                      { cr.2 with raw_response := some results } required
                else
                  let r := ctx_set_error ctx "no transport set" IN3_ECONFIG
                  some (r.1, w, r.2, required)
              | .CT_SIGN =>
                if w.c.signer then
                  match (arr ctx.requests).head?.bind fun r => r.param0 with
                  | none =>
                    let r := ctx_set_error ctx "missing data to sign" IN3_ECONFIG
                    some (r.1, w, r.2, required)
                  | some data =>
                    match (arr ctx.requests).head?.bind fun r => r.param1 with
                    | none =>
                      let r := ctx_set_error ctx "missing account to sign" IN3_ECONFIG
                      some (r.1, w, r.2, required)
                    | some sender =>
                      let s := host.sign ctx data sender
                      if s.1.isNeg then
                        let ctx := { ctx with raw_response := some [{ error := s.2.2, result := "" }] }
                        let r := ctx_set_error ctx s.2.2 s.1
                        some (r.1, w, r.2, required)
                      else
                        let sig := String.mk (((s.2.1 ++ List.replicate 65 0).take 65).map Char.ofNat)
                        send_loop host fuel retry_count w
                          { ctx with raw_response := some [{ error := s.2.2, result := sig }] } required
                else
                  let r := ctx_set_error ctx "no transport set" IN3_ECONFIG
                  some (r.1, w, r.2, required)
            else send_loop host fuel retry_count w ctx required

/-- `in3_send_ctx(ctx)`. -/
def in3_send_ctx (host : host_t) (fuel : Nat) (w : world_t) (ctx : in3_ctx_t) (required : List in3_ctx_t) :
    step_t :=
  send_loop host fuel 0 w ctx required

/-! ## Concrete inputs -/

def ex_addr (b : Nat) : bytes_t := List.replicate 20 b

def ex_ctx : in3_ctx_t :=
  { type := .CT_RPC
    request_context := true
    requests := some [{ method := some "eth_blockNumber", params := "[]", in3 := false, param0 := none, param1 := none }]
    requests_configs := [zero_config]
    nodes := []
    raw_response := none
    response_context := none
    responses := none
    attempt := 0
    error := none
    verification_state := IN3_OK
    retries := 0 }

def ex_node (b : Nat) (url : String) : in3_node_t :=
  { index := 0
    address := ex_addr b
    deposit := 0
    capacity := 1
    props := 0xFF
    url := url
    whitelisted := false }

def ex_chain (nodes : List in3_node_t) (weights : List in3_node_weight_t) (last_block : Nat)
    (whitelist : Option in3_whitelist_t) : in3_chain_t :=
  { chain_id := 1
    type := .CHAIN_ETH
    last_block := last_block
    needs_update := false
    nodelist_length := nodes.length
    nodelist := some nodes
    weights := some weights
    init_addresses := none
    contract := some (ex_addr 0)
    registry_id := List.replicate 32 0
    version := 2
    whitelist := whitelist }

def ex_token (address : Option bytes_t) (url : Option String) (registerTime : Nat) : node_token :=
  { capacity := none
    index := none
    deposit := 0
    props := none
    url := url
    address := address
    registerTime := registerTime
    bytes20 := address.getD [] }

/-- One known node `0xaa..aa` with a used weight record, last block 0. -/
def C7_chain : in3_chain_t :=
  ex_chain [ex_node 0xaa "http://a"]
    [{ weight := 1, response_count := 5, total_response_time := 700, blacklisted_until := 0 }] 0 none

/-- A refresh that lists the same address, registered at time 1000. -/
def C7_result : result_token :=
  { raw := "", nodes := some [ex_token (some (ex_addr 0xaa)) (some "http://a") 1000], lastBlockNumber := some 1 }

/-- A chain at block 5. -/
def C9_chain : in3_chain_t :=
  ex_chain [ex_node 0xaa "http://a"]
    [{ weight := 1, response_count := 5, total_response_time := 700, blacklisted_until := 0 }] 5 none

/-- A refresh result of block 3 whose only entry has no address. -/
def C9_result : result_token :=
  { raw := "", nodes := some [ex_token none (some "http://a") 0], lastBlockNumber := some 3 }

/-- The same entry offered at block 9. -/
def C9_result_new : result_token :=
  { raw := "", nodes := some [ex_token none (some "http://a") 0], lastBlockNumber := some 9 }

/-- Two nodes `0x11..11` and `0x22..22` and a whitelist buffer holding exactly
these two addresses. -/
def C10_chain : in3_chain_t :=
  ex_chain [ex_node 0x11 "http://a", ex_node 0x22 "http://b"]
    [{ weight := 1, response_count := 0, total_response_time := 0, blacklisted_until := 0 },
     { weight := 1, response_count := 0, total_response_time := 0, blacklisted_until := 0 }] 0
    (some { contract := ex_addr 0, addresses := ex_addr 0x11 ++ ex_addr 0x22, last_block := 0, needs_update := false })

/-! ## Concrete hosts and clients -/

/-- A verifier without `pre_handle` that accepts every response. -/
def ex_verifier : in3_verifier_t :=
  { verify := fun _ => { ret := IN3_OK, error := none, required := [] }
    pre_handle := none }

/-- The 20 bytes at a `bytes_t` record on a 64-bit little-endian host: the
`data` pointer, `len`, and zero bytes behind them. -/
def ex_image (a : bytes_t) : bytes_t :=
  [0xa0, 0x02, 0x76, 0x55, 0x55, 0x55, 0, 0] ++
    [a.length % 256, a.length / 256 % 256, a.length / 65536 % 256, a.length / 16777216 % 256] ++
    List.replicate 8 0

/-- A host with a frozen clock whose transport answers slot 0 with an error and
every other slot with an empty result. -/
def failing_host (now : Int) : host_t :=
  { time := fun _ => now
    rand := fun _ => 0
    FILTER_NODES := false
    in3_get_verifier := fun _ => some ex_verifier
    parse := fun _ => none
    ctx_check_response_error := fun ctx _ => (IN3_OK, ctx)
    transport := fun _ _ k => if k = 0 then { error := "no connection", result := "" } else { error := "", result := "" }
    sign := fun _ _ _ => (IN3_OK, [], "")
    record_image := ex_image }

/-- A client with one chain. -/
def ex_client (chain : in3_chain_t) (max_attempts request_count signature_count : Nat) : in3_t :=
  { auto_update_list := true
    cache := false
    signer := false
    transport := true
    cache_timeout := 0
    use_binary := false
    use_http := false
    include_code := false
    keep_in3 := false
    chain_id := chain.chain_id
    finality := 0
    max_attempts := max_attempts
    max_block_cache := 0
    max_code_cache := 0
    min_deposit := 0
    node_limit := 0
    node_props := 0
    proof := .PROOF_STANDARD
    replace_latest_block := 0
    request_count := request_count
    signature_count := signature_count
    chains_length := 1
    chains := [chain] }

/-- Default weight record. -/
def ex_weight : in3_node_weight_t :=
  { weight := 1, response_count := 0, total_response_time := 0, blacklisted_until := 0 }

/-- A chain of two nodes without whitelist and without pending refresh. -/
def two_node_chain : in3_chain_t :=
  ex_chain [ex_node 0x11 "http://a", ex_node 0x22 "http://b"] [ex_weight, ex_weight] 0 none

/-- The state before the first call. -/
def ex_world (c : in3_t) : world_t := { c := c, t := 0, r := 0, sent := 0 }

/-- Three nodes that pass every filter (capacity 1, default weights). -/
def three_node_chain : in3_chain_t :=
  ex_chain [ex_node 0x11 "http://a", ex_node 0x22 "http://b", ex_node 0x33 "http://c"]
    [ex_weight, ex_weight, ex_weight] 0 none

/-- A host whose random source yields 0, then 9999, then 0 for ever. -/
def draw_host : host_t :=
  { failing_host 1000 with
    rand := fun k => if k = 1 then 9999 else 0
    FILTER_NODES := true }

/-- An executor that is never asked (no refresh is pending). -/
def no_exec : world_t → in3_ctx_t → List in3_ctx_t → step_t := fun _ _ _ => none

/-- A host whose verifier answers every request itself (`pre_handle` makes the
response) and then rejects what it made. -/
def internal_host : host_t :=
  { failing_host 1000 with
    in3_get_verifier := fun _ => some
      { verify := fun _ => { ret := IN3_EINVAL, error := none, required := [] }
        pre_handle := some fun _ => (IN3_OK, some { error := "", result := "[1]" }) }
    parse := fun _ => some (.object { result := some { raw := "1", nodes := none, lastBlockNumber := none },
                                      in3 := none }) }

/-- A host whose transport answers every slot with a result that parses and
verifies. -/
def good_host : host_t :=
  { failing_host 1000 with
    parse := fun _ => some (.object { result := some { raw := "1", nodes := none, lastBlockNumber := none },
                                      in3 := none })
    transport := fun _ _ _ => { error := "", result := "[1]" } }

/-- The wrapper of node `i` of chain 0 as the picker builds it for default
weights. -/
def ex_wrapper (i : Nat) : node_weight_t := { chain := 0, node := i, weight := some i, s := .fin i, w := 1 }

/-- A context with both nodes of `two_node_chain` chosen and their slots
filled with a good answer. -/
def answered_ctx : in3_ctx_t :=
  { ex_ctx with
    nodes := [ex_wrapper 0, ex_wrapper 1]
    raw_response := some [{ error := "", result := "[1]" }, { error := "", result := "[1]" }] }

/-- A context with both nodes of `two_node_chain` chosen, one slot holding an
error and the other an empty result. -/
def failed_ctx : in3_ctx_t :=
  { ex_ctx with
    nodes := [ex_wrapper 0, ex_wrapper 1]
    raw_response := some [{ error := "no connection", result := "" }, { error := "", result := "" }] }

/-- The state a step leaves (the input state when the step has no result). -/
def state_after (s : step_t) (w : world_t) (ctx : in3_ctx_t) : world_t × in3_ctx_t × List in3_ctx_t :=
  match s with
  | some r => r.2
  | none => (w, ctx, [])

/-- The client state of the two-node scenarios: `max_attempts = 3`, both nodes
requested. -/
def two_node_world : world_t := ex_world (ex_client two_node_chain 3 2 0)

/-- One step on the context whose nodes answered well. -/
def answered_run : step_t := in3_ctx_execute good_host 2 two_node_world answered_ctx []

/-- One step on the context whose nodes failed. -/
def failed_run : step_t := in3_ctx_execute (failing_host 1000) 3 two_node_world failed_ctx []

/-- The client state of the sampling scenario: three nodes, two requested. -/
def three_node_world : world_t := ex_world (ex_client three_node_chain 3 2 0)

/-- The client state of the signer scenario: three nodes, one requested for the
data and `signature_count = 2`. -/
def signer_world : world_t := ex_world (ex_client three_node_chain 3 1 2)

/-! ## Properties of the picker and the executor -/

/-- What holds of a candidate wrapper built from `all_nodes` and `weights`: it
points at one index below `len` of the chain record `base` and the node and
weight record at that index pass every test of the filter. -/
def candidate_ok (host : host_t) (c : in3_t) (chain : in3_chain_t) (base : Nat)
    (all_nodes : List in3_node_t) (weights : List in3_node_weight_t) (len : Nat) (now : Int)
    (props : in3_node_props_t) (nw : node_weight_t) : Prop :=
  nw.chain = base ∧ nw.weight = some nw.node ∧ nw.node < len ∧
  ∃ nd wt, all_nodes[nw.node]? = some nd ∧ weights[nw.node]? = some wt ∧
    node_passes host c chain now props nd wt = true

/-- No nodelist or whitelist refresh is pending for the chain `chains[ci]`:
the flags are down and the required chain holds no refresh request. -/
def no_refresh (w : world_t) (required : List in3_ctx_t) (ci : Nat) : Prop :=
  (chain_at w ci).needs_update = false ∧
  ctx_find_required required "in3_nodeList" = some none ∧
  ∀ wl, (chain_at w ci).whitelist = some wl →
    wl.needs_update = false ∧ ctx_find_required required "in3_whiteList" = some none

/-- Every field of the client except the chain records is the same. -/
def same_config (c c' : in3_t) : Prop := c' = { c with chains := c'.chains }

/-- The executor passed to a helper leaves the client configuration alone. -/
def keeps_config (exec : world_t → in3_ctx_t → List in3_ctx_t → step_t) : Prop :=
  ∀ w ctx required res, exec w ctx required = some res → same_config w.c res.2.1.c

/-- What the node picker and the request configuration leave untouched in the
context they work for: everything but `error`, `nodes` and `requests_configs`. -/
def pick_frame (c c' : in3_ctx_t) : Prop :=
  c'.type = c.type ∧ c'.request_context = c.request_context ∧ c'.requests = c.requests ∧
  c'.raw_response = c.raw_response ∧ c'.response_context = c.response_context ∧
  c'.responses = c.responses ∧ c'.attempt = c.attempt ∧
  c'.verification_state = c.verification_state ∧ c'.retries = c.retries

/-- What the response check leaves untouched in the context: the request, the
raw responses, the counters, and the number of chosen nodes. -/
def verify_frame (c c' : in3_ctx_t) : Prop :=
  c'.type = c.type ∧ c'.request_context = c.request_context ∧ c'.requests = c.requests ∧
  c'.raw_response = c.raw_response ∧ c'.attempt = c.attempt ∧ c'.retries = c.retries ∧
  c'.nodes.length = c.nodes.length

/-- The retry invariant: the ghost counter of re-entries never exceeds the
attempt counter and stays below `max_attempts`. -/
def retry_inv (m : Nat) (c : in3_ctx_t) : Prop := c.retries ≤ c.attempt ∧ c.retries + 1 ≤ m

/-- The states a context passes through in its lifetime on a client with
`max_attempts = m`: it starts with both counters at zero, `in3_ctx_execute`
steps it (for any host, any state of the client and of the required
contexts), and between the steps the host and the driver may change anything
but the two counters (fill `raw_response`, set an error). -/
inductive lifetime (m : Nat) : in3_ctx_t → Prop where
  | fresh (c : in3_ctx_t) : c.attempt = 0 → c.retries = 0 → lifetime m c
  | execute (host : host_t) (fuel : Nat) (w w' : world_t) (c c' : in3_ctx_t) (required required' : List in3_ctx_t)
      (ret : in3_ret_t) : lifetime m c → w.c.max_attempts = m →
      in3_ctx_execute host fuel w c required = some (ret, w', c', required') → lifetime m c'
  | other (c c' : in3_ctx_t) : lifetime m c → c'.attempt = c.attempt → c'.retries = c.retries →
      lifetime m c'

/-- What every result of an executor obeys: the client configuration and the
type of the context stay, the retry invariant is kept, and a result `IN3_OK`
for an RPC context with chosen nodes comes with a parsed response and
`verification_state == IN3_OK`. -/
def exec_ok (exec : world_t → in3_ctx_t → List in3_ctx_t → step_t) : Prop :=
  ∀ w ctx required ret w' ctx' required', exec w ctx required = some (ret, w', ctx', required') →
    same_config w.c w'.c ∧ ctx'.type = ctx.type ∧
    (retry_inv w.c.max_attempts ctx → retry_inv w.c.max_attempts ctx') ∧
    (ctx.type = .CT_RPC → ret = IN3_OK → ctx'.nodes ≠ [] →
      ctx'.response_context.isSome = true ∧ ctx'.verification_state = IN3_OK)

/-- No weight record makes the score divide by zero. -/
def scored (ws : List in3_node_weight_t) : Prop := ∀ wt ∈ ws, score_divisor wt ≠ 0

/-- The node positions whose weight record is not blacklisted at time `now`. -/
def free_nodes (ws : List in3_node_weight_t) (now : Nat) : List Nat :=
  (List.range ws.length).filter fun i => decide ((ws.getD i default).blacklisted_until ≤ now)

/-- The wrapper list made of the node positions `l` of chain `ci`. -/
def same_nodes (ci : Nat) (l : List Nat) (nodes : List node_weight_t) : Prop :=
  (nodes.map fun nw => (nw.chain, nw.node, nw.weight)) = l.map fun i => (ci, i, some i)

/-- Two nodes and a manual whitelist (all-zero contract) holding `0xaa..aa`. -/
def manual_chain : in3_chain_t :=
  ex_chain [ex_node 0x11 "http://a", ex_node 0x22 "http://b"] [ex_weight, ex_weight] 0
    (some { contract := ex_addr 0, addresses := ex_addr 0xaa, last_block := 0, needs_update := false })

/-- The client state with the manual whitelist. -/
def manual_world : world_t := ex_world (ex_client manual_chain 3 2 0)

/-- One filter pass (`in3_node_list_fill_weight`) over the arrays that the chain
`chains[ci]` has in the state `w`: the candidates, `total_weight` and
`total_found`. -/
def filter_pass (host : host_t) (w : world_t) (ci : Nat) (now : Int) (props : in3_node_props_t) :
    Option (List node_weight_t × c_float × Nat) :=
  in3_node_list_fill_weight host w.c w.c.chain_id ci (arr (chain_at w ci).nodelist)
    (arr (chain_at w ci).weights) (chain_at w ci).nodelist_length now props

/-- The number of nodes of the chain with `blacklisted_until > (uint64_t) now`. -/
def blacklisted_count (chain : in3_chain_t) (now : Int) : Nat :=
  (List.range chain.nodelist_length).countP fun i =>
    decide (((arr chain.weights).getD i default).blacklisted_until > to_uint64 now)

/-- The first filter pass finds nothing and strictly more than half of the
nodes are blacklisted. -/
def reset_due (host : host_t) (w : world_t) (ci : Nat) (now : Int) (props : in3_node_props_t) : Prop :=
  (∃ f, filter_pass host w ci now props = some f ∧ f.2.2 = 0) ∧
  2 * blacklisted_count (chain_at w ci) now > (chain_at w ci).nodelist_length

/-- Both nodes of the two-node chain are blacklisted until time 5000. -/
def blacklisted_chain : in3_chain_t :=
  ex_chain [ex_node 0x11 "http://a", ex_node 0x22 "http://b"]
    [{ ex_weight with blacklisted_until := 5000 }, { ex_weight with blacklisted_until := 5000 }] 0 none

/-- The client state with both nodes blacklisted. -/
def blacklisted_world : world_t := ex_world (ex_client blacklisted_chain 3 2 0)

/-- Node `i` is the first node below `nodelist_length` whose 20 address bytes
equal those of `address`. -/
def first_match (chain : in3_chain_t) (address : address_t) (i : Nat) : Prop :=
  i < chain.nodelist_length ∧
  (∃ n, (arr chain.nodelist)[i]? = some n ∧ memcmp_eq n.address address 20 = true) ∧
  ∀ j n, j < i → (arr chain.nodelist)[j]? = some n → memcmp_eq n.address address 20 = false

/-- No node below `nodelist_length` has the 20 address bytes of `address`. -/
def no_match (chain : in3_chain_t) (address : address_t) : Prop :=
  ∀ j n, j < chain.nodelist_length → (arr chain.nodelist)[j]? = some n →
    memcmp_eq n.address address 20 = false

/-- The weight record `in3_client_add_node` writes. -/
def fresh_weight : in3_node_weight_t :=
  { weight := 1, response_count := 0, total_response_time := 0, blacklisted_until := 0 }

/-- The node record `in3_client_add_node` appends at index `len`. -/
def fresh_node (len : Nat) (address : address_t) (url : String) (props : in3_node_props_t) : in3_node_t :=
  { index := len, address := address.take 20, deposit := 0, capacity := 1, props := props, url := url,
    whitelisted := false }

/-- Every chain of the client has pairwise distinct node addresses. -/
def client_distinct (c : in3_t) : Prop := ∀ chain ∈ c.chains, distinct_addresses chain

/-- The records of a node array have pairwise distinct addresses. -/
def distinct_list (p : List in3_node_t) : Prop :=
  ∀ (j1 j2 : Nat) (n1 n2 : in3_node_t), p[j1]? = some n1 → p[j2]? = some n2 →
    n1.address = n2.address → j1 = j2

/-- A chain without nodes (both array pointers `NULL`). -/
def empty_chain : in3_chain_t :=
  { ex_chain [] [] 0 none with nodelist := none, weights := none }

/-- A refresh that lists the address `0xaa..aa` twice. -/
def duplicate_result : result_token :=
  { raw := ""
    nodes := some [ex_token (some (ex_addr 0xaa)) (some "http://a") 0,
      ex_token (some (ex_addr 0xaa)) (some "http://b") 0]
    lastBlockNumber := some 1 }

/-- The entries of a refresh result have pairwise distinct addresses. -/
def distinct_tokens (nodes : List node_token) : Prop :=
  ∀ (k1 k2 : Nat) (t1 t2 : node_token), nodes[k1]? = some t1 → nodes[k2]? = some t2 →
    t1.address = t2.address → k1 = k2

/-- The whitelist `in3_client_register_chain` leaves: none without
`wl_contract`, otherwise a fresh one for the 20 bytes of `wl_contract`. -/
def fresh_whitelist (wl_contract : Option address_t) : Option in3_whitelist_t :=
  match wl_contract with
  | none => none
  | some w => some { contract := w.take 20, addresses := [], needs_update := true, last_block := 0 }

/-- The chain record `old` with the fields `in3_client_register_chain` writes
in every case. -/
def registered_chain (old : in3_chain_t) (chain_id : chain_id_t) (type : in3_chain_type_t)
    (contract : address_t) (registry_id : List Nat) (version : Nat) (wl_contract : Option address_t) :
    in3_chain_t :=
  { old with
    chain_id := chain_id
    contract := some (contract.take 20)
    needs_update := false
    type := type
    version := version
    whitelist := fresh_whitelist wl_contract
    registry_id := registry_id.take 32 }

/-- A chain record without nodes, weights and init addresses at block 0. -/
def blank_chain : in3_chain_t :=
  { chain_id := 0
    type := .CHAIN_ETH
    last_block := 0
    needs_update := false
    nodelist_length := 0
    nodelist := none
    weights := none
    init_addresses := none
    contract := none
    registry_id := []
    version := 0
    whitelist := none }

/-! ## client_init.c: the configurator

The JSON decoder is not part of these files.  A configuration document is
taken as decoded: every token carries what the accessors of the decoder return
on it (`d_type`, `d_int`, `d_long`, `d_string`, `d_to_bytes`,
`d_get_byteskl`), keys are compared by name, and the sub-tokens keep their
document order.  A crash of the C code (a `NULL` or out-of-bounds access) is a
run without result, `none`. -/

/-- The type tag of a decoded token (`d_type`). -/
inductive d_type_t where
  | T_BYTES
  | T_STRING
  | T_ARRAY
  | T_OBJECT
  | T_BOOLEAN
  | T_INTEGER
  | T_NULL
  deriving DecidableEq, Repr

/-- One element of a `nodeList` array as `in3_configure` reads it:
`d_get_string(n, "url")`, `d_get_longkd(n, key("props"), 65535)` and
`d_get_byteskl(n, key("address"), 20)` (`none`: `NULL`). -/
structure node_entry where
  url : Option String
  props : Nat
  address : Option bytes_t
  deriving DecidableEq, Repr

/-- One sub-token of a servers/nodes entry, by its key.  `contract` carries
`token->data` (`token->len` bytes), `whiteListContract` the type and the data
(`d_len` bytes), `whiteList` the type and what `d_bytes_to(item, ., 20)` writes
for each item, `registryId` the result of `d_to_bytes` (`none`: no data),
`needsUpdate` the result of `d_int`. -/
inductive chain_prop where
  | contract (data : List Nat)
  | whiteListContract (type : d_type_t) (data : List Nat)
  | whiteList (type : d_type_t) (items : List bytes_t)
  | registryId (data : Option (List Nat))
  | needsUpdate (value : Nat)
  | nodeList (entries : List node_entry)
  | other
  deriving DecidableEq, Repr

/-- One entry under `servers` or `nodes`: the chain id read from its key
(`char_to_long`), the results of `d_get_byteskl` for `contract` (20),
`registryId` (32) and `whiteListContract` (20), and the sub-tokens in document
order. -/
structure chain_entry where
  chain_id : chain_id_t
  contract : Option bytes_t
  registry_id : Option bytes_t
  wl_contract : Option bytes_t
  props : List chain_prop
  deriving DecidableEq, Repr

/-- One top-level token of the configuration document, by its key, with the
accessor results `in3_configure` reads (`d_int`, `d_long`, `d_string`). -/
inductive config_item where
  | autoUpdateList (value : Nat)
  | chainId (type : d_type_t) (str : String) (long : Nat)
  | signatureCount (value : Nat)
  | finality (value : Nat)
  | includeCode (value : Nat)
  | maxAttempts (value : Nat)
  | keepIn3 (value : Nat)
  | maxBlockCache (value : Nat)
  | maxCodeCache (value : Nat)
  | minDeposit (long : Nat)
  | nodeLimit (value : Nat)
  | proof (str : String)
  | replaceLatestBlock (value : Nat)
  | requestCount (value : Nat)
  | rpc (str : String)
  | servers (entries : List chain_entry)
  | other
  deriving DecidableEq, Repr

/-- The static function `chain_id(t)` of client_init.c on a token with type
`type`, string `str` (`d_string`) and number `long` (`d_long`). -/
def chain_id (type : d_type_t) (str : String) (long : Nat) : chain_id_t :=
  if type = .T_STRING then
    if str = "mainnet" then 1
    else if str = "kovan" then 0x2a
    else if str = "goerli" then 0x5
    else 1
  else long

/-- The loop over the `nodeList` array in `in3_configure`: `in3_client_add_node`
for every element; it ends the configuration at the first code that is not
`IN3_OK` (first component `some`).  A missing address is dereferenced
(`d_get_byteskl(..)->data`) and a missing url is passed to `strlen`. -/
def configure_nodes (chain_id : chain_id_t) : List node_entry → in3_t → Option (Option in3_ret_t × in3_t)
  | [], c => some (none, c)
  | n :: rest, c =>
    match n.address with
    | none => none
    | some address =>
      match n.url with
      | none => none
      | some url =>
        let r := in3_client_add_node c chain_id url n.props address
        if r.1 ≠ IN3_OK then some (some r.1, r.2)
        else configure_nodes chain_id rest r.2

/-- One iteration of the loop `chain_props` of `in3_configure` on the chain
record `chains[ci]` (the pointer `chain`); `chain_id` is the id of the entry.
The first component is `some res` when the code leaves through
`goto cleanup` with that `res`.  `contract` copies `token->len` bytes into the
20-byte buffer without a length check (more than the buffer holds is an
overflow, no result). -/
def configure_prop (c : in3_t) (chain_id : chain_id_t) (ci : Nat) (p : chain_prop) :
    Option (Option in3_ret_t × in3_t) :=
  let chain := c.chains.getD ci default
  match p with
  | .contract data =>
    match chain.contract with
    | none => none
    | some old =>
      if data.length ≤ old.length then
        some (none, set_chain c ci { chain with contract := some (data ++ old.drop data.length) })
      else none
  | .whiteListContract type data =>
    if type ≠ .T_BYTES ∨ data.length ≠ 20 then some (some IN3_EINVAL, c)
    else
      match chain.whitelist with
      | none =>
        some (none, set_chain c ci { chain with
          whitelist := some { contract := data.take 20, addresses := [], last_block := 0,
                              needs_update := true } })
      | some wl =>
        if !memcmp_eq wl.contract data 20 then
          some (none, set_chain c ci { chain with
            whitelist := some { wl with contract := data.take 20, needs_update := true } })
        else some (none, c)
  | .whiteList type items =>
    if type ≠ .T_ARRAY then some (some IN3_EINVAL, c)
    else
      some (none, set_chain c ci { chain with
        whitelist := some
          { contract := List.replicate 20 0
            addresses := (items.map fun b => (b ++ List.replicate 20 0).take 20).flatten
            last_block := 0
            needs_update := false } })
  | .registryId data =>
    match data with
    | none => some (some IN3_EINVAL, c)
    | some d =>
      if d.length ≠ 32 then some (some IN3_EINVAL, c)
      else some (none, set_chain c ci { chain with registry_id := d })
  | .needsUpdate value =>
    some (none, set_chain c ci { chain with needs_update := decide (value ≠ 0) })
  | .nodeList entries =>
    let r := in3_client_clear_nodes c chain_id
    if r.1.isNeg then some (some IN3_OK, r.2)
    else configure_nodes chain_id entries r.2
  | .other => some (none, c)

/-- The loop `chain_props` over the sub-tokens of one entry. -/
def configure_props (chain_id : chain_id_t) (ci : Nat) :
    List chain_prop → in3_t → Option (Option in3_ret_t × in3_t)
  | [], c => some (none, c)
  | p :: rest, c =>
    match configure_prop c chain_id ci p with
    | none => none
    | some (some res, c) => some (some res, c)
    | some (none, c) => configure_props chain_id ci rest c

/-- The sub-tokens of an entry applied to `chains[ci]`, followed by
`in3_client_run_chain_whitelisting(chain)`. -/
def configure_chain (record_image : bytes_t → bytes_t) (c : in3_t) (chain_id : chain_id_t) (ci : Nat) (props : List chain_prop) :
    Option (Option in3_ret_t × in3_t) :=
  match configure_props chain_id ci props c with
  | none => none
  | some (some res, c) => some (some res, c)
  | some (none, c) =>
    some (none, set_chain c ci (in3_client_run_chain_whitelisting record_image (c.chains.getD ci default)))

/-- The body of the loop over the entries under `servers` / `nodes`: register
the chain when it is unknown, then apply the sub-tokens. -/
def configure_entry (record_image : bytes_t → bytes_t) (c : in3_t) (e : chain_entry) : Option (Option in3_ret_t × in3_t) :=
  match in3_find_chain c e.chain_id with
  | none =>
    match e.contract, e.registry_id with
    | some contract, some registry_id =>
      let r := in3_client_register_chain c e.chain_id .CHAIN_ETH contract registry_id 2 e.wl_contract
      if r.1 ≠ IN3_OK then some (some r.1, r.2)
      else
        match in3_find_chain r.2 e.chain_id with
        | none => none
        | some ci => configure_chain record_image r.2 e.chain_id ci e.props
    | _, _ => some (some IN3_EINVAL, c)
  | some ci => configure_chain record_image c e.chain_id ci e.props

/-- The loop over the entries under `servers` / `nodes`. -/
def configure_entries (record_image : bytes_t → bytes_t) : List chain_entry → in3_t → Option (Option in3_ret_t × in3_t)
  | [], c => some (none, c)
  | e :: rest, c =>
    match configure_entry record_image c e with
    | none => none
    | some (some res, c) => some (some res, c)
    | some (none, c) => configure_entries record_image rest c

/-- One iteration of the loop of `in3_configure` over the top-level tokens.
The casts are `(uint8_t)` for `signatureCount` and `requestCount` and
`(uint16_t)` for `nodeLimit` and `replaceLatestBlock`; `rpc` dereferences
`in3_find_chain(c, c->chain_id)->nodelist[0]` without a check. -/
def configure_item (record_image : bytes_t → bytes_t) (c : in3_t) (item : config_item) : Option (Option in3_ret_t × in3_t) :=
  match item with
  | .autoUpdateList value => some (none, { c with auto_update_list := decide (value ≠ 0) })
  | .chainId type str long => some (none, { c with chain_id := chain_id type str long })
  | .signatureCount value => some (none, { c with signature_count := value % 256 })
  | .finality value => some (none, { c with finality := value })
  | .includeCode value => some (none, { c with include_code := decide (value ≠ 0) })
  | .maxAttempts value => some (none, { c with max_attempts := value })
  | .keepIn3 value => some (none, { c with keep_in3 := decide (value ≠ 0) })
  | .maxBlockCache value => some (none, { c with max_block_cache := value })
  | .maxCodeCache value => some (none, { c with max_code_cache := value })
  | .minDeposit long => some (none, { c with min_deposit := long })
  | .nodeLimit value => some (none, { c with node_limit := value % 65536 })
  | .proof str =>
    some (none, { c with
      proof := if str = "full" then .PROOF_FULL
        else if str = "standard" then .PROOF_STANDARD else .PROOF_NONE })
  | .replaceLatestBlock value => some (none, { c with replace_latest_block := value % 65536 })
  | .requestCount value => some (none, { c with request_count := value % 256 })
  | .rpc str =>
    let c := { c with proof := .PROOF_NONE, chain_id := ETH_CHAIN_ID_LOCAL, request_count := 1 }
    match in3_find_chain c c.chain_id with
    | none => none
    | some ci =>
      let chain := c.chains.getD ci default
      match chain.nodelist with
      | some (n :: rest) =>
        some (none, set_chain c ci { chain with nodelist := some ({ n with url := str } :: rest) })
      | _ => none
  | .servers entries => configure_entries record_image entries c
  | .other => some (none, c)

/-- The loop of `in3_configure` over the top-level tokens. -/
def configure_items (record_image : bytes_t → bytes_t) : List config_item → in3_t → Option (Option in3_ret_t × in3_t)
  | [], c => some (none, c)
  | item :: rest, c =>
    match configure_item record_image c item with
    | none => none
    | some (some res, c) => some (some res, c)
    | some (none, c) => configure_items record_image rest c

/-- `in3_configure(c, config)` on the decoded document (`none`: the text does
not parse or has no root token); `record_image` is the memory that
`in3_client_run_chain_whitelisting` reads.  `res` is `IN3_OK` unless the code left
through `goto cleanup`. -/
def in3_configure (record_image : bytes_t → bytes_t) (c : in3_t) (cnf : Option (List config_item)) : Option (in3_ret_t × in3_t) :=
  match cnf with
  | none => some (IN3_EINVAL, c)
  | some items => (configure_items record_image items c).map fun r => (r.1.getD IN3_OK, r.2)

/-- An entry for the chain `chain_id` that is found among the chains, with the
given sub-tokens. -/
def known_entry (chain_id : chain_id_t) (props : List chain_prop) : chain_entry :=
  { chain_id := chain_id, contract := none, registry_id := none, wl_contract := none, props := props }

/-- An entry for mainnet: `needsUpdate` 0, then a `registryId` of three bytes. -/
def invalid_entry : chain_entry :=
  known_entry 1 [.needsUpdate 0, .registryId (some [1, 2, 3])]

/-- A SIGN context without response. -/
def sign_ctx : in3_ctx_t := { ex_ctx with type := .CT_SIGN }

/-- The context the step of `internal_host` leaves: a parsed response made by
`pre_handle` that the verifier rejected. -/
def rejected_ctx : in3_ctx_t :=
  (state_after (in3_ctx_execute internal_host 2 (ex_world (ex_client two_node_chain 3 2 0)) ex_ctx [])
    (ex_world (ex_client two_node_chain 3 2 0)) ex_ctx).2.1


/-! ## The driver with a count of its transport and signer calls -/

/-- The body of `in3_send_ctx(ctx)` as in `send_loop`, returning in addition the
number of times `ctx->client->transport` or `ctx->client->signer->sign` has
been invoked for `ctx` itself (a ghost count, absent from the C code; the calls
made while driving required contexts are not counted). -/
def send_loop_calls (host : host_t) :
    Nat → Nat → world_t → in3_ctx_t → List in3_ctx_t →
    Option ((in3_ret_t × world_t × in3_ctx_t × List in3_ctx_t) × Nat)
  | 0, _, _, _, _ => none
  | fuel + 1, retry_count, w, ctx, required =>
    match in3_ctx_execute host fuel w ctx required with
    | none => none
    | some (res, w, ctx, required) =>
      if res = IN3_OK then some ((res, w, ctx, required), 0)
      else if res ≠ IN3_WAITING then some ((res, w, ctx, required), 0)
      else
        let retry_count := retry_count + 1
        if retry_count > 10 then
          let r := ctx_set_error ctx
            "Looks like the response is not valid or not set, since we are calling the execute over and over"
            IN3_ERPC
          some ((r.1, w, r.2, required), 0)
        else
          match send_required (in3_ctx_execute host fuel) (send_loop host fuel 0) fuel w ctx required with
          | none => none
          | some (some res, w, ctx, required) => some ((res, w, ctx, required), 0)
          | some (none, w, ctx, required) =>
            if ctx.raw_response.isNone then
              match ctx.type with
              | .CT_RPC =>
                if w.c.transport then
                  let cr := in3_create_request w ctx
                  match cr.1 with
                  | none => some ((IN3_ENOMEM, w, cr.2, required), 0)
                  | some request =>
                    let results := (List.range (arr cr.2.raw_response).length).map fun k =>
                      host.transport w.sent request k
                    (send_loop_calls host fuel retry_count { w with sent := w.sent + 1 }
                      { cr.2 with raw_response := some results } required).map fun r => (r.1, r.2 + 1)
                else
                  let r := ctx_set_error ctx "no transport set" IN3_ECONFIG
                  some ((r.1, w, r.2, required), 0)
              | .CT_SIGN =>
                if w.c.signer then
                  match (arr ctx.requests).head?.bind fun r => r.param0 with
                  | none =>
                    let r := ctx_set_error ctx "missing data to sign" IN3_ECONFIG
                    some ((r.1, w, r.2, required), 0)
                  | some data =>
                    match (arr ctx.requests).head?.bind fun r => r.param1 with
                    | none =>
                      let r := ctx_set_error ctx "missing account to sign" IN3_ECONFIG
                      some ((r.1, w, r.2, required), 0)
                    | some sender =>
                      let s := host.sign ctx data sender
                      if s.1.isNeg then
                        let ctx := { ctx with raw_response := some [{ error := s.2.2, result := "" }] }
                        let r := ctx_set_error ctx s.2.2 s.1
                        some ((r.1, w, r.2, required), 1)
                      else
                        let sig := String.mk (((s.2.1 ++ List.replicate 65 0).take 65).map Char.ofNat)
                        (send_loop_calls host fuel retry_count w
                          { ctx with raw_response := some [{ error := s.2.2, result := sig }] }
                          required).map fun r => (r.1, r.2 + 1)
                else
                  let r := ctx_set_error ctx "no transport set" IN3_ECONFIG
                  some ((r.1, w, r.2, required), 0)
            else send_loop_calls host fuel retry_count w ctx required

/-- The message `in3_send_ctx` sets when it gives up. -/
def over_and_over : String :=
  "Looks like the response is not valid or not set, since we are calling the execute over and over"

/-! ## The filter and the score of the node picker in the words of the specification -/

/-- The filters of the specification on one node and its weight record:
whitelisted if the chain has a whitelist, `deposit >= min_deposit`,
`blacklisted_until <= now`. -/
def spec_filter (c : in3_t) (chain : in3_chain_t) (now : Int) (nodeDef : in3_node_t)
    (weightDef : in3_node_weight_t) : Bool :=
  (!chain.whitelist.isSome || nodeDef.whitelisted) && decide (c.min_deposit ≤ nodeDef.deposit) &&
    decide ((weightDef.blacklisted_until : Int) ≤ now)

/-- The score of the specification: `weight x capacity x (500 div avg)` with
`avg = total_response_time div response_count`, or 500 when
`response_count == 0`. -/
def spec_score (weightDef : in3_node_weight_t) (nodeDef : in3_node_t) : Nat :=
  let avg := if weightDef.response_count = 0 then 500
    else weightDef.total_response_time / weightDef.response_count
  weightDef.weight * nodeDef.capacity * (500 / avg)

/-- The weight records on which the score divides by a non-zero average. -/
def score_defined (weightDef : in3_node_weight_t) : Prop :=
  weightDef.response_count = 0 ∨ weightDef.total_response_time ≥ weightDef.response_count

/-- The score of the specification computed in single precision: the
factors are floats and each of the two products is rounded to a float. -/
def float_score (weightDef : in3_node_weight_t) (nodeDef : in3_node_t) : c_float :=
  let avg := if weightDef.response_count = 0 then 500
    else weightDef.total_response_time / weightDef.response_count
  float_mul (float_mul (float_of_nat weightDef.weight) (float_of_nat nodeDef.capacity))
    (float_of_nat (500 / avg))

/-- The score of the specification needs no rounding: the weight, the
capacity, their product and the score are below `2^24`. -/
def score_exact (weightDef : in3_node_weight_t) (nodeDef : in3_node_t) : Prop :=
  weightDef.weight < 2 ^ 24 ∧ nodeDef.capacity < 2 ^ 24 ∧
  weightDef.weight * nodeDef.capacity < 2 ^ 24 ∧ spec_score weightDef nodeDef < 2 ^ 24

/-- The float sum `0 + w_1 + ... + w_n`, added from the left. -/
def float_sum (l : List c_float) : c_float := l.foldl float_add 0

/-- A node without any property bit. -/
def plain_node : in3_node_t := { ex_node 0x11 "http://a" with props := 0 }

/-- A client whose only chain holds `plain_node`. -/
def plain_client : in3_t := ex_client (ex_chain [plain_node] [ex_weight] 0 none) 3 2 0

/-- A weight record with three responses in 700 ms and one with a blacklist
mark in the past. -/
def timed_weight : in3_node_weight_t :=
  { weight := 1, response_count := 3, total_response_time := 700, blacklisted_until := 900 }

/-- Three nodes: the second is blacklisted until 5000, the third has capacity 4
and the weight record `timed_weight`. -/
def scored_chain : in3_chain_t :=
  ex_chain [ex_node 0x11 "http://a", ex_node 0x22 "http://b", { ex_node 0x33 "http://c" with capacity := 4 }]
    [ex_weight, { ex_weight with blacklisted_until := 5000 }, timed_weight] 0 none

/-! ## The response check in the words of the specification -/

/-- What the response of one node comes to. -/
inductive verdict_t where
  | accepted
  | rejected
  | waiting
  deriving DecidableEq, Repr

/-- The verdict of the specification on the response of node `n` in a state of
the client, the context and its required contexts: rejected when the error is
not empty, the result is empty, the result does not parse to the expected
shape or the verifier returns a negative code for a request slot; waiting
when the verifier returns `IN3_WAITING`; accepted otherwise. -/
def node_verdict (host : host_t) (verifier : Option in3_verifier_t) (ci : Nat) (n : Nat) (w : world_t)
    (ctx : in3_ctx_t) (required : List in3_ctx_t) : verdict_t :=
  let response := (arr ctx.raw_response).getD n { error := "", result := "" }
  if response.error.length ≠ 0 ∨ response.result.length = 0 then .rejected
  else
    let p := ctx_parse_response host ctx response.result
    if p.1.isNeg then .rejected
    else
      let code := (verify_slots verifier ci (List.range p.2.len)
        { proof := none, last_validator_change := 0, currentBlock := 0 } w p.2 required).1
      if code = IN3_WAITING then .waiting
      else if code.isNeg then .rejected
      else .accepted

/-- The state after the body of the loop of `find_valid_result` has run on the
nodes `0 .. k-1`. -/
def scan_nodes (host : host_t) (verifier : Option in3_verifier_t) (ci : Nat) (k : Nat) (w : world_t)
    (ctx : in3_ctx_t) (required : List in3_ctx_t) : world_t × in3_ctx_t × List in3_ctx_t :=
  (List.range k).foldl (fun st n => (check_node host verifier ci n st.1 st.2.1 st.2.2).2) (w, ctx, required)

/-- The verdict on node `i` in the state in which the loop reaches it. -/
def verdict_at (host : host_t) (verifier : Option in3_verifier_t) (ci : Nat) (w : world_t)
    (ctx : in3_ctx_t) (required : List in3_ctx_t) (i : Nat) : verdict_t :=
  node_verdict host verifier ci i (scan_nodes host verifier ci i w ctx required).1
    (scan_nodes host verifier ci i w ctx required).2.1 (scan_nodes host verifier ci i w ctx required).2.2

/-- The weight record `chains[c].weights[x]`. -/
def weight_at (w : world_t) (c x : Nat) : Option in3_node_weight_t := (arr (chain_at w c).weights)[x]?

/-- Every chosen wrapper still carries its weight pointer, and the pointer
lies within the weight array of its chain. -/
def valid_wrappers (w : world_t) (ctx : in3_ctx_t) : Prop :=
  ∀ nw ∈ ctx.nodes, ∃ x, nw.weight = some x ∧ nw.chain < w.c.chains.length ∧
    x < (arr (chain_at w nw.chain).weights).length

/-- The chain array and the weight arrays have the same lengths in both states. -/
def same_shape (w w' : world_t) : Prop :=
  w'.c.chains.length = w.c.chains.length ∧
  ∀ c, (arr (chain_at w' c).weights).length = (arr (chain_at w c).weights).length

/-- What `find_valid_result` has done to the nodes when it stops at node `j`,
from the state `w`, `ctx` to the state `w'`, `ctx'`: the wrappers below `j`
have lost their weight pointer and their weight records carry a blacklist mark
`_time() + 3600000`; the wrappers from `j` on and every weight record no
wrapper below `j` points to are as before. -/
def blacklisted_below (host : host_t) (w w' : world_t) (ctx ctx' : in3_ctx_t) (j : Nat) : Prop :=
  same_shape w w' ∧
  ctx'.nodes.length = ctx.nodes.length ∧
  (∀ k, j ≤ k → ctx'.nodes[k]? = ctx.nodes[k]?) ∧
  (∀ i nw, i < j → ctx.nodes[i]? = some nw → ctx'.nodes[i]? = some { nw with weight := none }) ∧
  (∀ i nw x, i < j → ctx.nodes[i]? = some nw → nw.weight = some x →
    ∃ t rec, weight_at w' nw.chain x = some rec ∧
      rec.blacklisted_until = to_uint64 (host.time t + 3600000)) ∧
  (∀ c x, (∀ i nw, i < j → ctx.nodes[i]? = some nw → ¬ (nw.chain = c ∧ nw.weight = some x)) →
    weight_at w' c x = weight_at w c x)

/-- A context whose only wrapper lost its weight pointer in an earlier round and
whose slot holds a good answer. -/
def stale_ctx : in3_ctx_t :=
  { ex_ctx with
    nodes := [{ ex_wrapper 0 with weight := none }]
    raw_response := some [{ error := "", result := "[1]" }] }

/-- A context with both nodes of `two_node_chain` chosen: the first slot holds
an error, the second a good answer. -/
def mixed_ctx : in3_ctx_t :=
  { ex_ctx with
    nodes := [ex_wrapper 0, ex_wrapper 1]
    raw_response := some [{ error := "no connection", result := "" }, { error := "", result := "[1]" }] }

/-- The chain array keeps its length and every chain its weight array. -/
def same_weights (w w' : world_t) : Prop :=
  w'.c.chains.length = w.c.chains.length ∧ ∀ c, (chain_at w' c).weights = (chain_at w c).weights

/-! ## Sampling ranges, property words and the score divisor -/

/-- The test of the specification for a draw `r = total_weight * x / 10000`:
`r` lies in the half-open range `[s, s + w)` of the candidate.  The draw and
the sum `s + w` are computed as in `draw_hits`. -/
def half_open_hits (total_weight : c_float) (x : Nat) (current : node_weight_t) : Bool :=
  match float_mul total_weight (float_of_nat x) with
  | .nan => false
  | .inf => false
  | .fin P =>
    let r := draw_value P
    (match current.s with
      | .fin a => decide (a * r.2 ≤ r.1)
      | _ => false) &&
    (match float_add current.s current.w with
      | .fin b => decide (r.1 < b * r.2)
      | .inf => true
      | .nan => false)

/-- A host whose `_rand()` always returns `x`. -/
def fixed_draw_host (x : Nat) : host_t :=
  { failing_host 1000 with rand := fun _ => x }

/-- A weight record with an average response time of 600 ms: its score is
`1 x capacity x (500 div 600) = 0`. -/
def slow_weight : in3_node_weight_t :=
  { weight := 1, response_count := 1, total_response_time := 600, blacklisted_until := 0 }

/-- The two-node chain whose first node has the weight record `slow_weight`. -/
def slow_first_chain : in3_chain_t :=
  ex_chain [ex_node 0x11 "http://a", ex_node 0x22 "http://b"] [slow_weight, ex_weight] 0 none

/-- The client state of the boundary draw: two nodes, one requested. -/
def one_of_two_world : world_t := ex_world (ex_client two_node_chain 3 1 0)

/-- The client state of the zero-weight draw: two nodes, one requested. -/
def slow_first_world : world_t := ex_world (ex_client slow_first_chain 3 1 0)

/-- The 8-bit minimum-block-height field of a property word: bits 32 to 39. -/
def height_field (np : in3_node_props_t) : Nat := (np / 2 ^ 32) % 256

/-- `in3_node_props_set(&node_props, type, value)` with `value` a `uint8_t`:
the new property word (64 bits). -/
def in3_node_props_set (node_props : in3_node_props_t) (type : in3_node_props_t) (value : Nat) :
    in3_node_props_t :=
  if type = NODE_PROP_MIN_BLOCK_HEIGHT then
    let dp_ := (value % 256) &&& 0xFF
    (node_props &&& 0xFFFFFFFF) ||| (dp_ <<< 32)
  else if value % 256 ≠ 0 then node_props ||| type
  else node_props &&& (UINT64 - 1 - type)

/-- A weight record with three responses in 2 ms. -/
def quick_weight : in3_node_weight_t :=
  { weight := 1, response_count := 3, total_response_time := 2, blacklisted_until := 0 }

/-! ## The autoupdate flags -/

/-- The chain record after `check_autoupdate` in the words of the
specification: `needs_update |= (lastNodeList > last_block)` and, when the
chain has a whitelist, `whitelist.needs_update |= (lastWhiteList >
whitelist.last_block)`; every other field as before. -/
def autoupdate_flags (chain : in3_chain_t) (response_in3 : in3_token) : in3_chain_t :=
  { chain with
    needs_update := chain.needs_update || decide (response_in3.lastNodeList > chain.last_block)
    whitelist := chain.whitelist.map fun wl =>
      { wl with needs_update := wl.needs_update || decide (response_in3.lastWhiteList > wl.last_block) } }

/-- An `in3` section that reports nodelist block 9 and whitelist block 0. -/
def newer_in3 : in3_token :=
  { lastNodeList := 9, lastWhiteList := 0, lastValidatorChange := 0, currentBlock := 0, proof := none }

/-! ## Request urls, stale errors and the chain of required contexts -/

/-- A client that asks for plain http. -/
def http_world : world_t := ex_world { ex_client two_node_chain 3 2 0 with use_http := true }

/-- A context with both nodes of `two_node_chain` chosen and no response yet. -/
def chosen_ctx : in3_ctx_t := { ex_ctx with nodes := [ex_wrapper 0, ex_wrapper 1] }

/-- A host whose decoder accepts the text `[1]` only; its verifier accepts
every response. -/
def picky_host : host_t :=
  { good_host with parse := fun s => if s = "[1]" then good_host.parse s else none }

/-- A context with both nodes of `two_node_chain` chosen: the first slot holds
a text that does not parse, the second a good answer. -/
def garbled_ctx : in3_ctx_t :=
  { ex_ctx with
    nodes := [ex_wrapper 0, ex_wrapper 1]
    raw_response := some [{ error := "", result := "x" }, { error := "", result := "[1]" }] }

/-- A refresh result of block 9 whose only entry is complete. -/
def valid_result_9 : result_token :=
  { raw := "", nodes := some [ex_token (some (ex_addr 0xbb)) (some "http://b") 0], lastBlockNumber := some 9 }

/-- The first request of the context has the method `m`. -/
def has_method (c : in3_ctx_t) (m : String) : Bool :=
  decide (((arr c.requests).head?.bind fun r => r.method) = some m)

/-- A context whose request text was not parsed (`requests` is `NULL`). -/
def unparsed_ctx : in3_ctx_t := { ex_ctx with requests := none, request_context := false }

/-- Three contexts that differ in their attempt counters. -/
def ctx_a : in3_ctx_t := { ex_ctx with attempt := 1 }

def ctx_b : in3_ctx_t := { ex_ctx with attempt := 2 }

def ctx_c : in3_ctx_t := { ex_ctx with attempt := 3 }

/-- An executor that returns `IN3_WAITING` and changes nothing. -/
def waiting_exec : world_t → in3_ctx_t → List in3_ctx_t → step_t :=
  fun w ctx required => some (IN3_WAITING, w, ctx, required)
/-! ## Theorems -/

theorem arr_none {α : Type} : arr (none : Option (List α)) = [] := rfl

theorem arr_some {α : Type} (p : List α) : arr (some p) = p := rfl

theorem length_calloc {α : Type} [Inhabited α] (n : Nat) : (_calloc n : List α).length = n := by
  simp [_calloc]

theorem length_realloc {α : Type} [Inhabited α] (p : List α) (n : Nat) : (_realloc p n).length = n := by
  simp [_realloc]

theorem parallel_default : parallel default := by
  simp [parallel, arr, default, instInhabitedIn3_chain_t]

theorem client_parallel_set (c : in3_t) (i : Nat) (chain : in3_chain_t)
    (hc : client_parallel c) (h : parallel chain) : client_parallel (set_chain c i chain) := by
  intro x hx
  rcases List.mem_or_eq_of_mem_set hx with hx | hx
  · exact hc x hx
  · exact hx ▸ h

theorem mem_init_next (p : Prop) [Decidable p] (l : List in3_chain_t) (a x : in3_chain_t)
    (h : x ∈ init_next p l a) : x ∈ l ∨ x = a := by
  unfold init_next at h
  split at h
  · simpa using h
  · exact Or.inl h

theorem client_init_chains (chain_id : chain_id_t) (x : in3_chain_t)
    (h : x ∈ (in3_client_init chain_id).2.chains) :
    x = init_mainnet ∨ x = init_kovan ∨ x = init_goerli ∨ x = init_ipfs ∨ x = init_local := by
  have h2 : x ∈ init_next (chain_id = 0 ∨ chain_id = ETH_CHAIN_ID_LOCAL)
      (init_next (chain_id = 0 ∨ chain_id = ETH_CHAIN_ID_IPFS)
        (init_next (chain_id = 0 ∨ chain_id = ETH_CHAIN_ID_GOERLI)
          (init_next (chain_id = 0 ∨ chain_id = ETH_CHAIN_ID_KOVAN)
            (init_next (chain_id = 0 ∨ chain_id = ETH_CHAIN_ID_MAINNET) [] init_mainnet)
            init_kovan) init_goerli) init_ipfs) init_local := by
    unfold in3_client_init at h
    simp only [] at h
    split at h <;> exact h
  rcases mem_init_next _ _ _ _ h2 with h3 | h3
  · rcases mem_init_next _ _ _ _ h3 with h4 | h4
    · rcases mem_init_next _ _ _ _ h4 with h5 | h5
      · rcases mem_init_next _ _ _ _ h5 with h6 | h6
        · rcases mem_init_next _ _ _ _ h6 with h7 | h7
          · simp at h7
          · exact Or.inl h7
        · exact Or.inr (Or.inl h6)
      · exact Or.inr (Or.inr (Or.inl h5))
    · exact Or.inr (Or.inr (Or.inr (Or.inl h4)))
  · exact Or.inr (Or.inr (Or.inr (Or.inr h3)))

theorem client_init_parallel (chain_id : chain_id_t) : client_parallel (in3_client_init chain_id).2 := by
  intro x hx
  rcases client_init_chains chain_id x hx with h | h | h | h | h <;> subst h <;> decide

theorem add_node_parallel (c : in3_t) (hc : client_parallel c) (chain_id : chain_id_t) (url : String)
    (props : in3_node_props_t) (address : address_t) :
    client_parallel (in3_client_add_node c chain_id url props address).2 := by
  unfold in3_client_add_node
  split
  · exact hc
  · split
    · exact hc
    · rename_i ci chain hget
      have hp := hc chain (List.getElem?_mem hget)
      apply client_parallel_set _ _ _ hc
      cases hf : find_node_index chain address with
      | none =>
        cases hn : chain.nodelist <;> cases hw : chain.weights <;>
          simp [parallel, arr, length_calloc, length_realloc]
      | some j =>
        obtain ⟨h1, h2⟩ := hp
        cases hn : chain.nodelist <;> cases hw : chain.weights <;>
          simp_all [parallel, arr]


theorem length_memmove_take {α : Type} (p : List α) (i n : Nat) (h : p.length = n) :
    ((memmove p i (i + 1) (n - 1 - i)).take (n - 1)).length = n - 1 := by
  simp [memmove]
  omega

theorem remove_node_parallel (c : in3_t) (hc : client_parallel c) (chain_id : chain_id_t)
    (address : address_t) : client_parallel (in3_client_remove_node c chain_id address).2 := by
  unfold in3_client_remove_node
  split
  · exact hc
  · split
    · exact hc
    · rename_i ci chain hget
      obtain ⟨h1, h2⟩ := hc chain (List.getElem?_mem hget)
      split
      · exact hc
      · rename_i node_index hfind
        apply client_parallel_set _ _ _ hc
        split
        · simp [parallel, arr, *]
        · rename_i hne
          by_cases hm : node_index < chain.nodelist_length - 1
          · cases hn : chain.nodelist with
            | none => simp [arr, hn] at h1; omega
            | some p =>
              cases hw : chain.weights with
              | none => simp [arr, hw] at h2; omega
              | some q =>
                simp only [arr, hn, hw, Option.getD_some] at h1 h2
                simp only [parallel, arr, hm, decide_True, if_true, Option.map_some', Option.getD_some]
                exact ⟨length_memmove_take p _ _ h1, length_memmove_take q _ _ h2⟩
          · cases hn : chain.nodelist with
            | none => simp [arr, hn] at h1; omega
            | some p =>
              cases hw : chain.weights with
              | none => simp [arr, hw] at h2; omega
              | some q =>
                simp only [arr, hn, hw, Option.getD_some] at h1 h2
                simp [parallel, arr, hm, h1, h2]

theorem clear_nodes_parallel (c : in3_t) (hc : client_parallel c) (chain_id : chain_id_t) :
    client_parallel (in3_client_clear_nodes c chain_id).2 := by
  unfold in3_client_clear_nodes
  split
  · exact hc
  · split
    · exact hc
    · exact client_parallel_set _ _ _ hc (by simp [parallel, arr])

theorem register_chain_parallel (c : in3_t) (hc : client_parallel c) (chain_id : chain_id_t)
    (type : in3_chain_type_t) (contract : address_t) (registry_id : List Nat) (version : Nat)
    (wl_contract : Option address_t) :
    client_parallel (in3_client_register_chain c chain_id type contract registry_id version wl_contract).2 := by
  unfold in3_client_register_chain
  simp only []
  split
  · intro x hx
    simp only [] at hx
    rcases List.mem_or_eq_of_mem_set hx with hx | hx
    · have hx2 := List.mem_of_mem_take hx
      rcases List.mem_append.1 hx2 with h | h
      · exact hc x h
      · rw [List.eq_of_mem_replicate h]; exact parallel_default
    · subst hx; simp [parallel, arr]
  · split
    · exact hc
    · rename_i i chain hget
      obtain ⟨h1, h2⟩ := hc chain (List.getElem?_mem hget)
      exact client_parallel_set _ _ _ hc ⟨h1, h2⟩

theorem fill_chain_loop_length (chain : in3_chain_t) (now : Nat) (ctx : in3_ctx_t) (nodes : List node_token) :
    ∀ (i : Nat) (newList : List in3_node_t) (weights : List in3_node_weight_t),
      (fill_chain_loop chain now ctx nodes i newList weights).2.2.1.length = newList.length ∧
      (fill_chain_loop chain now ctx nodes i newList weights).2.2.2.length = weights.length := by
  induction nodes with
  | nil => intro i newList weights; simp [fill_chain_loop]
  | cons node rest ih =>
    intro i newList weights
    unfold fill_chain_loop
    simp only []
    split
    · simp
    · split
      · simp
      · rw [(ih _ _ _).1, (ih _ _ _).2]; simp

theorem fill_chain_parallel (chain : in3_chain_t) (ctx : in3_ctx_t) (result : result_token) (_now : Int)
    (h : parallel chain) : parallel (fill_chain chain ctx result _now).2.1 := by
  unfold fill_chain
  simp only []
  split
  · exact h
  · split
    · exact h
    · split
      · split
        · simp only [parallel, arr, Option.getD_some]
          rw [(fill_chain_loop_length _ _ _ _ _ _ _).1, (fill_chain_loop_length _ _ _ _ _ _ _).2]
          simp [length_calloc]
        · exact h
      · exact h


theorem fill_chain_loop_frame (chain : in3_chain_t) (now : Nat) (ctx : in3_ctx_t) (nodes : List node_token) :
    ∀ (i : Nat) (newList : List in3_node_t) (weights : List in3_node_weight_t) (j : Nat), j < i →
      (fill_chain_loop chain now ctx nodes i newList weights).2.2.1[j]? = newList[j]? ∧
      (fill_chain_loop chain now ctx nodes i newList weights).2.2.2[j]? = weights[j]? := by
  induction nodes with
  | nil => intro i newList weights j _; simp [fill_chain_loop]
  | cons node rest ih =>
    intro i newList weights j hj
    have hne : i ≠ j := by omega
    unfold fill_chain_loop
    simp only []
    split
    · simp [List.getElem?_set_ne hne]
    · split
      · simp [List.getElem?_set_ne hne]
      · rw [(ih _ _ _ j (by omega)).1, (ih _ _ _ j (by omega)).2]
        simp [List.getElem?_set_ne hne]

theorem ctx_set_error_fst (ctx : in3_ctx_t) (msg : String) (code : in3_ret_t) :
    (ctx_set_error ctx msg code).1 = code := rfl

theorem fill_chain_loop_entry (chain : in3_chain_t) (now : Nat) (ctx : in3_ctx_t) (nodes : List node_token) :
    ∀ (i : Nat) (newList : List in3_node_t) (weights : List in3_node_weight_t),
      (fill_chain_loop chain now ctx nodes i newList weights).1 = IN3_OK →
      ∀ (k : Nat) (tok : node_token), nodes[k]? = some tok →
        ∃ a, tok.address = some a ∧ tok.url.isSome ∧
          (i + k < newList.length →
            (fill_chain_loop chain now ctx nodes i newList weights).2.2.1[i + k]? =
              some (entry_node (i + k) tok (newList.getD (i + k) default))) ∧
          (i + k < weights.length →
            (fill_chain_loop chain now ctx nodes i newList weights).2.2.2[i + k]? =
              some (entry_weight chain now (i + k) tok.registerTime a (weights.getD (i + k) default))) := by
  induction nodes with
  | nil => intro i newList weights _ k tok hk; simp at hk
  | cons node rest ih =>
    intro i newList weights hok k tok hk
    unfold fill_chain_loop at hok ⊢
    simp only [] at hok ⊢
    cases haddr : node.address with
    | none => simp [haddr, ctx_set_error_fst] at hok
    | some a =>
      cases hurl : node.url with
      | none => simp [haddr, hurl, ctx_set_error_fst] at hok
      | some u =>
        simp only [haddr, hurl] at hok ⊢
        cases k with
        | zero =>
          simp only [List.getElem?_cons_zero, Option.some.injEq] at hk
          subst hk
          refine ⟨a, haddr, by simp [hurl], ?_, ?_⟩
          · intro hlt
            simp only [Nat.add_zero] at hlt ⊢
            rw [(fill_chain_loop_frame chain now ctx rest (i + 1) _ _ i (by omega)).1]
            simp [List.getElem?_set, hlt]
          · intro hlt
            simp only [Nat.add_zero] at hlt ⊢
            rw [(fill_chain_loop_frame chain now ctx rest (i + 1) _ _ i (by omega)).2]
            simp [List.getElem?_set, hlt]
        | succ k =>
          simp only [List.getElem?_cons_succ] at hk
          obtain ⟨a2, h1, h2, h3, h4⟩ := ih (i + 1) _ _ hok k tok hk
          have e : i + (k + 1) = i + 1 + k := by omega
          have hne : i ≠ i + 1 + k := by omega
          refine ⟨a2, h1, h2, ?_, ?_⟩
          · intro hlt
            rw [e]
            rw [h3 (by simpa [e] using hlt)]
            simp [List.getElem?_set_ne hne]
          · intro hlt
            rw [e]
            rw [h4 (by simpa [e] using hlt)]
            simp [List.getElem?_set_ne hne]

theorem find_range_unique (n : Nat) (p : Nat → Bool) (j : Nat) (hj : j < n) (hp : p j = true)
    (huniq : ∀ k, k < n → p k = true → k = j) : (List.range n).find? p = some j := by
  cases h : (List.range n).find? p with
  | none =>
    rw [List.find?_eq_none] at h
    exact absurd hp (h j (List.mem_range.2 hj))
  | some x =>
    have h1 := List.find?_some h
    have h2 := List.mem_range.1 (List.mem_of_find?_eq_some h)
    rw [huniq x h2 h1]

theorem find_old_index_unique (chain : in3_chain_t) (hd : distinct_addresses chain) (i j : Nat)
    (old : in3_node_t) (hj : j < chain.nodelist_length) (hold : (arr chain.nodelist)[j]? = some old) :
    find_old_index chain i old.address = some j := by
  unfold find_old_index
  simp only []
  split
  · rename_i hsame
    cases hi : (arr chain.nodelist)[i]? with
    | none => simp [hi] at hsame
    | some oi =>
      simp [hi, b_cmp] at hsame
      rw [hd i j oi old hsame.1 hj hi hold hsame.2]
  · apply find_range_unique _ _ j hj
    · simp [hold, b_cmp]
    · intro k hk hpk
      cases hkk : (arr chain.nodelist)[k]? with
      | none => simp [hkk] at hpk
      | some ok =>
        simp [hkk, b_cmp] at hpk
        exact hd k j ok old hk hj hkk hold hpk

/-- C6: every chain of a client produced by `in3_client_init` has exactly
`nodelist_length` node records and `nodelist_length` weight records, and
`in3_client_add_node`, `in3_client_remove_node`, `in3_client_clear_nodes`,
`in3_client_register_chain` and `fill_chain` (accepted, no-op or failed) keep
it so for every chain. -/
theorem C6_parallel_arrays :
    (∀ chain_id, client_parallel (in3_client_init chain_id).2) ∧
    (∀ c, client_parallel c →
      (∀ chain_id url props address, client_parallel (in3_client_add_node c chain_id url props address).2) ∧
      (∀ chain_id address, client_parallel (in3_client_remove_node c chain_id address).2) ∧
      (∀ chain_id, client_parallel (in3_client_clear_nodes c chain_id).2) ∧
      (∀ chain_id type contract registry_id version wl_contract,
        client_parallel (in3_client_register_chain c chain_id type contract registry_id version wl_contract).2)) ∧
    (∀ chain ctx result _now, parallel chain → parallel (fill_chain chain ctx result _now).2.1) :=
  ⟨client_init_parallel,
   fun c hc => ⟨add_node_parallel c hc, remove_node_parallel c hc, clear_nodes_parallel c hc,
     register_chain_parallel c hc⟩,
   fun chain ctx result _now h => fill_chain_parallel chain ctx result _now h⟩

/-- C6 at a concrete client: the freshly initialised client after adding a node
to mainnet and removing a boot node still has parallel arrays. -/
theorem C6_parallel_arrays_witness :
    client_parallel (in3_client_init 0).2 ∧
    client_parallel (in3_client_remove_node
      (in3_client_add_node (in3_client_init 0).2 1 "http://n" 0xFF (List.replicate 20 0xaa)).2 1
      (hex_to_new_bytes "45d45e6ff99e6c34a235d263965910298985fcfe" 40)).2 :=
  ⟨C6_parallel_arrays.1 0,
   ((C6_parallel_arrays.2.1 _ ((C6_parallel_arrays.2.1 _ (C6_parallel_arrays.1 0)).1 1 "http://n" 0xFF
      (List.replicate 20 0xaa))).2.1 1 _)⟩



theorem fill_chain_accept (chain : in3_chain_t) (ctx : in3_ctx_t) (result : result_token) (_now : Int)
    (nodes : List node_token) (last_block : Nat)
    (hnodes : result.nodes = some nodes) (hlb : result.lastBlockNumber = some last_block)
    (hnew : last_block > chain.last_block) :
    fill_chain chain ctx result _now =
      let chain1 := { chain with last_block := last_block }
      let r := fill_chain_loop chain1 (to_uint64 (max 0 _now)) ctx nodes 0
        (_calloc nodes.length) (_calloc nodes.length)
      if r.1 = IN3_OK then
        (r.1, { chain1 with nodelist := some r.2.2.1, nodelist_length := nodes.length, weights := some r.2.2.2 },
          r.2.1)
      else (r.1, chain1, r.2.1) := by
  unfold fill_chain
  simp only [hnodes, hlb, if_pos hnew]

/-- C7 (amended): after a refresh that `fill_chain` accepts, a node of the new
list whose address occurred in the old list (addresses pairwise distinct) has
a weight record with the old `response_count`, `total_response_time` and
`weight`; its `blacklisted_until` is the old one unless the registration-grace
rule applies to the entry, in which case it is `registerTime + DAY`. -/
theorem C7_refresh_keeps_known_weights
    (chain : in3_chain_t) (ctx : in3_ctx_t) (result : result_token) (_now : Int)
    (nodes : List node_token) (last_block : Nat) (chain' : in3_chain_t) (ctx' : in3_ctx_t)
    (hd : distinct_addresses chain)
    (hnodes : result.nodes = some nodes) (hlb : result.lastBlockNumber = some last_block)
    (hnew : last_block > chain.last_block)
    (hok : fill_chain chain ctx result _now = (IN3_OK, chain', ctx'))
    (i j : Nat) (tok : node_token) (new_node old : in3_node_t) (old_w : in3_node_weight_t)
    (htok : nodes[i]? = some tok)
    (hnewnode : (arr chain'.nodelist)[i]? = some new_node)
    (hj : j < chain.nodelist_length) (hold : (arr chain.nodelist)[j]? = some old)
    (hw : (arr chain.weights)[j]? = some old_w)
    (haddr : new_node.address = old.address) :
    ∃ w, (arr chain'.weights)[i]? = some w ∧
      w.response_count = old_w.response_count ∧
      w.total_response_time = old_w.total_response_time ∧
      w.weight = old_w.weight ∧
      w.blacklisted_until =
        if grace_applies (to_uint64 (max 0 _now)) tok.registerTime then (tok.registerTime + DAY) % UINT64
        else old_w.blacklisted_until := by
  rw [fill_chain_accept chain ctx result _now nodes last_block hnodes hlb hnew] at hok
  simp only [] at hok
  split at hok
  · rename_i hr
    have hi : i < nodes.length := by
      rcases Nat.lt_or_ge i nodes.length with h | h
      · exact h
      · rw [List.getElem?_eq_none h] at htok; cases htok
    obtain ⟨a, ha, _, hn, hwt⟩ := fill_chain_loop_entry _ _ _ _ _ _ _ hr i tok htok
    have hn2 := hn (by simp [length_calloc, hi])
    have hw2 := hwt (by simp [length_calloc, hi])
    simp only [Nat.zero_add] at hn2 hw2
    simp only [Prod.mk.injEq] at hok
    obtain ⟨_, hc, _⟩ := hok
    subst hc
    simp only [arr, Option.getD_some] at hnewnode ⊢
    rw [hn2] at hnewnode
    simp only [Option.some.injEq] at hnewnode
    have hnaddr : new_node.address = a := by rw [← hnewnode]; simp [entry_node, ha]
    have hfind : find_old_index { chain with last_block := last_block } i a = some j := by
      have hd2 : distinct_addresses { chain with last_block := last_block } := hd
      have := find_old_index_unique { chain with last_block := last_block } hd2 i j old hj hold
      rw [← haddr, hnaddr] at this
      exact this
    refine ⟨_, hw2, ?_⟩
    have hget : (arr chain.weights).getD j default = old_w := by
      simp only [arr] at hw
      simp [arr, hw]
    unfold entry_weight
    simp only [hfind, hget]
    split <;> simp
  · simp at hok
    exact absurd hok.1 (by assumption)

theorem C7_chain_distinct : distinct_addresses C7_chain := by
  intro j1 j2 n1 n2 h1 h2 _ _ _
  simp [C7_chain, ex_chain] at h1 h2
  omega

/-- C7 as stated fails: the surviving address `0xaa..aa`, registered at time
1000 and refreshed at time 1001, gets `blacklisted_until = 1000 + DAY` in place
of the 0 of its old weight record. -/
theorem C7_counterexample :
    distinct_addresses C7_chain ∧
    (fill_chain C7_chain ex_ctx C7_result 1001).1 = IN3_OK ∧
    C7_result.lastBlockNumber = some 1 ∧ 1 > C7_chain.last_block ∧
    ((arr (fill_chain C7_chain ex_ctx C7_result 1001).2.1.nodelist).map fun n => n.address) =
      ((arr C7_chain.nodelist).map fun n => n.address) ∧
    ((arr C7_chain.weights).map fun w => w.blacklisted_until) = [0] ∧
    ((arr (fill_chain C7_chain ex_ctx C7_result 1001).2.1.weights).map fun w => w.blacklisted_until) = [63400] :=
  ⟨C7_chain_distinct, by decide, rfl, by decide, by decide, by decide, by decide⟩


/-- C7 (amended) at a concrete refresh: the surviving node keeps its response
statistics and weight, and the grace rule sets its blacklist time. -/
theorem C7_refresh_keeps_known_weights_witness :
    ∃ w, (arr (fill_chain C7_chain ex_ctx C7_result 1001).2.1.weights)[0]? = some w ∧
      w.response_count = 5 ∧ w.total_response_time = 700 ∧ w.weight = 1 ∧
      w.blacklisted_until = 63400 :=
  C7_refresh_keeps_known_weights C7_chain ex_ctx C7_result 1001
    [ex_token (some (ex_addr 0xaa)) (some "http://a") 1000] 1
    (fill_chain C7_chain ex_ctx C7_result 1001).2.1 (fill_chain C7_chain ex_ctx C7_result 1001).2.2
    C7_chain_distinct rfl rfl (by decide) (by decide) 0 0
    (ex_token (some (ex_addr 0xaa)) (some "http://a") 1000)
    { ex_node 0xaa "http://a" with props := 65535 } (ex_node 0xaa "http://a")
    { weight := 1, response_count := 5, total_response_time := 700, blacklisted_until := 0 }
    rfl (by decide) (by decide) rfl rfl rfl

/-- C8: a refresh result with a nodes array and a `lastBlockNumber` that is not
strictly greater than `chain.last_block` makes `fill_chain` return `IN3_OK` and
leaves the chain (nodes, order, weight records, `last_block`) and the context
unchanged. -/
theorem C8_stale_refresh_is_noop (chain : in3_chain_t) (ctx : in3_ctx_t) (result : result_token)
    (_now : Int) (nodes : List node_token) (last_block : Nat)
    (hnodes : result.nodes = some nodes) (hlb : result.lastBlockNumber = some last_block)
    (hle : last_block ≤ chain.last_block) :
    fill_chain chain ctx result _now = (IN3_OK, chain, ctx) := by
  unfold fill_chain
  simp only [hnodes, hlb, if_neg (Nat.not_lt.2 hle)]

/-- C8 at a concrete chain of block 5 offered a result of block 3. -/
theorem C8_stale_refresh_is_noop_witness :
    fill_chain C9_chain ex_ctx C9_result 1001 = (IN3_OK, C9_chain, ex_ctx) :=
  C8_stale_refresh_is_noop C9_chain ex_ctx C9_result 1001 _ 3 rfl rfl (by decide)

theorem fill_chain_loop_bad (chain : in3_chain_t) (now : Nat) (ctx : in3_ctx_t) (nodes : List node_token)
    (hbad : ∃ tok ∈ nodes, tok.address = none ∨ tok.url = none) :
    ∀ (i : Nat) (newList : List in3_node_t) (weights : List in3_node_weight_t),
      (fill_chain_loop chain now ctx nodes i newList weights).1 = IN3_EINVALDT := by
  induction nodes with
  | nil => obtain ⟨tok, h, _⟩ := hbad; simp at h
  | cons node rest ih =>
    intro i newList weights
    unfold fill_chain_loop
    simp only []
    cases haddr : node.address with
    | none => simp [ctx_set_error_fst]
    | some a =>
      cases hurl : node.url with
      | none => simp [ctx_set_error_fst]
      | some u =>
        simp only []
        apply ih
        obtain ⟨tok, hmem, h⟩ := hbad
        rcases List.mem_cons.1 hmem with h1 | h1
        · subst h1
          rcases h with h | h
          · rw [haddr] at h; cases h
          · rw [hurl] at h; cases h
        · exact ⟨tok, h1, h⟩

/-- C9 (amended): when the nodes array or `lastBlockNumber` is missing,
`fill_chain` returns `IN3_EINVALDT` and leaves the chain as it was; when some
node entry lacks its address or url and `lastBlockNumber` is strictly greater
than `chain.last_block`, it returns `IN3_EINVALDT` and the nodelist, the
weights and `nodelist_length` are what they were; when such a result is not
newer than `chain.last_block` the entries are not inspected and the call is
the no-op returning `IN3_OK`. -/
theorem C9_missing_field_keeps_nodelist (chain : in3_chain_t) (ctx : in3_ctx_t) (result : result_token)
    (_now : Int) :
    (result.nodes = none ∨ result.lastBlockNumber = none →
      (fill_chain chain ctx result _now).1 = IN3_EINVALDT ∧ (fill_chain chain ctx result _now).2.1 = chain) ∧
    (∀ nodes last_block, result.nodes = some nodes → result.lastBlockNumber = some last_block →
      (∃ tok ∈ nodes, tok.address = none ∨ tok.url = none) →
      (last_block > chain.last_block →
        (fill_chain chain ctx result _now).1 = IN3_EINVALDT ∧
        (fill_chain chain ctx result _now).2.1.nodelist = chain.nodelist ∧
        (fill_chain chain ctx result _now).2.1.weights = chain.weights ∧
        (fill_chain chain ctx result _now).2.1.nodelist_length = chain.nodelist_length) ∧
      (last_block ≤ chain.last_block → fill_chain chain ctx result _now = (IN3_OK, chain, ctx))) := by
  constructor
  · intro h
    unfold fill_chain
    cases hn : result.nodes with
    | none => simp [ctx_set_error_fst]
    | some nodes =>
      cases hl : result.lastBlockNumber with
      | none => simp [ctx_set_error_fst]
      | some lb => rcases h with h | h <;> simp_all
  · intro nodes last_block hnodes hlb hbad
    constructor
    · intro hnew
      rw [fill_chain_accept chain ctx result _now nodes last_block hnodes hlb hnew]
      simp only []
      rw [fill_chain_loop_bad _ _ _ _ hbad]
      simp
    · intro hle
      unfold fill_chain
      simp only [hnodes, hlb, if_neg (Nat.not_lt.2 hle)]

/-- C9 as stated fails: a result of block 3 whose only node entry has no
address, offered to a chain at block 5, is answered with `IN3_OK`, not with
`IN3_EINVALDT`. -/
theorem C9_counterexample :
    C9_result.nodes = some [ex_token none (some "http://a") 0] ∧
    (ex_token none (some "http://a") 0).address = none ∧
    (fill_chain C9_chain ex_ctx C9_result 1001).1 = IN3_OK ∧
    (fill_chain C9_chain ex_ctx C9_result 1001).1 ≠ IN3_EINVALDT := by
  decide

/-- C9 (amended) at concrete inputs: the entry without address is rejected
with the nodelist kept when the result is newer (block 9 on a chain at block
5), and ignored when it is older (block 3). -/
theorem C9_missing_field_keeps_nodelist_witness :
    ((fill_chain C9_chain ex_ctx C9_result_new 1001).1 = IN3_EINVALDT ∧
      (fill_chain C9_chain ex_ctx C9_result_new 1001).2.1.nodelist = C9_chain.nodelist ∧
      (fill_chain C9_chain ex_ctx C9_result_new 1001).2.1.weights = C9_chain.weights ∧
      (fill_chain C9_chain ex_ctx C9_result_new 1001).2.1.nodelist_length = C9_chain.nodelist_length) ∧
    fill_chain C9_chain ex_ctx C9_result 1001 = (IN3_OK, C9_chain, ex_ctx) :=
  ⟨((C9_missing_field_keeps_nodelist C9_chain ex_ctx C9_result_new 1001).2 _ 9 rfl rfl
      ⟨_, List.mem_singleton.2 rfl, Or.inl rfl⟩).1 (by decide),
   ((C9_missing_field_keeps_nodelist C9_chain ex_ctx C9_result 1001).2 _ 3 rfl rfl
      ⟨_, List.mem_singleton.2 rfl, Or.inl rfl⟩).2 (by decide)⟩

/-- C10 fails on the code: `in3_client_run_chain_whitelisting` hands `memcmp`
the pointer `nodelist[j].address`, a `bytes_t*`, so a node's flag is decided by
the memory of its `bytes_t` record and not by its 20 address bytes; and the
loop `for (i = 0; i < addresses.len / 20; i += 20)` reads the first of two
whitelist entries only.  On the chain with the nodes `0x11..11`, `0x22..22`
and a whitelist of exactly these two addresses, the flag of node `j` is
`true` if and only if the first entry equals the record memory of node `j`,
whatever that memory is; on a 64-bit host no node is flagged; and where the
memory read were the address bytes themselves, the second node would still not
be flagged. -/
theorem C10_whitelisting_reads_record :
    (C10_chain.whitelist.map fun wl => wl.addresses) = some (ex_addr 0x11 ++ ex_addr 0x22) ∧
    ((arr C10_chain.nodelist).map fun n => n.address) = [ex_addr 0x11, ex_addr 0x22] ∧
    (∀ record_image : bytes_t → bytes_t,
      ((arr (in3_client_run_chain_whitelisting record_image C10_chain).nodelist).map
        fun n => n.whitelisted) =
        [memcmp_eq (ex_addr 0x11) (record_image (ex_addr 0x11)) 20,
         memcmp_eq (ex_addr 0x11) (record_image (ex_addr 0x22)) 20]) ∧
    ((arr (in3_client_run_chain_whitelisting ex_image C10_chain).nodelist).map
      fun n => n.whitelisted) = [false, false] ∧
    ((arr (in3_client_run_chain_whitelisting id C10_chain).nodelist).map
      fun n => n.whitelisted) = [true, false] := by
  refine ⟨by decide, by decide, ?_, by decide, by decide⟩
  intro record_image
  have h20 : stride20 ((ex_addr 0x11 ++ ex_addr 0x22).length / 20) = [0] := by decide
  simp only [in3_client_run_chain_whitelisting, C10_chain, ex_chain, h20, List.foldl_cons, List.foldl_nil,
    Option.map_some', for_each, arr, Option.getD_some, List.drop_zero]
  have ht : ∀ X : bytes_t, memcmp_eq (ex_addr 0x11 ++ ex_addr 0x22) X 20 = memcmp_eq (ex_addr 0x11) X 20 := by
    intro X
    rfl
  have ha : (ex_node 0x11 "http://a").address = ex_addr 0x11 := rfl
  have hb : (ex_node 0x22 "http://b").address = ex_addr 0x22 := rfl
  simp only [List.length_cons, List.length_nil, List.take_succ_cons, List.take_zero, List.drop_succ_cons,
    List.drop_zero, List.map_cons, List.map_nil, List.append_nil, List.cons_append, List.nil_append, ht,
    Nat.zero_add, Nat.reduceAdd, ha, hb]
  cases h1 : memcmp_eq (ex_addr 0x11) (record_image (ex_addr 0x11)) 20 <;>
  cases h2 : memcmp_eq (ex_addr 0x11) (record_image (ex_addr 0x22)) 20 <;>
  simp

/-! ### The node picker -/

theorem node_score_some (weightDef : in3_node_weight_t) (nodeDef : in3_node_t)
    (h : score_divisor weightDef ≠ 0) :
    node_score weightDef nodeDef =
      some (float_mul (float_mul (float_of_nat weightDef.weight) (float_of_nat nodeDef.capacity))
        (float_of_nat (500 / score_divisor weightDef))) := by
  unfold node_score
  unfold score_divisor at h
  simp only []
  rw [if_neg h]
  rfl

theorem node_score_none (weightDef : in3_node_weight_t) (nodeDef : in3_node_t)
    (h : score_divisor weightDef = 0) : node_score weightDef nodeDef = none := by
  unfold node_score
  unfold score_divisor at h
  simp only []
  rw [if_pos h]

theorem fill_weight_fold_none (host : host_t) (c : in3_t) (chain : in3_chain_t) (base : Nat)
    (all_nodes : List in3_node_t) (weights : List in3_node_weight_t) (now : Int) (props : in3_node_props_t)
    (l : List Nat) :
    l.foldl (fill_weight_step host c chain base all_nodes weights now props) none = none := by
  induction l with
  | nil => rfl
  | cons a l ih => exact ih

/-- The two ways an iteration of the filter loop continues: the record is
skipped, or a wrapper with the score is appended. -/
theorem fill_weight_step_cases (host : host_t) (c : in3_t) (chain : in3_chain_t) (base : Nat)
    (all_nodes : List in3_node_t) (weights : List in3_node_weight_t) (now : Int) (props : in3_node_props_t)
    (st st' : List node_weight_t × c_float) (i : Nat)
    (h : fill_weight_step host c chain base all_nodes weights now props (some st) i = some st') :
    (st' = st ∧ (match all_nodes[i]?, weights[i]? with
      | some nd, some wt => node_passes host c chain now props nd wt
      | _, _ => false) = false) ∨
    (∃ nd wt score, all_nodes[i]? = some nd ∧ weights[i]? = some wt ∧
      node_passes host c chain now props nd wt = true ∧ node_score wt nd = some score ∧
      st' = (st.1 ++ [{ chain := base, node := i, weight := some i, s := st.2, w := score }],
        float_add st.2 score)) := by
  unfold fill_weight_step at h
  simp only [] at h
  split at h
  · rename_i nd wt hnd hwt
    split at h
    · rename_i hpass
      split at h
      · cases h
      · rename_i score hscore
        cases h
        exact Or.inr ⟨nd, wt, score, hnd, hwt, hpass, hscore, rfl⟩
    · rename_i hpass
      cases h
      refine Or.inl ⟨rfl, ?_⟩
      simpa using hpass
  · cases h
    exact Or.inl ⟨rfl, rfl⟩

/-- An iteration of the filter loop has a result unless the record passes the
filter and its score divides by zero. -/
theorem fill_weight_step_some (host : host_t) (c : in3_t) (chain : in3_chain_t) (base : Nat)
    (all_nodes : List in3_node_t) (weights : List in3_node_weight_t) (now : Int) (props : in3_node_props_t)
    (st : List node_weight_t × c_float) (i : Nat)
    (h : ∀ nd wt, all_nodes[i]? = some nd → weights[i]? = some wt →
      node_passes host c chain now props nd wt = true → score_divisor wt ≠ 0) :
    ∃ st', fill_weight_step host c chain base all_nodes weights now props (some st) i = some st' := by
  unfold fill_weight_step
  simp only []
  split
  · rename_i nd wt hnd hwt
    split
    · rename_i hpass
      rw [node_score_some wt nd (h nd wt hnd hwt hpass)]
      exact ⟨_, rfl⟩
    · exact ⟨_, rfl⟩
  · exact ⟨_, rfl⟩

theorem fill_weight_fold_succ (host : host_t) (c : in3_t) (chain : in3_chain_t) (base : Nat)
    (all_nodes : List in3_node_t) (weights : List in3_node_weight_t) (now : Int) (props : in3_node_props_t)
    (n : Nat) (st' : List node_weight_t × c_float)
    (h : (List.range (n + 1)).foldl (fill_weight_step host c chain base all_nodes weights now props)
      (some ([], 0)) = some st') :
    ∃ st, (List.range n).foldl (fill_weight_step host c chain base all_nodes weights now props)
        (some ([], 0)) = some st ∧
      fill_weight_step host c chain base all_nodes weights now props (some st) n = some st' := by
  rw [List.range_succ, List.foldl_append] at h
  simp only [List.foldl_cons, List.foldl_nil] at h
  cases hf : (List.range n).foldl (fill_weight_step host c chain base all_nodes weights now props)
      (some ([], 0)) with
  | none =>
    rw [hf] at h
    cases h
  | some st =>
    rw [hf] at h
    exact ⟨st, rfl, h⟩

/-- The filter loop has a result when no passing record divides by zero. -/
theorem fill_weight_fold_some (host : host_t) (c : in3_t) (chain : in3_chain_t) (base : Nat)
    (all_nodes : List in3_node_t) (weights : List in3_node_weight_t) (now : Int) (props : in3_node_props_t)
    (h : ∀ (i : Nat) nd wt, all_nodes[i]? = some nd → weights[i]? = some wt →
      node_passes host c chain now props nd wt = true → score_divisor wt ≠ 0) :
    ∀ n : Nat, ∃ st : List node_weight_t × c_float,
      (List.range n).foldl (fill_weight_step host c chain base all_nodes weights now props)
        (some ([], 0)) = some st := by
  intro n
  induction n with
  | zero => exact ⟨([], 0), rfl⟩
  | succ n ih =>
    obtain ⟨st, hst⟩ := ih
    rw [List.range_succ, List.foldl_append, hst]
    simp only [List.foldl_cons, List.foldl_nil]
    exact fill_weight_step_some host c chain base all_nodes weights now props st n (h n)

theorem fill_weight_fold_inv (host : host_t) (c : in3_t) (chain : in3_chain_t) (base : Nat)
    (all_nodes : List in3_node_t) (weights : List in3_node_weight_t) (now : Int) (props : in3_node_props_t) :
    ∀ (n : Nat) (st : List node_weight_t × c_float),
      (List.range n).foldl (fill_weight_step host c chain base all_nodes weights now props)
        (some ([], 0)) = some st →
      (∀ nw ∈ st.1, candidate_ok host c chain base all_nodes weights n now props nw) ∧
      (st.1.map fun nw => nw.node).Pairwise (· < ·) := by
  intro n
  induction n with
  | zero =>
    intro st h
    cases h
    simp
  | succ n ih =>
    intro st' h
    obtain ⟨st, hst, hstep⟩ := fill_weight_fold_succ host c chain base all_nodes weights now props n st' h
    obtain ⟨ih1, ih2⟩ := ih st hst
    have weaken : ∀ nw, candidate_ok host c chain base all_nodes weights n now props nw →
        candidate_ok host c chain base all_nodes weights (n + 1) now props nw := by
      intro nw h
      exact ⟨h.1, h.2.1, Nat.lt_succ_of_lt h.2.2.1, h.2.2.2⟩
    rcases fill_weight_step_cases host c chain base all_nodes weights now props st st' n hstep with
      ⟨rfl, _⟩ | ⟨nd, wt, score, hnd, hwt, hpass, _, rfl⟩
    · exact ⟨fun nw h => weaken nw (ih1 nw h), ih2⟩
    · constructor
      · intro nw hnw
        simp only [List.mem_append, List.mem_singleton] at hnw
        rcases hnw with h | h
        · exact weaken nw (ih1 nw h)
        · subst h
          exact ⟨rfl, rfl, Nat.lt_succ_self n, nd, wt, hnd, hwt, hpass⟩
      · simp only [List.map_append, List.map_cons, List.map_nil]
        rw [List.pairwise_append]
        refine ⟨ih2, List.pairwise_singleton _ _, ?_⟩
        intro a ha b hb
        simp only [List.mem_singleton] at hb
        subst hb
        obtain ⟨nw, hnw, rfl⟩ := List.mem_map.1 ha
        exact (ih1 nw hnw).2.2.1

theorem fill_weight_spec (host : host_t) (c : in3_t) (chain_id : chain_id_t) (base : Nat)
    (all_nodes : List in3_node_t) (weights : List in3_node_weight_t) (len : Nat) (now : Int)
    (props : in3_node_props_t) (ci : Nat) (chain : in3_chain_t) (f : List node_weight_t × c_float × Nat)
    (hfind : in3_find_chain c chain_id = some ci) (hchain : c.chains[ci]? = some chain)
    (hf : in3_node_list_fill_weight host c chain_id base all_nodes weights len now props = some f) :
    (∀ nw ∈ f.1, candidate_ok host c chain base all_nodes weights len now props nw) ∧
    (f.1.map fun nw => nw.node).Pairwise (· < ·) ∧
    f.2.2 = f.1.length := by
  unfold in3_node_list_fill_weight at hf
  simp only [hfind, Option.some_bind, hchain] at hf
  cases hfold : (List.range len).foldl (fill_weight_step host c chain base all_nodes weights now props)
      (some ([], 0)) with
  | none =>
    rw [hfold] at hf
    cases hf
  | some st =>
    rw [hfold] at hf
    cases hf
    exact ⟨(fill_weight_fold_inv host c chain base all_nodes weights now props len st hfold).1,
      (fill_weight_fold_inv host c chain base all_nodes weights now props len st hfold).2, rfl⟩

theorem pick_loop_inv (host : host_t) (found : List node_weight_t) (total_weight : c_float)
    (filled_len : Nat) :
    ∀ (n r added : Nat) (first : List node_weight_t),
      first.length ≤ 1 → (∀ x ∈ first, x ∈ found) →
      (pick_loop host found total_weight filled_len n r added none first).2.length ≤ 1 ∧
      (∀ x ∈ (pick_loop host found total_weight filled_len n r added none first).2, x ∈ found) := by
  intro n
  induction n with
  | zero => intro r added first h1 h2; exact ⟨h1, h2⟩
  | succ n ih =>
    intro r added first h1 h2
    unfold pick_loop
    by_cases hadd : added < filled_len
    · simp only [hadd, if_true]
      cases hcur : found.find? (draw_hits total_weight (host.rand r % 10000)) with
      | none => exact ih _ _ _ h1 h2
      | some current =>
        simp only []
        cases hdup : first.find? (fun next => next.chain == current.chain && next.node == current.node) with
        | some d => exact ih _ _ _ h1 h2
        | none =>
          simp only []
          have hmem := List.mem_of_find?_eq_some hcur
          apply ih
          · split <;> simp_all
          · intro x hx
            split at hx
            · simp only [List.mem_singleton] at hx
              subst hx
              exact hmem
            · exact h2 x hx
    · simp only [hadd, if_false]
      exact ⟨h1, h2⟩

theorem pick_loop_zero (host : host_t) (found : List node_weight_t) (total_weight : c_float) :
    ∀ (n r added : Nat) (last : Option node_weight_t) (first : List node_weight_t),
      (pick_loop host found total_weight 0 n r added last first).2 = first := by
  intro n r added last first
  cases n <;> simp [pick_loop]

theorem find_chain_some (c : in3_t) (chain_id : chain_id_t) (ci : Nat)
    (h : in3_find_chain c chain_id = some ci) :
    ∃ ch, c.chains[ci]? = some ch ∧ ch.chain_id = chain_id := by
  unfold in3_find_chain at h
  split at h
  · cases hc : c.chains with
    | nil => simp [hc] at h
    | cons a l =>
      simp only [hc, List.head?_cons] at h
      split at h
      · rename_i hid
        cases h
        exact ⟨a, by simp, hid⟩
      · cases h
  · have hp := List.find?_some h
    cases hg : c.chains[ci]? with
    | none => simp [hg] at hp
    | some ch =>
      simp only [hg, beq_iff_eq] at hp
      exact ⟨ch, rfl, hp⟩

theorem find_chain_set (c : in3_t) (ci : Nat) (ch : in3_chain_t) (chain_id : chain_id_t)
    (hid : ∀ old, c.chains[ci]? = some old → ch.chain_id = old.chain_id) :
    in3_find_chain (set_chain c ci ch) chain_id = in3_find_chain c chain_id := by
  unfold in3_find_chain set_chain
  simp only []
  split
  · cases hc : c.chains with
    | nil => simp
    | cons a l =>
      cases ci with
      | zero =>
        have := hid a (by simp [hc])
        simp [this]
      | succ k => simp
  · congr 1
    funext i
    by_cases hi : ci = i
    · subst hi
      cases hg : c.chains[ci]? with
      | none =>
        have hlen : c.chains.length ≤ ci := by
          rcases Nat.lt_or_ge ci c.chains.length with h | h
          · rw [List.getElem?_eq_getElem h] at hg; cases hg
          · exact h
        simp [List.getElem?_set, Nat.not_lt.2 hlen]
      | some old =>
        have hlen : ci < c.chains.length := by
          rcases Nat.lt_or_ge ci c.chains.length with h | h
          · exact h
          · rw [List.getElem?_eq_none h] at hg; cases hg
        simp [List.getElem?_set, hlen, hid old hg]
    · simp [List.getElem?_set_ne hi]

theorem chain_at_of_get (w : world_t) (ci : Nat) (ch : in3_chain_t) (h : w.c.chains[ci]? = some ch) :
    chain_at w ci = ch := by
  simp [chain_at, h]

theorem chain_at_put (w : world_t) (ci : Nat) (ch : in3_chain_t) (h : ci < w.c.chains.length) :
    chain_at (put_chain w ci ch) ci = ch := by
  simp [chain_at, put_chain, set_chain, List.getElem?_set, h]

theorem node_list_get_no_refresh (host : host_t) (exec : world_t → in3_ctx_t → List in3_ctx_t → step_t)
    (w : world_t) (ctx : in3_ctx_t) (required : List in3_ctx_t) (chain_id : chain_id_t) (ci : Nat)
    (hfind : in3_find_chain w.c chain_id = some ci) (hno : no_refresh w required ci) :
    in3_node_list_get host exec w ctx required chain_id false = some ((IN3_OK, w, ctx, required), ci) := by
  obtain ⟨h1, h2, h3⟩ := hno
  unfold in3_node_list_get
  simp only [hfind, refresh_wanted, h1, h2, Bool.or_self, Bool.false_eq_true, if_false, Option.map_some',
    Option.isSome_none]
  unfold node_list_get_whitelist
  cases hwl : (chain_at w ci).whitelist with
  | none => simp
  | some wl =>
    obtain ⟨h4, h5⟩ := h3 wl hwl
    simp [refresh_wanted, h4, h5]

theorem node_passes_true (host : host_t) (c : in3_t) (chain : in3_chain_t) (now : Int)
    (props : in3_node_props_t) (nd : in3_node_t) (wt : in3_node_weight_t)
    (h : node_passes host c chain now props nd wt = true) :
    (chain.whitelist.isSome → nd.whitelisted = true) ∧ nd.deposit ≥ c.min_deposit ∧
    wt.blacklisted_until ≤ to_uint64 now ∧
    (host.FILTER_NODES = true → in3_node_props_match props nd.props = true) := by
  unfold node_passes at h
  split at h
  · cases h
  · rename_i h1
    split at h
    · cases h
    · rename_i h2
      split at h
      · cases h
      · rename_i h3
        split at h
        · cases h
        · rename_i h4
          refine ⟨?_, Nat.not_lt.1 h2, Nat.not_lt.1 h4, ?_⟩
          · intro hw
            cases hwd : nd.whitelisted with
            | true => rfl
            | false => simp [hw, hwd] at h1
          · intro hf
            cases hm : in3_node_props_match props nd.props with
            | true => rfl
            | false => simp [hf, hm] at h3

theorem get_lt_length {α : Type} {l : List α} {i : Nat} {a : α} (h : l[i]? = some a) : i < l.length := by
  rcases Nat.lt_or_ge i l.length with h1 | h1
  · exact h1
  · rw [List.getElem?_eq_none h1] at h; cases h

theorem pick_filter_spec (host : host_t) (w : world_t) (ci : Nat) (now : Int) (props : in3_node_props_t)
    (p : world_t × List node_weight_t × c_float × Nat)
    (hfind : in3_find_chain w.c w.c.chain_id = some ci)
    (hp : pick_filter host w ci now props = some p) :
    (∀ nw ∈ p.2.1,
      candidate_ok host p.1.c (chain_at p.1 ci) ci (arr (chain_at p.1 ci).nodelist)
        (arr (chain_at p.1 ci).weights) (chain_at p.1 ci).nodelist_length now props nw) ∧
    (p.2.1.map fun nw => nw.node).Pairwise (· < ·) ∧
    p.2.2.2 = p.2.1.length ∧
    p.1.t = w.t ∧
    p.1.r = w.r ∧
    p.1.sent = w.sent := by
  obtain ⟨ch, hget, hid⟩ := find_chain_some _ _ _ hfind
  have hat : chain_at w ci = ch := chain_at_of_get w ci ch hget
  have hlen : ci < w.c.chains.length := get_lt_length hget
  unfold pick_filter at hp
  simp only [hat] at hp
  split at hp
  · cases hp
  · rename_i f hf
    have base := fill_weight_spec host w.c w.c.chain_id ci (arr ch.nodelist) (arr ch.weights)
      ch.nodelist_length now props ci ch f hfind hget hf
    split at hp
    · split at hp
      · -- every blacklist mark is cleared and the filter runs again
        have hfind2 : in3_find_chain (put_chain w ci (clear_blacklist ch)).c w.c.chain_id = some ci := by
          show in3_find_chain (set_chain w.c ci _) w.c.chain_id = some ci
          rw [find_chain_set _ _ _ _ (by intro old ho; rw [hget] at ho; cases ho; rfl)]
          exact hfind
        have hget2 : (put_chain w ci (clear_blacklist ch)).c.chains[ci]? = some (clear_blacklist ch) := by
          simp [put_chain, set_chain, List.getElem?_set, hlen]
        have hat2 := chain_at_of_get _ _ _ hget2
        cases hf2 : in3_node_list_fill_weight host (put_chain w ci (clear_blacklist ch)).c
            (put_chain w ci (clear_blacklist ch)).c.chain_id ci (arr ch.nodelist)
            (arr (clear_blacklist ch).weights) ch.nodelist_length now props with
        | none =>
          rw [hf2] at hp
          cases hp
        | some f2 =>
          rw [hf2] at hp
          cases hp
          have s2 := fill_weight_spec host _ w.c.chain_id ci (arr ch.nodelist)
            (arr (clear_blacklist ch).weights) ch.nodelist_length now props ci _ f2 hfind2 hget2 hf2
          dsimp only
          rw [hat2]
          exact ⟨s2.1, s2.2.1, s2.2.2, rfl, rfl, rfl⟩
      · cases hp
        dsimp only
        rw [hat]
        exact ⟨base.1, base.2.1, base.2.2, rfl, rfl, rfl⟩
    · cases hp
      dsimp only
      rw [hat]
      exact ⟨base.1, base.2.1, base.2.2, rfl, rfl, rfl⟩

/-- C4: when `in3_node_list_pick_nodes` returns `IN3_OK` (no refresh pending),
every node of the returned list has `deposit >= min_deposit`, has
`blacklisted_until <= now` in the chain state the call leaves, and is
whitelisted when the chain has a whitelist; no node occurs twice, and the list
has at most `min(request_count, total_found)` entries, where `total_found` is
the count of the filter passes, which have completed. -/
theorem C4_picked_nodes_pass_filters (host : host_t) (exec : world_t → in3_ctx_t → List in3_ctx_t → step_t)
    (w : world_t) (ctx : in3_ctx_t) (required : List in3_ctx_t) (request_count : Nat)
    (props : in3_node_props_t) (ci : Nat) (w' : world_t) (ctx' : in3_ctx_t) (required' : List in3_ctx_t)
    (out : Option (List node_weight_t))
    (hfind : in3_find_chain w.c w.c.chain_id = some ci)
    (hno : no_refresh w required ci)
    (hpick : in3_node_list_pick_nodes host exec w ctx required request_count props =
      some ((IN3_OK, w', ctx', required'), out)) :
    ∃ nodes, out = some nodes ∧
      (∀ nw ∈ nodes, ∃ nd wt,
        nw.chain = ci ∧
        (arr (chain_at w' ci).nodelist)[nw.node]? = some nd ∧
        (arr (chain_at w' ci).weights)[nw.node]? = some wt ∧
        nd.deposit ≥ w'.c.min_deposit ∧
        wt.blacklisted_until ≤ to_uint64 (host.time w.t) ∧
        ((chain_at w' ci).whitelist.isSome → nd.whitelisted = true)) ∧
      (nodes.map fun nw => nw.node).Nodup ∧
      ∃ p, pick_filter host { w with t := w.t + 1 } ci (host.time w.t) props = some p ∧
        nodes.length ≤ min request_count p.2.2.2 := by
  have hget := node_list_get_no_refresh host exec { w with t := w.t + 1 } ctx required w.c.chain_id ci
    hfind hno
  unfold in3_node_list_pick_nodes at hpick
  simp only [hget] at hpick
  simp only [in3_ret_t.isNeg, bne_self_eq_false, Bool.false_eq_true, if_false] at hpick
  cases hp : pick_filter host { w with t := w.t + 1 } ci (host.time w.t) props with
  | none =>
    rw [hp] at hpick
    cases hpick
  | some p =>
  rw [hp] at hpick
  simp only [] at hpick
  have spec := pick_filter_spec host { w with t := w.t + 1 } ci (host.time w.t) props p hfind hp
  obtain ⟨hcand, hpair, hcount, _, _, _⟩ := spec
  have facts : ∀ nw ∈ p.2.1, ∃ nd wt,
      nw.chain = ci ∧
      (arr (chain_at p.1 ci).nodelist)[nw.node]? = some nd ∧
      (arr (chain_at p.1 ci).weights)[nw.node]? = some wt ∧
      nd.deposit ≥ p.1.c.min_deposit ∧
      wt.blacklisted_until ≤ to_uint64 (host.time w.t) ∧
      ((chain_at p.1 ci).whitelist.isSome → nd.whitelisted = true) := by
    intro nw hnw
    obtain ⟨h1, _, _, nd, wt, hnd, hwt, hpass⟩ := hcand nw hnw
    obtain ⟨p1, p2, p3, _⟩ := node_passes_true _ _ _ _ _ _ _ hpass
    exact ⟨nd, wt, h1, hnd, hwt, p2, p3, p1⟩
  by_cases hzero : p.2.2.2 = 0
  · simp [hzero, ctx_set_error] at hpick
  · simp only [hzero, if_false] at hpick
    have hloop := pick_loop_inv host p.2.1 p.2.2.1 (filled_len p.2.2.2 request_count)
      (filled_len p.2.2.2 request_count * 10) p.1.r 0 [] (by simp) (by simp)
    by_cases heq : p.2.2.2 = filled_len p.2.2.2 request_count
    · -- every candidate is returned
      rw [if_pos heq] at hpick
      simp only [Option.some.injEq, Prod.mk.injEq, true_and] at hpick
      obtain ⟨⟨hw, _, _⟩, hout⟩ := hpick
      subst hw
      refine ⟨p.2.1, hout.symm, facts, hpair.imp (fun h => Nat.ne_of_lt h), p, rfl, ?_⟩
      unfold filled_len at heq
      rw [hcount] at heq ⊢
      split at heq <;> omega
    · -- the sampling loop
      rw [if_neg heq] at hpick
      simp only [Option.some.injEq, Prod.mk.injEq, true_and] at hpick
      obtain ⟨⟨hw, _, _⟩, hout⟩ := hpick
      subst hw
      refine ⟨_, hout.symm, ?_, ?_, p, rfl, ?_⟩
      · intro nw hnw
        exact facts nw (hloop.2 nw hnw)
      · generalize (pick_loop host p.2.1 p.2.2.1 (filled_len p.2.2.2 request_count)
          (filled_len p.2.2.2 request_count * 10) p.1.r 0 none []).2 = l at hloop
        match l, hloop.1 with
        | [], _ => simp
        | [a], _ => simp
      · have hfl : filled_len p.2.2.2 request_count = request_count := by
          unfold filled_len at heq ⊢
          split at heq
          · exact absurd rfl heq
          · rename_i h; simp [h]
        rw [hfl] at hloop ⊢
        by_cases hz : request_count = 0
        · subst hz
          rw [pick_loop_zero]
          simp
        · have h1 := hloop.1
          unfold filled_len at heq
          split at heq <;> omega

theorem two_node_no_refresh : no_refresh two_node_world [] 0 := by
  refine ⟨rfl, rfl, ?_⟩
  intro wl h
  simp [chain_at, two_node_world, ex_world, ex_client, two_node_chain, ex_chain] at h

/-- C4 on the two-node chain with both nodes requested: both are returned. -/
theorem C4_picked_nodes_pass_filters_witness :
    ∃ nodes, some [ex_wrapper 0, ex_wrapper 1] = some nodes ∧
      (∀ nw ∈ nodes, ∃ nd wt,
        nw.chain = 0 ∧
        (arr (chain_at { two_node_world with t := 1 } 0).nodelist)[nw.node]? = some nd ∧
        (arr (chain_at { two_node_world with t := 1 } 0).weights)[nw.node]? = some wt ∧
        nd.deposit ≥ ({ two_node_world with t := 1 } : world_t).c.min_deposit ∧
        wt.blacklisted_until ≤ to_uint64 ((failing_host 1000).time two_node_world.t) ∧
        ((chain_at { two_node_world with t := 1 } 0).whitelist.isSome → nd.whitelisted = true)) ∧
      (nodes.map fun nw => nw.node).Nodup ∧
      ∃ p, pick_filter (failing_host 1000) { two_node_world with t := two_node_world.t + 1 } 0
          ((failing_host 1000).time two_node_world.t) 0 = some p ∧
        nodes.length ≤ min 2 p.2.2.2 :=
  C4_picked_nodes_pass_filters (failing_host 1000) no_exec two_node_world ex_ctx [] 2 0 0
    { two_node_world with t := 1 } ex_ctx [] (some [ex_wrapper 0, ex_wrapper 1])
    (by decide) two_node_no_refresh (by decide)

/-- C5 fails on the code: with three eligible (SIGNER) nodes, two requested and
draws that land on candidate 0 and then on candidate 2, the sampling loop of
`in3_node_list_pick_nodes` counts two additions but returns a list of one
node, because `last` is never assigned and the second wrapper is never linked
to `first`; `configure_request` with `signature_count = 2` then records
`signers_length = 1`. -/
theorem C5_sampling_returns_one_node :
    (pick_filter draw_host { three_node_world with t := 1 } 0 1000 0).map
      (fun p => (p.2.2.1, p.2.2.2)) = some (3, 3) ∧
    ((pick_filter draw_host { three_node_world with t := 1 } 0 1000 0).bind fun p => p.2.1.find?
      (draw_hits 3 (draw_host.rand 0 % 10000))).map (fun nw => nw.node) = some 0 ∧
    ((pick_filter draw_host { three_node_world with t := 1 } 0 1000 0).bind fun p => p.2.1.find?
      (draw_hits 3 (draw_host.rand 1 % 10000))).map (fun nw => nw.node) = some 2 ∧
    (in3_node_list_pick_nodes draw_host no_exec three_node_world ex_ctx [] 2 0).map
      (fun r => (r.1.1, r.2.map fun l => l.map fun nw => nw.node)) = some (IN3_OK, some [0]) ∧
    (configure_request draw_host no_exec signer_world ex_ctx [] 0).map
      (fun r => (r.1, r.2.2.1.requests_configs.map fun conf => (conf.signers_length, conf.signers))) =
      some (IN3_OK, [(1, some [ex_addr 0x11])]) := by
  refine ⟨by decide, by decide, by decide, by decide, by decide⟩


/-! ### Frame properties of the executor -/

theorem same_config_refl (c : in3_t) : same_config c c := rfl

theorem same_config_trans {a b c : in3_t} (h1 : same_config a b) (h2 : same_config b c) : same_config a c := by
  unfold same_config at *
  rw [h2, h1]

theorem same_config_set (c : in3_t) (i : Nat) (ch : in3_chain_t) : same_config c (set_chain c i ch) := rfl

theorem same_config_put (w : world_t) (i : Nat) (ch : in3_chain_t) : same_config w.c (put_chain w i ch).c := rfl

theorem pick_frame_refl (c : in3_ctx_t) : pick_frame c c := by simp [pick_frame]

theorem pick_frame_trans {a b c : in3_ctx_t} (h1 : pick_frame a b) (h2 : pick_frame b c) : pick_frame a c := by
  unfold pick_frame at *
  simp_all

theorem pick_frame_error (c : in3_ctx_t) (msg : String) (code : in3_ret_t) :
    pick_frame c (ctx_set_error c msg code).2 := by
  simp [pick_frame, ctx_set_error]

theorem verify_frame_refl (c : in3_ctx_t) : verify_frame c c := by simp [verify_frame]

theorem verify_frame_trans {a b c : in3_ctx_t} (h1 : verify_frame a b) (h2 : verify_frame b c) :
    verify_frame a c := by
  unfold verify_frame at *
  simp_all

theorem add_required_frame (exec : world_t → in3_ctx_t → List in3_ctx_t → step_t) (hexec : keeps_config exec)
    (w : world_t) (parent : in3_ctx_t) (required : List in3_ctx_t) (ctx : in3_ctx_t) (res : _)
    (h : ctx_add_required exec w parent required ctx = some res) :
    same_config w.c res.2.1.c ∧ res.2.2.1 = parent := by
  unfold ctx_add_required at h
  split at h
  · cases h
  · rename_i ret w2 c2 r2 he
    cases h
    exact ⟨hexec _ _ _ (ret, w2, c2, r2) he, rfl⟩

theorem update_nodelist_frame (host : host_t) (exec : world_t → in3_ctx_t → List in3_ctx_t → step_t)
    (hexec : keeps_config exec) (w : world_t) (ci : Nat) (parent_ctx : in3_ctx_t) (required : List in3_ctx_t)
    (res : _) (h : update_nodelist host exec w ci parent_ctx required = some res) :
    same_config w.c res.2.1.c ∧ pick_frame parent_ctx res.2.2.1 := by
  unfold update_nodelist at h
  split at h
  · cases h
  · split at h
    · cases h; exact ⟨rfl, by simp [pick_frame, ctx_set_error]⟩
    · cases h; exact ⟨rfl, pick_frame_refl _⟩
    · cases h; exact ⟨rfl, pick_frame_refl _⟩
    · dsimp only at h
      split at h
      · split at h
        · cases h; exact ⟨rfl, by simp [pick_frame, ctx_set_error]⟩
        · cases h; exact ⟨rfl, pick_frame_refl _⟩
      · cases h; exact ⟨rfl, by simp [pick_frame, ctx_set_error]⟩
  · obtain ⟨h1, h2⟩ := add_required_frame exec hexec _ _ _ _ _ h
    exact ⟨h1, h2 ▸ pick_frame_refl _⟩

theorem update_whitelist_frame (host : host_t) (exec : world_t → in3_ctx_t → List in3_ctx_t → step_t)
    (hexec : keeps_config exec) (w : world_t) (ci : Nat) (parent_ctx : in3_ctx_t) (required : List in3_ctx_t)
    (res : _) (h : update_whitelist host exec w ci parent_ctx required = some res) :
    same_config w.c res.2.1.c ∧ pick_frame parent_ctx res.2.2.1 := by
  unfold update_whitelist at h
  split at h
  · cases h
  · split at h
    · cases h; exact ⟨rfl, by simp [pick_frame, ctx_set_error]⟩
    · cases h; exact ⟨rfl, pick_frame_refl _⟩
    · cases h; exact ⟨rfl, pick_frame_refl _⟩
    · dsimp only at h
      split at h
      · split at h
        · cases h; exact ⟨rfl, by simp [pick_frame, ctx_set_error]⟩
        · cases h; exact ⟨rfl, pick_frame_refl _⟩
      · cases h; exact ⟨rfl, by simp [pick_frame, ctx_set_error]⟩
  · obtain ⟨h1, h2⟩ := add_required_frame exec hexec _ _ _ _ _ h
    exact ⟨h1, h2 ▸ pick_frame_refl _⟩

theorem node_list_get_whitelist_frame (host : host_t) (exec : world_t → in3_ctx_t → List in3_ctx_t → step_t)
    (hexec : keeps_config exec) (w : world_t) (ctx : in3_ctx_t) (required : List in3_ctx_t) (ci : Nat)
    (update : Bool) (res : _) (h : node_list_get_whitelist host exec w ctx required ci update = some res) :
    same_config w.c res.2.1.c ∧ pick_frame ctx res.2.2.1 := by
  unfold node_list_get_whitelist at h
  split at h
  · cases h; exact ⟨rfl, pick_frame_refl _⟩
  · split at h
    · cases h
    · split at h
      · dsimp only at h
        split at h
        · cases h
        · rename_i res2 w2 c2 r2 hu
          have hf := update_whitelist_frame host exec hexec _ _ _ _ _ hu
          split at h <;> (cases h; exact ⟨same_config_trans (same_config_put _ _ _) hf.1, hf.2⟩)
      · cases h; exact ⟨rfl, pick_frame_refl _⟩

theorem node_list_get_frame (host : host_t) (exec : world_t → in3_ctx_t → List in3_ctx_t → step_t)
    (hexec : keeps_config exec) (w : world_t) (ctx : in3_ctx_t) (required : List in3_ctx_t)
    (chain_id : chain_id_t) (update : Bool) (res : _)
    (h : in3_node_list_get host exec w ctx required chain_id update = some res) :
    same_config w.c res.1.2.1.c ∧ pick_frame ctx res.1.2.2.1 := by
  unfold in3_node_list_get at h
  split at h
  · cases h; exact ⟨rfl, by simp [pick_frame, ctx_set_error]⟩
  · split at h
    · cases h
    · rw [Option.map_eq_some'] at h
      obtain ⟨s, hs, rfl⟩ := h
      exact node_list_get_whitelist_frame host exec hexec _ _ _ _ _ _ hs
    · dsimp only at h
      split at h
      · cases h
      · rename_i res2 w2 c2 r2 hu
        have hf := update_nodelist_frame host exec hexec _ _ _ _ _ hu
        split at h
        · cases h; exact ⟨same_config_trans (same_config_put _ _ _) hf.1, hf.2⟩
        · rw [Option.map_eq_some'] at h
          obtain ⟨s, hs, rfl⟩ := h
          have hg := node_list_get_whitelist_frame host exec hexec _ _ _ _ _ _ hs
          exact ⟨same_config_trans (same_config_trans (same_config_put _ _ _) hf.1) hg.1,
            pick_frame_trans hf.2 hg.2⟩

theorem pick_filter_config (host : host_t) (w : world_t) (ci : Nat) (now : Int) (props : in3_node_props_t)
    (p : world_t × List node_weight_t × c_float × Nat) (hp : pick_filter host w ci now props = some p) :
    same_config w.c p.1.c := by
  unfold pick_filter at hp
  dsimp only at hp
  split at hp
  · cases hp
  · split at hp
    · split at hp
      · cases hf2 : in3_node_list_fill_weight host
            (put_chain w ci (clear_blacklist (chain_at w ci))).c
            (put_chain w ci (clear_blacklist (chain_at w ci))).c.chain_id ci (arr (chain_at w ci).nodelist)
            (arr (clear_blacklist (chain_at w ci)).weights) (chain_at w ci).nodelist_length now props with
        | none =>
          rw [hf2] at hp
          cases hp
        | some f2 =>
          rw [hf2] at hp
          cases hp
          exact same_config_put _ _ _
      · cases hp
        rfl
    · cases hp
      rfl

theorem pick_nodes_frame (host : host_t) (exec : world_t → in3_ctx_t → List in3_ctx_t → step_t)
    (hexec : keeps_config exec) (w : world_t) (ctx : in3_ctx_t) (required : List in3_ctx_t)
    (request_count : Nat) (props : in3_node_props_t) (res : _)
    (h : in3_node_list_pick_nodes host exec w ctx required request_count props = some res) :
    same_config w.c res.1.2.1.c ∧ pick_frame ctx res.1.2.2.1 := by
  unfold in3_node_list_pick_nodes at h
  dsimp only at h
  split at h
  · cases h
  · rename_i res2 w2 c2 r2 ci hg
    have hf := node_list_get_frame host exec hexec _ _ _ _ _ _ hg
    split at h
    · cases h; exact ⟨hf.1, pick_frame_trans hf.2 (by simp [pick_frame, ctx_set_error])⟩
    · split at h
      · cases h
      · rename_i p hpf
        have hp := pick_filter_config host w2 ci (host.time w.t) props p hpf
        split at h
        · cases h; exact ⟨same_config_trans hf.1 hp, pick_frame_trans hf.2 (by simp [pick_frame, ctx_set_error])⟩
        · split at h
          · cases h; exact ⟨same_config_trans hf.1 hp, hf.2⟩
          · cases h; exact ⟨same_config_trans hf.1 hp, hf.2⟩

theorem configure_request_frame (host : host_t) (exec : world_t → in3_ctx_t → List in3_ctx_t → step_t)
    (hexec : keeps_config exec) (w : world_t) (ctx : in3_ctx_t) (required : List in3_ctx_t) (i : Nat)
    (res : _) (h : configure_request host exec w ctx required i = some res) :
    same_config w.c res.2.1.c ∧ pick_frame ctx res.2.2.1 := by
  unfold configure_request at h
  dsimp only at h
  split at h
  · split at h
    · split at h
      · cases h
      · rename_i res2 w2 c2 r2 nodes hp
        have hf := pick_nodes_frame host exec hexec _ _ _ _ _ _ hp
        have hc : pick_frame ctx c2 := by
          have := hf.2
          unfold pick_frame at this ⊢
          simpa using this
        split at h
        · cases h; exact ⟨hf.1, pick_frame_trans hc (by simp [pick_frame, ctx_set_error])⟩
        · cases h
          refine ⟨hf.1, ?_⟩
          unfold pick_frame at hc ⊢
          simpa using hc
    · cases h; exact ⟨rfl, by simp [pick_frame]⟩
  · cases h; exact ⟨rfl, by simp [pick_frame]⟩

theorem configure_requests_frame (host : host_t) (exec : world_t → in3_ctx_t → List in3_ctx_t → step_t)
    (hexec : keeps_config exec) (slots : List Nat) :
    ∀ (w : world_t) (ctx : in3_ctx_t) (required : List in3_ctx_t) (res : _),
      configure_requests host exec slots w ctx required = some res →
      same_config w.c res.2.1.c ∧ pick_frame ctx res.2.2.1 := by
  induction slots with
  | nil => intro w ctx required res h; simp [configure_requests] at h; subst h; exact ⟨rfl, pick_frame_refl _⟩
  | cons i rest ih =>
    intro w ctx required res h
    unfold configure_requests at h
    split at h
    · cases h
    · rename_i ret w2 c2 r2 hc
      have hf := configure_request_frame host exec hexec _ _ _ _ _ hc
      split at h
      · cases h; exact ⟨hf.1, pick_frame_trans hf.2 (by simp [pick_frame, ctx_set_error])⟩
      · have hr := ih _ _ _ _ h
        exact ⟨same_config_trans hf.1 hr.1, pick_frame_trans hf.2 hr.2⟩

theorem execute_pick_frame (host : host_t) (exec : world_t → in3_ctx_t → List in3_ctx_t → step_t)
    (hexec : keeps_config exec) (w : world_t) (ctx : in3_ctx_t) (required : List in3_ctx_t) (res : _)
    (h : execute_pick host exec w ctx required = some res) :
    same_config w.c res.2.1.c ∧ pick_frame ctx res.2.2.1 := by
  unfold execute_pick at h
  split at h
  · split at h
    · cases h
    · rename_i ret w2 c2 r2 nodes hp
      have hf := pick_nodes_frame host exec hexec _ _ _ _ _ _ hp
      have hc : pick_frame ctx (set_nodes c2 nodes) := by
        have := hf.2
        unfold pick_frame at this ⊢
        unfold set_nodes
        split <;> simpa using this
      dsimp only at h
      split at h
      · have hr := configure_requests_frame host exec hexec _ _ _ _ _ h
        exact ⟨same_config_trans hf.1 hr.1, pick_frame_trans hc hr.2⟩
      · split at h
        · cases h; exact ⟨hf.1, hc⟩
        · cases h; exact ⟨hf.1, pick_frame_trans hc (by simp [pick_frame, ctx_set_error])⟩
  · cases h; exact ⟨rfl, pick_frame_refl _⟩

theorem isNeg_false_iff (r : in3_ret_t) : r.isNeg = false ↔ r = IN3_OK := by
  cases r <;> simp [in3_ret_t.isNeg]

theorem not_neg_ok {r : in3_ret_t} (h : ¬ r.isNeg = true) : r = IN3_OK :=
  (isNeg_false_iff r).1 (Bool.eq_false_iff.2 h)

theorem blacklist_node_frame (host : host_t) (w : world_t) (ctx : in3_ctx_t) (n : Nat) :
    same_config w.c (blacklist_node host w ctx n).1.c ∧
    verify_frame ctx (blacklist_node host w ctx n).2 ∧
    (∀ nw, ctx.nodes[n]? = some nw → is_blacklisted (blacklist_node host w ctx n).2.nodes[n]? = true) ∧
    (ctx.nodes = [] → (blacklist_node host w ctx n).2 = ctx) := by
  unfold blacklist_node
  cases hn : ctx.nodes[n]? with
  | none =>
    refine ⟨rfl, verify_frame_refl _, ?_, fun _ => rfl⟩
    intro nw h; cases h
  | some node_weight =>
    dsimp only
    refine ⟨?_, by simp [verify_frame], ?_, ?_⟩
    · split
      · exact same_config_put _ _ _
      · rfl
    · intro nw _
      have hlt := get_lt_length hn
      simp [List.getElem?_set, hlt, is_blacklisted]
    · intro hnil
      rw [hnil] at hn
      simp at hn

theorem check_autoupdate_config (w : world_t) (ci : Nat) (t : in3_token) :
    same_config w.c (check_autoupdate w ci t).c := by
  unfold check_autoupdate
  split
  · rfl
  · exact same_config_put _ _ _

theorem verify_slots_frame (verifier : Option in3_verifier_t) (ci : Nat) (slots : List Nat) :
    ∀ (vc : vc_state) (w : world_t) (ctx : in3_ctx_t) (required : List in3_ctx_t),
      same_config w.c (verify_slots verifier ci slots vc w ctx required).2.1.c ∧
      verify_frame ctx (verify_slots verifier ci slots vc w ctx required).2.2.1 ∧
      (verify_slots verifier ci slots vc w ctx required).2.2.1.nodes = ctx.nodes ∧
      (verify_slots verifier ci slots vc w ctx required).2.2.1.response_context = ctx.response_context ∧
      ((verify_slots verifier ci slots vc w ctx required).1 = IN3_OK →
        slots ≠ [] ∨ ctx.verification_state = IN3_OK →
        (verify_slots verifier ci slots vc w ctx required).2.2.1.verification_state = IN3_OK) := by
  induction slots with
  | nil =>
    intro vc w ctx required
    simp [verify_slots, verify_frame, same_config_refl]
  | cons i rest ih =>
    intro vc w ctx required
    unfold verify_slots
    dsimp only
    have hw : same_config w.c
        (match (arr ctx.responses)[i]?.bind fun r => r.in3 with
          | some in3 =>
            (check_autoupdate w ci in3,
              ({ proof := in3.proof, last_validator_change := in3.lastValidatorChange,
                 currentBlock := in3.currentBlock } : vc_state))
          | none => (w, { vc with proof := none })).1.c := by
      split
      · exact check_autoupdate_config _ _ _
      · rfl
    generalize (match (arr ctx.responses)[i]?.bind fun r => r.in3 with
          | some in3 =>
            (check_autoupdate w ci in3,
              ({ proof := in3.proof, last_validator_change := in3.lastValidatorChange,
                 currentBlock := in3.currentBlock } : vc_state))
          | none => (w, { vc with proof := none })) = wv at hw ⊢
    cases verifier with
    | none =>
      dsimp only
      obtain ⟨h1, h2, h3, h4, h5⟩ := ih wv.2 wv.1 { ctx with verification_state := IN3_OK } required
      refine ⟨same_config_trans hw h1, ?_, h3, h4, ?_⟩
      · unfold verify_frame at h2 ⊢
        simpa using h2
      · intro hok _
        exact h5 hok (Or.inr rfl)
    | some v =>
      dsimp only
      split
      · rename_i hwait
        refine ⟨hw, by simp [verify_frame], rfl, rfl, ?_⟩
        intro h
        cases h
      · rename_i hnw
        split
        · rename_i hneg
          refine ⟨hw, by simp [verify_frame], rfl, rfl, ?_⟩
          intro h
          dsimp only at h
          rw [h] at hneg
          simp [in3_ret_t.isNeg] at hneg
        · rename_i hnn
          have hok : (v.verify _).ret = IN3_OK := not_neg_ok hnn
          obtain ⟨h1, h2, h3, h4, h5⟩ := ih wv.2 wv.1 _ (((v.verify
              { ctx := ctx
                chain := chain_at wv.1 ci
                request := (arr ctx.requests)[i]?
                result := (arr ctx.responses)[i]?.bind fun r => r.result
                config := ctx.requests_configs[i]?
                proof := wv.2.proof
                last_validator_change := wv.2.last_validator_change
                currentBlock := wv.2.currentBlock }).required) ++ required)
          refine ⟨same_config_trans hw h1, ?_, h3, h4, ?_⟩
          · unfold verify_frame at h2 ⊢
            simpa using h2
          · intro hres _
            exact h5 hres (Or.inr hok)

theorem parse_response_frame (host : host_t) (ctx : in3_ctx_t) (data : String) :
    verify_frame ctx (ctx_parse_response host ctx data).2 ∧
    (ctx_parse_response host ctx data).2.nodes = ctx.nodes ∧
    (ctx_parse_response host ctx data).2.len = ctx.len ∧
    ((ctx_parse_response host ctx data).1 = IN3_OK →
      (ctx_parse_response host ctx data).2.response_context.isSome = true) := by
  unfold ctx_parse_response
  dsimp only
  cases hp : host.parse data with
  | none => simp [verify_frame, ctx_set_error, in3_ctx_t.len]
  | some j =>
    cases j with
    | object r =>
      dsimp only
      split <;> simp [verify_frame, ctx_set_error, in3_ctx_t.len]
    | array rs =>
      dsimp only
      split <;> simp [verify_frame, ctx_set_error, in3_ctx_t.len]
    | other => simp [verify_frame, ctx_set_error, in3_ctx_t.len]

theorem check_node_frame (host : host_t) (verifier : Option in3_verifier_t) (ci : Nat) (n : Nat)
    (w : world_t) (ctx : in3_ctx_t) (required : List in3_ctx_t) :
    same_config w.c (check_node host verifier ci n w ctx required).2.1.c ∧
    verify_frame ctx (check_node host verifier ci n w ctx required).2.2.1 ∧
    ((check_node host verifier ci n w ctx required).1 = false → n < ctx.nodes.length → 1 ≤ ctx.len →
      is_blacklisted (check_node host verifier ci n w ctx required).2.2.1.nodes[n]? = true ∨
      ((check_node host verifier ci n w ctx required).2.2.1.response_context.isSome = true ∧
        (check_node host verifier ci n w ctx required).2.2.1.verification_state = IN3_OK)) ∧
    (ctx.nodes = [] → (check_node host verifier ci n w ctx required).2.2.1.nodes = []) := by
  have hp := parse_response_frame host ctx ((arr ctx.raw_response).getD n { error := "", result := "" }).result
  have hv := verify_slots_frame verifier ci
    (List.range (ctx_parse_response host ctx
      ((arr ctx.raw_response).getD n { error := "", result := "" }).result).2.len)
    { proof := none, last_validator_change := 0, currentBlock := 0 } w
    (ctx_parse_response host ctx
      ((arr ctx.raw_response).getD n { error := "", result := "" }).result).2 required
  have hnil : ∀ (w1 : world_t) (c1 : in3_ctx_t), c1.nodes = ctx.nodes → ctx.nodes = [] →
      (blacklist_node host w1 c1 n).2.nodes = [] := by
    intro w1 c1 h1 h2
    rw [(blacklist_node_frame host w1 c1 n).2.2.2 (h1.trans h2), h1, h2]
  have hbl : ∀ (w1 : world_t) (c1 : in3_ctx_t), c1.nodes.length = ctx.nodes.length → n < ctx.nodes.length →
      is_blacklisted (blacklist_node host w1 c1 n).2.nodes[n]? = true := by
    intro w1 c1 h1 h2
    have hlt : n < c1.nodes.length := h1 ▸ h2
    exact (blacklist_node_frame host w1 c1 n).2.2.1 _ (List.getElem?_eq_getElem hlt)
  unfold check_node
  dsimp only
  split
  · exact ⟨(blacklist_node_frame host w ctx n).1, (blacklist_node_frame host w ctx n).2.1,
      fun _ hn _ => Or.inl (hbl w ctx rfl hn), hnil w ctx rfl⟩
  · split
    · exact ⟨(blacklist_node_frame host w _ n).1,
        verify_frame_trans hp.1 (blacklist_node_frame host w _ n).2.1,
        fun _ hn _ => Or.inl (hbl w _ (by rw [hp.2.1]) hn), hnil w _ hp.2.1⟩
    · rename_i hparse
      have hpok := hp.2.2.2 (not_neg_ok hparse)
      split
      · refine ⟨hv.1, verify_frame_trans hp.1 hv.2.1, ?_, ?_⟩
        · intro h; cases h
        · intro h; rw [hv.2.2.1, hp.2.1, h]
      · split
        · refine ⟨same_config_trans hv.1 (blacklist_node_frame host _ _ n).1,
            verify_frame_trans (verify_frame_trans hp.1 hv.2.1) (blacklist_node_frame host _ _ n).2.1,
            fun _ hn _ => Or.inl (hbl _ _ (by rw [hv.2.2.1, hp.2.1]) hn),
            hnil _ _ (by rw [hv.2.2.1, hp.2.1])⟩
        · rename_i hnw hnn
          have hok := not_neg_ok hnn
          refine ⟨hv.1, verify_frame_trans hp.1 hv.2.1, ?_, ?_⟩
          · intro _ _ hlen
            right
            refine ⟨by rw [hv.2.2.2.1]; exact hpok, hv.2.2.2.2 hok (Or.inl ?_)⟩
            rw [hp.2.2.1]
            intro hr
            have : ctx.len = 0 := by simpa using hr
            omega
          · intro h; rw [hv.2.2.1, hp.2.1, h]

theorem find_valid_result_loop_frame (host : host_t) (verifier : Option in3_verifier_t) (ci : Nat)
    (todo : List Nat) :
    ∀ (w : world_t) (ctx : in3_ctx_t) (required : List in3_ctx_t),
      same_config w.c (find_valid_result_loop host verifier ci todo w ctx required).2.1.c ∧
      verify_frame ctx (find_valid_result_loop host verifier ci todo w ctx required).2.2.1 ∧
      (ctx.nodes = [] → (find_valid_result_loop host verifier ci todo w ctx required).2.2.1.nodes = []) ∧
      ((∀ n ∈ todo, n < ctx.nodes.length) → 1 ≤ ctx.len →
        (find_valid_result_loop host verifier ci todo w ctx required).1 = IN3_OK →
        (find_valid_result_loop host verifier ci todo w ctx required).2.2.1.response_context.isSome = true ∧
        (find_valid_result_loop host verifier ci todo w ctx required).2.2.1.verification_state = IN3_OK) := by
  induction todo with
  | nil =>
    intro w ctx required
    refine ⟨rfl, verify_frame_refl _, fun h => h, ?_⟩
    intro _ _ h
    simp [find_valid_result_loop] at h
  | cons n rest ih =>
    intro w ctx required
    obtain ⟨c1, c2, c3, c4⟩ := check_node_frame host verifier ci n w ctx required
    unfold find_valid_result_loop
    dsimp only
    generalize check_node host verifier ci n w ctx required = x at c1 c2 c3 c4 ⊢
    have hlen : x.2.2.1.nodes.length = ctx.nodes.length := c2.2.2.2.2.2.2
    have hreq : x.2.2.1.len = ctx.len := by
      have := c2.2.2.1
      simp [in3_ctx_t.len, this]
    split
    · refine ⟨c1, c2, c4, ?_⟩
      intro _ _ h
      cases h
    · rename_i hx
      split
      · rename_i hcond
        refine ⟨c1, c2, c4, ?_⟩
        intro hall hl _
        have hn : n < ctx.nodes.length := hall n (List.mem_cons_self _ _)
        rcases c3 (by simpa using hx) hn hl with hb | hb
        · have hsome : (x.2.2.1.nodes[n]?).isNone = false := by
            have hlt : n < x.2.2.1.nodes.length := hlen ▸ hn
            rw [List.getElem?_eq_getElem hlt]
            rfl
          rw [hsome, hb] at hcond
          simp at hcond
        · exact hb
      · obtain ⟨i1, i2, i3, i4⟩ := ih x.2.1 x.2.2.1 x.2.2.2
        refine ⟨same_config_trans c1 i1, verify_frame_trans c2 i2, fun h => i3 (c4 h), ?_⟩
        intro hall hl hok
        apply i4 _ (hreq ▸ hl) hok
        intro m hm
        rw [hlen]
        exact hall m (List.mem_cons_of_mem _ hm)

theorem same_config_max {a b : in3_t} (h : same_config a b) : b.max_attempts = a.max_attempts := by
  unfold same_config at h
  rw [h]

theorem exec_ok_keeps {exec : world_t → in3_ctx_t → List in3_ctx_t → step_t} (h : exec_ok exec) :
    keeps_config exec := by
  intro w ctx required res he
  obtain ⟨ret, w', ctx', required'⟩ := res
  exact (h w ctx required ret w' ctx' required' he).1

theorem pre_handle_step_frame (verifier : in3_verifier_t) (ctx : in3_ctx_t) :
    (pre_handle_step verifier ctx).2.type = ctx.type ∧
    (pre_handle_step verifier ctx).2.requests = ctx.requests ∧
    (pre_handle_step verifier ctx).2.attempt = ctx.attempt ∧
    (pre_handle_step verifier ctx).2.retries = ctx.retries := by
  unfold pre_handle_step
  split
  · split
    · dsimp only
      split <;> simp
    · simp
  · simp

theorem execute_retry_ok (exec : world_t → in3_ctx_t → List in3_ctx_t → step_t) (hexec : exec_ok exec)
    (ret0 : in3_ret_t) (hret0 : ret0 ≠ IN3_OK) (w : world_t) (ctx : in3_ctx_t) (required : List in3_ctx_t)
    (ret : in3_ret_t) (w' : world_t) (ctx' : in3_ctx_t) (required' : List in3_ctx_t)
    (h : execute_retry exec ret0 w ctx required = some (ret, w', ctx', required')) :
    same_config w.c w'.c ∧ ctx'.type = ctx.type ∧
    (retry_inv w.c.max_attempts ctx → retry_inv w.c.max_attempts ctx') ∧
    (ctx.type = .CT_RPC → ret = IN3_OK → ctx'.nodes ≠ [] →
      ctx'.response_context.isSome = true ∧ ctx'.verification_state = IN3_OK) := by
  unfold execute_retry at h
  dsimp only at h
  split at h
  · rename_i hlt
    obtain ⟨h1, h2, h3, h4⟩ := hexec _ _ _ _ _ _ _ h
    refine ⟨h1, by simpa [response_free] using h2, ?_, ?_⟩
    · intro hinv
      apply h3
      unfold retry_inv at hinv ⊢
      simp only [response_free] at hlt ⊢
      constructor
      · omega
      · omega
    · intro ht
      exact h4 (by simpa [response_free] using ht)
  · split at h
    · simp only [Option.some.injEq, Prod.mk.injEq] at h
      obtain ⟨e1, e2, e3, _⟩ := h
      subst e2 e3
      refine ⟨rfl, by simp [response_free], ?_, ?_⟩
      · intro hinv
        unfold retry_inv at hinv ⊢
        simp only [response_free]
        omega
      · intro _ hok
        exact absurd (e1.trans hok) hret0
    · simp only [ctx_set_error, Option.some.injEq, Prod.mk.injEq] at h
      obtain ⟨e1, e2, e3, _⟩ := h
      subst e2 e3
      refine ⟨rfl, by simp [response_free], ?_, ?_⟩
      · intro hinv
        unfold retry_inv at hinv ⊢
        simp only [response_free]
        omega
      · intro _ hok
        rw [← e1] at hok
        cases hok

theorem retry_inv_congr {m : Nat} {a b : in3_ctx_t} (h1 : b.attempt = a.attempt) (h2 : b.retries = a.retries)
    (h : retry_inv m a) : retry_inv m b := by
  unfold retry_inv at *
  rw [h1, h2]
  exact h

theorem execute_rpc_ok (host : host_t) (exec : world_t → in3_ctx_t → List in3_ctx_t → step_t)
    (hexec : exec_ok exec) (w : world_t) (ctx : in3_ctx_t) (required : List in3_ctx_t) (ci : Nat)
    (verifier : in3_verifier_t) (hlen : 1 ≤ ctx.len)
    (ret : in3_ret_t) (w' : world_t) (ctx' : in3_ctx_t) (required' : List in3_ctx_t)
    (h : execute_rpc host exec w ctx required ci verifier = some (ret, w', ctx', required')) :
    same_config w.c w'.c ∧ ctx'.type = ctx.type ∧
    (retry_inv w.c.max_attempts ctx → retry_inv w.c.max_attempts ctx') ∧
    (ctx.type = .CT_RPC → ret = IN3_OK → ctx'.nodes ≠ [] →
      ctx'.response_context.isSome = true ∧ ctx'.verification_state = IN3_OK) := by
  obtain ⟨p1, p2, p3, p4⟩ := pre_handle_step_frame verifier ctx
  unfold execute_rpc at h
  dsimp only at h
  generalize pre_handle_step verifier ctx = handled at h p1 p2 p3 p4
  split at h
  · rename_i hneg
    simp only [ctx_set_error, Option.some.injEq, Prod.mk.injEq] at h
    obtain ⟨e1, e2, e3, _⟩ := h
    subst e2 e3
    refine ⟨rfl, p1, retry_inv_congr p3 p4, ?_⟩
    intro _ hok
    rw [← e1] at hok
    rw [hok] at hneg
    simp [in3_ret_t.isNeg] at hneg
  · split at h
    · cases h
    · rename_i ret2 w2 ctx2 req2 hpick
      obtain ⟨q1, q2⟩ := execute_pick_frame host exec (exec_ok_keeps hexec) _ _ _ _ hpick
      dsimp only at q1 q2
      have t2 : ctx2.type = ctx.type := q2.1.trans p1
      have a2 : ctx2.attempt = ctx.attempt := q2.2.2.2.2.2.2.1.trans p3
      have r2 : ctx2.retries = ctx.retries := q2.2.2.2.2.2.2.2.2.trans p4
      have l2 : ctx2.len = ctx.len := by
        have : ctx2.requests = ctx.requests := q2.2.2.1.trans p2
        simp [in3_ctx_t.len, this]
      split at h
      · rename_i hne
        simp only [Option.some.injEq, Prod.mk.injEq] at h
        obtain ⟨e1, e2, e3, _⟩ := h
        subst e1 e2 e3
        exact ⟨q1, t2, retry_inv_congr a2 r2, fun _ hok => absurd hok hne⟩
      · split at h
        · simp only [Option.some.injEq, Prod.mk.injEq] at h
          obtain ⟨e1, e2, e3, _⟩ := h
          subst e1 e2 e3
          exact ⟨q1, t2, retry_inv_congr a2 r2, fun _ hok => by cases hok⟩
        · obtain ⟨f1, f2, f3, f4⟩ := find_valid_result_loop_frame host (some verifier) ci
            (List.range (if ctx2.nodes.isEmpty then 1 else ctx_nodes_len ctx2.nodes)) w2 ctx2 req2
          unfold find_valid_result at h
          generalize find_valid_result_loop host (some verifier) ci
            (List.range (if ctx2.nodes.isEmpty then 1 else ctx_nodes_len ctx2.nodes)) w2 ctx2 req2 = f
            at h f1 f2 f3 f4
          have tf : f.2.2.1.type = ctx.type := f2.1.trans t2
          have af : f.2.2.1.attempt = ctx.attempt := f2.2.2.2.2.1.trans a2
          have rf : f.2.2.1.retries = ctx.retries := f2.2.2.2.2.2.1.trans r2
          split at h
          · simp only [Option.some.injEq] at h
            subst h
            refine ⟨same_config_trans q1 f1, tf, retry_inv_congr af rf, ?_⟩
            intro _ hok hnodes
            have hne : ctx2.nodes ≠ [] := fun hnil => hnodes (f3 hnil)
            apply f4 _ (l2 ▸ hlen) hok
            intro n hn
            have hemp : ctx2.nodes.isEmpty = false := by
              cases hc : ctx2.nodes with
              | nil => exact absurd hc hne
              | cons a l => rfl
            simpa [hemp, ctx_nodes_len] using hn
          · rename_i hnot
            have hret0 : f.1 ≠ IN3_OK := fun h0 => hnot (Or.inr h0)
            obtain ⟨g1, g2, g3, g4⟩ := execute_retry_ok exec hexec f.1 hret0 _ _ _ _ _ _ _ h
            have hm : f.2.1.c.max_attempts = w.c.max_attempts := same_config_max (same_config_trans q1 f1)
            rw [hm] at g3
            refine ⟨same_config_trans (same_config_trans q1 f1) g1, g2.trans tf, ?_, ?_⟩
            · intro hinv
              exact g3 (retry_inv_congr af rf hinv)
            · intro ht
              exact g4 (tf.trans ht)

theorem execute_required_config (exec : world_t → in3_ctx_t → List in3_ctx_t → step_t)
    (hexec : keeps_config exec) (w : world_t) (required : List in3_ctx_t) (res : _)
    (h : execute_required exec w required = some res) : same_config w.c res.2.1.c := by
  unfold execute_required at h
  split at h
  · cases h; rfl
  · rw [Option.map_eq_some'] at h
    obtain ⟨s, hs, rfl⟩ := h
    exact hexec _ _ _ _ hs

theorem execute_body_ok (host : host_t) (exec : world_t → in3_ctx_t → List in3_ctx_t → step_t)
    (hexec : exec_ok exec) : exec_ok (execute_body host exec) := by
  intro w ctx required ret w' ctx' required' h
  unfold execute_body at h
  split at h
  · simp only [Option.some.injEq, Prod.mk.injEq] at h
    obtain ⟨e1, e2, e3, _⟩ := h
    subst e2 e3
    refine ⟨rfl, rfl, fun x => x, ?_⟩
    intro _ hok
    rw [hok] at e1
    split at e1
    · rename_i hc
      exact absurd e1 hc.1
    · cases e1
  · split at h
    · simp only [ctx_set_error, Option.some.injEq, Prod.mk.injEq] at h
      obtain ⟨e1, e2, e3, _⟩ := h
      subst e2 e3
      refine ⟨rfl, rfl, retry_inv_congr rfl rfl, ?_⟩
      intro _ hok
      rw [← e1] at hok
      cases hok
    · rename_i hmethod
      split at h
      · rename_i hdone
        simp only [Option.some.injEq, Prod.mk.injEq] at h
        obtain ⟨e1, e2, e3, _⟩ := h
        subst e2 e3
        refine ⟨rfl, rfl, fun x => x, ?_⟩
        intro _ _ _
        simpa using hdone
      · split at h
        · cases h
        · rename_i ret2 w2 req2 hreq
          have hc2 := execute_required_config exec (exec_ok_keeps hexec) _ _ _ hreq
          dsimp only at hc2
          have hm : w2.c.max_attempts = w.c.max_attempts := same_config_max hc2
          split at h
          · rename_i hne
            simp only [Option.some.injEq, Prod.mk.injEq] at h
            obtain ⟨e1, e2, e3, _⟩ := h
            subst e1 e2 e3
            exact ⟨hc2, rfl, fun x => x, fun _ hok => absurd hok hne⟩
          · split at h
            · rename_i htype
              dsimp only at h
              split at h
              · simp only [ctx_set_error, Option.some.injEq, Prod.mk.injEq] at h
                obtain ⟨e1, e2, e3, _⟩ := h
                subst e2 e3
                refine ⟨hc2, rfl, retry_inv_congr rfl rfl, ?_⟩
                intro _ hok
                rw [← e1] at hok
                cases hok
              · split at h
                · simp only [ctx_set_error, Option.some.injEq, Prod.mk.injEq] at h
                  obtain ⟨e1, e2, e3, _⟩ := h
                  subst e2 e3
                  refine ⟨hc2, rfl, retry_inv_congr rfl rfl, ?_⟩
                  intro _ hok
                  rw [← e1] at hok
                  cases hok
                · have hlen : 1 ≤ ctx.len := by
                    unfold in3_ctx_t.len
                    cases hr : (arr ctx.requests) with
                    | nil => simp [hr] at hmethod
                    | cons a l =>
                      have : ctx.requests.getD [] = a :: l := hr
                      simp [this]
                  obtain ⟨g1, g2, g3, g4⟩ := execute_rpc_ok host exec hexec _ _ _ _ _ hlen _ _ _ _ h
                  rw [hm] at g3
                  exact ⟨same_config_trans hc2 g1, g2, g3, g4⟩
            · rename_i htype
              simp only [Option.some.injEq, Prod.mk.injEq] at h
              obtain ⟨e1, e2, e3, _⟩ := h
              subst e2 e3
              refine ⟨hc2, rfl, fun x => x, ?_⟩
              intro ht
              rw [htype] at ht
              cases ht

theorem in3_ctx_execute_ok (host : host_t) : ∀ fuel : Nat, exec_ok (in3_ctx_execute host fuel) := by
  intro fuel
  induction fuel with
  | zero =>
    intro w ctx required ret w' ctx' required' h
    simp [in3_ctx_execute] at h
  | succ n ih =>
    intro w ctx required ret w' ctx' required' h
    unfold in3_ctx_execute at h
    exact execute_body_ok host _ ih w ctx required ret w' ctx' required' h


/-! ### Claims on the executor -/

/-- C1 (amended): for an RPC context for which nodes were chosen, if
`in3_ctx_execute` returns `IN3_OK` then the context holds a parsed response
and `verification_state == IN3_OK` (the verifier returned OK for the request
slots of that response).  A response synthesised by `pre_handle`, for which no
node was chosen, is not covered: it is returned as it is. -/
theorem C1_ok_with_nodes_is_verified (host : host_t) (fuel : Nat) (w : world_t) (ctx : in3_ctx_t)
    (required : List in3_ctx_t) (w' : world_t) (ctx' : in3_ctx_t) (required' : List in3_ctx_t)
    (htype : ctx.type = .CT_RPC)
    (hexec : in3_ctx_execute host fuel w ctx required = some (IN3_OK, w', ctx', required'))
    (hnodes : ctx'.nodes ≠ []) :
    ctx'.response_context.isSome = true ∧ ctx'.verification_state = IN3_OK :=
  (in3_ctx_execute_ok host fuel w ctx required IN3_OK w' ctx' required' hexec).2.2.2 htype rfl hnodes

/-- C1 as stated fails: a response made by `pre_handle` (no node chosen) that
the verifier rejects with `IN3_EINVAL` is still answered with `IN3_OK`, and
`verification_state` is `IN3_EINVAL`. -/
theorem C1_counterexample :
    ex_ctx.type = .CT_RPC ∧
    (in3_ctx_execute internal_host 2 (ex_world (ex_client two_node_chain 3 2 0)) ex_ctx []).map
      (fun r => (r.1, r.2.2.1.nodes, r.2.2.1.response_context.isSome, r.2.2.1.verification_state)) =
      some (IN3_OK, [], true, IN3_EINVAL) := by
  decide

/-- C1 (amended) on a context whose two chosen nodes answered well. -/
theorem C1_ok_with_nodes_is_verified_witness :
    (state_after answered_run two_node_world answered_ctx).2.1.response_context.isSome = true ∧
    (state_after answered_run two_node_world answered_ctx).2.1.verification_state = IN3_OK :=
  C1_ok_with_nodes_is_verified good_host 2 two_node_world answered_ctx []
    (state_after answered_run two_node_world answered_ctx).1
    (state_after answered_run two_node_world answered_ctx).2.1
    (state_after answered_run two_node_world answered_ctx).2.2 (by decide) (by decide) (by decide)

theorem lifetime_retry_inv (m : Nat) (hm : 1 ≤ m) (c : in3_ctx_t) (h : lifetime m c) : retry_inv m c := by
  induction h with
  | fresh c h1 h2 =>
    unfold retry_inv
    omega
  | execute host fuel w w' c c' required required' ret _ hmax hexec ih =>
    have := (in3_ctx_execute_ok host fuel w c required ret w' c' required' hexec).2.2.1
    rw [hmax] at this
    exact this ih
  | other c c' _ h1 h2 ih => exact retry_inv_congr h1 h2 ih

/-- C3: over the lifetime of a context on a client with `max_attempts = m >= 1`,
whatever transport and verifier do, `in3_ctx_execute` goes from "response
present but verification failed" to a new attempt at most `m - 1` times
(`retries` counts these re-entries). -/
theorem C3_retry_bound (m : Nat) (hm : 1 ≤ m) (c : in3_ctx_t) (h : lifetime m c) : c.retries ≤ m - 1 := by
  have := (lifetime_retry_inv m hm c h).2
  omega

theorem failed_ctx_lifetime : lifetime 3 (state_after failed_run two_node_world failed_ctx).2.1 :=
  lifetime.execute (failing_host 1000) 3 two_node_world (state_after failed_run two_node_world failed_ctx).1
    failed_ctx (state_after failed_run two_node_world failed_ctx).2.1 []
    (state_after failed_run two_node_world failed_ctx).2.2
    IN3_WAITING (lifetime.fresh failed_ctx rfl rfl) rfl (by decide)

/-- C3 on a context that failed once with `max_attempts = 3`: one re-entry. -/
theorem C3_retry_bound_witness :
    (state_after failed_run two_node_world failed_ctx).2.1.retries ≤ 3 - 1 :=
  C3_retry_bound 3 (by decide) _ failed_ctx_lifetime


/-! ### The failing-transport scenario -/

theorem fill_weight_fold_nodes (host : host_t) (c : in3_t) (chain : in3_chain_t) (base : Nat)
    (all_nodes : List in3_node_t) (weights : List in3_node_weight_t) (now : Int) (props : in3_node_props_t)
    (p : Nat → Bool)
    (hp : ∀ i, p i = match all_nodes[i]?, weights[i]? with
      | some nd, some wt => node_passes host c chain now props nd wt
      | _, _ => false) :
    ∀ (n : Nat) (st : List node_weight_t × c_float),
      (List.range n).foldl (fill_weight_step host c chain base all_nodes weights now props)
        (some ([], 0)) = some st →
      same_nodes base ((List.range n).filter p) st.1 := by
  intro n
  induction n with
  | zero =>
    intro st h
    cases h
    simp [same_nodes]
  | succ n ih =>
    intro st' h
    obtain ⟨st, hst, hstep⟩ := fill_weight_fold_succ host c chain base all_nodes weights now props n st' h
    have ih := ih st hst
    rw [List.range_succ, List.filter_append]
    unfold same_nodes at ih ⊢
    have hpn := hp n
    rcases fill_weight_step_cases host c chain base all_nodes weights now props st st' n hstep with
      ⟨rfl, hno⟩ | ⟨nd, wt, score, hnd, hwt, hpass, _, rfl⟩
    · have : p n = false := by rw [hpn]; exact hno
      simp [List.filter_cons, this, ih]
    · simp only [hnd, hwt] at hpn
      rw [hpass] at hpn
      simp [List.filter_cons, hpn, ih]

theorem scored_map {ws : List in3_node_weight_t} (h : scored ws) :
    scored (ws.map fun wt => { wt with blacklisted_until := 0 }) := by
  intro wt hwt
  obtain ⟨a, ha, rfl⟩ := List.mem_map.mp hwt
  exact h a ha

theorem for_each_all {α : Type} (f : α → α) (p : List α) : for_each p.length f p = p.map f := by
  simp [for_each]

theorem free_nodes_lt {ws : List in3_node_weight_t} {now i : Nat} (h : i ∈ free_nodes ws now) :
    i < ws.length := by
  unfold free_nodes at h
  exact List.mem_range.mp (List.mem_filter.mp h).1

theorem find_required_total (required : List in3_ctx_t) (m : String)
    (h : ctx_find_required required m = some none) :
    ∀ m', (ctx_find_required required m').isSome = true := by
  induction required with
  | nil => intro m'; rfl
  | cons a rest ih =>
    intro m'
    unfold ctx_find_required at h ⊢
    cases hreq : a.requests with
    | none => simp [hreq] at h
    | some requests =>
      simp only [hreq] at h ⊢
      split at h
      · cases h
      · have hrest : ctx_find_required rest m = some none := by
          cases hr : ctx_find_required rest m with
          | none => simp [hr] at h
          | some r =>
            cases r with
            | none => rfl
            | some k => simp [hr] at h
        split
        · rfl
        · have := ih hrest m'
          cases hr : ctx_find_required rest m' with
          | none => simp [hr] at this
          | some r => rfl

/-- C11: for a chain whose whitelist has an all-zero contract, with no nodelist
refresh triggered (`needs_update` false, `update` false, no `in3_nodeList`
child), `in3_node_list_get` returns `IN3_OK` and hands out the arrays of the
chain as they are: the client (so the whitelist, its `needs_update` flag and
its addresses), the context and the chain of required contexts are unchanged. -/
theorem C11_manual_whitelist_not_refreshed (host : host_t)
    (exec : world_t → in3_ctx_t → List in3_ctx_t → step_t) (w : world_t) (ctx : in3_ctx_t)
    (required : List in3_ctx_t) (chain_id : chain_id_t) (ci : Nat) (wl : in3_whitelist_t)
    (hfind : in3_find_chain w.c chain_id = some ci)
    (hwl : (chain_at w ci).whitelist = some wl)
    (hzero : memiszero wl.contract 20 = true)
    (hno : (chain_at w ci).needs_update = false)
    (hchild : ctx_find_required required "in3_nodeList" = some none) :
    in3_node_list_get host exec w ctx required chain_id false = some ((IN3_OK, w, ctx, required), ci) := by
  unfold in3_node_list_get
  simp only [hfind, refresh_wanted, hno, hchild, Bool.or_self, Bool.false_eq_true, if_false,
    Option.map_some', Option.isSome_none]
  unfold node_list_get_whitelist
  simp only [hwl]
  have htot := find_required_total required "in3_nodeList" hchild "in3_whiteList"
  cases hr : refresh_wanted wl.needs_update false required "in3_whiteList" with
  | none =>
    unfold refresh_wanted at hr
    split at hr
    · cases hr
    · cases hf : ctx_find_required required "in3_whiteList" with
      | none => rw [hf] at htot; cases htot
      | some x => rw [hf] at hr; cases hr
  | some flagged => simp [hzero]

/-- C11 on a client whose chain has a manual whitelist holding `0xaa..aa`. -/
theorem C11_manual_whitelist_not_refreshed_witness :
    in3_node_list_get (failing_host 1000) no_exec manual_world ex_ctx [] 1 false =
      some ((IN3_OK, manual_world, ex_ctx, []), 0) :=
  C11_manual_whitelist_not_refreshed (failing_host 1000) no_exec manual_world ex_ctx [] 1 0
    { contract := ex_addr 0, addresses := ex_addr 0xaa, last_block := 0, needs_update := false }
    (by decide) (by decide) (by decide) (by decide) (by decide)

/-- C12 at a concrete input: `blacklist_node` on the wrapper of node 0 at time
1000 writes `blacklisted_until = 1000 + 3600000` (not `1000 + 3600`) and clears
the weight pointer of the wrapper; on an absent wrapper it changes nothing. -/
theorem C12_blacklist_adds_3600000 :
    ((blacklist_node (failing_host 1000) two_node_world failed_ctx 0).1.c.chains.map fun ch =>
      (arr ch.weights).map fun wt => wt.blacklisted_until) = [[3601000, 0]] ∧
    ((blacklist_node (failing_host 1000) two_node_world failed_ctx 0).2.nodes.map fun nw => nw.weight) =
      [none, some 1] ∧
    blacklist_node (failing_host 1000) two_node_world failed_ctx 5 = (two_node_world, failed_ctx) := by
  decide

/-- C13 at a concrete input: `DAY` is `24 * 2600 = 62400`.  A node registered at
time 1000 gets `blacklisted_until = 63400` from a refresh at time 2000 (not
`1000 + 86400`), and none at all from a refresh at time 70000, which is still
within 24 hours of the registration. -/
theorem C13_grace_day_is_62400 :
    DAY = 62400 ∧
    ((fill_chain C7_chain ex_ctx C7_result 2000).1,
      (arr (fill_chain C7_chain ex_ctx C7_result 2000).2.1.weights).map fun wt => wt.blacklisted_until) =
      (IN3_OK, [63400]) ∧
    ((fill_chain C7_chain ex_ctx C7_result 70000).1,
      (arr (fill_chain C7_chain ex_ctx C7_result 70000).2.1.weights).map fun wt => wt.blacklisted_until) =
      (IN3_OK, [0]) := by
  decide

/-! ### Claims on the node picker -/

theorem pick_filter_reset (host : host_t) (w : world_t) (ci : Nat) (now : Int) (props : in3_node_props_t)
    (hci : ci < w.c.chains.length) (h : reset_due host w ci now props) :
    pick_filter host w ci now props =
      (filter_pass host (put_chain w ci (clear_blacklist (chain_at w ci))) ci now props).map
        fun f => (put_chain w ci (clear_blacklist (chain_at w ci)), f) := by
  obtain ⟨⟨f, hf, h0⟩, hhalf⟩ := h
  unfold filter_pass at hf
  unfold blacklisted_count at hhalf
  unfold pick_filter
  simp only [hf]
  rw [if_pos h0, if_pos (by omega)]
  unfold filter_pass
  rw [chain_at_put w ci _ hci]
  rfl

theorem pick_filter_keep (host : host_t) (w : world_t) (ci : Nat) (now : Int) (props : in3_node_props_t)
    (h : ¬ reset_due host w ci now props) :
    pick_filter host w ci now props = (filter_pass host w ci now props).map fun f => (w, f) := by
  unfold reset_due filter_pass blacklisted_count at h
  unfold pick_filter filter_pass
  simp only []
  cases hf : in3_node_list_fill_weight host w.c w.c.chain_id ci (arr (chain_at w ci).nodelist)
      (arr (chain_at w ci).weights) (chain_at w ci).nodelist_length now props with
  | none => rfl
  | some f =>
    simp only [Option.map_some']
    rw [hf] at h
    by_cases h0 : f.2.2 = 0
    · rw [if_pos h0, if_neg]
      intro hgt
      apply h
      exact ⟨⟨f, rfl, h0⟩, by omega⟩
    · rw [if_neg h0]

theorem clear_blacklist_parallel (chain : in3_chain_t) (hpar : parallel chain) :
    clear_blacklist chain =
      { chain with
        weights := chain.weights.map (List.map fun wt => { wt with blacklisted_until := 0 }) } := by
  unfold clear_blacklist
  cases hw : chain.weights with
  | none => rfl
  | some ws =>
    have : ws.length = chain.nodelist_length := by
      have := hpar.2
      rw [hw] at this
      exact this
    simp only [Option.map_some']
    rw [← this, for_each_all]

/-- A filter pass over weight records that do not divide by zero has a
result. -/
theorem filter_pass_some (host : host_t) (w : world_t) (ci : Nat) (now : Int) (props : in3_node_props_t)
    (hdiv : scored (arr (chain_at w ci).weights)) :
    ∃ f, filter_pass host w ci now props = some f := by
  unfold filter_pass in3_node_list_fill_weight
  split
  · exact ⟨_, rfl⟩
  · rename_i chain _
    obtain ⟨st, hst⟩ := fill_weight_fold_some host w.c chain ci (arr (chain_at w ci).nodelist)
      (arr (chain_at w ci).weights) now props
      (fun i nd wt _ hwt _ => hdiv wt (List.getElem?_mem hwt)) (chain_at w ci).nodelist_length
    rw [hst]
    exact ⟨_, rfl⟩

/-- C14: for every pick with no refresh pending on a chain with parallel arrays
whose weight records do not make the score divide by zero: if the first filter
pass finds no candidate and strictly more than half of the nodes have
`blacklisted_until > now`, every `blacklisted_until` of the chain is set to 0
(nothing else changes in any chain) and the filter runs again on that state;
otherwise the client is left as it was.  The call returns `IN3_EFIND` with an
error on the context exactly when the filter pass over the state the call
leaves, which is the last pass that ran, found no candidate. -/
theorem C14_blacklist_reset_and_efind (host : host_t)
    (exec : world_t → in3_ctx_t → List in3_ctx_t → step_t) (w : world_t) (ctx : in3_ctx_t)
    (required : List in3_ctx_t) (request_count : Nat) (props : in3_node_props_t) (ci : Nat)
    (hfind : in3_find_chain w.c w.c.chain_id = some ci) (hno : no_refresh w required ci)
    (hpar : parallel (chain_at w ci)) (hdiv : scored (arr (chain_at w ci).weights)) :
    ∃ res w' ctx' out last,
      in3_node_list_pick_nodes host exec w ctx required request_count props =
        some ((res, w', ctx', required), out) ∧
      (reset_due host w ci (host.time w.t) props →
        chain_at w' ci = { chain_at w ci with
          weights := (chain_at w ci).weights.map (List.map fun wt => { wt with blacklisted_until := 0 }) } ∧
        ∀ j, j ≠ ci → w'.c.chains[j]? = w.c.chains[j]?) ∧
      (¬ reset_due host w ci (host.time w.t) props → w'.c = w.c) ∧
      filter_pass host w' ci (host.time w.t) props = some last ∧
      ((res = IN3_EFIND ∧ ctx'.error.isSome = true) ↔ last.2.2 = 0) := by
  obtain ⟨ch, hch, _⟩ := find_chain_some _ _ _ hfind
  have hci : ci < w.c.chains.length := get_lt_length hch
  have hget := node_list_get_no_refresh host exec { w with t := w.t + 1 } ctx required w.c.chain_id ci
    hfind hno
  have hok : IN3_OK.isNeg = false := rfl
  unfold in3_node_list_pick_nodes
  simp only [hget, hok, Bool.false_eq_true, if_false]
  by_cases hr : reset_due host w ci (host.time w.t) props
  · have hr1 : reset_due host { w with t := w.t + 1 } ci (host.time w.t) props := hr
    rw [pick_filter_reset host { w with t := w.t + 1 } ci (host.time w.t) props hci hr1]
    have hchain : chain_at (put_chain { w with t := w.t + 1 } ci
        (clear_blacklist (chain_at { w with t := w.t + 1 } ci))) ci =
        { chain_at w ci with
          weights := (chain_at w ci).weights.map (List.map fun wt => { wt with blacklisted_until := 0 }) } := by
      rw [chain_at_put { w with t := w.t + 1 } ci _ hci]
      exact clear_blacklist_parallel _ hpar
    have hothers : ∀ j, j ≠ ci → (put_chain { w with t := w.t + 1 } ci
        (clear_blacklist (chain_at { w with t := w.t + 1 } ci))).c.chains[j]? = w.c.chains[j]? := by
      intro j hj
      simp [put_chain, set_chain, List.getElem?_set, Ne.symm hj]
    have hdiv2 : scored (arr (chain_at (put_chain { w with t := w.t + 1 } ci
        (clear_blacklist (chain_at { w with t := w.t + 1 } ci))) ci).weights) := by
      rw [hchain]
      cases hw : (chain_at w ci).weights with
      | none =>
        intro wt hwt
        simp [arr] at hwt
      | some ws =>
        rw [hw] at hdiv
        exact scored_map hdiv
    obtain ⟨f2, hf2⟩ := filter_pass_some host (put_chain { w with t := w.t + 1 } ci
      (clear_blacklist (chain_at { w with t := w.t + 1 } ci))) ci (host.time w.t) props hdiv2
    rw [hf2]
    simp only [Option.map_some']
    split
    · rename_i h0
      exact ⟨_, _, _, _, f2, rfl, fun _ => ⟨hchain, hothers⟩, fun h => absurd hr h, hf2,
        ⟨fun _ => h0, fun _ => ⟨rfl, rfl⟩⟩⟩
    · rename_i h0
      split
      · exact ⟨_, _, _, _, f2, rfl, fun _ => ⟨hchain, hothers⟩, fun h => absurd hr h, hf2,
          ⟨fun h => (by cases h.1), fun h => absurd h h0⟩⟩
      · exact ⟨_, _, _, _, f2, rfl, fun _ => ⟨hchain, hothers⟩, fun h => absurd hr h, hf2,
          ⟨fun h => (by cases h.1), fun h => absurd h h0⟩⟩
  · have hr1 : ¬ reset_due host { w with t := w.t + 1 } ci (host.time w.t) props := hr
    rw [pick_filter_keep host { w with t := w.t + 1 } ci (host.time w.t) props hr1]
    obtain ⟨f, hf⟩ := filter_pass_some host { w with t := w.t + 1 } ci (host.time w.t) props hdiv
    rw [hf]
    simp only [Option.map_some']
    split
    · rename_i h0
      exact ⟨_, _, _, _, f, rfl, fun h => absurd h hr, fun _ => rfl, hf,
        ⟨fun _ => h0, fun _ => ⟨rfl, rfl⟩⟩⟩
    · rename_i h0
      split
      · exact ⟨_, _, _, _, f, rfl, fun h => absurd h hr, fun _ => rfl, hf,
          ⟨fun h => (by cases h.1), fun h => absurd h h0⟩⟩
      · exact ⟨_, _, _, _, f, rfl, fun h => absurd h hr, fun _ => rfl, hf,
          ⟨fun h => (by cases h.1), fun h => absurd h h0⟩⟩

theorem blacklisted_no_refresh : no_refresh blacklisted_world [] 0 := by
  refine ⟨rfl, rfl, ?_⟩
  intro wl h
  simp [chain_at, blacklisted_world, ex_world, ex_client, blacklisted_chain, ex_chain] at h

/-- C14 on the two-node chain with both nodes blacklisted until 5000, at time
1000: the marks are cleared. -/
theorem C14_blacklist_reset_and_efind_witness :
    ∃ res w' ctx' out last,
      in3_node_list_pick_nodes (failing_host 1000) no_exec blacklisted_world ex_ctx [] 2 0 =
        some ((res, w', ctx', []), out) ∧
      (reset_due (failing_host 1000) blacklisted_world 0 ((failing_host 1000).time blacklisted_world.t) 0 →
        chain_at w' 0 = { chain_at blacklisted_world 0 with
          weights := (chain_at blacklisted_world 0).weights.map
            (List.map fun wt => { wt with blacklisted_until := 0 }) } ∧
        ∀ j, j ≠ 0 → w'.c.chains[j]? = blacklisted_world.c.chains[j]?) ∧
      (¬ reset_due (failing_host 1000) blacklisted_world 0 ((failing_host 1000).time blacklisted_world.t) 0 →
        w'.c = blacklisted_world.c) ∧
      filter_pass (failing_host 1000) w' 0 ((failing_host 1000).time blacklisted_world.t) 0 = some last ∧
      ((res = IN3_EFIND ∧ ctx'.error.isSome = true) ↔ last.2.2 = 0) :=
  C14_blacklist_reset_and_efind (failing_host 1000) no_exec blacklisted_world ex_ctx [] 2 0 0
    (by decide) blacklisted_no_refresh (by decide) (by unfold scored; decide)

theorem find_range_some (p : Nat → Bool) :
    ∀ n i, (List.range n).find? p = some i → i < n ∧ p i = true ∧ ∀ j, j < i → p j = false := by
  intro n
  induction n with
  | zero => intro i h; simp at h
  | succ n ih =>
    intro i h
    rw [List.range_succ, List.find?_append] at h
    cases hn : (List.range n).find? p with
    | some k =>
      rw [hn] at h
      simp only [Option.or_some] at h
      have hki : k = i := Option.some.inj h
      subst hki
      obtain ⟨h1, h2, h3⟩ := ih k hn
      exact ⟨by omega, h2, h3⟩
    | none =>
      rw [hn] at h
      simp only [Option.none_or] at h
      have hpn : p n = true := by
        by_contra hc
        simp [List.find?, hc] at h
      have hin : i = n := by
        simp [List.find?, hpn] at h
        exact h.symm
      subst hin
      refine ⟨by omega, hpn, ?_⟩
      intro j hj
      rw [List.find?_eq_none] at hn
      have := hn j (List.mem_range.mpr hj)
      simpa using this

theorem find_node_index_some (chain : in3_chain_t) (address : address_t) (i : Nat) :
    find_node_index chain address = some i ↔ first_match chain address i := by
  unfold find_node_index first_match
  constructor
  · intro h
    obtain ⟨h1, h2, h3⟩ := find_range_some _ _ _ h
    refine ⟨h1, ?_, ?_⟩
    · cases hn : (arr chain.nodelist)[i]? with
      | none => simp [hn] at h2
      | some n => exact ⟨n, rfl, by simpa [hn] using h2⟩
    · intro j n hj hn
      have := h3 j hj
      simpa [hn] using this
  · intro ⟨h1, ⟨n, hn, hm⟩, h3⟩
    cases hf : (List.range chain.nodelist_length).find? (fun i =>
        match (arr chain.nodelist)[i]? with
        | some n => memcmp_eq n.address address 20
        | none => false) with
    | none =>
      rw [List.find?_eq_none] at hf
      have := hf i (List.mem_range.mpr h1)
      simp [hn, hm] at this
    | some k =>
      obtain ⟨k1, k2, k3⟩ := find_range_some _ _ _ hf
      rcases Nat.lt_trichotomy k i with hlt | heq | hgt
      · cases hk : (arr chain.nodelist)[k]? with
        | none => simp [hk] at k2
        | some nk =>
          have := h3 k nk hlt hk
          simp [hk, this] at k2
      · rw [heq]
      · have := k3 i hgt
        simp [hn, hm] at this

theorem find_node_index_none (chain : in3_chain_t) (address : address_t) :
    find_node_index chain address = none ↔ no_match chain address := by
  unfold find_node_index no_match
  rw [List.find?_eq_none]
  constructor
  · intro h j n hj hn
    have := h j (List.mem_range.mpr hj)
    simpa [hn] using this
  · intro h j hj
    rw [List.mem_range] at hj
    cases hn : (arr chain.nodelist)[j]? with
    | none => simp
    | some n => simp [h j n hj hn]

theorem memmove_erase {α : Type} (p : List α) (i : Nat) (h : i + 1 < p.length) :
    (memmove p i (i + 1) (p.length - 1 - i)).take (p.length - 1) = p.eraseIdx i := by
  unfold memmove
  rw [List.eraseIdx_eq_take_drop_succ]
  rw [List.take_of_length_le (by simp; omega : (p.drop (i + 1)).length ≤ p.length - 1 - i)]
  rw [List.take_left' (by simp; omega)]

theorem take_erase_last {α : Type} (p : List α) (i : Nat) (h : i + 1 = p.length) :
    p.take (p.length - 1) = p.eraseIdx i := by
  rw [List.eraseIdx_eq_take_drop_succ]
  rw [List.drop_of_length_le (by omega)]
  simp
  omega

theorem remove_slot {α : Type} (p : List α) (i len : Nat) (hlen : p.length = len) (hi : i < len)
    (hne : ¬ len - 1 = 0) :
    (if i < len - 1 then (some p).map fun p => memmove p i (i + 1) (len - 1 - i)
      else some p).map (fun p => p.take (len - 1)) = some (p.eraseIdx i) := by
  subst hlen
  by_cases hm : i < p.length - 1
  · simp only [hm, if_true, Option.map_some']
    rw [memmove_erase p i (by omega)]
  · simp only [hm, if_false, Option.map_some']
    rw [take_erase_last p i (by omega)]

theorem remove_node_found (c : in3_t) (chain_id : chain_id_t) (address : address_t) (ci : Nat)
    (chain : in3_chain_t) (i : Nat) (hfind : in3_find_chain c chain_id = some ci)
    (hget : c.chains[ci]? = some chain) (hpar : parallel chain)
    (hi : find_node_index chain address = some i) :
    ∃ nl wl,
      in3_client_remove_node c chain_id address =
        (IN3_OK, set_chain c ci
          { chain with nodelist := nl, weights := wl, nodelist_length := chain.nodelist_length - 1 }) ∧
      arr nl = (arr chain.nodelist).eraseIdx i ∧ arr wl = (arr chain.weights).eraseIdx i ∧
      (chain.nodelist_length - 1 = 0 → nl = none ∧ wl = none) := by
  have hlt : i < chain.nodelist_length := ((find_node_index_some chain address i).mp hi).1
  obtain ⟨hp1, hp2⟩ := hpar
  cases hn : chain.nodelist with
  | none => simp [arr, hn] at hp1; omega
  | some p =>
    cases hw : chain.weights with
    | none => simp [arr, hw] at hp2; omega
    | some q =>
      have hpl : p.length = chain.nodelist_length := by simpa [arr, hn] using hp1
      have hql : q.length = chain.nodelist_length := by simpa [arr, hw] using hp2
      unfold in3_client_remove_node
      simp only [hfind, hget, hi]
      by_cases h0 : chain.nodelist_length - 1 = 0
      · refine ⟨none, none, ?_, ?_, ?_, fun _ => ⟨rfl, rfl⟩⟩
        · simp only [h0, if_true]
        · have : (p.eraseIdx i).length = 0 := by rw [List.length_eraseIdx_of_lt (by omega)]; omega
          simp only [arr, Option.getD_some, Option.getD_none]
          exact (List.length_eq_zero.mp this).symm
        · have : (q.eraseIdx i).length = 0 := by rw [List.length_eraseIdx_of_lt (by omega)]; omega
          simp only [arr, Option.getD_some, Option.getD_none]
          exact (List.length_eq_zero.mp this).symm
      · refine ⟨some (p.eraseIdx i), some (q.eraseIdx i), ?_, rfl, rfl, fun h => absurd h h0⟩
        simp only [h0, if_false, hn, hw]
        rw [remove_slot p i _ hpl hlt h0, remove_slot q i _ hql hlt h0]

theorem remove_node_unknown (c : in3_t) (chain_id : chain_id_t) (address : address_t)
    (hfind : in3_find_chain c chain_id = none) :
    in3_client_remove_node c chain_id address = (IN3_EFIND, c) := by
  unfold in3_client_remove_node
  simp only [hfind]

theorem remove_node_absent (c : in3_t) (chain_id : chain_id_t) (address : address_t) (ci : Nat)
    (chain : in3_chain_t) (hfind : in3_find_chain c chain_id = some ci)
    (hget : c.chains[ci]? = some chain) (hno : find_node_index chain address = none) :
    in3_client_remove_node c chain_id address = (IN3_EFIND, c) := by
  unfold in3_client_remove_node
  simp only [hfind, hget, hno]

/-- C16: `in3_client_remove_node` on a chain with parallel arrays.  If the chain
exists and node `i` is the first one with the given 20 address bytes, the call
returns `IN3_OK`, `nodelist_length` drops by one, and the node list and the
weight list are the previous lists with index `i` deleted from both (nothing
else of the client changes).  If the chain is unknown or no node has the
address, it returns `IN3_EFIND` and the client is unchanged. -/
theorem C16_remove_node_compacts (c : in3_t) (chain_id : chain_id_t) (address : address_t) :
    (∀ ci chain i, in3_find_chain c chain_id = some ci → c.chains[ci]? = some chain → parallel chain →
      first_match chain address i →
      ∃ nl wl,
        in3_client_remove_node c chain_id address =
          (IN3_OK, set_chain c ci
            { chain with nodelist := nl, weights := wl, nodelist_length := chain.nodelist_length - 1 }) ∧
        chain.nodelist_length - 1 + 1 = chain.nodelist_length ∧
        arr nl = (arr chain.nodelist).eraseIdx i ∧ arr wl = (arr chain.weights).eraseIdx i) ∧
    (in3_find_chain c chain_id = none → in3_client_remove_node c chain_id address = (IN3_EFIND, c)) ∧
    (∀ ci chain, in3_find_chain c chain_id = some ci → c.chains[ci]? = some chain →
      no_match chain address → in3_client_remove_node c chain_id address = (IN3_EFIND, c)) := by
  refine ⟨?_, remove_node_unknown c chain_id address, ?_⟩
  · intro ci chain i hfind hget hpar hfirst
    obtain ⟨nl, wl, heq, h1, h2, _⟩ := remove_node_found c chain_id address ci chain i hfind hget hpar
      ((find_node_index_some chain address i).mpr hfirst)
    have := hfirst.1
    exact ⟨nl, wl, heq, by omega, h1, h2⟩
  · intro ci chain hfind hget hno
    exact remove_node_absent c chain_id address ci chain hfind hget
      ((find_node_index_none chain address).mpr hno)

/-- C16 on the two-node chain: removing `0x11..11` leaves the node `0x22..22`
with its weight record. -/
theorem C16_remove_node_compacts_witness :
    ∃ nl wl,
      in3_client_remove_node two_node_world.c 1 (ex_addr 0x11) =
        (IN3_OK, set_chain two_node_world.c 0
          { two_node_chain with
            nodelist := nl, weights := wl, nodelist_length := two_node_chain.nodelist_length - 1 }) ∧
      two_node_chain.nodelist_length - 1 + 1 = two_node_chain.nodelist_length ∧
      arr nl = (arr two_node_chain.nodelist).eraseIdx 0 ∧
      arr wl = (arr two_node_chain.weights).eraseIdx 0 :=
  (C16_remove_node_compacts two_node_world.c 1 (ex_addr 0x11)).1 0 two_node_chain 0 (by decide) (by decide)
    (by decide) ((find_node_index_some two_node_chain (ex_addr 0x11) 0).mp (by decide))

theorem realloc_succ {α : Type} [Inhabited α] (p : List α) (len : Nat) (h : p.length = len) :
    _realloc p (len + 1) = p ++ [default] := by
  subst h
  unfold _realloc
  rw [List.replicate_succ]
  have : p ++ default :: List.replicate p.length default =
      (p ++ [default]) ++ List.replicate p.length default := by simp
  rw [this]
  exact List.take_left' (by simp)

theorem set_append_last {α : Type} (p : List α) (x y : α) (len : Nat) (h : p.length = len) :
    (p ++ [x]).set len y = p ++ [y] := by
  subst h
  simp

theorem getD_append_last {α : Type} (p : List α) (x d : α) (len : Nat) (h : p.length = len) :
    (p ++ [x]).getD len d = x := by
  subst h
  simp [List.getD]

theorem add_node_unknown (c : in3_t) (chain_id : chain_id_t) (url : String) (props : in3_node_props_t)
    (address : address_t) (hfind : in3_find_chain c chain_id = none) :
    in3_client_add_node c chain_id url props address = (IN3_EFIND, c) := by
  unfold in3_client_add_node
  simp only [hfind]

theorem add_node_known (c : in3_t) (chain_id : chain_id_t) (url : String) (props : in3_node_props_t)
    (address : address_t) (ci : Nat) (chain : in3_chain_t) (i : Nat)
    (hfind : in3_find_chain c chain_id = some ci) (hget : c.chains[ci]? = some chain)
    (hi : find_node_index chain address = some i) :
    in3_client_add_node c chain_id url props address =
      (IN3_OK, set_chain c ci
        { chain with
          nodelist := chain.nodelist.map fun p =>
            p.set i { (arr chain.nodelist).getD i default with props := props, url := url }
          weights := chain.weights.map fun p => p.set i fresh_weight }) := by
  unfold in3_client_add_node
  simp only [hfind, hget, hi, Option.getD_some]
  rfl

theorem add_node_new (c : in3_t) (chain_id : chain_id_t) (url : String) (props : in3_node_props_t)
    (address : address_t) (ci : Nat) (chain : in3_chain_t)
    (hfind : in3_find_chain c chain_id = some ci) (hget : c.chains[ci]? = some chain)
    (hpar : parallel chain) (hno : find_node_index chain address = none) :
    in3_client_add_node c chain_id url props address =
      (IN3_OK, set_chain c ci
        { chain with
          nodelist := some (arr chain.nodelist ++ [fresh_node chain.nodelist_length address url props])
          weights := some (arr chain.weights ++ [fresh_weight])
          nodelist_length := chain.nodelist_length + 1 }) := by
  obtain ⟨hp1, hp2⟩ := hpar
  have hnl : (match chain.nodelist with
      | some p => _realloc p (chain.nodelist_length + 1)
      | none => _calloc (chain.nodelist_length + 1)) = arr chain.nodelist ++ [default] := by
    cases hn : chain.nodelist with
    | none =>
      have : chain.nodelist_length = 0 := by simpa [arr, hn] using hp1.symm
      simp [arr, this, _calloc]
    | some p =>
      simp only [arr, Option.getD_some]
      exact realloc_succ p _ (by simpa [arr, hn] using hp1)
  have hwl : (match chain.weights with
      | some p => _realloc p (chain.nodelist_length + 1)
      | none => _calloc (chain.nodelist_length + 1)) = arr chain.weights ++ [default] := by
    cases hw : chain.weights with
    | none =>
      have : chain.nodelist_length = 0 := by simpa [arr, hw] using hp2.symm
      simp [arr, this, _calloc]
    | some q =>
      simp only [arr, Option.getD_some]
      exact realloc_succ q _ (by simpa [arr, hw] using hp2)
  unfold in3_client_add_node
  simp only [hfind, hget, hno, Option.getD_none, hnl, hwl]
  generalize arr chain.nodelist = P at hp1 ⊢
  generalize arr chain.weights = Q at hp2 ⊢
  simp only [Option.map_some', set_append_last _ _ _ _ hp1, set_append_last _ _ _ _ hp2,
    getD_append_last _ _ _ _ hp1, arr, Option.getD_some]
  rfl

/-- C18: `in3_client_add_node` on a chain with parallel arrays.  If node `i` is
the first with the given 20 address bytes, the length is unchanged, node `i`
gets the new url and props and keeps its address, index, capacity, deposit and
whitelisted flag, and weight record `i` becomes the default.  If no node has
the address, one node with the given address (its 20 bytes), url and props,
capacity 1, deposit 0, index equal to the old length and whitelisted false is
appended together with a default weight record.  Every other node, weight
record and chain is unchanged.  On an unknown chain the call returns
`IN3_EFIND` and changes nothing. -/
theorem C18_add_node_updates_or_appends (c : in3_t) (chain_id : chain_id_t) (url : String)
    (props : in3_node_props_t) (address : address_t) :
    (∀ ci chain i, in3_find_chain c chain_id = some ci → c.chains[ci]? = some chain → parallel chain →
      first_match chain address i →
      ∃ old, (arr chain.nodelist)[i]? = some old ∧
        in3_client_add_node c chain_id url props address =
          (IN3_OK, set_chain c ci
            { chain with
              nodelist := some ((arr chain.nodelist).set i { old with props := props, url := url })
              weights := some ((arr chain.weights).set i fresh_weight) })) ∧
    (∀ ci chain, in3_find_chain c chain_id = some ci → c.chains[ci]? = some chain → parallel chain →
      no_match chain address →
      in3_client_add_node c chain_id url props address =
        (IN3_OK, set_chain c ci
          { chain with
            nodelist := some (arr chain.nodelist ++ [fresh_node chain.nodelist_length address url props])
            weights := some (arr chain.weights ++ [fresh_weight])
            nodelist_length := chain.nodelist_length + 1 })) ∧
    (in3_find_chain c chain_id = none →
      in3_client_add_node c chain_id url props address = (IN3_EFIND, c)) := by
  refine ⟨?_, ?_, add_node_unknown c chain_id url props address⟩
  · intro ci chain i hfind hget hpar hfirst
    obtain ⟨hlt, ⟨old, hold, _⟩, _⟩ := hfirst
    refine ⟨old, hold, ?_⟩
    rw [add_node_known c chain_id url props address ci chain i hfind hget
      ((find_node_index_some chain address i).mpr ⟨hlt, ⟨old, hold, by assumption⟩, by assumption⟩)]
    obtain ⟨hp1, hp2⟩ := hpar
    have hgetD : (arr chain.nodelist).getD i default = old := by
      simp [List.getD, hold]
    rw [hgetD]
    cases hn : chain.nodelist with
    | none => simp [arr, hn] at hp1; omega
    | some p =>
      cases hw : chain.weights with
      | none => simp [arr, hw] at hp2; omega
      | some q => rfl
  · intro ci chain hfind hget hpar hno
    exact add_node_new c chain_id url props address ci chain hfind hget hpar
      ((find_node_index_none chain address).mpr hno)

/-- C18 on the two-node chain: a new url for the known address `0x22..22`. -/
theorem C18_add_node_updates_or_appends_witness :
    ∃ old, (arr two_node_chain.nodelist)[1]? = some old ∧
      in3_client_add_node two_node_world.c 1 "http://c" 0x1 (ex_addr 0x22) =
        (IN3_OK, set_chain two_node_world.c 0
          { two_node_chain with
            nodelist := some ((arr two_node_chain.nodelist).set 1 { old with props := 0x1, url := "http://c" })
            weights := some ((arr two_node_chain.weights).set 1 fresh_weight) }) :=
  (C18_add_node_updates_or_appends two_node_world.c 1 "http://c" 0x1 (ex_addr 0x22)).1 0 two_node_chain 1
    (by decide) (by decide) (by decide)
    ((find_node_index_some two_node_chain (ex_addr 0x22) 1).mp (by decide))

theorem memcmp_take_self (address : address_t) : memcmp_eq (address.take 20) address 20 = true := by
  simp [memcmp_eq, List.take_take]

theorem set_chain_twice (c : in3_t) (ci : Nat) (a b : in3_chain_t) :
    set_chain (set_chain c ci a) ci b = set_chain c ci b := by
  simp [set_chain, List.set_set]

theorem set_chain_get (c : in3_t) (ci : Nat) (a : in3_chain_t) (h : ci < c.chains.length) :
    (set_chain c ci a).chains[ci]? = some a := by
  simp [set_chain, List.getElem?_set, h]

theorem appended_first_match (chain : in3_chain_t) (address : address_t) (url : String)
    (props : in3_node_props_t) (hpar : parallel chain) (hno : no_match chain address) :
    first_match
      { chain with
        nodelist := some (arr chain.nodelist ++ [fresh_node chain.nodelist_length address url props])
        weights := some (arr chain.weights ++ [fresh_weight])
        nodelist_length := chain.nodelist_length + 1 } address chain.nodelist_length := by
  obtain ⟨hp1, _⟩ := hpar
  refine ⟨Nat.lt_succ_self _, ⟨fresh_node chain.nodelist_length address url props, ?_, ?_⟩, ?_⟩
  · show (arr chain.nodelist ++ [_])[chain.nodelist_length]? = _
    rw [← hp1]
    simp
  · exact memcmp_take_self address
  · intro j n hj hn
    have hn2 : (arr chain.nodelist ++ [fresh_node chain.nodelist_length address url props])[j]? = some n := hn
    rw [List.getElem?_append_left (by omega)] at hn2
    exact hno j n hj hn2

/-- C17: on a known chain with parallel arrays and an address `a` that no node
of the chain has, `in3_client_add_node` followed by `in3_client_remove_node` of
`a` both return `IN3_OK` and leave the client as it was except that the node
list and the weight list of the chain are stored anew with the same records in
the same order; when the chain had no nodes both pointers are `NULL` afterwards. -/
theorem C17_add_then_remove_restores (c : in3_t) (chain_id : chain_id_t) (url : String)
    (props : in3_node_props_t) (address : address_t) (ci : Nat) (chain : in3_chain_t)
    (hfind : in3_find_chain c chain_id = some ci) (hget : c.chains[ci]? = some chain)
    (hpar : parallel chain) (hno : no_match chain address) :
    (in3_client_add_node c chain_id url props address).1 = IN3_OK ∧
    ∃ nl wl,
      in3_client_remove_node (in3_client_add_node c chain_id url props address).2 chain_id address =
        (IN3_OK, set_chain c ci { chain with nodelist := nl, weights := wl }) ∧
      arr nl = arr chain.nodelist ∧ arr wl = arr chain.weights ∧
      (chain.nodelist_length = 0 → nl = none ∧ wl = none) := by
  have hci : ci < c.chains.length := get_lt_length hget
  rw [add_node_new c chain_id url props address ci chain hfind hget hpar
    ((find_node_index_none chain address).mpr hno)]
  refine ⟨rfl, ?_⟩
  have hfind1 : in3_find_chain (set_chain c ci
      { chain with
        nodelist := some (arr chain.nodelist ++ [fresh_node chain.nodelist_length address url props])
        weights := some (arr chain.weights ++ [fresh_weight])
        nodelist_length := chain.nodelist_length + 1 }) chain_id = some ci := by
    rw [find_chain_set _ _ _ _ (by
      intro old ho
      rw [hget] at ho
      cases ho
      rfl)]
    exact hfind
  have hpar1 : parallel
      { chain with
        nodelist := some (arr chain.nodelist ++ [fresh_node chain.nodelist_length address url props])
        weights := some (arr chain.weights ++ [fresh_weight])
        nodelist_length := chain.nodelist_length + 1 } := by
    obtain ⟨hp1, hp2⟩ := hpar
    constructor
    · show (arr chain.nodelist ++ [_]).length = _
      simp [hp1]
    · show (arr chain.weights ++ [_]).length = _
      simp [hp2]
  obtain ⟨nl, wl, heq, h1, h2, h3⟩ := remove_node_found _ chain_id address ci _ chain.nodelist_length
    hfind1 (set_chain_get c ci _ hci) hpar1
    ((find_node_index_some _ address _).mpr (appended_first_match chain address url props hpar hno))
  refine ⟨nl, wl, ?_, ?_, ?_, ?_⟩
  · rw [heq, set_chain_twice]
    simp
  · rw [h1]
    show (arr chain.nodelist ++ [_]).eraseIdx chain.nodelist_length = _
    rw [List.eraseIdx_append_of_length_le (by rw [hpar.1])]
    simp [hpar.1]
  · rw [h2]
    show (arr chain.weights ++ [_]).eraseIdx chain.nodelist_length = _
    rw [List.eraseIdx_append_of_length_le (by rw [hpar.2])]
    simp [hpar.2]
  · intro h0
    apply h3
    show chain.nodelist_length + 1 - 1 = 0
    omega

/-- C17 on a chain without nodes: after adding and removing `0xaa..aa` the
node list is empty and both pointers are `NULL`. -/
theorem C17_add_then_remove_restores_witness :
    (in3_client_add_node (ex_client empty_chain 3 2 0) 1 "http://n" 0xFF (ex_addr 0xaa)).1 = IN3_OK ∧
    ∃ nl wl,
      in3_client_remove_node
          (in3_client_add_node (ex_client empty_chain 3 2 0) 1 "http://n" 0xFF (ex_addr 0xaa)).2 1
          (ex_addr 0xaa) =
        (IN3_OK, set_chain (ex_client empty_chain 3 2 0) 0 { empty_chain with nodelist := nl, weights := wl }) ∧
      arr nl = arr empty_chain.nodelist ∧ arr wl = arr empty_chain.weights ∧
      (empty_chain.nodelist_length = 0 → nl = none ∧ wl = none) :=
  C17_add_then_remove_restores (ex_client empty_chain 3 2 0) 1 "http://n" 0xFF (ex_addr 0xaa) 0 empty_chain
    (by decide) (by decide) (by decide) ((find_node_index_none empty_chain (ex_addr 0xaa)).mp (by decide))

theorem distinct_iff_list (chain : in3_chain_t) (h : (arr chain.nodelist).length = chain.nodelist_length) :
    distinct_addresses chain ↔ distinct_list (arr chain.nodelist) := by
  unfold distinct_addresses distinct_list
  constructor
  · intro hd j1 j2 n1 n2 g1 g2 ha
    exact hd j1 j2 n1 n2 (h ▸ get_lt_length g1) (h ▸ get_lt_length g2) g1 g2 ha
  · intro hd j1 j2 n1 n2 _ _ g1 g2 ha
    exact hd j1 j2 n1 n2 g1 g2 ha

theorem distinct_list_set (p : List in3_node_t) (i : Nat) (old x : in3_node_t) (hd : distinct_list p)
    (hold : p[i]? = some old) (hx : x.address = old.address) : distinct_list (p.set i x) := by
  have key : ∀ (j : Nat) (n : in3_node_t), (p.set i x)[j]? = some n →
      ∃ m : in3_node_t, p[j]? = some m ∧ m.address = n.address := by
    intro j n hj
    rw [List.getElem?_set] at hj
    split at hj
    · rename_i hij
      subst hij
      split at hj
      · cases hj
        exact ⟨old, hold, hx.symm⟩
      · cases hj
    · exact ⟨n, hj, rfl⟩
  intro j1 j2 n1 n2 g1 g2 ha
  obtain ⟨m1, h1, a1⟩ := key j1 n1 g1
  obtain ⟨m2, h2, a2⟩ := key j2 n2 g2
  exact hd j1 j2 m1 m2 h1 h2 (by rw [a1, a2, ha])

theorem distinct_list_append (p : List in3_node_t) (x : in3_node_t) (hd : distinct_list p)
    (hx : ∀ (j : Nat) (n : in3_node_t), p[j]? = some n → n.address ≠ x.address) :
    distinct_list (p ++ [x]) := by
  have key : ∀ (j : Nat) (n : in3_node_t), (p ++ [x])[j]? = some n →
      (j < p.length ∧ p[j]? = some n) ∨ (j = p.length ∧ n = x) := by
    intro j n hj
    rcases Nat.lt_or_ge j p.length with hlt | hge
    · rw [List.getElem?_append_left hlt] at hj
      exact Or.inl ⟨hlt, hj⟩
    · rw [List.getElem?_append_right hge] at hj
      have h0 : j - p.length = 0 := by
        by_contra hne
        rw [List.getElem?_eq_none (by simp; omega)] at hj
        cases hj
      rw [h0] at hj
      simp at hj
      exact Or.inr ⟨by omega, hj.symm⟩
  intro j1 j2 n1 n2 g1 g2 ha
  rcases key j1 n1 g1 with ⟨_, h1⟩ | ⟨e1, r1⟩ <;> rcases key j2 n2 g2 with ⟨_, h2⟩ | ⟨e2, r2⟩
  · exact hd j1 j2 n1 n2 h1 h2 ha
  · exact absurd (by rw [ha, r2]) (hx j1 n1 h1)
  · exact absurd (by rw [← ha, r1]) (hx j2 n2 h2)
  · omega

theorem distinct_list_erase (p : List in3_node_t) (i : Nat) (hd : distinct_list p) :
    distinct_list (p.eraseIdx i) := by
  intro j1 j2 n1 n2 g1 g2 ha
  rw [List.getElem?_eraseIdx] at g1 g2
  split at g1 <;> split at g2
  · exact hd j1 j2 n1 n2 g1 g2 ha
  · have := hd j1 (j2 + 1) n1 n2 g1 g2 ha
    omega
  · have := hd (j1 + 1) j2 n1 n2 g1 g2 ha
    omega
  · have := hd (j1 + 1) (j2 + 1) n1 n2 g1 g2 ha
    omega

theorem client_distinct_set (c : in3_t) (i : Nat) (chain : in3_chain_t)
    (hc : client_distinct c) (h : distinct_addresses chain) : client_distinct (set_chain c i chain) := by
  intro x hx
  rcases List.mem_or_eq_of_mem_set hx with hx | hx
  · exact hc x hx
  · exact hx ▸ h

theorem add_node_distinct (c : in3_t) (hp : client_parallel c) (hd : client_distinct c)
    (chain_id : chain_id_t) (url : String) (props : in3_node_props_t) (address : address_t) :
    client_distinct (in3_client_add_node c chain_id url props address).2 := by
  cases hfind : in3_find_chain c chain_id with
  | none =>
    rw [add_node_unknown c chain_id url props address hfind]
    exact hd
  | some ci =>
    obtain ⟨chain, hget, _⟩ := find_chain_some _ _ _ hfind
    have hmem : chain ∈ c.chains := List.getElem?_mem hget
    have hpar := hp chain hmem
    have hdl := (distinct_iff_list chain hpar.1).mp (hd chain hmem)
    cases hi : find_node_index chain address with
    | none =>
      rw [add_node_new c chain_id url props address ci chain hfind hget hpar hi]
      apply client_distinct_set _ _ _ hd
      rw [distinct_iff_list _ (by
        show (arr chain.nodelist ++ [_]).length = _
        simp [hpar.1])]
      apply distinct_list_append _ _ hdl
      intro j n hn heq
      have hno := (find_node_index_none chain address).mp hi j n (hpar.1 ▸ get_lt_length hn) hn
      have : memcmp_eq n.address address 20 = true := by
        rw [heq]
        exact memcmp_take_self address
      rw [this] at hno
      cases hno
    | some i =>
      rw [add_node_known c chain_id url props address ci chain i hfind hget hi]
      apply client_distinct_set _ _ _ hd
      obtain ⟨hlt, ⟨old, hold, _⟩, _⟩ := (find_node_index_some chain address i).mp hi
      cases hn : chain.nodelist with
      | none => simp [arr, hn] at hold
      | some p =>
        have hpl : p.length = chain.nodelist_length := by simpa [arr, hn] using hpar.1
        have hold2 : p[i]? = some old := by simpa [arr, hn] using hold
        rw [distinct_iff_list _ (by simp [arr, hpl])]
        show distinct_list (p.set i _)
        apply distinct_list_set p i old _ (by simpa [arr, hn] using hdl) hold2
        show ((arr (some p)).getD i default).address = old.address
        simp [arr, List.getD, hold2]

theorem remove_node_distinct (c : in3_t) (hp : client_parallel c) (hd : client_distinct c)
    (chain_id : chain_id_t) (address : address_t) :
    client_distinct (in3_client_remove_node c chain_id address).2 := by
  cases hfind : in3_find_chain c chain_id with
  | none =>
    rw [remove_node_unknown c chain_id address hfind]
    exact hd
  | some ci =>
    obtain ⟨chain, hget, _⟩ := find_chain_some _ _ _ hfind
    have hmem : chain ∈ c.chains := List.getElem?_mem hget
    have hpar := hp chain hmem
    have hdl := (distinct_iff_list chain hpar.1).mp (hd chain hmem)
    cases hi : find_node_index chain address with
    | none =>
      rw [remove_node_absent c chain_id address ci chain hfind hget hi]
      exact hd
    | some i =>
      obtain ⟨nl, wl, heq, h1, _, _⟩ := remove_node_found c chain_id address ci chain i hfind hget hpar hi
      have hlt := ((find_node_index_some chain address i).mp hi).1
      rw [heq]
      apply client_distinct_set _ _ _ hd
      rw [distinct_iff_list _ (by
        show (arr nl).length = chain.nodelist_length - 1
        rw [h1, List.length_eraseIdx_of_lt (by rw [hpar.1]; exact hlt), hpar.1])]
      show distinct_list (arr nl)
      rw [h1]
      exact distinct_list_erase _ _ hdl

theorem fill_chain_addresses (chain : in3_chain_t) (ctx : in3_ctx_t) (result : result_token) (_now : Int)
    (nodes : List node_token) (last_block : Nat)
    (hnodes : result.nodes = some nodes) (hlb : result.lastBlockNumber = some last_block)
    (hnew : last_block > chain.last_block) (hok : (fill_chain chain ctx result _now).1 = IN3_OK) :
    (fill_chain chain ctx result _now).2.1.nodelist_length = nodes.length ∧
    (arr (fill_chain chain ctx result _now).2.1.nodelist).length = nodes.length ∧
    ∀ (k : Nat) (tok : node_token), nodes[k]? = some tok →
      ∃ a n, tok.address = some a ∧ (arr (fill_chain chain ctx result _now).2.1.nodelist)[k]? = some n ∧
        n.address = a := by
  rw [fill_chain_accept chain ctx result _now nodes last_block hnodes hlb hnew] at hok ⊢
  simp only [] at hok ⊢
  split at hok
  · rename_i hloop
    rw [if_pos hloop]
    have hlen := (fill_chain_loop_length { chain with last_block := last_block }
      (to_uint64 (max 0 _now)) ctx nodes 0 (_calloc nodes.length) (_calloc nodes.length)).1
    refine ⟨rfl, by simpa [arr, length_calloc] using hlen, ?_⟩
    intro k tok hk
    obtain ⟨a, ha, _, hentry, _⟩ := fill_chain_loop_entry { chain with last_block := last_block }
      (to_uint64 (max 0 _now)) ctx nodes 0 (_calloc nodes.length) (_calloc nodes.length) hloop k tok hk
    have hklt : k < nodes.length := get_lt_length hk
    have := hentry (by simp [length_calloc]; exact hklt)
    simp only [Nat.zero_add] at this
    exact ⟨a, _, ha, this, by simp [entry_node, ha]⟩
  · rename_i hloop
    exact absurd hok hloop

theorem fill_chain_distinct (chain : in3_chain_t) (ctx : in3_ctx_t) (result : result_token) (_now : Int)
    (nodes : List node_token) (last_block : Nat)
    (hnodes : result.nodes = some nodes) (hlb : result.lastBlockNumber = some last_block)
    (hnew : last_block > chain.last_block) (hok : (fill_chain chain ctx result _now).1 = IN3_OK) :
    distinct_addresses (fill_chain chain ctx result _now).2.1 ↔ distinct_tokens nodes := by
  obtain ⟨hlen, hlen2, hentry⟩ := fill_chain_addresses chain ctx result _now nodes last_block hnodes hlb
    hnew hok
  rw [distinct_iff_list _ (by rw [hlen, hlen2])]
  constructor
  · intro hd k1 k2 t1 t2 g1 g2 ha
    obtain ⟨a1, n1, ha1, hn1, e1⟩ := hentry k1 t1 g1
    obtain ⟨a2, n2, ha2, hn2, e2⟩ := hentry k2 t2 g2
    apply hd k1 k2 n1 n2 hn1 hn2
    rw [e1, e2]
    rw [ha1, ha2] at ha
    exact Option.some.inj ha
  · intro hd j1 j2 n1 n2 g1 g2 ha
    have hj1 : j1 < nodes.length := hlen2 ▸ get_lt_length g1
    have hj2 : j2 < nodes.length := hlen2 ▸ get_lt_length g2
    obtain ⟨a1, m1, ha1, hm1, e1⟩ := hentry j1 nodes[j1] (List.getElem?_eq_getElem hj1)
    obtain ⟨a2, m2, ha2, hm2, e2⟩ := hentry j2 nodes[j2] (List.getElem?_eq_getElem hj2)
    rw [g1] at hm1
    rw [g2] at hm2
    cases hm1
    cases hm2
    apply hd j1 j2 nodes[j1] nodes[j2] (List.getElem?_eq_getElem hj1) (List.getElem?_eq_getElem hj2)
    rw [ha1, ha2, ← e1, ← e2, ha]

/-- C19 (amended): on a client whose chains have parallel arrays, pairwise
distinct node addresses in every chain stay pairwise distinct after
`in3_client_add_node` and after `in3_client_remove_node`, for every argument.
After a nodelist refresh accepted by `fill_chain` the node addresses are those
of the refresh result in order, so they are pairwise distinct exactly when the
addresses of the result are. -/
theorem C19_distinct_addresses_kept (c : in3_t) (hp : client_parallel c) (hd : client_distinct c) :
    (∀ chain_id url props address, client_distinct (in3_client_add_node c chain_id url props address).2) ∧
    (∀ chain_id address, client_distinct (in3_client_remove_node c chain_id address).2) ∧
    (∀ chain ctx result _now nodes last_block, result.nodes = some nodes →
      result.lastBlockNumber = some last_block → last_block > chain.last_block →
      (fill_chain chain ctx result _now).1 = IN3_OK →
      (distinct_addresses (fill_chain chain ctx result _now).2.1 ↔ distinct_tokens nodes)) :=
  ⟨add_node_distinct c hp hd, remove_node_distinct c hp hd, fill_chain_distinct⟩

/-- C19 as stated fails: a chain with the single address `0xaa..aa` accepts a
refresh that lists `0xaa..aa` twice, and then holds two nodes with the same
address. -/
theorem C19_counterexample :
    distinct_addresses C7_chain ∧
    (fill_chain C7_chain ex_ctx duplicate_result 1001).1 = IN3_OK ∧
    ¬ distinct_addresses (fill_chain C7_chain ex_ctx duplicate_result 1001).2.1 := by
  refine ⟨?_, by decide, ?_⟩
  · intro j1 j2 n1 n2 h1 h2 _ _ _
    simp [C7_chain, ex_chain] at h1 h2
    omega
  intro h
  have := h 0 1 (entry_node 0 (ex_token (some (ex_addr 0xaa)) (some "http://a") 0) default)
    (entry_node 1 (ex_token (some (ex_addr 0xaa)) (some "http://b") 0) default)
    (by decide) (by decide) (by decide) (by decide) (by decide)
  cases this

theorem two_node_client_distinct : client_distinct two_node_world.c := by
  intro chain hchain
  have : chain = two_node_chain := by
    simpa [two_node_world, ex_world, ex_client] using hchain
  subst this
  rw [distinct_iff_list _ (by decide)]
  intro j1 j2 n1 n2 g1 g2 ha
  have h1 : j1 < 2 := get_lt_length g1
  have h2 : j2 < 2 := get_lt_length g2
  interval_cases j1 <;> interval_cases j2 <;>
    first
    | rfl
    | (simp [two_node_chain, ex_chain, arr, ex_node, ex_addr] at g1 g2
       rw [← g1, ← g2] at ha
       simp at ha)

theorem two_node_client_parallel : client_parallel two_node_world.c := by
  intro chain hchain
  have : chain = two_node_chain := by
    simpa [two_node_world, ex_world, ex_client] using hchain
  subst this
  decide

/-- C19 (amended) on the two-node client: the addresses stay distinct when
`0x11..11` is added again. -/
theorem C19_distinct_addresses_kept_witness :
    client_distinct (in3_client_add_node two_node_world.c 1 "http://c" 0x1 (ex_addr 0x11)).2 :=
  (C19_distinct_addresses_kept two_node_world.c two_node_client_parallel two_node_client_distinct).1
    1 "http://c" 0x1 (ex_addr 0x11)

theorem find_range_first (p : Nat → Bool) (n i : Nat) (hi : i < n) (hp : p i = true)
    (hfirst : ∀ j, j < i → p j = false) : (List.range n).find? p = some i := by
  cases hf : (List.range n).find? p with
  | none =>
    rw [List.find?_eq_none] at hf
    exact absurd hp (hf i (List.mem_range.mpr hi))
  | some k =>
    obtain ⟨_, k2, k3⟩ := find_range_some p n k hf
    rcases Nat.lt_trichotomy k i with hlt | heq | hgt
    · rw [hfirst k hlt] at k2
      cases k2
    · rw [heq]
    · rw [k3 i hgt] at hp
      cases hp

theorem find_chain_none_iff (c : in3_t) (chain_id : chain_id_t) (hlen : c.chains.length = c.chains_length) :
    in3_find_chain c chain_id = none ↔ ∀ ch ∈ c.chains, ch.chain_id ≠ chain_id := by
  unfold in3_find_chain
  split
  · rename_i h1
    cases hc : c.chains with
    | nil => simp
    | cons a l =>
      have hl : l = [] := by
        rw [hc] at hlen
        simp at hlen
        exact List.length_eq_zero.mp (by omega)
      subst hl
      simp
  · rw [List.find?_eq_none]
    constructor
    · intro h ch hch
      obtain ⟨i, hi, rfl⟩ := List.mem_iff_getElem.mp hch
      have := h i (List.mem_range.mpr (hlen ▸ hi))
      simpa [List.getElem?_eq_getElem hi] using this
    · intro h i hi
      cases hg : c.chains[i]? with
      | none => simp
      | some ch => simpa using h ch (List.getElem?_mem hg)

theorem find_chain_absent (c : in3_t) (chain_id : chain_id_t)
    (h : ∀ ch ∈ c.chains, ch.chain_id ≠ chain_id) : in3_find_chain c chain_id = none := by
  unfold in3_find_chain
  split
  · cases hc : c.chains with
    | nil => simp
    | cons a l =>
      have := h a (by rw [hc]; exact List.mem_cons_self _ _)
      simp [this]
  · rw [List.find?_eq_none]
    intro i _
    cases hg : c.chains[i]? with
    | none => simp
    | some ch => simpa using h ch (List.getElem?_mem hg)

theorem register_chain_new (c : in3_t) (chain_id : chain_id_t) (type : in3_chain_type_t)
    (contract : address_t) (registry_id : List Nat) (version : Nat) (wl_contract : Option address_t)
    (hlen : c.chains.length = c.chains_length) (hfind : in3_find_chain c chain_id = none) :
    in3_client_register_chain c chain_id type contract registry_id version wl_contract =
      (IN3_OK, { c with
        chains := c.chains ++
          [registered_chain blank_chain chain_id type contract registry_id version wl_contract]
        chains_length := c.chains_length + 1 }) := by
  unfold in3_client_register_chain
  simp only [hfind]
  rw [realloc_succ c.chains _ hlen, set_append_last _ _ _ _ hlen]
  rfl

theorem register_chain_known (c : in3_t) (chain_id : chain_id_t) (type : in3_chain_type_t)
    (contract : address_t) (registry_id : List Nat) (version : Nat) (wl_contract : Option address_t)
    (ci : Nat) (chain : in3_chain_t) (hfind : in3_find_chain c chain_id = some ci)
    (hget : c.chains[ci]? = some chain) :
    in3_client_register_chain c chain_id type contract registry_id version wl_contract =
      (IN3_OK, set_chain c ci
        (registered_chain chain chain_id type contract registry_id version wl_contract)) := by
  unfold in3_client_register_chain
  simp only [hfind, hget]
  rfl

theorem find_chain_appended (c : in3_t) (chain_id : chain_id_t) (ch : in3_chain_t)
    (hlen : c.chains.length = c.chains_length) (hfind : in3_find_chain c chain_id = none)
    (hid : ch.chain_id = chain_id) :
    in3_find_chain { c with chains := c.chains ++ [ch], chains_length := c.chains_length + 1 } chain_id =
      some c.chains_length := by
  have hnone := (find_chain_none_iff c chain_id hlen).mp hfind
  unfold in3_find_chain
  simp only []
  split
  · rename_i h1
    have h0 : c.chains_length = 0 := by omega
    have hnil : c.chains = [] := List.length_eq_zero.mp (by omega)
    simp [hnil, hid, h0]
  · apply find_range_first
    · omega
    · rw [← hlen]
      simp [hid]
    · intro j hj
      have hj2 : j < c.chains.length := by omega
      rw [List.getElem?_append_left hj2, List.getElem?_eq_getElem hj2]
      simpa using hnone _ (List.getElem_mem hj2)

/-- C20: `in3_client_register_chain` on a client whose chain array has
`chains_length` records.  If no chain has the id (`in3_find_chain` returns
absent), one chain is appended: no nodes, no weights, `last_block` 0.  If a
chain has the id, `chains_length` is unchanged and that chain keeps its
nodelist, weights and `last_block`.  In both cases the chain carries the id,
the type, the 20 contract bytes, the 32 registry-id bytes, the version,
`needs_update` false and a whitelist that is absent without `wl_contract` and
fresh otherwise, `in3_find_chain` of the id returns it, every other chain is
unchanged, and `in3_find_chain` of an id that no chain has returns absent. -/
theorem C20_register_chain (c : in3_t) (chain_id : chain_id_t) (type : in3_chain_type_t)
    (contract : address_t) (registry_id : List Nat) (version : Nat) (wl_contract : Option address_t)
    (hlen : c.chains.length = c.chains_length) :
    (in3_find_chain c chain_id = none ↔ ∀ ch ∈ c.chains, ch.chain_id ≠ chain_id) ∧
    (in3_find_chain c chain_id = none →
      in3_client_register_chain c chain_id type contract registry_id version wl_contract =
        (IN3_OK, { c with
          chains := c.chains ++
            [registered_chain blank_chain chain_id type contract registry_id version wl_contract]
          chains_length := c.chains_length + 1 })) ∧
    (∀ ci chain, in3_find_chain c chain_id = some ci → c.chains[ci]? = some chain →
      in3_client_register_chain c chain_id type contract registry_id version wl_contract =
        (IN3_OK, set_chain c ci
          (registered_chain chain chain_id type contract registry_id version wl_contract))) ∧
    (∃ ci ch,
      in3_find_chain
        (in3_client_register_chain c chain_id type contract registry_id version wl_contract).2 chain_id =
        some ci ∧
      (in3_client_register_chain c chain_id type contract registry_id version wl_contract).2.chains[ci]? =
        some ch ∧
      ch.chain_id = chain_id ∧ ch.type = type ∧ ch.contract = some (contract.take 20) ∧
      ch.registry_id = registry_id.take 32 ∧ ch.version = version ∧ ch.needs_update = false ∧
      ch.whitelist = fresh_whitelist wl_contract) ∧
    (∀ other,
      (∀ ch ∈ (in3_client_register_chain c chain_id type contract registry_id version wl_contract).2.chains,
        ch.chain_id ≠ other) →
      in3_find_chain
        (in3_client_register_chain c chain_id type contract registry_id version wl_contract).2 other =
        none) := by
  refine ⟨find_chain_none_iff c chain_id hlen,
    register_chain_new c chain_id type contract registry_id version wl_contract hlen,
    fun ci chain hfind hget =>
      register_chain_known c chain_id type contract registry_id version wl_contract ci chain hfind hget,
    ?_, fun other h => find_chain_absent _ other h⟩
  cases hfind : in3_find_chain c chain_id with
  | none =>
    rw [register_chain_new c chain_id type contract registry_id version wl_contract hlen hfind]
    refine ⟨c.chains_length,
      registered_chain blank_chain chain_id type contract registry_id version wl_contract,
      find_chain_appended c chain_id _ hlen hfind rfl, ?_, rfl, rfl, rfl, rfl, rfl, rfl, rfl⟩
    show (c.chains ++ [_])[c.chains_length]? = _
    rw [← hlen]
    simp
  | some ci =>
    obtain ⟨chain, hget, hid⟩ := find_chain_some _ _ _ hfind
    rw [register_chain_known c chain_id type contract registry_id version wl_contract ci chain hfind hget]
    refine ⟨ci, registered_chain chain chain_id type contract registry_id version wl_contract, ?_,
      set_chain_get c ci _ (get_lt_length hget), rfl, rfl, rfl, rfl, rfl, rfl, rfl⟩
    rw [find_chain_set _ _ _ _ (by
      intro old ho
      rw [hget] at ho
      cases ho
      exact hid.symm)]
    exact hfind

/-- C20 on the freshly initialised client: registering the unknown chain
`0x99`. -/
theorem C20_register_chain_witness :
    in3_client_register_chain (in3_client_init 0).2 0x99 .CHAIN_ETH (ex_addr 0xc0) (List.replicate 32 7) 2
        none =
      (IN3_OK, { (in3_client_init 0).2 with
        chains := (in3_client_init 0).2.chains ++
          [registered_chain blank_chain 0x99 .CHAIN_ETH (ex_addr 0xc0) (List.replicate 32 7) 2 none]
        chains_length := (in3_client_init 0).2.chains_length + 1 }) :=
  (C20_register_chain (in3_client_init 0).2 0x99 .CHAIN_ETH (ex_addr 0xc0) (List.replicate 32 7) 2 none
    (by decide)).2.1 (by decide)


/-! ### Claims on client initialisation and context state -/

/-- C21: `in3_client_init` with chain id 0 returns `IN3_OK` with
`chains_length == 5`, the chain ids `0x01, 0x2a, 0x05, 0x7d0, 0xFFFF` in this
order and client `chain_id` mainnet; with one of these five ids it returns
`IN3_OK` with exactly that chain; with any other non-zero id it returns
`IN3_ECONFIG` with `chains_length` 0. -/
theorem C21_client_init_chains :
    ((in3_client_init 0).1 = IN3_OK ∧ (in3_client_init 0).2.chains_length = 5 ∧
      ((in3_client_init 0).2.chains.map fun ch => ch.chain_id) = [0x01, 0x2a, 0x05, 0x7d0, 0xFFFF] ∧
      (in3_client_init 0).2.chain_id = 0x01) ∧
    (∀ id ∈ [0x01, 0x2a, 0x05, 0x7d0, 0xFFFF],
      (in3_client_init id).1 = IN3_OK ∧ (in3_client_init id).2.chains_length = 1 ∧
      ((in3_client_init id).2.chains.map fun ch => ch.chain_id) = [id] ∧
      (in3_client_init id).2.chain_id = id) ∧
    (∀ id, id ≠ 0 → id ∉ [0x01, 0x2a, 0x05, 0x7d0, 0xFFFF] →
      (in3_client_init id).1 = IN3_ECONFIG ∧ (in3_client_init id).2.chains_length = 0 ∧
      (in3_client_init id).2.chains = []) := by
  refine ⟨by decide, ?_, ?_⟩
  · intro id hid
    simp only [List.mem_cons, List.mem_singleton, List.not_mem_nil, or_false] at hid
    rcases hid with rfl | rfl | rfl | rfl | rfl <;> decide
  · intro id h0 hid
    simp only [List.mem_cons, List.mem_singleton, List.not_mem_nil, or_false, not_or] at hid
    obtain ⟨h1, h2, h3, h4, h5⟩ := hid
    unfold in3_client_init
    simp [init_next, h0, h1, h2, h3, h4, h5, ETH_CHAIN_ID_MAINNET, ETH_CHAIN_ID_KOVAN,
      ETH_CHAIN_ID_GOERLI, ETH_CHAIN_ID_IPFS, ETH_CHAIN_ID_LOCAL]

/-- C21 at the id `0x99`. -/
theorem C21_client_init_chains_witness :
    (in3_client_init 0x99).1 = IN3_ECONFIG ∧ (in3_client_init 0x99).2.chains_length = 0 ∧
    (in3_client_init 0x99).2.chains = [] :=
  C21_client_init_chains.2.2 0x99 (by decide) (by decide)

/-! ### Claims on the configurator -/

/-- C22: for every client that contains the local chain `0xFFFF` with at least
one node and every url `u`, `in3_configure` with the document of the single key
`rpc` and value `u` returns `IN3_OK`, sets `chain_id` to `0xFFFF`,
`request_count` to 1 and `proof` to `PROOF_NONE`, writes `u` to the url of the
first node of the local chain and leaves everything else as it was. -/
theorem C22_rpc_shortcut (record_image : bytes_t → bytes_t)
    (c : in3_t) (u : String) (ci : Nat) (chain : in3_chain_t) (n : in3_node_t)
    (rest : List in3_node_t) (hfind : in3_find_chain c ETH_CHAIN_ID_LOCAL = some ci)
    (hget : c.chains[ci]? = some chain) (hnodes : chain.nodelist = some (n :: rest)) :
    in3_configure record_image c (some [.rpc u]) =
      some (IN3_OK,
        set_chain { c with proof := .PROOF_NONE, chain_id := ETH_CHAIN_ID_LOCAL, request_count := 1 } ci
          { chain with nodelist := some ({ n with url := u } :: rest) }) := by
  have hfind2 : in3_find_chain
      { c with proof := .PROOF_NONE, chain_id := ETH_CHAIN_ID_LOCAL, request_count := 1 }
      ETH_CHAIN_ID_LOCAL = some ci := hfind
  have hchain : c.chains.getD ci default = chain := by
    simp [List.getD, hget]
  unfold in3_configure configure_items configure_item
  simp only [hfind2, hchain, hnodes]
  rfl

/-- C22 on the freshly initialised client with the url of the spec. -/
theorem C22_rpc_shortcut_witness :
    in3_configure ex_image (in3_client_init 0).2 (some [.rpc "http://localhost:8545"]) =
      some (IN3_OK,
        set_chain { (in3_client_init 0).2 with
            proof := .PROOF_NONE, chain_id := ETH_CHAIN_ID_LOCAL, request_count := 1 } 4
          { init_local with
            nodelist := some ({ (arr init_local.nodelist).getD 0 default with
              url := "http://localhost:8545" } :: []) }) :=
  C22_rpc_shortcut ex_image (in3_client_init 0).2 "http://localhost:8545" 4 init_local
    ((arr init_local.nodelist).getD 0 default) [] (by decide) (by decide) (by decide)

/-- C23 (amended): `in3_configure` with the key `chainId` given as an integer
`n` sets `chain_id` to `n`; given as the name `mainnet`, `kovan` or `goerli` it
sets `chain_id` to `0x01`, `0x2a`, `0x05`; given as any other string, the names
`ipfs` and `local` included, it sets `chain_id` to `0x01`. -/
theorem C23_chain_id_names (record_image : bytes_t → bytes_t)
    (c : in3_t) :
    (∀ s n, in3_configure record_image c (some [.chainId .T_INTEGER s n]) =
      some (IN3_OK, { c with chain_id := n })) ∧
    (∀ n, in3_configure record_image c (some [.chainId .T_STRING "mainnet" n]) =
      some (IN3_OK, { c with chain_id := 0x01 })) ∧
    (∀ n, in3_configure record_image c (some [.chainId .T_STRING "kovan" n]) =
      some (IN3_OK, { c with chain_id := 0x2a })) ∧
    (∀ n, in3_configure record_image c (some [.chainId .T_STRING "goerli" n]) =
      some (IN3_OK, { c with chain_id := 0x05 })) ∧
    (∀ s n, s ≠ "mainnet" → s ≠ "kovan" → s ≠ "goerli" →
      in3_configure record_image c (some [.chainId .T_STRING s n]) =
        some (IN3_OK, { c with chain_id := 0x01 })) := by
  refine ⟨fun s n => rfl, fun n => rfl, fun n => rfl, fun n => rfl, ?_⟩
  intro s n h1 h2 h3
  simp [in3_configure, configure_items, configure_item, chain_id, h1, h2, h3]

/-- C23 as stated fails: the names `ipfs` and `local` set `chain_id` to `0x01`,
not to `0x7d0` and `0xFFFF`. -/
theorem C23_counterexample :
    (in3_configure ex_image (in3_client_init 0).2 (some [.chainId .T_STRING "ipfs" 0])).map
      (fun r => (r.1, r.2.chain_id)) = some (IN3_OK, 0x01) ∧
    (in3_configure ex_image (in3_client_init 0).2 (some [.chainId .T_STRING "local" 0])).map
      (fun r => (r.1, r.2.chain_id)) = some (IN3_OK, 0x01) := by
  decide

theorem configure_props_append (chain_id : chain_id_t) (ci : Nat) (rest : List chain_prop) :
    ∀ (pre : List chain_prop) (c c1 : in3_t), configure_props chain_id ci pre c = some (none, c1) →
      configure_props chain_id ci (pre ++ rest) c = configure_props chain_id ci rest c1 := by
  intro pre
  induction pre with
  | nil =>
    intro c c1 h
    simp only [configure_props, Option.some.injEq, Prod.mk.injEq, true_and] at h
    rw [h]
    rfl
  | cons p pre ih =>
    intro c c1 h
    rw [List.cons_append]
    cases hp : configure_prop c chain_id ci p with
    | none => simp [configure_props, hp] at h
    | some r =>
      obtain ⟨code, c2⟩ := r
      cases code with
      | some res => simp [configure_props, hp] at h
      | none =>
        simp only [configure_props, hp] at h ⊢
        exact ih c2 c1 h

theorem configure_entries_append {record_image : bytes_t → bytes_t}
    (rest : List chain_entry) :
    ∀ (pre : List chain_entry) (c c1 : in3_t), configure_entries record_image pre c = some (none, c1) →
      configure_entries record_image (pre ++ rest) c = configure_entries record_image rest c1 := by
  intro pre
  induction pre with
  | nil =>
    intro c c1 h
    simp only [configure_entries, Option.some.injEq, Prod.mk.injEq, true_and] at h
    rw [h]
    rfl
  | cons p pre ih =>
    intro c c1 h
    rw [List.cons_append]
    cases hp : configure_entry record_image c p with
    | none => simp [configure_entries, hp] at h
    | some r =>
      obtain ⟨code, c2⟩ := r
      cases code with
      | some res => simp [configure_entries, hp] at h
      | none =>
        simp only [configure_entries, hp] at h ⊢
        exact ih c2 c1 h

theorem configure_items_append {record_image : bytes_t → bytes_t}
    (rest : List config_item) :
    ∀ (pre : List config_item) (c c1 : in3_t), configure_items record_image pre c = some (none, c1) →
      configure_items record_image (pre ++ rest) c = configure_items record_image rest c1 := by
  intro pre
  induction pre with
  | nil =>
    intro c c1 h
    simp only [configure_items, Option.some.injEq, Prod.mk.injEq, true_and] at h
    rw [h]
    rfl
  | cons p pre ih =>
    intro c c1 h
    rw [List.cons_append]
    cases hp : configure_item record_image c p with
    | none => simp [configure_items, hp] at h
    | some r =>
      obtain ⟨code, c2⟩ := r
      cases code with
      | some res => simp [configure_items, hp] at h
      | none =>
        simp only [configure_items, hp] at h ⊢
        exact ih c2 c1 h

theorem add_node_code (c : in3_t) (chain_id : chain_id_t) (url : String) (props : in3_node_props_t)
    (address : address_t) :
    (in3_client_add_node c chain_id url props address).1 = IN3_OK ∨
    (in3_client_add_node c chain_id url props address).1 = IN3_EFIND := by
  unfold in3_client_add_node
  split
  · exact Or.inr rfl
  · split
    · exact Or.inr rfl
    · exact Or.inl rfl

theorem configure_nodes_code (chain_id : chain_id_t) :
    ∀ (entries : List node_entry) (c c1 : in3_t) (res : in3_ret_t),
      configure_nodes chain_id entries c = some (some res, c1) → res = IN3_EFIND := by
  intro entries
  induction entries with
  | nil => intro c c1 res h; simp [configure_nodes] at h
  | cons n rest ih =>
    intro c c1 res h
    unfold configure_nodes at h
    cases ha : n.address with
    | none => simp [ha] at h
    | some address =>
      cases hu : n.url with
      | none => simp [ha, hu] at h
      | some url =>
        simp only [ha, hu] at h
        split at h
        · rename_i hne
          simp only [Option.some.injEq, Prod.mk.injEq] at h
          rcases add_node_code c chain_id url n.props address with h1 | h1
          · exact absurd h1 hne
          · rw [← h.1, h1]
        · exact ih _ _ _ h

theorem configure_prop_einval (c : in3_t) (chain_id : chain_id_t) (ci : Nat) (p : chain_prop)
    (c1 : in3_t) (h : configure_prop c chain_id ci p = some (some IN3_EINVAL, c1)) :
    c1 = c ∧
    ((∃ t data, p = .whiteListContract t data ∧ (t ≠ .T_BYTES ∨ data.length ≠ 20)) ∨
     (∃ t items, p = .whiteList t items ∧ t ≠ .T_ARRAY) ∨
     (∃ data, p = .registryId data ∧ ∀ d, data = some d → d.length ≠ 32)) := by
  unfold configure_prop at h
  cases p with
  | contract data =>
    simp only [] at h
    split at h
    · cases h
    · split at h <;> simp at h
  | whiteListContract t data =>
    simp only [] at h
    split at h
    · rename_i hbad
      simp only [Option.some.injEq, Prod.mk.injEq, true_and] at h
      exact ⟨h.symm, Or.inl ⟨t, data, rfl, hbad⟩⟩
    · split at h
      · simp at h
      · split at h <;> simp at h
  | whiteList t items =>
    simp only [] at h
    split at h
    · rename_i hbad
      simp only [Option.some.injEq, Prod.mk.injEq, true_and] at h
      exact ⟨h.symm, Or.inr (Or.inl ⟨t, items, rfl, hbad⟩)⟩
    · simp at h
  | registryId data =>
    simp only [] at h
    cases data with
    | none =>
      simp only [Option.some.injEq, Prod.mk.injEq, true_and] at h
      exact ⟨h.symm, Or.inr (Or.inr ⟨none, rfl, fun d hd => by cases hd⟩)⟩
    | some d =>
      simp only [] at h
      split at h
      · rename_i hbad
        simp only [Option.some.injEq, Prod.mk.injEq, true_and] at h
        exact ⟨h.symm, Or.inr (Or.inr ⟨some d, rfl, fun d2 hd => by cases hd; exact hbad⟩)⟩
      · simp at h
  | needsUpdate value => simp at h
  | nodeList entries =>
    simp only [] at h
    split at h
    · simp at h
    · have := configure_nodes_code chain_id entries _ _ _ h
      cases this
  | other => simp at h

theorem configure_chain_invalid {record_image : bytes_t → bytes_t}
    (c2 c3 : in3_t) (chain_id : chain_id_t) (ci : Nat)
    (pre post : List chain_prop) (bad : chain_prop)
    (hpre : configure_props chain_id ci pre c2 = some (none, c3))
    (hbad : ∃ c4, configure_prop c3 chain_id ci bad = some (some IN3_EINVAL, c4)) :
    configure_chain record_image c2 chain_id ci (pre ++ bad :: post) = some (some IN3_EINVAL, c3) := by
  obtain ⟨c4, h4⟩ := hbad
  have hc4 := (configure_prop_einval c3 chain_id ci bad c4 h4).1
  subst hc4
  unfold configure_chain
  rw [configure_props_append chain_id ci (bad :: post) pre c2 c4 hpre]
  simp only [configure_props, h4]

theorem configure_document {record_image : bytes_t → bytes_t}
    (c c1 c2 : in3_t) (before after : List config_item)
    (entries later : List chain_entry) (e : chain_entry)
    (hbefore : configure_items record_image before c = some (none, c1))
    (hentries : configure_entries record_image entries c1 = some (none, c2)) (res : in3_ret_t) (c3 : in3_t)
    (hentry : configure_entry record_image c2 e = some (some res, c3)) :
    in3_configure record_image c (some (before ++ .servers (entries ++ e :: later) :: after)) =
      some (res, c3) := by
  unfold in3_configure
  simp only []
  rw [configure_items_append _ before c c1 hbefore]
  simp only [configure_items, configure_item]
  rw [configure_entries_append _ entries c1 c2 hentries]
  simp only [configure_entries, hentry, Option.map_some', Option.getD_some]

/-- C24 (amended): when an entry under `servers` / `nodes` is invalid,
`in3_configure` returns `IN3_EINVAL` and leaves the client as the tokens before
the entry, the registration of the entry's chain (when it was unknown) and the
sub-tokens of the entry that precede the invalid one made it: these are
applied, the invalid sub-token and everything after it are not.  Nothing is
applied for an entry of an unknown chain that lacks `contract` or
`registryId`. -/
theorem C24_invalid_entry_keeps_earlier (record_image : bytes_t → bytes_t)
    (c c1 c2 : in3_t) (before after : List config_item)
    (entries later : List chain_entry) (e : chain_entry)
    (hbefore : configure_items record_image before c = some (none, c1))
    (hentries : configure_entries record_image entries c1 = some (none, c2)) :
    (in3_find_chain c2 e.chain_id = none → (e.contract = none ∨ e.registry_id = none) →
      in3_configure record_image c (some (before ++ .servers (entries ++ e :: later) :: after)) =
        some (IN3_EINVAL, c2)) ∧
    (∀ ci pre bad post c3, in3_find_chain c2 e.chain_id = some ci → e.props = pre ++ bad :: post →
      configure_props e.chain_id ci pre c2 = some (none, c3) →
      (∃ c4, configure_prop c3 e.chain_id ci bad = some (some IN3_EINVAL, c4)) →
      in3_configure record_image c (some (before ++ .servers (entries ++ e :: later) :: after)) =
        some (IN3_EINVAL, c3)) ∧
    (∀ contract registry_id ci pre bad post c3, in3_find_chain c2 e.chain_id = none →
      e.contract = some contract → e.registry_id = some registry_id →
      in3_find_chain (in3_client_register_chain c2 e.chain_id .CHAIN_ETH contract registry_id 2
        e.wl_contract).2 e.chain_id = some ci →
      e.props = pre ++ bad :: post →
      configure_props e.chain_id ci pre (in3_client_register_chain c2 e.chain_id .CHAIN_ETH contract
        registry_id 2 e.wl_contract).2 = some (none, c3) →
      (∃ c4, configure_prop c3 e.chain_id ci bad = some (some IN3_EINVAL, c4)) →
      in3_configure record_image c (some (before ++ .servers (entries ++ e :: later) :: after)) =
        some (IN3_EINVAL, c3)) := by
  refine ⟨?_, ?_, ?_⟩
  · intro hfind hmiss
    apply configure_document c c1 c2 before after entries later e hbefore hentries
    unfold configure_entry
    simp only [hfind]
    rcases hmiss with h | h
    · simp [h]
    · cases hc : e.contract <;> simp [h]
  · intro ci pre bad post c3 hfind hprops hpre hbad
    apply configure_document c c1 c2 before after entries later e hbefore hentries
    unfold configure_entry
    simp only [hfind, hprops]
    exact configure_chain_invalid c2 c3 e.chain_id ci pre post bad hpre hbad
  · intro contract registry_id ci pre bad post c3 hfind hc hr hfind2 hprops hpre hbad
    apply configure_document c c1 c2 before after entries later e hbefore hentries
    have hok : (in3_client_register_chain c2 e.chain_id .CHAIN_ETH contract registry_id 2
        e.wl_contract).1 = IN3_OK := by
      unfold in3_client_register_chain
      simp only [hfind]
    unfold configure_entry
    simp only [hfind, hc, hr, hok, hfind2, hprops, ne_eq, not_true_eq_false, if_false]
    exact configure_chain_invalid _ c3 e.chain_id ci pre post bad hpre hbad

/-- C24 as stated fails: for the known chain `0x01` an entry with `needsUpdate`
0 followed by a `registryId` of three bytes ends with `IN3_EINVAL`, and the
chain record has `needs_update` false where it was true. -/
theorem C24_counterexample :
    ((in3_client_init 0).2.chains.map fun ch => ch.needs_update) = [true, true, true, true, false] ∧
    (in3_configure ex_image (in3_client_init 0).2 (some [.servers [invalid_entry]])).map
      (fun r => (r.1, r.2.chains.map fun ch => ch.needs_update)) =
      some (IN3_EINVAL, [false, true, true, true, false]) := by
  decide

/-- C24 (amended) on the entry of the counterexample: the client is the one
`needsUpdate` left. -/
theorem C24_invalid_entry_keeps_earlier_witness :
    in3_configure ex_image (in3_client_init 0).2 (some ([] ++ .servers ([] ++ invalid_entry :: []) :: [])) =
      some (IN3_EINVAL,
        set_chain (in3_client_init 0).2 0 { init_mainnet with needs_update := false }) :=
  (C24_invalid_entry_keeps_earlier ex_image (in3_client_init 0).2 (in3_client_init 0).2
    (in3_client_init 0).2
    [] [] [] [] invalid_entry rfl rfl).2.1
    0 [.needsUpdate 0] (.registryId (some [1, 2, 3])) []
    (set_chain (in3_client_init 0).2 0 { init_mainnet with needs_update := false })
    (by decide) rfl (by decide)
    ⟨set_chain (in3_client_init 0).2 0 { init_mainnet with needs_update := false }, by decide⟩

/-- C25 at concrete inputs: for the known chain `0x01` a `contract` of ten
bytes is copied over the first ten bytes of the stored contract and the call
returns `IN3_OK`; a `nodeList` element without address, or without url, makes
the call dereference `NULL`, so it returns nothing. -/
theorem C25_unchecked_contract_and_nodes :
    (in3_configure ex_image (in3_client_init 0).2
      (some [.servers [known_entry 1 [.contract (List.replicate 10 9)]]])).map
      (fun r => (r.1, (r.2.chains.map fun ch => (arr ch.contract).take 11).take 1)) =
      some (IN3_OK, [[9, 9, 9, 9, 9, 9, 9, 9, 9, 9, 159]]) ∧
    in3_configure ex_image (in3_client_init 0).2
      (some [.servers [known_entry 1
        [.nodeList [{ url := some "http://x", props := 65535, address := none }]]]]) = none ∧
    in3_configure ex_image (in3_client_init 0).2
      (some [.servers [known_entry 1
        [.nodeList [{ url := none, props := 65535, address := some (ex_addr 0xaa) }]]]]) = none := by
  decide

/-! ### Claims on the context state and the SIGN branch -/

/-- C26 (amended): for every RPC context, `in3_ctx_state` returns `CTX_SUCCESS`
only if a raw response and a parsed response are present and no error is set;
it returns `CTX_ERROR` whenever the error slot is set; and it does not read
`verification_state`. -/
theorem C26_ctx_state (ctx : in3_ctx_t) (required : List in3_ctx_t) (htype : ctx.type = .CT_RPC) :
    (in3_ctx_state (ctx :: required) = .CTX_SUCCESS →
      ctx.raw_response.isSome = true ∧ ctx.response_context.isSome = true ∧ ctx.error = none) ∧
    (ctx.error.isSome = true → in3_ctx_state (ctx :: required) = .CTX_ERROR) ∧
    (∀ v, in3_ctx_state ({ ctx with verification_state := v } :: required) =
      in3_ctx_state (ctx :: required)) := by
  refine ⟨?_, ?_, fun v => rfl⟩
  · intro h
    unfold in3_ctx_state at h
    simp only [htype] at h
    split at h
    · cases h
    · split at h
      · cases h
      · rename_i herr
        split at h
        · cases h
        · split at h
          · cases h
          · rename_i hraw
            split at h
            · cases h
            · rename_i hparsed
              refine ⟨?_, ?_, by simpa using herr⟩
              · cases hr : ctx.raw_response with
                | none => simp [hr] at hraw
                | some x => rfl
              · cases hp : ctx.response_context with
                | none => simp [hp] at hparsed
                | some x => rfl
  · intro herr
    unfold in3_ctx_state
    simp only [herr]
    split <;> rfl

/-- C26 as stated fails: the context left by a step in which the verifier
rejected (`IN3_EINVAL`) the response made by `pre_handle` has state
`CTX_SUCCESS`. -/
theorem C26_counterexample :
    rejected_ctx.type = .CT_RPC ∧ rejected_ctx.response_context.isSome = true ∧
    rejected_ctx.verification_state = IN3_EINVAL ∧
    in3_ctx_state [rejected_ctx] = .CTX_SUCCESS := by
  decide

/-- C26 (amended) on the context of the counterexample. -/
theorem C26_ctx_state_witness :
    (in3_ctx_state (rejected_ctx :: []) = .CTX_SUCCESS →
      rejected_ctx.raw_response.isSome = true ∧ rejected_ctx.response_context.isSome = true ∧
      rejected_ctx.error = none) ∧
    (rejected_ctx.error.isSome = true → in3_ctx_state (rejected_ctx :: []) = .CTX_ERROR) ∧
    (∀ v, in3_ctx_state ({ rejected_ctx with verification_state := v } :: []) =
      in3_ctx_state (rejected_ctx :: [])) :=
  C26_ctx_state rejected_ctx [] (by decide)

/-- C27: for every SIGN context with no latched error, a method in its first
request, no accepted parsed response (a SIGN context never gets one) and
required contexts whose execution returns `IN3_OK`, `in3_ctx_execute` returns
`IN3_WAITING` when there is no raw response, `IN3_ERPC` when
`raw_response.error` is non-empty, `IN3_WAITING` when the error is empty and
`raw_response.result` is empty, and `IN3_OK` otherwise; the context is left
unchanged in all four cases. -/
theorem C27_sign_branch (host : host_t) (fuel : Nat) (w w' : world_t) (ctx : in3_ctx_t)
    (required required' : List in3_ctx_t) (method : String) (htype : ctx.type = .CT_SIGN)
    (herr : ctx.error = none) (hrc : ctx.request_context = true)
    (hmethod : ((arr ctx.requests).head?.bind fun r => r.method) = some method)
    (hparsed : ctx.response_context = none ∨ ctx.verification_state ≠ IN3_OK)
    (hreq : execute_required (in3_ctx_execute host fuel) w required = some (IN3_OK, w', required')) :
    (ctx.raw_response = none →
      in3_ctx_execute host (fuel + 1) w ctx required = some (IN3_WAITING, w', ctx, required')) ∧
    (∀ first rest, ctx.raw_response = some (first :: rest) → first.error.length ≠ 0 →
      in3_ctx_execute host (fuel + 1) w ctx required = some (IN3_ERPC, w', ctx, required')) ∧
    (∀ first rest, ctx.raw_response = some (first :: rest) → first.error.length = 0 →
      first.result.length = 0 →
      in3_ctx_execute host (fuel + 1) w ctx required = some (IN3_WAITING, w', ctx, required')) ∧
    (∀ first rest, ctx.raw_response = some (first :: rest) → first.error.length = 0 →
      first.result.length ≠ 0 →
      in3_ctx_execute host (fuel + 1) w ctx required = some (IN3_OK, w', ctx, required')) := by
  have hbody : in3_ctx_execute host (fuel + 1) w ctx required =
      some (execute_sign ctx, w', ctx, required') := by
    show execute_body host (in3_ctx_execute host fuel) w ctx required = _
    have hopen : (ctx.response_context.isSome && decide (ctx.verification_state = IN3_OK)) = false := by
      rcases hparsed with h | h
      · simp [h]
      · simp [h]
    unfold execute_body
    simp only [herr, hrc, hmethod, hopen, hreq, htype, Option.isSome_none, Bool.false_eq_true,
      if_false, Bool.not_true, Option.isNone_some, Bool.or_self, Bool.false_and, ne_eq,
      not_true_eq_false]
  rw [hbody]
  refine ⟨?_, ?_, ?_, ?_⟩
  · intro h
    simp [execute_sign, h]
  · intro first rest h he
    simp [execute_sign, h, he]
  · intro first rest h he hr
    simp [execute_sign, h, he, hr]
  · intro first rest h he hr
    simp [execute_sign, h, he, hr]

/-- C27 on a SIGN context without raw response and without required context. -/
theorem C27_sign_branch_witness :
    in3_ctx_execute (failing_host 1000) (0 + 1) two_node_world sign_ctx [] =
      some (IN3_WAITING, two_node_world, sign_ctx, []) :=
  (C27_sign_branch (failing_host 1000) 0 two_node_world two_node_world sign_ctx [] [] "eth_blockNumber"
    rfl rfl rfl rfl (Or.inl rfl) rfl).1 rfl


/-! ## Claims on the bound of the driver -/

/-- Forgetting the count gives `send_loop`. -/
theorem send_loop_calls_erase (host : host_t) : ∀ (fuel retry_count : Nat) (w : world_t) (ctx : in3_ctx_t)
    (required : List in3_ctx_t),
    (send_loop_calls host fuel retry_count w ctx required).map (fun r => r.1) =
      send_loop host fuel retry_count w ctx required := by
  intro fuel
  induction fuel with
  | zero => intro retry_count w ctx required; rfl
  | succ fuel ih =>
    intro retry_count w ctx required
    simp only [send_loop_calls, send_loop]
    cases in3_ctx_execute host fuel w ctx required with
    | none => rfl
    | some r =>
      obtain ⟨res, w1, ctx1, req1⟩ := r
      simp only []
      split
      · rfl
      split
      · rfl
      split
      · rfl
      cases send_required (in3_ctx_execute host fuel) (send_loop host fuel 0) fuel w1 ctx1 req1 with
      | none => rfl
      | some q =>
        obtain ⟨code, w2, ctx2, req2⟩ := q
        cases code with
        | some res2 => rfl
        | none =>
          simp only []
          split
          · cases ctx2.type with
            | CT_RPC =>
              simp only []
              split
              · cases (in3_create_request w2 ctx2).1 with
                | none => rfl
                | some request =>
                  simp only [Option.map_map]
                  rw [← ih]
                  rfl
              · rfl
            | CT_SIGN =>
              simp only []
              split
              · cases ((arr ctx2.requests).head?.bind fun r => r.param0) with
                | none => rfl
                | some data =>
                  cases ((arr ctx2.requests).head?.bind fun r => r.param1) with
                  | none => rfl
                  | some sender =>
                    simp only []
                    split
                    · rfl
                    · simp only [Option.map_map]
                      rw [← ih]
                      rfl
              · rfl
          · exact ih _ _ _ _

/-- The count plus the local counter never exceeds ten. -/
theorem send_loop_calls_le (host : host_t) : ∀ (fuel retry_count : Nat) (w : world_t) (ctx : in3_ctx_t)
    (required : List in3_ctx_t) (r : in3_ret_t × world_t × in3_ctx_t × List in3_ctx_t) (n : Nat),
    send_loop_calls host fuel retry_count w ctx required = some (r, n) → retry_count ≤ 10 →
    n + retry_count ≤ 10 := by
  intro fuel
  induction fuel with
  | zero => intro retry_count w ctx required r n h; cases h
  | succ fuel ih =>
    intro retry_count w ctx required r n h hrc
    simp only [send_loop_calls] at h
    cases hx : in3_ctx_execute host fuel w ctx required with
    | none => rw [hx] at h; cases h
    | some x =>
      obtain ⟨res, w1, ctx1, req1⟩ := x
      rw [hx] at h
      simp only [] at h
      split at h
      · cases h; omega
      split at h
      · cases h; omega
      split at h
      · cases h; omega
      rename_i hle
      cases hs : send_required (in3_ctx_execute host fuel) (send_loop host fuel 0) fuel w1 ctx1 req1 with
      | none => rw [hs] at h; cases h
      | some q =>
        obtain ⟨code, w2, ctx2, req2⟩ := q
        rw [hs] at h
        cases code with
        | some res2 => cases h; omega
        | none =>
          simp only [] at h
          split at h
          · cases ht : ctx2.type with
            | CT_RPC =>
              rw [ht] at h
              simp only [] at h
              split at h
              · cases hc : (in3_create_request w2 ctx2).1 with
                | none => rw [hc] at h; cases h; omega
                | some request =>
                  rw [hc] at h
                  simp only [Option.map_eq_some'] at h
                  obtain ⟨⟨r1, n1⟩, h1, h2⟩ := h
                  have := ih _ _ _ _ _ _ h1 (by omega)
                  cases h2
                  omega
              · cases h; omega
            | CT_SIGN =>
              rw [ht] at h
              simp only [] at h
              split at h
              · cases h0 : ((arr ctx2.requests).head?.bind fun r => r.param0) with
                | none => rw [h0] at h; cases h; omega
                | some data =>
                  rw [h0] at h
                  cases h1 : ((arr ctx2.requests).head?.bind fun r => r.param1) with
                  | none => rw [h1] at h; cases h; omega
                  | some sender =>
                    rw [h1] at h
                    simp only [] at h
                    split at h
                    · cases h; omega
                    · simp only [Option.map_eq_some'] at h
                      obtain ⟨⟨r1, n1⟩, h3, h4⟩ := h
                      have := ih _ _ _ _ _ _ h3 (by omega)
                      cases h4
                      omega
              · cases h; omega
          · have := ih _ _ _ _ _ _ h (by omega)
            omega

/-- C28: for every host (transport, signer, verifier), world, context and chain
of required contexts, one call of `in3_send_ctx` invokes the transport or the
signer for the driven context at most ten times: the counted driver returns
what `in3_send_ctx` returns, its count never exceeds ten, and when the local
counter stands at ten a further `IN3_WAITING` result of `in3_ctx_execute` makes
it set the error on the context and return `IN3_ERPC` with no further call. -/
theorem C28_send_ctx_at_most_ten_calls (host : host_t) (fuel : Nat) (w : world_t) (ctx : in3_ctx_t)
    (required : List in3_ctx_t) :
    (send_loop_calls host fuel 0 w ctx required).map (fun r => r.1) =
      in3_send_ctx host fuel w ctx required ∧
    (∀ r n, send_loop_calls host fuel 0 w ctx required = some (r, n) → n ≤ 10) ∧
    (∀ w' ctx' required',
      in3_ctx_execute host fuel w ctx required = some (IN3_WAITING, w', ctx', required') →
      send_loop_calls host (fuel + 1) 10 w ctx required =
        some ((IN3_ERPC, w', { ctx' with error := some over_and_over }, required'), 0) ∧
      send_loop host (fuel + 1) 10 w ctx required =
        some (IN3_ERPC, w', { ctx' with error := some over_and_over }, required')) := by
  refine ⟨send_loop_calls_erase host fuel 0 w ctx required, ?_, ?_⟩
  · intro r n h
    have := send_loop_calls_le host fuel 0 w ctx required r n h (by omega)
    omega
  · intro w' ctx' required' h
    constructor
    · simp only [send_loop_calls, h]
      rfl
    · simp only [send_loop, h]
      rfl

/-- C28 on the two-node chain with a transport that always fails and
`max_attempts = 12`: the driver gives up with `IN3_ERPC` after exactly ten
transport calls, and the first result of `in3_ctx_execute` is `IN3_WAITING`. -/
theorem C28_send_ctx_at_most_ten_calls_witness :
    (send_loop_calls (failing_host 1000) 16 0 (ex_world (ex_client two_node_chain 12 2 0)) ex_ctx []).map
        (fun r => (r.1.1, r.2)) = some (IN3_ERPC, 10) ∧
      (in3_send_ctx (failing_host 1000) 16 (ex_world (ex_client two_node_chain 12 2 0)) ex_ctx []).map
        (fun r => r.1) = some IN3_ERPC := by
  refine ⟨by decide, ?_⟩
  rw [← (C28_send_ctx_at_most_ten_calls (failing_host 1000) 16
    (ex_world (ex_client two_node_chain 12 2 0)) ex_ctx []).1]
  decide

/-! ## Claims on the filter pass of the node picker -/

theorem bits_loop_spec : ∀ (fuel n : Nat), n ≤ fuel → 0 < n →
    2 ^ (bits_loop fuel n - 1) ≤ n ∧ n < 2 ^ (bits_loop fuel n) ∧ 1 ≤ bits_loop fuel n := by
  intro fuel
  induction fuel with
  | zero => intro n h0 h1; omega
  | succ fuel ih =>
    intro n hle hpos
    unfold bits_loop
    rw [if_neg (by omega)]
    by_cases h2 : n / 2 = 0
    · have hn : n = 1 := by omega
      subst hn
      have : bits_loop fuel (1 / 2) = 0 := by
        cases fuel with
        | zero => rfl
        | succ k => simp [bits_loop]
      rw [this]
      decide
    · obtain ⟨h3, h4, h5⟩ := ih (n / 2) (by omega) (by omega)
      refine ⟨?_, ?_, by omega⟩
      · have : bits_loop fuel (n / 2) + 1 - 1 = (bits_loop fuel (n / 2) - 1) + 1 := by omega
        rw [this, pow_succ]
        omega
      · rw [pow_succ]
        omega

theorem bit_length_spec (n : Nat) (h : 0 < n) :
    2 ^ (bit_length n - 1) ≤ n ∧ n < 2 ^ bit_length n ∧ 1 ≤ bit_length n :=
  bits_loop_spec n n (Nat.le_refl n) h

theorem bit_length_le (n k : Nat) (h : n < 2 ^ k) (hpos : 0 < n) : bit_length n ≤ k := by
  obtain ⟨h1, _, h3⟩ := bit_length_spec n hpos
  by_contra hc
  have : k ≤ bit_length n - 1 := by omega
  have := Nat.pow_le_pow_right (by decide : 1 ≤ 2) this
  omega

/-- Naturals below `2^24` are floats. -/
theorem float_of_nat_exact (n : Nat) (h : n < 2 ^ 24) : float_of_nat n = .fin n := by
  have key : (round_ratio 24 n 1).1 / (round_ratio 24 n 1).2 = n := by
    unfold round_ratio
    by_cases h0 : n = 0
    · subst h0
      rfl
    · rw [if_neg h0]
      have hpos : 0 < n := Nat.pos_of_ne_zero h0
      obtain ⟨h1, h2, h3⟩ := bit_length_spec n hpos
      have hle := bit_length_le n 24 h hpos
      have hb1 : bit_length 1 = 1 := by decide
      simp only [hb1]
      have hb : bit_length n - (24 + 1) = 0 := by omega
      rw [hb]
      simp only [pow_zero, Nat.mul_one, Nat.one_mul, Nat.zero_add, pow_one, Nat.div_one]
      obtain ⟨a, ha⟩ : ∃ a, 24 + 1 - bit_length n = a + 1 := ⟨24 - bit_length n, by omega⟩
      rw [ha]
      have hN : n * 2 ^ (a + 1) ≥ 2 ^ 24 := by
        have hbl : bit_length n - 1 + (a + 1) = 24 := by omega
        calc 2 ^ 24 = 2 ^ (bit_length n - 1) * 2 ^ (a + 1) := by rw [← pow_add, hbl]
          _ ≤ n * 2 ^ (a + 1) := Nat.mul_le_mul_right _ h1
      rw [if_pos hN]
      have hq : n * 2 ^ (a + 1) / 2 = n * 2 ^ a := by
        rw [pow_succ, ← Nat.mul_assoc, Nat.mul_div_cancel _ (by decide : 0 < 2)]
      have hr : n * 2 ^ (a + 1) % 2 = 0 := by
        rw [pow_succ, ← Nat.mul_assoc, Nat.mul_mod_left]
      rw [hq, hr]
      simp only [Nat.mul_zero]
      rw [if_neg (by omega)]
      have : n * 2 ^ a * 2 = n * 2 ^ (a + 1) := by rw [pow_succ, Nat.mul_assoc]
      rw [this, Nat.mul_div_cancel _ (by positivity)]
  unfold float_of_nat
  simp only [key]
  rw [if_pos (by omega)]

theorem float_mul_exact (a b : Nat) (h : a * b < 2 ^ 24) :
    float_mul (.fin a) (.fin b) = .fin (a * b) := float_of_nat_exact _ h

theorem float_add_exact (a b : Nat) (h : a + b < 2 ^ 24) :
    float_add (.fin a) (.fin b) = .fin (a + b) := float_of_nat_exact _ h

/-- Float sums of naturals that stay below `2^24` are exact. -/
theorem float_fold_exact : ∀ (l : List Nat) (a : Nat), a + l.sum < 2 ^ 24 →
    (l.map c_float.fin).foldl float_add (.fin a) = .fin (a + l.sum) := by
  intro l
  induction l with
  | nil => intro a _; simp
  | cons b l ih =>
    intro a h
    simp only [List.sum_cons] at h
    simp only [List.map_cons, List.foldl_cons, List.sum_cons]
    rw [float_add_exact a b (by omega), ih (a + b) (by omega), Nat.add_assoc]

theorem float_sum_exact (l : List Nat) (h : l.sum < 2 ^ 24) :
    float_sum (l.map c_float.fin) = .fin l.sum := by
  have := float_fold_exact l 0 (by omega)
  simpa [float_sum] using this

theorem score_divisor_ne_zero (weightDef : in3_node_weight_t) (h : score_defined weightDef) :
    score_divisor weightDef ≠ 0 := by
  unfold score_divisor
  unfold score_defined at h
  by_cases h0 : weightDef.response_count = 0
  · simp [h0]
  · rw [if_pos h0]
    rcases h with h | h
    · exact absurd h h0
    · exact Nat.pos_iff_ne_zero.mp (Nat.div_pos h (Nat.pos_of_ne_zero h0))

theorem node_score_float (weightDef : in3_node_weight_t) (nodeDef : in3_node_t) (x : c_float)
    (h : node_score weightDef nodeDef = some x) : x = float_score weightDef nodeDef := by
  by_cases hd : score_divisor weightDef = 0
  · rw [node_score_none weightDef nodeDef hd] at h
    cases h
  · rw [node_score_some weightDef nodeDef hd] at h
    cases h
    unfold float_score score_divisor
    by_cases h0 : weightDef.response_count = 0
    · simp [h0]
    · simp [h0]

theorem float_score_exact (weightDef : in3_node_weight_t) (nodeDef : in3_node_t)
    (h : score_exact weightDef nodeDef) :
    float_score weightDef nodeDef = .fin (spec_score weightDef nodeDef) := by
  obtain ⟨h1, h2, h3, h4⟩ := h
  unfold spec_score at h4
  unfold float_score spec_score
  simp only [] at h4 ⊢
  rw [float_of_nat_exact _ h1, float_of_nat_exact _ h2, float_mul_exact _ _ h3,
    float_of_nat_exact _ (Nat.lt_of_le_of_lt (Nat.div_le_self _ _) (by decide)),
    float_mul_exact _ _ h4]

/-- The sums kept by the loop of `in3_node_list_fill_weight`. -/
theorem fill_weight_fold_sums (host : host_t) (c : in3_t) (chain : in3_chain_t) (base : Nat)
    (all_nodes : List in3_node_t) (weights : List in3_node_weight_t) (now : Int) (props : in3_node_props_t) :
    ∀ (n : Nat) (st : List node_weight_t × c_float),
      (List.range n).foldl (fill_weight_step host c chain base all_nodes weights now props)
        (some ([], 0)) = some st →
      st.2 = float_sum (st.1.map fun nw => nw.w) ∧
      (∀ (k : Nat) (nw : node_weight_t), st.1[k]? = some nw →
        nw.s = float_sum ((st.1.take k).map fun nw => nw.w)) ∧
      (∀ nw ∈ st.1,
        ∃ nd wt, all_nodes[nw.node]? = some nd ∧ weights[nw.node]? = some wt ∧
          node_score wt nd = some nw.w) := by
  intro n
  induction n with
  | zero =>
    intro st h
    cases h
    refine ⟨rfl, ?_, ?_⟩
    · intro k nw hk
      simp at hk
    · intro nw hnw
      simp at hnw
  | succ n ih =>
    intro st' h
    obtain ⟨st, hst, hstep⟩ := fill_weight_fold_succ host c chain base all_nodes weights now props n st' h
    obtain ⟨ih1, ih2, ih3⟩ := ih st hst
    rcases fill_weight_step_cases host c chain base all_nodes weights now props st st' n hstep with
      ⟨rfl, _⟩ | ⟨nd, wt, score, hnd, hwt, _, hscore, rfl⟩
    · exact ⟨ih1, ih2, ih3⟩
    · refine ⟨?_, ?_, ?_⟩
      · simp only [float_sum, List.map_append, List.map_cons, List.map_nil, List.foldl_append,
          List.foldl_cons, List.foldl_nil]
        rw [ih1]
        rfl
      · intro k nw hk
        by_cases hlt : k < st.1.length
        · rw [List.getElem?_append_left hlt] at hk
          rw [List.take_append_of_le_length (Nat.le_of_lt hlt)]
          exact ih2 k nw hk
        · have hge : st.1.length ≤ k := Nat.le_of_not_lt hlt
          rw [List.getElem?_append_right hge] at hk
          by_cases h0 : k - st.1.length = 0
          · rw [h0] at hk
            simp only [List.getElem?_cons_zero, Option.some.injEq] at hk
            have hk' : k = st.1.length := by omega
            subst hk
            rw [hk', List.take_left]
            exact ih1
          · obtain ⟨m, hm⟩ := Nat.exists_eq_succ_of_ne_zero h0
            rw [hm] at hk
            simp at hk
      · intro nw hnw
        simp only [List.mem_append, List.mem_singleton] at hnw
        rcases hnw with h | h
        · exact ih3 nw h
        · subst h
          exact ⟨nd, wt, hnd, hwt, hscore⟩

/-- On a non-negative time the tests of the loop are the filters of the
specification together with the compile-time property filter. -/
theorem node_passes_spec (host : host_t) (c : in3_t) (chain : in3_chain_t) (now : Int)
    (props : in3_node_props_t) (nd : in3_node_t) (wt : in3_node_weight_t)
    (hnow : 0 ≤ now ∧ now < 2 ^ 64) :
    node_passes host c chain now props nd wt =
      (spec_filter c chain now nd wt && (!host.FILTER_NODES || in3_node_props_match props nd.props)) := by
  have hu : ((to_uint64 now : Nat) : Int) = now := by
    unfold to_uint64
    rw [Int.emod_eq_of_lt hnow.1 hnow.2]
    exact Int.toNat_of_nonneg hnow.1
  unfold node_passes spec_filter
  by_cases h1 : chain.whitelist.isSome = true <;> by_cases h2 : nd.whitelisted = true <;>
    by_cases h3 : nd.deposit < c.min_deposit <;> by_cases h4 : host.FILTER_NODES = true <;>
    by_cases h5 : in3_node_props_match props nd.props = true <;>
    by_cases h6 : wt.blacklisted_until > to_uint64 now <;>
    simp [h1, h2, h3, h4, h5, h6] <;> omega

/-- C30 (amended): for every client, chain and time `now` in the range of
`uint64_t`, with `len` the length of the two parallel arrays: when every node
that passes the filters has a weight record with `response_count == 0` or
`total_response_time >= response_count` (otherwise the score divides by zero
and nothing is returned), `in3_node_list_fill_weight` returns exactly the nodes
that pass the filters of the specification and, in a build with
`FILTER_NODES`, match the required properties, in nodelist order, each with
the weight record of the same index; the `w` of a candidate is
`weight x capacity x (500 div avg)` computed in single precision, the first
`s` is 0, every later `s` is the float sum of the preceding `s` and `w`,
`total_weight` is the float sum of all `w` and `total_found` the length of the
list.  Where the weights, capacities, products and the sum of the scores stay
below `2^24` no operation rounds: `w` is the natural number
`weight x capacity x (500 div avg)`, every later `s` is the preceding `s + w`
and `total_weight` is the sum of all `w`.  For an unknown chain id the list is
empty and `total_found` is 0. -/
theorem C30_fill_weight_candidates (host : host_t) (c : in3_t) (chain_id : chain_id_t) (base : Nat)
    (all_nodes : List in3_node_t) (weights : List in3_node_weight_t) (now : Int)
    (props : in3_node_props_t) (hlen : weights.length = all_nodes.length)
    (hnow : 0 ≤ now ∧ now < 2 ^ 64) :
    (∀ ci chain, in3_find_chain c chain_id = some ci → c.chains[ci]? = some chain →
      (∀ i, i < all_nodes.length →
        (spec_filter c chain now (all_nodes.getD i default) (weights.getD i default) &&
          (!host.FILTER_NODES || in3_node_props_match props (all_nodes.getD i default).props)) = true →
        score_defined (weights.getD i default)) →
      ∃ found total_weight,
        in3_node_list_fill_weight host c chain_id base all_nodes weights all_nodes.length now props =
          some (found, total_weight, found.length) ∧
        found.map (fun nw => nw.node) =
          (List.range all_nodes.length).filter (fun i =>
            spec_filter c chain now (all_nodes.getD i default) (weights.getD i default) &&
              (!host.FILTER_NODES || in3_node_props_match props (all_nodes.getD i default).props)) ∧
        (∀ nw ∈ found, nw.weight = some nw.node ∧
          nw.w = float_score (weights.getD nw.node default) (all_nodes.getD nw.node default)) ∧
        (∀ nw, found[0]? = some nw → nw.s = 0) ∧
        (∀ (k : Nat) (p q : node_weight_t), found[k]? = some p → found[k + 1]? = some q →
          q.s = float_add p.s p.w) ∧
        total_weight = float_sum (found.map fun nw => nw.w) ∧
        ((∀ nw ∈ found, score_exact (weights.getD nw.node default) (all_nodes.getD nw.node default)) →
          (found.map fun nw =>
            spec_score (weights.getD nw.node default) (all_nodes.getD nw.node default)).sum < 2 ^ 24 →
          (∀ nw ∈ found,
            nw.w = .fin (spec_score (weights.getD nw.node default) (all_nodes.getD nw.node default))) ∧
          (∀ (k : Nat) (p q : node_weight_t), found[k]? = some p → found[k + 1]? = some q →
            ∃ a b, p.s = .fin a ∧ p.w = .fin b ∧ q.s = .fin (a + b)) ∧
          total_weight = .fin (found.map fun nw =>
            spec_score (weights.getD nw.node default) (all_nodes.getD nw.node default)).sum)) ∧
    (in3_find_chain c chain_id = none →
      (in3_node_list_fill_weight host c chain_id base all_nodes weights all_nodes.length now props).map
        (fun f => (f.1, f.2.2)) = some ([], 0)) := by
  constructor
  · intro ci chain hfind hchain hdef
    have hpass : ∀ (i : Nat) nd wt, all_nodes[i]? = some nd → weights[i]? = some wt →
        node_passes host c chain now props nd wt = true → score_divisor wt ≠ 0 := by
      intro i nd wt hnd hwt hp
      have hi : i < all_nodes.length := get_lt_length hnd
      have h1 : all_nodes.getD i default = nd := by simp [List.getD_eq_getElem?_getD, hnd]
      have h2 : weights.getD i default = wt := by simp [List.getD_eq_getElem?_getD, hwt]
      apply score_divisor_ne_zero
      rw [← h2]
      apply hdef i hi
      rw [h1, h2, ← node_passes_spec host c chain now props nd wt hnow]
      exact hp
    obtain ⟨st, hst⟩ := fill_weight_fold_some host c chain base all_nodes weights now props hpass
      all_nodes.length
    obtain ⟨hsum, hs, hw⟩ := fill_weight_fold_sums host c chain base all_nodes weights now props
      all_nodes.length st hst
    have hnodes := fill_weight_fold_nodes host c chain base all_nodes weights now props
      (fun i => decide (i < all_nodes.length) &&
        (spec_filter c chain now (all_nodes.getD i default) (weights.getD i default) &&
          (!host.FILTER_NODES || in3_node_props_match props (all_nodes.getD i default).props)))
      (by
        intro i
        by_cases hi : i < all_nodes.length
        · have hi2 : i < weights.length := by omega
          simp only [List.getElem?_eq_getElem hi, List.getElem?_eq_getElem hi2, List.getD_eq_getElem?_getD,
            Option.getD_some, hi, decide_True, Bool.true_and]
          exact (node_passes_spec host c chain now props _ _ hnow).symm
        · have hi1 : all_nodes[i]? = none := List.getElem?_eq_none (by omega)
          simp [hi, hi1])
      all_nodes.length st hst
    have hcand := (fill_weight_fold_inv host c chain base all_nodes weights now props all_nodes.length
      st hst).1
    have hwf : ∀ nw ∈ st.1,
        nw.w = float_score (weights.getD nw.node default) (all_nodes.getD nw.node default) := by
      intro nw hnw
      obtain ⟨nd, wt, hnd, hwt, hscore⟩ := hw nw hnw
      simp only [List.getD_eq_getElem?_getD, hnd, hwt, Option.getD_some]
      exact node_score_float wt nd nw.w hscore
    have hstep : ∀ (k : Nat) (p q : node_weight_t), st.1[k]? = some p → st.1[k + 1]? = some q →
        q.s = float_add p.s p.w := by
      intro k p q hp hq
      have h1 := hs k p hp
      have h2 := hs (k + 1) q hq
      rw [List.take_succ, hp] at h2
      simp only [float_sum, Option.toList_some, List.map_append, List.map_cons, List.map_nil,
        List.foldl_append, List.foldl_cons, List.foldl_nil] at h2
      rw [h2, h1]
      rfl
    refine ⟨st.1, st.2, ?_, ?_, ?_, ?_, hstep, hsum, ?_⟩
    · unfold in3_node_list_fill_weight
      simp only [hfind, Option.some_bind, hchain, hst, Option.map_some']
    · have h1 : st.1.map (fun nw => nw.node) =
          (st.1.map fun nw => (nw.chain, nw.node, nw.weight)).map fun t => t.2.1 := by
        simp [List.map_map, Function.comp]
      rw [h1, hnodes, List.map_map]
      have hid : ((fun t : Nat × Nat × Option Nat => t.2.1) ∘ fun i => (base, i, some i)) = id := rfl
      rw [hid, List.map_id]
      apply List.filter_congr
      intro i hi
      simp [List.mem_range.1 hi]
    · intro nw hnw
      exact ⟨(hcand nw hnw).2.1, hwf nw hnw⟩
    · intro nw h0
      have := hs 0 nw h0
      simpa [float_sum] using this
    · intro hex hlt
      have hwe : ∀ nw ∈ st.1,
          nw.w = .fin (spec_score (weights.getD nw.node default) (all_nodes.getD nw.node default)) := by
        intro nw hnw
        rw [hwf nw hnw]
        exact float_score_exact _ _ (hex nw hnw)
      have hmap : ∀ l : List node_weight_t, (∀ nw ∈ l, nw ∈ st.1) →
          (l.map fun nw => nw.w) = (l.map fun nw =>
            spec_score (weights.getD nw.node default) (all_nodes.getD nw.node default)).map c_float.fin := by
        intro l hl
        rw [List.map_map]
        apply List.map_congr_left
        intro nw hnw
        exact hwe nw (hl nw hnw)
      have hpre : ∀ (k : Nat) (nw : node_weight_t), st.1[k]? = some nw →
          nw.s = .fin ((st.1.take k).map fun nw =>
            spec_score (weights.getD nw.node default) (all_nodes.getD nw.node default)).sum := by
        intro k nw hk
        rw [hs k nw hk, hmap (st.1.take k) (fun x hx => List.mem_of_mem_take hx)]
        apply float_sum_exact
        have := List.sum_take_add_sum_drop (st.1.map fun nw =>
          spec_score (weights.getD nw.node default) (all_nodes.getD nw.node default)) k
        rw [← List.map_take] at this
        omega
      refine ⟨hwe, ?_, ?_⟩
      · intro k p q hp hq
        refine ⟨_, _, hpre k p hp, hwe p (List.getElem?_mem hp), ?_⟩
        rw [hpre (k + 1) q hq, List.take_succ, hp]
        simp
      · rw [hsum, hmap st.1 (fun x hx => hx)]
        exact float_sum_exact _ hlt
  · intro hfind
    unfold in3_node_list_fill_weight
    simp [hfind]

/-- C30 as stated fails.  In a build with `FILTER_NODES` a node without
property bits passes the three filters of the claim, and the filter pass that
requires property bit 1 returns no candidate.  The scores are single-precision
floats: a node of capacity `2^24 + 1` and weight 1 gets `w = 16777216`, not
`16777217`.  And a passing node whose weight record has three responses in
2 ms makes the score divide by zero, so that no list is returned. -/
theorem C30_counterexample :
    ((in3_node_list_fill_weight draw_host plain_client 1 0 [plain_node] [ex_weight] 1 1000 1).map
        fun f => f.1.map fun nw => nw.node) = some [] ∧
      (List.range 1).filter (fun i => spec_filter plain_client (ex_chain [plain_node] [ex_weight] 0 none)
        1000 ([plain_node].getD i default) ([ex_weight].getD i default)) = [0] ∧
      ((in3_node_list_fill_weight (failing_host 1000) plain_client 1 0
        [{ plain_node with capacity := 2 ^ 24 + 1 }] [ex_weight] 1 1000 0).map
        fun f => f.1.map fun nw => nw.w) = some [16777216] ∧
      spec_score ex_weight { plain_node with capacity := 2 ^ 24 + 1 } = 16777217 ∧
      in3_node_list_fill_weight (failing_host 1000) plain_client 1 0 [plain_node] [quick_weight] 1 1000 0 =
        none := by
  refine ⟨by decide, by decide, by decide, by decide, by decide⟩

theorem scored_chain_defined :
    ∀ i, i < (arr scored_chain.nodelist).length →
      (spec_filter (ex_client scored_chain 3 2 0) scored_chain 1000
          ((arr scored_chain.nodelist).getD i default) ((arr scored_chain.weights).getD i default) &&
        (!(failing_host 1000).FILTER_NODES ||
          in3_node_props_match 0 ((arr scored_chain.nodelist).getD i default).props)) = true →
      score_defined ((arr scored_chain.weights).getD i default) := by
  unfold score_defined
  decide

/-- C30 (amended) on `scored_chain` at time 1000: the candidates are the nodes 0 and 2,
with `w` 1 and 8 (`4 x (500 div (700 div 3))`), `s` 0 and 1, `total_weight` 9. -/
theorem C30_fill_weight_candidates_witness :
    (∃ found total_weight,
      in3_node_list_fill_weight (failing_host 1000) (ex_client scored_chain 3 2 0) 1 0
        (arr scored_chain.nodelist) (arr scored_chain.weights) (arr scored_chain.nodelist).length 1000 0 =
        some (found, total_weight, found.length) ∧
      found.map (fun nw => nw.node) = [0, 2]) ∧
      in3_node_list_fill_weight (failing_host 1000) (ex_client scored_chain 3 2 0) 1 0
        (arr scored_chain.nodelist) (arr scored_chain.weights) (arr scored_chain.nodelist).length 1000 0 =
        some ([{ chain := 0, node := 0, weight := some 0, s := 0, w := 1 },
          { chain := 0, node := 2, weight := some 2, s := 1, w := 8 }], 9, 2) :=
  ⟨match (C30_fill_weight_candidates (failing_host 1000) (ex_client scored_chain 3 2 0) 1 0
      (arr scored_chain.nodelist) (arr scored_chain.weights) 1000 0 (by decide) (by decide)).1 0 scored_chain
      (by decide) (by decide) scored_chain_defined with
    | ⟨found, total_weight, h1, h2, _⟩ => ⟨found, total_weight, h1, h2.trans (by decide)⟩,
   by decide⟩

/-! ## Claims on the response check -/

theorem chain_at_put_eq (w : world_t) (c c' : Nat) (ch : in3_chain_t) :
    chain_at (put_chain w c ch) c' = if c' = c ∧ c < w.c.chains.length then ch else chain_at w c' := by
  unfold chain_at put_chain set_chain
  by_cases h : c' = c
  · subst h
    by_cases hlt : c' < w.c.chains.length
    · simp [List.getD_eq_getElem?_getD, List.getElem?_set, hlt]
    · have h1 : w.c.chains.length ≤ c' := Nat.le_of_not_lt hlt
      have h2 : (w.c.chains.set c' ch)[c']? = none := List.getElem?_eq_none (by simpa using h1)
      simp [List.getD_eq_getElem?_getD, hlt, List.getElem?_eq_none h1, h2]
  · have h2 : c ≠ c' := fun e => h e.symm
    simp [List.getD_eq_getElem?_getD, List.getElem?_set_ne h2, h]

theorem put_chain_length (w : world_t) (c : Nat) (ch : in3_chain_t) :
    (put_chain w c ch).c.chains.length = w.c.chains.length := by
  simp [put_chain, set_chain]



theorem same_weights_refl (w : world_t) : same_weights w w := ⟨rfl, fun _ => rfl⟩

theorem same_weights_trans {a b c : world_t} (h1 : same_weights a b) (h2 : same_weights b c) :
    same_weights a c :=
  ⟨h2.1.trans h1.1, fun x => (h2.2 x).trans (h1.2 x)⟩

theorem put_chain_weights (w : world_t) (c : Nat) (ch : in3_chain_t)
    (h : ch.weights = (chain_at w c).weights) : same_weights w (put_chain w c ch) := by
  refine ⟨put_chain_length w c ch, ?_⟩
  intro c'
  rw [chain_at_put_eq]
  split
  · rename_i hc
    rw [h, hc.1]
  · rfl

theorem check_autoupdate_weights (w : world_t) (ci : Nat) (t : in3_token) :
    same_weights w (check_autoupdate w ci t) := by
  unfold check_autoupdate
  split
  · exact same_weights_refl w
  · apply put_chain_weights
    have h1 : ∀ ch : in3_chain_t, ch.weights = (chain_at w ci).weights →
        (match ch.whitelist with
          | some wl =>
            if t.lastWhiteList > wl.last_block then
              { ch with whitelist := some { wl with needs_update := true } }
            else ch
          | none => ch).weights = (chain_at w ci).weights := by
      intro ch hch
      split
      · split
        · exact hch
        · exact hch
      · exact hch
    apply h1
    split
    · rfl
    · rfl

theorem verify_slots_weights (verifier : Option in3_verifier_t) (ci : Nat) (slots : List Nat) :
    ∀ (vc : vc_state) (w : world_t) (ctx : in3_ctx_t) (required : List in3_ctx_t),
      same_weights w (verify_slots verifier ci slots vc w ctx required).2.1 := by
  induction slots with
  | nil =>
    intro vc w ctx required
    exact same_weights_refl w
  | cons i rest ih =>
    intro vc w ctx required
    unfold verify_slots
    dsimp only
    have hw : ∀ o : Option in3_token, same_weights w
        (match o with
          | some in3 =>
            ((check_autoupdate w ci in3,
              { proof := in3.proof, last_validator_change := in3.lastValidatorChange,
                currentBlock := in3.currentBlock }) : world_t × vc_state)
          | none => (w, { vc with proof := none })).1 := by
      intro o
      cases o with
      | none => exact same_weights_refl w
      | some in3 => exact check_autoupdate_weights w ci in3
    generalize ((arr ctx.responses)[i]?.bind fun r => r.in3) = o
    have hwo := hw o
    generalize (match o with
          | some in3 =>
            ((check_autoupdate w ci in3,
              { proof := in3.proof, last_validator_change := in3.lastValidatorChange,
                currentBlock := in3.currentBlock }) : world_t × vc_state)
          | none => (w, { vc with proof := none })) = wv at hwo
    cases verifier with
    | none => exact same_weights_trans hwo (ih _ _ _ _)
    | some v =>
      dsimp only
      split
      · exact hwo
      · split
        · exact hwo
        · exact same_weights_trans hwo (ih _ _ _ _)

theorem same_weights_shape {w w' : world_t} (h : same_weights w w') : same_shape w w' :=
  ⟨h.1, fun c => by rw [h.2 c]⟩

theorem same_weights_at {w w' : world_t} (h : same_weights w w') (c x : Nat) :
    weight_at w' c x = weight_at w c x := by
  unfold weight_at
  rw [h.2 c]

/-- What `blacklist_node` does on a wrapper that carries a weight pointer into
the weight array of its chain. -/
theorem blacklist_node_on (host : host_t) (w : world_t) (ctx : in3_ctx_t) (n : Nat) (nw : node_weight_t)
    (x : Nat) (hn : ctx.nodes[n]? = some nw) (hx : nw.weight = some x)
    (hc : nw.chain < w.c.chains.length) (hlt : x < (arr (chain_at w nw.chain).weights).length) :
    (blacklist_node host w ctx n).2.nodes = ctx.nodes.set n { nw with weight := none } ∧
    same_shape w (blacklist_node host w ctx n).1 ∧
    (∃ rec, weight_at (blacklist_node host w ctx n).1 nw.chain x = some rec ∧
      rec.blacklisted_until = to_uint64 (host.time w.t + 3600000)) ∧
    (∀ c y, ¬ (c = nw.chain ∧ y = x) →
      weight_at (blacklist_node host w ctx n).1 c y = weight_at w c y) := by
  have hwt : ({ w with t := w.t + 1 } : world_t).c = w.c := rfl
  have hat : ∀ c, chain_at ({ w with t := w.t + 1 } : world_t) c = chain_at w c := fun _ => rfl
  unfold blacklist_node
  simp only [hn, hx]
  cases hws : (chain_at w nw.chain).weights with
  | none =>
    rw [hws] at hlt
    simp [arr] at hlt
  | some p =>
    rw [hws] at hlt
    have hlt2 : x < p.length := by simpa [arr] using hlt
    refine ⟨trivial, ⟨?_, ?_⟩, ?_, ?_⟩
    · rw [put_chain_length]
    · intro c
      rw [chain_at_put_eq, hat, hat]
      split
      · rename_i h
        rw [h.1, hws]
        simp [arr]
      · rfl
    · refine ⟨{ p.getD x default with blacklisted_until := to_uint64 (host.time w.t + 3600000) }, ?_, rfl⟩
      unfold weight_at
      rw [chain_at_put_eq, if_pos ⟨rfl, hc⟩, hat, hws]
      simp [arr, List.getElem?_set, hlt2]
    · intro c y hne
      unfold weight_at
      rw [chain_at_put_eq, hat, hat]
      split
      · rename_i h
        have hy : x ≠ y := fun e => hne ⟨h.1, e.symm⟩
        rw [h.1, hws]
        simp [arr, List.getElem?_set_ne hy]
      · rfl

theorem parse_response_context (host : host_t) (ctx : in3_ctx_t) (data : String) :
    (ctx_parse_response host ctx data).2.response_context = host.parse data := by
  unfold ctx_parse_response
  dsimp only
  cases hp : host.parse data with
  | none => simp [ctx_set_error]
  | some j =>
    cases j with
    | object r =>
      dsimp only
      split <;> simp [ctx_set_error]
    | array rs =>
      dsimp only
      split <;> simp [ctx_set_error]
    | other => simp [ctx_set_error]

/-- The body of the loop of `find_valid_result` by the verdict on the node. -/
theorem check_node_verdict (host : host_t) (verifier : Option in3_verifier_t) (ci : Nat) (n : Nat)
    (w : world_t) (ctx : in3_ctx_t) (required : List in3_ctx_t) :
    (node_verdict host verifier ci n w ctx required = .waiting →
      (check_node host verifier ci n w ctx required).1 = true ∧
      (check_node host verifier ci n w ctx required).2.2.1.nodes = ctx.nodes ∧
      same_weights w (check_node host verifier ci n w ctx required).2.1) ∧
    (node_verdict host verifier ci n w ctx required = .accepted →
      (check_node host verifier ci n w ctx required).1 = false ∧
      (check_node host verifier ci n w ctx required).2.2.1.nodes = ctx.nodes ∧
      same_weights w (check_node host verifier ci n w ctx required).2.1 ∧
      (check_node host verifier ci n w ctx required).2.2.1.response_context =
        host.parse ((arr ctx.raw_response).getD n { error := "", result := "" }).result ∧
      (check_node host verifier ci n w ctx required).2.2.1.response_context.isSome = true) ∧
    (node_verdict host verifier ci n w ctx required = .rejected →
      (check_node host verifier ci n w ctx required).1 = false ∧
      ∃ w1 c1, same_weights w w1 ∧ c1.nodes = ctx.nodes ∧
        (check_node host verifier ci n w ctx required).2.1 = (blacklist_node host w1 c1 n).1 ∧
        (check_node host verifier ci n w ctx required).2.2.1 = (blacklist_node host w1 c1 n).2) := by
  have hp := parse_response_frame host ctx ((arr ctx.raw_response).getD n { error := "", result := "" }).result
  have hpc := parse_response_context host ctx
    ((arr ctx.raw_response).getD n { error := "", result := "" }).result
  have hv := verify_slots_frame verifier ci
    (List.range (ctx_parse_response host ctx
      ((arr ctx.raw_response).getD n { error := "", result := "" }).result).2.len)
    { proof := none, last_validator_change := 0, currentBlock := 0 } w
    (ctx_parse_response host ctx ((arr ctx.raw_response).getD n { error := "", result := "" }).result).2
    required
  have hvw := verify_slots_weights verifier ci
    (List.range (ctx_parse_response host ctx
      ((arr ctx.raw_response).getD n { error := "", result := "" }).result).2.len)
    { proof := none, last_validator_change := 0, currentBlock := 0 } w
    (ctx_parse_response host ctx ((arr ctx.raw_response).getD n { error := "", result := "" }).result).2
    required
  unfold check_node node_verdict
  dsimp only
  generalize (arr ctx.raw_response).getD n { error := "", result := "" } = response at hp hpc hv hvw ⊢
  by_cases h1 : response.error.length ≠ 0 ∨ response.result.length = 0
  · rw [if_pos h1, if_pos h1]
    refine ⟨fun h => (by cases h), fun h => (by cases h), fun _ => ⟨rfl, w, ctx, same_weights_refl w, rfl, rfl, rfl⟩⟩
  · rw [if_neg h1, if_neg h1]
    generalize ctx_parse_response host ctx response.result = p at hp hpc hv hvw ⊢
    by_cases h2 : p.1.isNeg = true
    · rw [if_pos h2, if_pos h2]
      refine ⟨fun h => (by cases h), fun h => (by cases h),
        fun _ => ⟨rfl, w, p.2, same_weights_refl w, hp.2.1, rfl, rfl⟩⟩
    · rw [if_neg h2, if_neg h2]
      generalize verify_slots verifier ci (List.range p.2.len)
        { proof := none, last_validator_change := 0, currentBlock := 0 } w p.2 required = v at hv hvw ⊢
      by_cases h3 : v.1 = IN3_WAITING
      · rw [if_pos h3, if_pos h3]
        refine ⟨fun _ => ⟨rfl, hv.2.2.1.trans hp.2.1, hvw⟩, fun h => (by cases h), fun h => (by cases h)⟩
      · rw [if_neg h3, if_neg h3]
        by_cases h4 : v.1.isNeg = true
        · rw [if_pos h4, if_pos h4]
          refine ⟨fun h => (by cases h), fun h => (by cases h),
            fun _ => ⟨rfl, v.2.1, v.2.2.1, hvw, hv.2.2.1.trans hp.2.1, rfl, rfl⟩⟩
        · rw [if_neg h4, if_neg h4]
          refine ⟨fun h => (by cases h), fun _ => ⟨rfl, hv.2.2.1.trans hp.2.1, hvw, ?_, ?_⟩,
            fun h => (by cases h)⟩
          · rw [hv.2.2.2.1, hpc]
          · rw [hv.2.2.2.1]
            exact hp.2.2.2 (not_neg_ok h2)

theorem same_shape_trans {a b c : world_t} (h1 : same_shape a b) (h2 : same_shape b c) :
    same_shape a c :=
  ⟨h2.1.trans h1.1, fun x => (h2.2 x).trans (h1.2 x)⟩

theorem scan_succ (host : host_t) (verifier : Option in3_verifier_t) (ci : Nat) (k : Nat) (w : world_t)
    (ctx : in3_ctx_t) (required : List in3_ctx_t) :
    scan_nodes host verifier ci (k + 1) w ctx required =
      (check_node host verifier ci k (scan_nodes host verifier ci k w ctx required).1
        (scan_nodes host verifier ci k w ctx required).2.1
        (scan_nodes host verifier ci k w ctx required).2.2).2 := by
  unfold scan_nodes
  rw [List.range_succ, List.foldl_append]
  rfl

/-- One more rejected node: the wrappers below `s + 1` are blacklisted. -/
theorem blacklisted_step (host : host_t) (w ws w1 : world_t) (ctx cs c1 : in3_ctx_t) (s : Nat)
    (hvalid : valid_wrappers w ctx) (hs : s < ctx.nodes.length)
    (hinv : blacklisted_below host w ws ctx cs s) (hw1 : same_weights ws w1)
    (hc1 : c1.nodes = cs.nodes) :
    blacklisted_below host w (blacklist_node host w1 c1 s).1 ctx (blacklist_node host w1 c1 s).2
      (s + 1) := by
  obtain ⟨hshape, hlen, hkeep, hgone, hraised, hsame⟩ := hinv
  have hnw : ctx.nodes[s]? = some (ctx.nodes.get ⟨s, hs⟩) := List.getElem?_eq_getElem hs
  generalize ctx.nodes.get ⟨s, hs⟩ = nw at hnw
  obtain ⟨x, hx, hc, hlt⟩ := hvalid nw (List.getElem?_mem hnw)
  have hshape1 : same_shape w w1 := same_shape_trans hshape (same_weights_shape hw1)
  have hn1 : c1.nodes[s]? = some nw := by rw [hc1, hkeep s (Nat.le_refl s), hnw]
  obtain ⟨b1, b2, ⟨rec, b3, b4⟩, b5⟩ := blacklist_node_on host w1 c1 s nw x hn1 hx
    (by rw [hshape1.1]; exact hc) (by rw [hshape1.2]; exact hlt)
  refine ⟨same_shape_trans hshape1 b2, ?_, ?_, ?_, ?_, ?_⟩
  · rw [b1, List.length_set, hc1, hlen]
  · intro k hk
    have hne : s ≠ k := by omega
    rw [b1, List.getElem?_set_ne hne, hc1]
    exact hkeep k (by omega)
  · intro i nwi hi hnwi
    by_cases his : i = s
    · subst his
      rw [hnw] at hnwi
      cases hnwi
      rw [b1]
      have : i < c1.nodes.length := by rw [hc1, hlen]; exact hs
      simp [List.getElem?_set, this]
    · have hne : s ≠ i := fun e => his e.symm
      rw [b1, List.getElem?_set_ne hne, hc1]
      exact hgone i nwi (by omega) hnwi
  · intro i nwi y hi hnwi hy
    by_cases hsame2 : nwi.chain = nw.chain ∧ y = x
    · rw [hsame2.1, hsame2.2]
      exact ⟨w1.t, rec, b3, b4⟩
    · rw [b5 nwi.chain y hsame2, same_weights_at hw1]
      have his : i ≠ s := by
        intro e
        subst e
        rw [hnw] at hnwi
        cases hnwi
        rw [hx] at hy
        cases hy
        exact hsame2 ⟨rfl, rfl⟩
      exact hraised i nwi y (by omega) hnwi hy
  · intro c y hfree
    have hnot : ¬ (c = nw.chain ∧ y = x) := by
      intro e
      exact hfree s nw (Nat.lt_succ_self s) hnw ⟨e.1.symm, by rw [hx, e.2]⟩
    rw [b5 c y hnot, same_weights_at hw1]
    exact hsame c y (fun i nwi hi hnwi => hfree i nwi (by omega) hnwi)

theorem blacklisted_below_zero (host : host_t) (w : world_t) (ctx : in3_ctx_t) :
    blacklisted_below host w w ctx ctx 0 :=
  ⟨⟨rfl, fun _ => rfl⟩, rfl, fun _ _ => rfl, fun i _ hi => absurd hi (Nat.not_lt_zero i),
    fun i _ _ hi => absurd hi (Nat.not_lt_zero i), fun _ _ _ => rfl⟩

/-- While every node so far was rejected, the loop has blacklisted exactly the
nodes it has looked at. -/
theorem scan_inv (host : host_t) (verifier : Option in3_verifier_t) (ci : Nat) (w : world_t)
    (ctx : in3_ctx_t) (required : List in3_ctx_t) (hvalid : valid_wrappers w ctx) :
    ∀ s, s ≤ ctx.nodes.length →
      (∀ i, i < s → verdict_at host verifier ci w ctx required i = .rejected) →
      blacklisted_below host w (scan_nodes host verifier ci s w ctx required).1 ctx
        (scan_nodes host verifier ci s w ctx required).2.1 s ∧
      (scan_nodes host verifier ci s w ctx required).2.1.raw_response = ctx.raw_response := by
  intro s
  induction s with
  | zero =>
    intro _ _
    exact ⟨blacklisted_below_zero host w ctx, rfl⟩
  | succ s ih =>
    intro hs hrej
    obtain ⟨hinv, hraw⟩ := ih (by omega) (fun i hi => hrej i (by omega))
    have hv := hrej s (Nat.lt_succ_self s)
    unfold verdict_at at hv
    rw [scan_succ]
    have hframe := check_node_frame host verifier ci s (scan_nodes host verifier ci s w ctx required).1
      (scan_nodes host verifier ci s w ctx required).2.1 (scan_nodes host verifier ci s w ctx required).2.2
    obtain ⟨_, w1, c1, hw1, hc1, e1, e2⟩ :=
      (check_node_verdict host verifier ci s (scan_nodes host verifier ci s w ctx required).1
        (scan_nodes host verifier ci s w ctx required).2.1
        (scan_nodes host verifier ci s w ctx required).2.2).2.2 hv
    refine ⟨?_, hframe.2.1.2.2.2.1.trans hraw⟩
    rw [e1, e2]
    exact blacklisted_step host w _ w1 ctx _ c1 s hvalid (by omega) hinv hw1 hc1

/-- The loop of `find_valid_result` from node `s` on, when every node below `s`
was rejected. -/
theorem loop_from (host : host_t) (verifier : Option in3_verifier_t) (ci : Nat) (w : world_t)
    (ctx : in3_ctx_t) (required : List in3_ctx_t) (hvalid : valid_wrappers w ctx) :
    ∀ k s, s + k = ctx.nodes.length →
      (∀ i, i < s → verdict_at host verifier ci w ctx required i = .rejected) →
      ((∀ i, i < ctx.nodes.length → verdict_at host verifier ci w ctx required i = .rejected) →
        find_valid_result_loop host verifier ci (List.range' s k)
          (scan_nodes host verifier ci s w ctx required).1
          (scan_nodes host verifier ci s w ctx required).2.1
          (scan_nodes host verifier ci s w ctx required).2.2 =
          (IN3_EINVAL, scan_nodes host verifier ci ctx.nodes.length w ctx required)) ∧
      (∀ j, s ≤ j → j < ctx.nodes.length →
        (∀ i, i < j → verdict_at host verifier ci w ctx required i = .rejected) →
        verdict_at host verifier ci w ctx required j = .accepted →
        find_valid_result_loop host verifier ci (List.range' s k)
          (scan_nodes host verifier ci s w ctx required).1
          (scan_nodes host verifier ci s w ctx required).2.1
          (scan_nodes host verifier ci s w ctx required).2.2 =
          (IN3_OK, scan_nodes host verifier ci (j + 1) w ctx required)) ∧
      (∀ j, s ≤ j → j < ctx.nodes.length →
        (∀ i, i < j → verdict_at host verifier ci w ctx required i = .rejected) →
        verdict_at host verifier ci w ctx required j = .waiting →
        find_valid_result_loop host verifier ci (List.range' s k)
          (scan_nodes host verifier ci s w ctx required).1
          (scan_nodes host verifier ci s w ctx required).2.1
          (scan_nodes host verifier ci s w ctx required).2.2 =
          (IN3_WAITING, scan_nodes host verifier ci (j + 1) w ctx required)) := by
  intro k
  induction k with
  | zero =>
    intro s hs _
    have hs2 : s = ctx.nodes.length := by omega
    refine ⟨fun _ => ?_, fun j h1 h2 => absurd h2 (by omega), fun j h1 h2 => absurd h2 (by omega)⟩
    rw [← hs2]
    rfl
  | succ k ih =>
    intro s hs hbelow
    have hlt : s < ctx.nodes.length := by omega
    obtain ⟨hinv, _⟩ := scan_inv host verifier ci w ctx required hvalid s (by omega) hbelow
    have hnw : ctx.nodes[s]? = some (ctx.nodes.get ⟨s, hlt⟩) := List.getElem?_eq_getElem hlt
    generalize ctx.nodes.get ⟨s, hlt⟩ = nw at hnw
    obtain ⟨x, hx, _, _⟩ := hvalid nw (List.getElem?_mem hnw)
    have hcur : (scan_nodes host verifier ci s w ctx required).2.1.nodes[s]? = some nw := by
      rw [hinv.2.2.1 s (Nat.le_refl s), hnw]
    have hS := scan_succ host verifier ci s w ctx required
    have cv := check_node_verdict host verifier ci s (scan_nodes host verifier ci s w ctx required).1
      (scan_nodes host verifier ci s w ctx required).2.1 (scan_nodes host verifier ci s w ctx required).2.2
    have hih := ih (s + 1) (by omega)
    have hnext : verdict_at host verifier ci w ctx required s = .rejected →
        find_valid_result_loop host verifier ci (List.range' s (k + 1))
          (scan_nodes host verifier ci s w ctx required).1
          (scan_nodes host verifier ci s w ctx required).2.1
          (scan_nodes host verifier ci s w ctx required).2.2 =
        find_valid_result_loop host verifier ci (List.range' (s + 1) k)
          (scan_nodes host verifier ci (s + 1) w ctx required).1
          (scan_nodes host verifier ci (s + 1) w ctx required).2.1
          (scan_nodes host verifier ci (s + 1) w ctx required).2.2 := by
      intro hrej
      have hbelow2 : ∀ i, i < s + 1 → verdict_at host verifier ci w ctx required i = .rejected := by
        intro i hi
        by_cases his : i = s
        · rw [his]; exact hrej
        · exact hbelow i (by omega)
      obtain ⟨hinv2, _⟩ := scan_inv host verifier ci w ctx required hvalid (s + 1) (by omega) hbelow2
      have hgone := hinv2.2.2.2.1 s nw (Nat.lt_succ_self s) hnw
      have h1 := (cv.2.2 hrej).1
      rw [hS] at hgone ⊢
      rw [List.range'_succ]
      simp only [find_valid_result_loop, h1, Bool.false_eq_true, if_false, hgone, is_blacklisted,
        Option.isNone_none, Option.isSome_some, Option.isNone_some, Bool.not_true, Bool.or_self]
    have hstop_ok : verdict_at host verifier ci w ctx required s = .accepted →
        find_valid_result_loop host verifier ci (List.range' s (k + 1))
          (scan_nodes host verifier ci s w ctx required).1
          (scan_nodes host verifier ci s w ctx required).2.1
          (scan_nodes host verifier ci s w ctx required).2.2 =
        (IN3_OK, scan_nodes host verifier ci (s + 1) w ctx required) := by
      intro hacc
      obtain ⟨h1, h2, _⟩ := cv.2.1 hacc
      have hkeep : (check_node host verifier ci s (scan_nodes host verifier ci s w ctx required).1
          (scan_nodes host verifier ci s w ctx required).2.1
          (scan_nodes host verifier ci s w ctx required).2.2).2.2.1.nodes[s]? = some nw := by
        rw [h2, hcur]
      rw [hS, List.range'_succ]
      simp only [find_valid_result_loop, h1, Bool.false_eq_true, if_false, hkeep, is_blacklisted, hx,
        Option.isNone_some, Bool.not_false, Bool.or_true, if_true]
    have hstop_wait : verdict_at host verifier ci w ctx required s = .waiting →
        find_valid_result_loop host verifier ci (List.range' s (k + 1))
          (scan_nodes host verifier ci s w ctx required).1
          (scan_nodes host verifier ci s w ctx required).2.1
          (scan_nodes host verifier ci s w ctx required).2.2 =
        (IN3_WAITING, scan_nodes host verifier ci (s + 1) w ctx required) := by
      intro hwait
      have h1 := (cv.1 hwait).1
      rw [hS, List.range'_succ]
      simp only [find_valid_result_loop, h1, if_true]
    refine ⟨?_, ?_, ?_⟩
    · intro hall
      have hrej := hall s hlt
      rw [hnext hrej]
      exact (hih (fun i hi => hall i (by omega))).1 hall
    · intro j hj1 hj2 hrejs hacc
      by_cases hjs : j = s
      · subst hjs
        exact hstop_ok hacc
      · have hrej := hrejs s (by omega)
        rw [hnext hrej]
        exact (hih (fun i hi => hrejs i (by omega))).2.1 j (by omega) hj2 hrejs hacc
    · intro j hj1 hj2 hrejs hwait
      by_cases hjs : j = s
      · subst hjs
        exact hstop_wait hwait
      · have hrej := hrejs s (by omega)
        rw [hnext hrej]
        exact (hih (fun i hi => hrejs i (by omega))).2.2 j (by omega) hj2 hrejs hwait

theorem blacklisted_below_same (host : host_t) (w ws w' : world_t) (ctx cs c' : in3_ctx_t) (j : Nat)
    (hinv : blacklisted_below host w ws ctx cs j) (hw : same_weights ws w') (hc : c'.nodes = cs.nodes) :
    blacklisted_below host w w' ctx c' j := by
  obtain ⟨hshape, hlen, hkeep, hgone, hraised, hsame⟩ := hinv
  refine ⟨same_shape_trans hshape (same_weights_shape hw), by rw [hc, hlen], ?_, ?_, ?_, ?_⟩
  · intro k hk
    rw [hc]
    exact hkeep k hk
  · intro i nw hi hnw
    rw [hc]
    exact hgone i nw hi hnw
  · intro i nw x hi hnw hx
    rw [same_weights_at hw]
    exact hraised i nw x hi hnw hx
  · intro c x hfree
    rw [same_weights_at hw]
    exact hsame c x hfree

/-- C29 (amended): for a context whose `m` chosen wrappers all still carry their
weight pointer (into the weight array of their chain), `find_valid_result`
returns `IN3_OK` with the parse of the first node `j` whose response is
accepted (empty error, non-empty result, a parse of the expected shape, no
negative and no waiting code of the verifier for any request slot), every node
below `j` having been rejected: the wrappers below `j` have lost their weight
pointer, their weight records carry `_time() + 3600000`, and the wrappers from
`j` on and all other weight records are untouched.  When every node is rejected
it returns `IN3_EINVAL` with all `m` nodes blacklisted, and when the verifier
returns `IN3_WAITING` on the first node that is not rejected it returns
`IN3_WAITING` and that node is not blacklisted. -/
theorem C29_find_valid_result (host : host_t) (w : world_t) (ctx : in3_ctx_t)
    (required : List in3_ctx_t) (m ci : Nat) (verifier : Option in3_verifier_t)
    (hm : ctx.nodes.length = m) (hvalid : valid_wrappers w ctx) :
    (∀ j, j < m →
      (∀ i, i < j → verdict_at host verifier ci w ctx required i = .rejected) →
      verdict_at host verifier ci w ctx required j = .accepted →
      ∃ w' ctx' required',
        find_valid_result host w ctx required m ci verifier = (IN3_OK, w', ctx', required') ∧
        ctx'.response_context =
          host.parse ((arr ctx.raw_response).getD j { error := "", result := "" }).result ∧
        ctx'.response_context.isSome = true ∧
        blacklisted_below host w w' ctx ctx' j) ∧
    ((∀ i, i < m → verdict_at host verifier ci w ctx required i = .rejected) →
      ∃ w' ctx' required',
        find_valid_result host w ctx required m ci verifier = (IN3_EINVAL, w', ctx', required') ∧
        blacklisted_below host w w' ctx ctx' m) ∧
    (∀ j, j < m →
      (∀ i, i < j → verdict_at host verifier ci w ctx required i = .rejected) →
      verdict_at host verifier ci w ctx required j = .waiting →
      ∃ w' ctx' required',
        find_valid_result host w ctx required m ci verifier = (IN3_WAITING, w', ctx', required') ∧
        blacklisted_below host w w' ctx ctx' j) := by
  subst hm
  have hloop := loop_from host verifier ci w ctx required hvalid ctx.nodes.length 0 (by omega)
    (fun i hi => absurd hi (Nat.not_lt_zero i))
  have hfind : find_valid_result host w ctx required ctx.nodes.length ci verifier =
      find_valid_result_loop host verifier ci (List.range' 0 ctx.nodes.length)
        (scan_nodes host verifier ci 0 w ctx required).1
        (scan_nodes host verifier ci 0 w ctx required).2.1
        (scan_nodes host verifier ci 0 w ctx required).2.2 := by
    unfold find_valid_result
    rw [List.range_eq_range']
    rfl
  refine ⟨?_, ?_, ?_⟩
  · intro j hj hrej hacc
    obtain ⟨hinv, hraw⟩ := scan_inv host verifier ci w ctx required hvalid j (by omega) hrej
    have hv := hacc
    unfold verdict_at at hv
    obtain ⟨_, h2, h3, h4, h5⟩ := (check_node_verdict host verifier ci j _ _ _).2.1 hv
    refine ⟨(scan_nodes host verifier ci (j + 1) w ctx required).1,
      (scan_nodes host verifier ci (j + 1) w ctx required).2.1,
      (scan_nodes host verifier ci (j + 1) w ctx required).2.2, ?_, ?_, ?_, ?_⟩
    · rw [hfind]
      exact hloop.2.1 j (Nat.zero_le j) hj hrej hacc
    · rw [scan_succ, h4, hraw]
    · rw [scan_succ]
      exact h5
    · rw [scan_succ]
      exact blacklisted_below_same host w _ _ ctx _ _ j hinv h3 h2
  · intro hall
    obtain ⟨hinv, _⟩ := scan_inv host verifier ci w ctx required hvalid ctx.nodes.length
      (Nat.le_refl _) hall
    refine ⟨(scan_nodes host verifier ci ctx.nodes.length w ctx required).1,
      (scan_nodes host verifier ci ctx.nodes.length w ctx required).2.1,
      (scan_nodes host verifier ci ctx.nodes.length w ctx required).2.2, ?_, hinv⟩
    rw [hfind]
    exact hloop.1 hall
  · intro j hj hrej hwait
    obtain ⟨hinv, _⟩ := scan_inv host verifier ci w ctx required hvalid j (by omega) hrej
    have hv := hwait
    unfold verdict_at at hv
    obtain ⟨_, h2, h3⟩ := (check_node_verdict host verifier ci j _ _ _).1 hv
    refine ⟨(scan_nodes host verifier ci (j + 1) w ctx required).1,
      (scan_nodes host verifier ci (j + 1) w ctx required).2.1,
      (scan_nodes host verifier ci (j + 1) w ctx required).2.2, ?_, ?_⟩
    · rw [hfind]
      exact hloop.2.2 j (Nat.zero_le j) hj hrej hwait
    · rw [scan_succ]
      exact blacklisted_below_same host w _ _ ctx _ _ j hinv h3 h2

/-- C29 as stated fails on a wrapper that lost its weight pointer in an earlier
round: its response has an empty error and a result that parses and verifies,
and `find_valid_result` passes it over and returns `IN3_EINVAL`. -/
theorem C29_counterexample :
    verdict_at good_host (some ex_verifier) 0 two_node_world stale_ctx [] 0 = .accepted ∧
      (find_valid_result good_host two_node_world stale_ctx [] 1 0 (some ex_verifier)).1 = IN3_EINVAL := by
  decide

/-- C29 (amended) on the two-node chain when the first node answered with an error and
the second with a good result: the second answer is kept and the first node is
blacklisted. -/
theorem C29_find_valid_result_witness :
    ∃ w' ctx' required',
      find_valid_result good_host two_node_world mixed_ctx [] 2 0 (some ex_verifier) =
        (IN3_OK, w', ctx', required') ∧
      ctx'.response_context =
        good_host.parse ((arr mixed_ctx.raw_response).getD 1 { error := "", result := "" }).result ∧
      ctx'.response_context.isSome = true ∧
      blacklisted_below good_host two_node_world w' mixed_ctx ctx' 1 :=
  (C29_find_valid_result good_host two_node_world mixed_ctx [] 2 0 (some ex_verifier) rfl
    (by
      intro nw h
      have h2 : nw = ex_wrapper 0 ∨ nw = ex_wrapper 1 := by simpa [mixed_ctx] using h
      rcases h2 with e | e
      · subst e
        exact ⟨0, rfl, by decide, by decide⟩
      · subst e
        exact ⟨1, rfl, by decide, by decide⟩)).1 1 (by decide)
    (by
      intro i hi
      have h0 : i = 0 := by omega
      subst h0
      decide)
    (by decide)

/-! ## Claims on the sampling ranges, the property words and the score -/

/-- C31 fails on the code: the sampling loop of `in3_node_list_pick_nodes` takes
the first candidate with `s <= r && s + w >= r`, a closed range.  With two
candidates of weight 1 and a draw of 5000 (`r = 2 * 5000 / 10000 = 1`, the
boundary `s_0 + w_0 = s_1`) it selects node 0, whose half-open range `[0, 1)`
does not contain 1, and not node 1, whose range `[1, 2)` does.  With a first
candidate of weight 0 and a draw of 0 it selects that candidate, whose
half-open range is empty. -/
theorem C31_closed_range_selects_boundary :
    ((pick_filter (fixed_draw_host 5000) { one_of_two_world with t := 1 } 0 1000 0).map
        (fun p => p.2.1.map fun nw => (nw.node, nw.s, nw.w)) = some [(0, 0, 1), (1, 1, 1)] ∧
      (pick_filter (fixed_draw_host 5000) { one_of_two_world with t := 1 } 0 1000 0).map
        (fun p => p.2.2.1) = some 2 ∧
      (pick_filter (fixed_draw_host 5000) { one_of_two_world with t := 1 } 0 1000 0).map
        (fun p => p.2.1.map (half_open_hits 2 5000)) = some [false, true] ∧
      (in3_node_list_pick_nodes (fixed_draw_host 5000) no_exec one_of_two_world ex_ctx [] 1 0).map
        (fun r => (r.1.1, r.2.map fun l => l.map fun nw => nw.node)) = some (IN3_OK, some [0])) ∧
    ((pick_filter (fixed_draw_host 0) { slow_first_world with t := 1 } 0 1000 0).map
        (fun p => p.2.1.map fun nw => (nw.node, nw.s, nw.w)) = some [(0, 0, 0), (1, 0, 1)] ∧
      (pick_filter (fixed_draw_host 0) { slow_first_world with t := 1 } 0 1000 0).map
        (fun p => p.2.2.1) = some 1 ∧
      (pick_filter (fixed_draw_host 0) { slow_first_world with t := 1 } 0 1000 0).map
        (fun p => p.2.1.map (half_open_hits 1 0)) = some [false, true] ∧
      (in3_node_list_pick_nodes (fixed_draw_host 0) no_exec slow_first_world ex_ctx [] 1 0).map
        (fun r => (r.1.1, r.2.map fun l => l.map fun nw => nw.node)) = some (IN3_OK, some [0])) := by
  refine ⟨⟨by decide, by decide, by decide, by decide⟩, ⟨by decide, by decide, by decide, by decide⟩⟩

theorem low_bits_subset (a b : Nat) :
    ((a &&& b) &&& 0xFFFFFFFF) = (a &&& 0xFFFFFFFF) ↔
      ∀ i, i < 32 → a.testBit i = true → b.testBit i = true := by
  have hM : (0xFFFFFFFF : Nat) = 2 ^ 32 - 1 := by norm_num
  rw [hM]
  constructor
  · intro h i hi ha
    have := congrArg (fun x => x.testBit i) h
    simp only [Nat.testBit_and, Nat.testBit_two_pow_sub_one] at this
    simpa [hi, ha] using this
  · intro h
    apply Nat.eq_of_testBit_eq
    intro i
    simp only [Nat.testBit_and, Nat.testBit_two_pow_sub_one]
    by_cases hi : i < 32
    · by_cases ha : a.testBit i = true
      · simp [ha, h i hi ha]
      · simp [ha]
    · simp [hi]

theorem props_get_height (np : in3_node_props_t) :
    in3_node_props_get np NODE_PROP_MIN_BLOCK_HEIGHT = height_field np := by
  have hM : (0xFF : Nat) = 2 ^ 8 - 1 := by norm_num
  unfold in3_node_props_get height_field
  rw [if_pos rfl, hM, Nat.and_pow_two_sub_one_eq_mod, Nat.shiftRight_eq_div_pow]

/-- C32: for all property words `required` and `node`,
`in3_node_props_match(required, node)` is true if and only if every bit set in
the low 32 bits of `required` is set in `node` and the minimum-block-height
field (bits 32 to 39) of `node` is at least that of `required`; the relation
is reflexive and every node matches the requirement 0. -/
theorem C32_props_match (required node : in3_node_props_t) :
    (in3_node_props_match required node = true ↔
      (∀ i, i < 32 → required.testBit i = true → node.testBit i = true) ∧
        height_field required ≤ height_field node) ∧
    in3_node_props_match node node = true ∧
    in3_node_props_match 0 node = true := by
  have key : ∀ a b : in3_node_props_t, in3_node_props_match a b = true ↔
      (∀ i, i < 32 → a.testBit i = true → b.testBit i = true) ∧ height_field a ≤ height_field b := by
    intro a b
    unfold in3_node_props_match
    rw [props_get_height, props_get_height, ← low_bits_subset]
    by_cases h : ((a &&& b) &&& 0xFFFFFFFF) = (a &&& 0xFFFFFFFF)
    · simp [h]
    · simp [h]
  refine ⟨key required node, (key node node).2 ⟨fun _ _ h => h, Nat.le_refl _⟩, (key 0 node).2 ⟨?_, ?_⟩⟩
  · intro i _ h
    simp at h
  · simp [height_field]

/-- The height written by `in3_node_props_set` is the one that
`in3_node_props_get` reads: both use bits 32 to 39. -/
theorem props_set_height (np : in3_node_props_t) (value : Nat) :
    in3_node_props_get (in3_node_props_set np NODE_PROP_MIN_BLOCK_HEIGHT value)
      NODE_PROP_MIN_BLOCK_HEIGHT = value % 256 := by
  have hM : (0xFFFFFFFF : Nat) = 2 ^ 32 - 1 := by norm_num
  have hF : (0xFF : Nat) = 2 ^ 8 - 1 := by norm_num
  rw [props_get_height]
  unfold in3_node_props_set height_field
  rw [if_pos rfl]
  simp only []
  rw [hM, hF, Nat.and_pow_two_sub_one_eq_mod, Nat.and_pow_two_sub_one_eq_mod, Nat.shiftLeft_eq]
  have hlow : np % 2 ^ 32 < 2 ^ 32 := Nat.mod_lt _ (by norm_num)
  have hv : value % 256 % 2 ^ 8 = value % 256 := by
    have : (2 : Nat) ^ 8 = 256 := by norm_num
    rw [this, Nat.mod_mod]
  rw [hv, Nat.lor_comm, Nat.mul_comm, ← Nat.mul_add_lt_is_or hlow]
  have h1 : (2 ^ 32 * (value % 256) + np % 2 ^ 32) / 2 ^ 32 = value % 256 := by
    rw [Nat.mul_add_div (by norm_num), Nat.div_eq_of_lt hlow, Nat.add_zero]
  rw [h1, Nat.mod_mod]

/-! ## Claims on the autoupdate flags and the request urls -/

theorem autoupdate_chain (ch : in3_chain_t) (t : in3_token) :
    (match (if t.lastNodeList > ch.last_block then { ch with needs_update := true } else ch).whitelist with
      | some wl =>
        if t.lastWhiteList > wl.last_block then
          { (if t.lastNodeList > ch.last_block then { ch with needs_update := true } else ch) with
            whitelist := some { wl with needs_update := true } }
        else (if t.lastNodeList > ch.last_block then { ch with needs_update := true } else ch)
      | none => (if t.lastNodeList > ch.last_block then { ch with needs_update := true } else ch)) =
      autoupdate_flags ch t := by
  unfold autoupdate_flags
  obtain ⟨chain_id, type, last_block, needs_update, nodelist_length, nodelist, weights, init_addresses,
    contract, registry_id, version, whitelist⟩ := ch
  by_cases h1 : t.lastNodeList > last_block
  · cases whitelist with
    | none => simp [h1]
    | some wl =>
      obtain ⟨a, b, c, d⟩ := wl
      by_cases h2 : t.lastWhiteList > c
      · simp [h1, h2]
      · simp [h1, h2]
  · cases whitelist with
    | none => simp [h1]
    | some wl =>
      obtain ⟨a, b, c, d⟩ := wl
      by_cases h2 : t.lastWhiteList > c
      · simp [h1, h2]
      · simp [h1, h2]

/-- C33: `check_autoupdate` on the chain `chains[ci]` and the `in3` section of
a response.  With `auto_update_list` enabled the chain record afterwards is
the old one with `needs_update` set to (old value OR `lastNodeList >
last_block`) and, when there is a whitelist, `whitelist.needs_update` set to
(old value OR `lastWhiteList > whitelist.last_block`); no flag is reset, no
other field, no other chain and nothing else of the client changes.  With
`auto_update_list` disabled nothing changes. -/
theorem C33_check_autoupdate (w : world_t) (ci : Nat) (response_in3 : in3_token)
    (hci : ci < w.c.chains.length) :
    (w.c.auto_update_list = true →
      check_autoupdate w ci response_in3 = put_chain w ci (autoupdate_flags (chain_at w ci) response_in3) ∧
      chain_at (check_autoupdate w ci response_in3) ci = autoupdate_flags (chain_at w ci) response_in3 ∧
      (∀ c, c ≠ ci → chain_at (check_autoupdate w ci response_in3) c = chain_at w c) ∧
      ((chain_at w ci).needs_update = true →
        (chain_at (check_autoupdate w ci response_in3) ci).needs_update = true) ∧
      (∀ wl, (chain_at w ci).whitelist = some wl → wl.needs_update = true →
        ∃ wl', (chain_at (check_autoupdate w ci response_in3) ci).whitelist = some wl' ∧
          wl'.needs_update = true)) ∧
    (w.c.auto_update_list = false → check_autoupdate w ci response_in3 = w) := by
  constructor
  · intro hauto
    have heq : check_autoupdate w ci response_in3 =
        put_chain w ci (autoupdate_flags (chain_at w ci) response_in3) := by
      unfold check_autoupdate
      rw [if_neg (by simp [hauto])]
      simp only []
      rw [autoupdate_chain]
    have hat : chain_at (check_autoupdate w ci response_in3) ci =
        autoupdate_flags (chain_at w ci) response_in3 := by
      rw [heq, chain_at_put w ci _ hci]
    refine ⟨heq, hat, ?_, ?_, ?_⟩
    · intro c hc
      rw [heq, chain_at_put_eq, if_neg (fun h => hc h.1)]
    · intro hold
      rw [hat]
      simp [autoupdate_flags, hold]
    · intro wl hwl hold
      rw [hat]
      refine ⟨{ wl with needs_update := wl.needs_update || decide (response_in3.lastWhiteList > wl.last_block) },
        ?_, ?_⟩
      · simp [autoupdate_flags, hwl]
      · simp [hold]
  · intro hauto
    unfold check_autoupdate
    rw [if_pos (by simp [hauto])]

/-- C33 on the two-node chain at block 0 and an `in3` section that reports
nodelist block 9: `needs_update` becomes true. -/
theorem C33_check_autoupdate_witness :
    (chain_at (check_autoupdate two_node_world 0 newer_in3) 0).needs_update = true ∧
      chain_at (check_autoupdate two_node_world 0 newer_in3) 0 =
        autoupdate_flags (chain_at two_node_world 0) newer_in3 :=
  ⟨by decide, ((C33_check_autoupdate two_node_world 0 newer_in3 (by decide)).1 (by decide)).2.1⟩

theorem https_chars : "https://".toList = ['h', 't', 't', 'p', 's', ':', '/', '/'] := by decide

theorem http_chars : "http://".toList = ['h', 't', 't', 'p', ':', '/', '/'] := by decide

/-- C34: `convert_to_http_url` turns a url that starts with `https://` into
`http://` followed by the rest, one character shorter, and returns every other
url as it is; the urls of the request that `in3_create_request` builds are, in
the order of the chosen nodes, the converted urls when `use_http` is set and
the urls of the nodes when it is not. -/
theorem C34_http_urls :
    (∀ rest : List Char,
      convert_to_http_url (String.mk ("https://".toList ++ rest)) = String.mk ("http://".toList ++ rest) ∧
      (convert_to_http_url (String.mk ("https://".toList ++ rest))).length + 1 =
        (String.mk ("https://".toList ++ rest)).length) ∧
    (∀ u : String, (¬ ∃ rest, u.toList = "https://".toList ++ rest) → convert_to_http_url u = u) ∧
    (∀ (w : world_t) (ctx ctx' : in3_ctx_t) (request : in3_request_t),
      in3_create_request w ctx = (some request, ctx') →
      request.urls_len = ctx.nodes.length ∧
      request.urls = ctx.nodes.map fun node =>
        if w.c.use_http then convert_to_http_url (node_of w node).url else (node_of w node).url) := by
  have h1 : ∀ rest : List Char,
      convert_to_http_url (String.mk ("https://".toList ++ rest)) =
        String.mk ("http://".toList ++ rest) := by
    intro rest
    unfold convert_to_http_url
    rw [https_chars, http_chars]
    simp
  refine ⟨fun rest => ⟨h1 rest, ?_⟩, ?_, ?_⟩
  · rw [h1, https_chars, http_chars]
    simp [String.length]
  · intro u hu
    unfold convert_to_http_url
    rw [if_neg]
    intro h
    apply hu
    refine ⟨u.toList.drop 8, ?_⟩
    rw [← h, List.take_append_drop]
  · intro w ctx ctx' request h
    unfold in3_create_request at h
    simp only [] at h
    split at h
    · cases h
    · have h2 := (Prod.mk.inj h).1
      have h3 := Option.some.inj h2
      rw [← h3]
      exact ⟨rfl, rfl⟩

/-- C34 on the url of the first boot node and on the request for the two nodes
of a client with `use_http`. -/
theorem C34_http_urls_witness :
    convert_to_http_url (String.mk ("https://".toList ++ "in3.slock.it/mainnet/nd-1".toList)) =
        String.mk ("http://".toList ++ "in3.slock.it/mainnet/nd-1".toList) ∧
      (in3_create_request http_world chosen_ctx).1.map (fun r => r.urls) =
        some [convert_to_http_url "http://a", convert_to_http_url "http://b"] :=
  ⟨(C34_http_urls.1 "in3.slock.it/mainnet/nd-1".toList).1, by decide⟩

/-- C35 fails on the code: when the response of the first node does not parse
and the response of the second node verifies, `in3_ctx_execute` returns
`IN3_OK` with a parsed response and `verification_state = IN3_OK`, and the
error that `ctx_parse_response` set for the first node is still in the error
slot.  `in3_ctx_state` of that context is `CTX_ERROR`, and a further
`in3_ctx_execute` returns `IN3_EUNKNOWN`. -/
theorem C35_ok_with_stale_error :
    (in3_ctx_execute picky_host 2 two_node_world garbled_ctx []).map
        (fun r => (r.1, r.2.2.1.error, r.2.2.1.response_context.isSome, r.2.2.1.verification_state,
          in3_ctx_state (r.2.2.1 :: r.2.2.2))) =
      some (IN3_OK, some "Error parsing the JSON-response!", true, IN3_OK, .CTX_ERROR) ∧
    ((in3_ctx_execute picky_host 2 two_node_world garbled_ctx []).bind fun r =>
        (in3_ctx_execute picky_host 2 r.2.1 r.2.2.1 r.2.2.2).map fun r2 => r2.1) =
      some IN3_EUNKNOWN := by
  decide

/-! ## Claims on the score divisor and the failed refresh -/

/-- C36 fails on the code: the divisor of the score is
`total_response_time / response_count` whenever `response_count` is not zero,
and that quotient is zero exactly when `total_response_time <
response_count`.  For three responses in 2 ms the C code computes `500 / 0`:
the division traps and the score has no value. -/
theorem C36_score_divisor_can_be_zero :
    (∀ (weightDef : in3_node_weight_t) (nodeDef : in3_node_t),
      node_score weightDef nodeDef =
        if score_divisor weightDef = 0 then none
        else some (float_mul (float_mul (float_of_nat weightDef.weight) (float_of_nat nodeDef.capacity))
          (float_of_nat (500 / score_divisor weightDef)))) ∧
    (∀ weightDef : in3_node_weight_t,
      score_divisor weightDef = 0 ↔
        weightDef.response_count ≠ 0 ∧ weightDef.total_response_time < weightDef.response_count) ∧
    quick_weight.response_count ≠ 0 ∧ score_divisor quick_weight = 0 ∧
    (∀ nodeDef : in3_node_t, node_score quick_weight nodeDef = none) := by
  refine ⟨fun _ _ => rfl, ?_, by decide, by decide, fun _ => rfl⟩
  intro weightDef
  unfold score_divisor
  by_cases h : weightDef.response_count = 0
  · simp [h]
  · have hpos : 0 < weightDef.response_count := Nat.pos_of_ne_zero h
    simp only [ne_eq, h, not_false_eq_true, if_true, true_and]
    exact Nat.div_eq_zero_iff hpos

/-- C37 fails on the code: `fill_chain` writes `chain->last_block` before it
reads the node entries.  When a result newer than the chain holds an entry
without address or url, the call returns `IN3_EINVALDT` and the chain is the
old one with `last_block` advanced to the block of the failed result, so that
every result of that same block offered afterwards is ignored as stale. -/
theorem C37_failed_refresh_advances_last_block (chain : in3_chain_t) (ctx : in3_ctx_t)
    (result : result_token) (_now : Int) (nodes : List node_token) (last_block : Nat)
    (hnodes : result.nodes = some nodes) (hlb : result.lastBlockNumber = some last_block)
    (hnew : last_block > chain.last_block)
    (hbad : ∃ tok ∈ nodes, tok.address = none ∨ tok.url = none) :
    (fill_chain chain ctx result _now).1 = IN3_EINVALDT ∧
    (fill_chain chain ctx result _now).2.1 = { chain with last_block := last_block } ∧
    (fill_chain chain ctx result _now).2.1.last_block ≠ chain.last_block ∧
    (∀ (ctx2 : in3_ctx_t) (result2 : result_token) (now2 : Int) (nodes2 : List node_token),
      result2.nodes = some nodes2 → result2.lastBlockNumber = some last_block →
      fill_chain (fill_chain chain ctx result _now).2.1 ctx2 result2 now2 =
        (IN3_OK, (fill_chain chain ctx result _now).2.1, ctx2)) := by
  have hacc := fill_chain_accept chain ctx result _now nodes last_block hnodes hlb hnew
  simp only [] at hacc
  rw [fill_chain_loop_bad _ _ _ _ hbad] at hacc
  rw [if_neg (by decide)] at hacc
  rw [hacc]
  refine ⟨rfl, rfl, ?_, ?_⟩
  · show last_block ≠ chain.last_block
    omega
  · intro ctx2 result2 now2 nodes2 hn2 hl2
    unfold fill_chain
    simp only [hn2, hl2, if_neg (Nat.lt_irrefl last_block)]

/-- C37 on a chain at block 5: a result of block 9 whose entry has no address
fails and leaves the chain at block 9; the complete result of block 9 offered
next is ignored and the old nodelist stays. -/
theorem C37_failed_refresh_advances_last_block_witness :
    (fill_chain C9_chain ex_ctx C9_result_new 1001).1 = IN3_EINVALDT ∧
      (fill_chain C9_chain ex_ctx C9_result_new 1001).2.1.last_block = 9 ∧
      fill_chain (fill_chain C9_chain ex_ctx C9_result_new 1001).2.1 ex_ctx valid_result_9 1002 =
        (IN3_OK, { C9_chain with last_block := 9 }, ex_ctx) ∧
      (fill_chain C9_chain ex_ctx valid_result_9 1002).2.1.nodelist ≠ C9_chain.nodelist :=
  ⟨(C37_failed_refresh_advances_last_block C9_chain ex_ctx C9_result_new 1001 _ 9 rfl rfl (by decide)
      ⟨_, List.mem_singleton.2 rfl, Or.inl rfl⟩).1, by decide, by decide, by decide⟩

/-! ## Claims on the chain of required contexts -/

/-- C38 fails on the code: `ctx_find_required` returns the position of the
first context of the chain whose first request has the method (absent when
there is none) as long as every context it passes has parsed requests; at a
context without parsed requests the loop takes `continue` without moving on and
never returns. -/
theorem C38_find_required_hangs :
    (∀ (required : List in3_ctx_t) (method : String),
      (∀ c ∈ required, c.requests.isSome = true) →
      ctx_find_required required method = some (required.findIdx? fun c => has_method c method)) ∧
    (∀ (pre post : List in3_ctx_t) (c : in3_ctx_t) (method : String),
      (∀ x ∈ pre, x.requests.isSome = true ∧ has_method x method = false) → c.requests = none →
      ctx_find_required (pre ++ c :: post) method = none) ∧
    ctx_find_required [unparsed_ctx] "in3_nodeList" = none ∧
    ctx_find_required [ex_ctx, unparsed_ctx, ex_ctx] "in3_nodeList" = none := by
  refine ⟨?_, ?_, by decide, by decide⟩
  · intro required method
    induction required with
    | nil => intro _; rfl
    | cons a rest ih =>
      intro hall
      have ha := hall a (List.mem_cons_self a rest)
      have hrest := ih (fun c hc => hall c (List.mem_cons_of_mem a hc))
      unfold ctx_find_required
      cases hreq : a.requests with
      | none => rw [hreq] at ha; cases ha
      | some requests =>
        simp only []
        rw [List.findIdx?_cons]
        have hm : has_method a method = decide ((requests.head?.bind fun r => r.method) = some method) := by
          unfold has_method
          rw [hreq]
          rfl
        by_cases h : (requests.head?.bind fun r => r.method) = some method
        · rw [if_pos h, hm]
          simp only [h, decide_True, if_true]
        · rw [if_neg h, hm, hrest]
          simp only [h, decide_False, Bool.false_eq_true, if_false, Option.map_some']
          rw [List.findIdx?_succ]
  · intro pre post c method
    induction pre with
    | nil =>
      intro _ hc
      simp [ctx_find_required, hc]
    | cons a rest ih =>
      intro hall hc
      obtain ⟨ha1, ha2⟩ := hall a (List.mem_cons_self a rest)
      have hrest := ih (fun x hx => hall x (List.mem_cons_of_mem a hx)) hc
      cases hreq : a.requests with
      | none => rw [hreq] at ha1; cases ha1
      | some requests =>
        have hm : ¬ (requests.head?.bind fun r => r.method) = some method := by
          unfold has_method at ha2
          rw [hreq] at ha2
          simpa [arr] using ha2
        show ctx_find_required (a :: (rest ++ c :: post)) method = none
        unfold ctx_find_required
        simp only [hreq, if_neg hm, hrest, Option.map_none']

/-- C39 (amended): `ctx_remove_required(parent, ctx)` removes the given context
together with every context behind it.  When `ctx` is the context at position
`k` of the chain it returns `IN3_OK` and the chain afterwards consists of the
`k` contexts in front of it, in their order; when `ctx` does not occur it
returns `IN3_EFIND` and the chain is unchanged.  `ctx_add_required` puts the
new context at the head, in front of the chain as its execution left it, and
removing that context leaves the chain empty. -/
theorem C39_remove_required_drops_tail (required : List in3_ctx_t) (k : Nat) :
    (k < required.length →
      ctx_remove_required required k = (IN3_OK, required.take k) ∧
      (ctx_remove_required required k).2.length = k ∧
      (∀ j, j < k → (ctx_remove_required required k).2[j]? = required[j]?)) ∧
    (required.length ≤ k → ctx_remove_required required k = (IN3_EFIND, required)) ∧
    (∀ (exec : world_t → in3_ctx_t → List in3_ctx_t → step_t) (w w' : world_t)
      (parent parent' ctx : in3_ctx_t) (ret : in3_ret_t) (required' : List in3_ctx_t),
      ctx_add_required exec w parent required ctx = some (ret, w', parent', required') →
      parent' = parent ∧
      (∃ ctx' rest, exec w ctx required = some (ret, w', ctx', rest) ∧ required' = ctx' :: rest) ∧
      ctx_remove_required required' 0 = (IN3_OK, [])) := by
  refine ⟨?_, ?_, ?_⟩
  · intro hk
    have h : ctx_remove_required required k = (IN3_OK, required.take k) := by
      unfold ctx_remove_required
      rw [if_pos hk]
    rw [h]
    refine ⟨rfl, ?_, ?_⟩
    · simp [List.length_take]
      omega
    · intro j hj
      simp [List.getElem?_take, hj]
  · intro hk
    unfold ctx_remove_required
    rw [if_neg (by omega)]
  · intro exec w w' parent parent' ctx ret required' h
    unfold ctx_add_required at h
    cases hx : exec w ctx required with
    | none => rw [hx] at h; cases h
    | some x =>
      obtain ⟨ret1, w1, ctx1, rest1⟩ := x
      rw [hx] at h
      simp only [Option.some.injEq, Prod.mk.injEq] at h
      obtain ⟨h1, h2, h3, h4⟩ := h
      subst h1 h2 h3 h4
      refine ⟨rfl, ⟨_, _, rfl, rfl⟩, ?_⟩
      simp [ctx_remove_required]

/-- C39 as stated fails: removing the second of three required contexts leaves
only the first, not the first and the third; and a context added to a chain of
one and removed again leaves the chain empty, not the chain of one. -/
theorem C39_counterexample :
    ctx_remove_required [ctx_a, ctx_b, ctx_c] 1 = (IN3_OK, [ctx_a]) ∧
      [ctx_a] ≠ [ctx_a, ctx_c] ∧
      (ctx_add_required waiting_exec two_node_world ex_ctx [ctx_a] ctx_b).map (fun r => r.2.2.2) =
        some [ctx_b, ctx_a] ∧
      ctx_remove_required [ctx_b, ctx_a] 0 = (IN3_OK, []) := by
  decide

/-- C39 (amended) on a chain of three: removing the context at position 1
leaves the one in front of it. -/
theorem C39_remove_required_drops_tail_witness :
    ctx_remove_required [ctx_a, ctx_b, ctx_c] 1 = (IN3_OK, [ctx_a, ctx_b, ctx_c].take 1) :=
  ((C39_remove_required_drops_tail [ctx_a, ctx_b, ctx_c] 1).1 (by decide)).1

/-! ## Claim on the rpc shortcut after initialisation -/

/-- C40 fails on the code: a client initialised for one of the chains mainnet,
kovan, goerli or ipfs holds that chain only, so the lookup
`in3_find_chain(c, ETH_CHAIN_ID_LOCAL)` of the `rpc` branch of `in3_configure`
returns `NULL` and the branch reads `NULL->nodelist` (no result).  For the ids
0 and `0xFFFF` the local chain and its first node are found. -/
theorem C40_rpc_without_local_chain :
    (∀ id ∈ [ETH_CHAIN_ID_MAINNET, ETH_CHAIN_ID_KOVAN, ETH_CHAIN_ID_GOERLI, ETH_CHAIN_ID_IPFS],
      (in3_client_init id).1 = IN3_OK ∧
      in3_find_chain
        { (in3_client_init id).2 with proof := .PROOF_NONE, chain_id := ETH_CHAIN_ID_LOCAL, request_count := 1 }
        ETH_CHAIN_ID_LOCAL = none ∧
      in3_configure ex_image (in3_client_init id).2 (some [.rpc "http://localhost:8545"]) = none) ∧
    (∀ id ∈ [0, ETH_CHAIN_ID_LOCAL],
      (in3_client_init id).1 = IN3_OK ∧
      (in3_configure ex_image (in3_client_init id).2 (some [.rpc "http://localhost:8545"])).map (fun r => r.1) =
        some IN3_OK) := by
  decide

end In3
